import Mathlib

/-!
# pandas `objToJSON.c` : a shallow embedding

The encoder core of `pandas/_libs/src/ujson/python/objToJSON.c` is translated
function by function.  Conventions of the embedding:

* C `int` / `npy_intp` / pointer offsets are `Int`; flags are `Bool`.
* A `NpyArrContext *` or `PdBlockContext *` is an index into a heap list kept in
  the encoder state; `none` is the NULL pointer.
* `PyErr_Occurred()` is the field `pyErr`; `encoder->errorMsg` is `errorMsg`.
* Reference counts are not modelled.
* Results of calls into CPython / NumPy / pandas that the C code only consumes
  (attribute look-ups, `get_values`, element extraction) are data carried by the
  object being encoded.
-/

namespace ObjToJSON

/-! ## Scalars, enumerations, NumPy type numbers -/

/-- IEEE-754 double, as far as `npy_isnan` and `npy_isinf` can tell values apart. -/
inductive Double where
  | nan
  | posInf
  | negInf
  | finite (mant : Int) (exp : Int)
deriving DecidableEq, Repr

/-- The macro `npy_isnan`. -/
def npy_isnan : Double → Bool
  | .nan => true
  | _ => false

/-- The macro `npy_isinf`. -/
def npy_isinf : Double → Bool
  | .posInf => true
  | .negInf => true
  | _ => false

/-- The enum `JSTYPES` of `ultrajson.h`. -/
inductive JSTYPES where
  | JT_NULL
  | JT_TRUE
  | JT_FALSE
  | JT_INT
  | JT_LONG
  | JT_DOUBLE
  | JT_UTF8
  | JT_ARRAY
  | JT_OBJECT
  | JT_INVALID
deriving DecidableEq, Repr

/-- The date units of `NPY_DATETIMEUNIT` the encoder distinguishes; `NPY_FR_other`
stands for every other enumerator. -/
inductive NPY_DATETIMEUNIT where
  | NPY_FR_s
  | NPY_FR_ms
  | NPY_FR_us
  | NPY_FR_ns
  | NPY_FR_other
deriving DecidableEq, Repr

/-- The enum `PANDAS_FORMAT`. -/
inductive PANDAS_FORMAT where
  | SPLIT
  | RECORDS
  | INDEX
  | COLUMNS
  | VALUES
deriving DecidableEq, Repr

/-- Python exception classes raised or tested by the encoder. -/
inductive PyExc where
  | OverflowError
  | ValueError
  | TypeError
  | MemoryError
  | RuntimeError
  | Other
deriving DecidableEq, Repr

/-- The constant `NPY_MIN_INT64`. -/
def NPY_MIN_INT64 : Int := -9223372036854775808

/-- The constant `NPY_MAX_INT64`. -/
def NPY_MAX_INT64 : Int := 9223372036854775807

/-- Source line 60: `npy_int64 get_nat(void) { return NPY_MIN_INT64; }`. -/
def get_nat : Int := NPY_MIN_INT64

/-- NumPy type number `NPY_BOOL`. -/
def NPY_BOOL : Int := 0

/-- NumPy type number `NPY_BYTE`. -/
def NPY_BYTE : Int := 1

/-- NumPy type number `NPY_ULONGLONG`. -/
def NPY_ULONGLONG : Int := 10

/-- NumPy type number `NPY_FLOAT`. -/
def NPY_FLOAT : Int := 11

/-- NumPy type number `NPY_DOUBLE`. -/
def NPY_DOUBLE : Int := 12

/-- NumPy type number `NPY_LONGDOUBLE`. -/
def NPY_LONGDOUBLE : Int := 13

/-- NumPy type number `NPY_OBJECT`. -/
def NPY_OBJECT : Int := 17

/-- NumPy type number `NPY_DATETIME`. -/
def NPY_DATETIME : Int := 21

/-- NumPy type number `NPY_TIMEDELTA`. -/
def NPY_TIMEDELTA : Int := 22

/-- NumPy type number `NPY_HALF`. -/
def NPY_HALF : Int := 23

/-- NumPy type number `NPY_INT64` (an alias of `NPY_LONG` on LP64). -/
def NPY_INT64 : Int := 7

/-- The macro `PyTypeNum_ISFLOAT`. -/
def PyTypeNum_ISFLOAT (t : Int) : Bool :=
  (decide (NPY_FLOAT ≤ t) && decide (t ≤ NPY_LONGDOUBLE)) || decide (t = NPY_HALF)

/-- The macro `PyTypeNum_ISDATETIME`. -/
def PyTypeNum_ISDATETIME (t : Int) : Bool :=
  decide (NPY_DATETIME ≤ t) && decide (t ≤ NPY_TIMEDELTA)

/-- The macro `PyTypeNum_ISINTEGER`. -/
def PyTypeNum_ISINTEGER (t : Int) : Bool :=
  decide (NPY_BYTE ≤ t) && decide (t ≤ NPY_ULONGLONG)

/-- The macro `PyTypeNum_ISBOOL`. -/
def PyTypeNum_ISBOOL (t : Int) : Bool :=
  decide (t = NPY_BOOL)

/-- Two's-complement conversion of an integer to `npy_int64` (a C cast). -/
def wrapInt64 (v : Int) : Int :=
  (v + 9223372036854775808) % 18446744073709551616 - 9223372036854775808

/-- C division of `npy_int64` values: truncation toward zero. -/
def cdiv (a b : Int) : Int := Int.tdiv a b

/-! ## Python objects -/

/-- A NumPy array object: what `PyArray_DATA`, `PyArray_DIM`, `PyArray_STRIDE`,
`PyArray_TYPE` and the descriptor's `getitem` report.  `getitem p` is the
object extracted from the element stored at address `p` (`none` when the
extraction fails with an exception). -/
structure PyArrayObject (α : Type) where
  ob_id : Nat
  data : Int
  dims : List Int
  strides : List Int
  type_num : Int
  getitem : Int → Option α

/-- One storage block of a table: the result of `get_values(block)` and the
contents of `block.mgr_locs.as_array`. -/
structure PdBlock (α : Type) where
  values : Option (PyArrayObject α)
  mgr_locs : Option (List Int)

/-- What the encoder reads from a `datetime.date` / `datetime.datetime` object or
from a NumPy datetime scalar: whether the conversion to `npy_datetimestruct`
succeeds, the value of `npy_datetimestruct_to_datetime` per unit and the text
of `make_iso_8601_datetime` per unit (`none` when it fails). -/
structure PyDateTimeInfo where
  convertible : Bool
  epoch : NPY_DATETIMEUNIT → Int
  iso8601 : NPY_DATETIMEUNIT → Option String

/-- The nodes the encoder is handed.  Each constructor is one concrete Python
class; the payload is what the C code reads from such an object. -/
inductive PyObj where
  | none
  | bool (b : Bool)
  | long (v : Int)
  | float (v : Double)
  | bytes (s : String)
  | unicode (s : String)
  | decimal (asDouble : Double)
  | nat
  | datetime (info : PyDateTimeInfo)
  | time (isoformat : Option String)
  | npDatetime (obval : Int) (info : PyDateTimeInfo)
  | timedelta (value : Option Int) (totalSecondsNs : Int)
  | npInteger (type_num : Int) (v : Int)
  | npBool (b : Bool)
  | npFloat (v : Double)
  | ndarray (a : PyArrayObject PyObj)
  | index (name : Option PyObj) (len : Int) (values : Option (PyArrayObject PyObj))
  | series (name : Option PyObj) (index : Option PyObj)
      (values : Option (PyArrayObject PyObj))
  | dataframe (columns : Option PyObj) (index : Option PyObj)
      (is_mixed_type : Option Bool) (values : Option (PyArrayObject PyObj))
      (blocks : Option (List (PdBlock PyObj)))
  | dict (items : List (PyObj × PyObj))
  | list (items : List PyObj)
  | tuple (items : List PyObj)
  | set (items : List PyObj)
  | inst (isIter : Bool) (callable : Bool) (dir : List String)
      (getattr : String → Option PyObj) (toDict : Option (Option PyObj))

instance : Inhabited PyObj := ⟨PyObj.none⟩

/-- The macro `PyArray_NDIM`. -/
def PyArray_NDIM (a : PyArrayObject PyObj) : Int := a.dims.length

/-- The macro `PyArray_DIM`. -/
def PyArray_DIM (a : PyArrayObject PyObj) (i : Int) : Int := a.dims.getD i.toNat 0

/-- The macro `PyArray_STRIDE`. -/
def PyArray_STRIDE (a : PyArrayObject PyObj) (i : Int) : Int := a.strides.getD i.toNat 0

/-- The macro `PyArray_SIZE`: the product of the dimensions. -/
def PyArray_SIZE (a : PyArrayObject PyObj) : Int := a.dims.foldl (fun x y => x * y) 1

/-- NumPy's `PyArray_Transpose(a, NULL)`: the axes in reverse order, same data. -/
def PyArray_Transpose (a : PyArrayObject PyObj) : PyArrayObject PyObj :=
  { a with dims := a.dims.reverse, strides := a.strides.reverse }

/-- An array with no axes and no data, read where the C code casts a pointer that
is not an array. -/
def noArray : PyArrayObject PyObj :=
  { ob_id := 0, data := 0, dims := [], strides := [], type_num := 0, getitem := fun _ => Option.none }

/-- The cast `(PyArrayObject *)obj`. -/
def asArray : PyObj → PyArrayObject PyObj
  | .ndarray a => a
  | _ => noArray

/-! ## C-API type checks -/

/-- The check `PyBool_Check`. -/
def PyBool_Check : PyObj → Bool
  | .bool _ => true
  | _ => false

/-- The check `PyLong_Check`; `bool` is a subclass of `int`. -/
def PyLong_Check : PyObj → Bool
  | .long _ => true
  | .bool _ => true
  | _ => false

/-- The check `PyFloat_Check`. -/
def PyFloat_Check : PyObj → Bool
  | .float _ => true
  | _ => false

/-- The check `PyIter_Check`. -/
def PyIter_Check : PyObj → Bool
  | .inst isIter _ _ _ _ => isIter
  | _ => false

/-- The check `PyArray_Check`. -/
def PyArray_Check : PyObj → Bool
  | .ndarray _ => true
  | _ => false

/-- The check `PyArray_CheckScalar`: a NumPy scalar or a 0-dimensional array. -/
def PyArray_CheckScalar : PyObj → Bool
  | .ndarray a => decide (a.dims.length = 0)
  | .npDatetime _ _ => true
  | .npInteger _ _ => true
  | .npBool _ => true
  | .npFloat _ => true
  | _ => false

/-- The check `PyDateTime_Check(obj) || PyDate_Check(obj)`; pandas `NaT` derives
from `datetime`. -/
def PyDateOrDateTime_Check : PyObj → Bool
  | .datetime _ => true
  | .nat => true
  | _ => false

/-- The check `PyDelta_Check`. -/
def PyDelta_Check : PyObj → Bool
  | .timedelta _ _ => true
  | _ => false

/-- The check `PyCallable_Check`. -/
def PyCallable_Check : PyObj → Bool
  | .inst _ callable _ _ _ => callable
  | _ => false

/-! ## Iteration contexts and encoder state -/

/-- A C pointer field of a freshly allocated struct: not yet assigned, assigned
NULL, or pointing to a table. -/
inductive CPtr (α : Type) where
  | uninit
  | null
  | ok (v : α)

/-- The struct `NpyArrContext` (the function pointer `getitem` is the array's). -/
structure NpyArrContext where
  array : Option (PyArrayObject PyObj)
  dataptr : Int
  curdim : Int
  stridedim : Int
  inc : Int
  dim : Int
  stride : Int
  ndim : Int
  index : Int → Int
  type_num : Int
  rowLabels : Option (List String)
  columnLabels : Option (List String)

instance : Inhabited NpyArrContext :=
  ⟨{ array := Option.none, dataptr := 0, curdim := 0, stridedim := 0, inc := 0, dim := 0,
     stride := 0, ndim := 0, index := fun _ => 0, type_num := 0,
     rowLabels := Option.none, columnLabels := Option.none }⟩

/-- The struct `PdBlockContext`; `npyCtxts` holds one `NpyArrContext *` per column. -/
structure PdBlockContext where
  colIdx : Int
  ncols : Int
  transpose : Bool
  cindices : CPtr (List Int)
  npyCtxts : CPtr (List (Option Nat))

instance : Inhabited PdBlockContext :=
  ⟨{ colIdx := 0, ncols := 0, transpose := false, cindices := CPtr.uninit,
     npyCtxts := CPtr.uninit }⟩

/-- Values of the function pointer `iterBegin`. -/
inductive IterBeginFn where
  | NpyArr_iterBegin
  | NpyArrPassThru_iterBegin
  | PdBlock_iterBegin
  | PdBlockPassThru_iterBegin
  | Tuple_iterBegin
  | Iter_iterBegin
  | Dir_iterBegin
  | List_iterBegin
  | Index_iterBegin
  | Series_iterBegin
  | DataFrame_iterBegin
  | Dict_iterBegin
deriving DecidableEq, Repr

/-- Values of the function pointer `iterEnd`. -/
inductive IterEndFn where
  | NpyArr_iterEnd
  | NpyArrPassThru_iterEnd
  | PdBlock_iterEnd
  | PdBlockPassThru_iterEnd
  | Tuple_iterEnd
  | Iter_iterEnd
  | Dir_iterEnd
  | List_iterEnd
  | Index_iterEnd
  | Series_iterEnd
  | DataFrame_iterEnd
  | Dict_iterEnd
deriving DecidableEq, Repr

/-- Values of the function pointer `iterNext`. -/
inductive IterNextFn where
  | NpyArr_iterNextNone
  | NpyArr_iterNextItem
  | NpyArr_iterNext
  | PdBlock_iterNextItem
  | PdBlock_iterNext
  | Tuple_iterNext
  | Iter_iterNext
  | Dir_iterNext
  | List_iterNext
  | Index_iterNext
  | Series_iterNext
  | DataFrame_iterNext
  | Dict_iterNext
deriving DecidableEq, Repr

/-- Values of the function pointer `iterGetName`. -/
inductive IterGetNameFn where
  | NpyArr_iterGetName
  | PdBlock_iterGetName
  | PdBlock_iterGetName_Transpose
  | Tuple_iterGetName
  | Iter_iterGetName
  | Dir_iterGetName
  | List_iterGetName
  | Index_iterGetName
  | Series_iterGetName
  | DataFrame_iterGetName
  | Dict_iterGetName
deriving DecidableEq, Repr

/-- Values of the function pointer `iterGetValue`. -/
inductive IterGetValueFn where
  | NpyArr_iterGetValue
  | Tuple_iterGetValue
  | Iter_iterGetValue
  | Dir_iterGetValue
  | List_iterGetValue
  | Index_iterGetValue
  | Series_iterGetValue
  | DataFrame_iterGetValue
  | Dict_iterGetValue
deriving DecidableEq, Repr

/-- Values of the function pointer `PyTypeToJSON`. -/
inductive PyTypeToJSONFn where
  | PyBytesToUTF8
  | PyUnicodeToUTF8
  | NpyDateTimeScalarToJSON
  | PyDateTimeToJSON
  | NpyDatetime64ToJSON
  | PyTimeToJSON
deriving DecidableEq, Repr

/-- The struct `TypeContext`.  Function pointers that `createTypeContext` leaves
unset are `none`. -/
structure TypeContext where
  iterBegin : Option IterBeginFn
  iterEnd : Option IterEndFn
  iterNext : Option IterNextFn
  iterGetName : Option IterGetNameFn
  iterGetValue : Option IterGetValueFn
  PyTypeToJSON : Option PyTypeToJSONFn
  newObj : Option PyObj
  dictObj : Option PyObj
  index : Int
  size : Int
  itemValue : Option PyObj
  itemName : Option String
  attrList : Option (List String)
  iterator : Option (List PyObj)
  doubleValue : Double
  longValue : Int
  cStr : Option String
  npyarr : Option Nat
  pdblock : Option Nat
  transpose : Bool
  rowLabels : Option (List String)
  columnLabels : Option (List String)
  rowLabelsLen : Int
  columnLabelsLen : Int

/-- The struct `JSONTypeContext` of `ultrajson.h`: the shape tag and the private
context; `isBasic` tells that `prv` is the encoder's `basicTypeContext`. -/
structure JSONTypeContext where
  type : JSTYPES
  prv : Option TypeContext
  isBasic : Bool

/-- What a call of the user's default handler does: return an object, raise, or
return NULL without raising. -/
inductive HandlerResult where
  | returned (o : PyObj)
  | raised (e : PyExc)
  | null

/-- What the encoder reads from `pandas.Timestamp(item)`: the text of
`isoformat()` (`none` when the call fails), whether the object has an attribute
`value`, the result of `get_long_attr(ts, "value")`, and the result of
`total_seconds(ts) * 1000000000LL` converted to `npy_int64`. -/
structure TimestampInfo where
  isoformat : Option String
  hasValue : Bool
  value : Int
  totalSecondsNs : Int

/-- Calls into the Python runtime whose results depend on objects the encoder
does not look into: `str(item)`, `pandas.Timedelta(item).isoformat()` and
`pandas.Timestamp(item)`; `none` is a failing call (an exception is pending).
`datetime64 v` is what `pandas_datetime_to_datetimestruct(v, NPY_FR_ns, &dts)`
yields for the date conversion functions. -/
structure PyRuntime where
  str : PyObj → Option String
  timedeltaIsoformat : PyObj → Option String
  timestamp : PyObj → Option TimestampInfo
  datetime64 : Int → PyDateTimeInfo

/-- The struct `PyObjectEncoder` together with the process state the encoder
functions read and write: the pending Python exception, the heap of iteration
contexts, the allocator, raw array memory, and two logs (default-handler calls,
released array contexts).  `fault` records an access through a NULL, dangling or
unassigned pointer, which is undefined behaviour in C. -/
structure Encoder where
  npyCtxtPassthru : Option Nat
  blkCtxtPassthru : Option Nat
  npyType : Int
  npyValue : Int
  datetimeIso : Bool
  datetimeUnit : NPY_DATETIMEUNIT
  outputFormat : PANDAS_FORMAT
  originalOutputFormat : PANDAS_FORMAT
  defaultHandler : Option (Option PyObj → HandlerResult)
  errorMsg : Option String
  pyErr : Option PyExc
  npyHeap : List NpyArrContext
  blkHeap : List PdBlockContext
  allocBudget : Option Nat
  uninit : Int → Int
  loadDouble : Int → Int → Double
  loadInt : Int → Int → Int
  loadBool : Int → Bool
  handlerCalls : List (Option PyObj)
  freed : List Nat
  fault : Bool
  py : PyRuntime
  doublePrecision : Int
  forceASCII : Bool
  encodeHTMLChars : Bool
  indent : Int

/-- The allocator `PyObject_Malloc`: it fails once the allocation budget is used
up; an unlimited budget (`none`) never fails. -/
def PyObject_Malloc (st : Encoder) : Bool × Encoder :=
  match st.allocBudget with
  | Option.none => (true, st)
  | some 0 => (false, st)
  | some (n + 1) => (true, { st with allocBudget := some n })

/-- The call `PyErr_Occurred()`. -/
def PyErr_Occurred (st : Encoder) : Bool := st.pyErr.isSome

/-- Raising an exception: `PyErr_SetString` / `PyErr_Format` / `PyErr_NoMemory`. -/
def PyErr_Set (e : PyExc) (st : Encoder) : Encoder := { st with pyErr := some e }

/-- Reading `*p` for a `NpyArrContext *p`. -/
def npyLoad (st : Encoder) (p : Option Nat) : NpyArrContext :=
  match p with
  | some i => st.npyHeap.getD i default
  | Option.none => default

/-- Whether a `NpyArrContext *` points to an allocated context. -/
def npyValid (st : Encoder) (p : Option Nat) : Bool :=
  match p with
  | some i => decide (i < st.npyHeap.length)
  | Option.none => false

/-- Writing `*p` for a `NpyArrContext *p`; a write through an invalid pointer is a
fault. -/
def npyStore (st : Encoder) (p : Option Nat) (c : NpyArrContext) : Encoder :=
  match p with
  | some i =>
    if i < st.npyHeap.length then { st with npyHeap := st.npyHeap.set i c }
    else { st with fault := true }
  | Option.none => { st with fault := true }

/-- Reading `*p` for a `PdBlockContext *p`. -/
def blkLoad (st : Encoder) (p : Option Nat) : PdBlockContext :=
  match p with
  | some i => st.blkHeap.getD i default
  | Option.none => default

/-- Writing `*p` for a `PdBlockContext *p`; a write through an invalid pointer is a
fault. -/
def blkStore (st : Encoder) (p : Option Nat) (c : PdBlockContext) : Encoder :=
  match p with
  | some i =>
    if i < st.blkHeap.length then { st with blkHeap := st.blkHeap.set i c }
    else { st with fault := true }
  | Option.none => { st with fault := true }

/-- A vector element update `v[k] = x`. -/
def setIdx (v : Int → Int) (k : Int) (x : Int) : Int → Int :=
  fun i => if i = k then x else v i

/-- Indexing a label table `labels[idx]`; `none` when the table pointer is NULL or
the index lies outside the table. -/
def labelAt (labels : Option (List String)) (idx : Int) : Option String :=
  match labels with
  | Option.none => Option.none
  | some t => if 0 ≤ idx then t.get? idx.toNat else Option.none

/-- Source lines 186-213: `createTypeContext`. -/
def createTypeContext (st : Encoder) : Option TypeContext × Encoder :=
  match PyObject_Malloc st with
  | (false, st) => (Option.none, PyErr_Set PyExc.MemoryError st)
  | (true, st) =>
    (some { iterBegin := Option.none, iterEnd := Option.none, iterNext := Option.none,
            iterGetName := Option.none, iterGetValue := Option.none,
            PyTypeToJSON := Option.none, newObj := Option.none, dictObj := Option.none,
            index := 0, size := 0, itemValue := Option.none, itemName := Option.none,
            attrList := Option.none, iterator := Option.none,
            doubleValue := Double.finite 0 0, longValue := 0, cStr := Option.none,
            npyarr := Option.none, pdblock := Option.none, transpose := false,
            rowLabels := Option.none, columnLabels := Option.none,
            rowLabelsLen := 0, columnLabelsLen := 0 }, st)

/-! ## Attribute look-ups consumed by the encoder -/

/-- Source lines 229-314, `get_values`: the array of values of an index, a series
or a table, or NULL (with `ValueError` raised by the caller below). -/
def get_values : PyObj → Option (PyArrayObject PyObj)
  | .index _ _ v => v
  | .series _ _ v => v
  | .dataframe _ _ _ v _ => v
  | _ => Option.none

/-- The attribute look-up `PyObject_GetAttrString(obj, "name")`. -/
def getAttr_name : PyObj → Option PyObj
  | .index name _ _ => name
  | .series name _ _ => name
  | .inst _ _ _ getattr _ => getattr "name"
  | _ => Option.none

/-- The attribute look-up `PyObject_GetAttrString(obj, "index")`. -/
def getAttr_index : PyObj → Option PyObj
  | .series _ index _ => index
  | .dataframe _ index _ _ _ => index
  | .inst _ _ _ getattr _ => getattr "index"
  | _ => Option.none

/-- The attribute look-up `PyObject_GetAttrString(obj, "columns")`. -/
def getAttr_columns : PyObj → Option PyObj
  | .dataframe columns _ _ _ _ => columns
  | .inst _ _ _ getattr _ => getattr "columns"
  | _ => Option.none

/-- The call `PyObject_Length` / `PyObject_Size`; `-1` on failure. -/
def PyObject_Length : PyObj → Int
  | .index _ len _ => len
  | .list items => items.length
  | .tuple items => items.length
  | .set items => items.length
  | .dict items => items.length
  | .bytes s => s.length
  | .unicode s => s.length
  | _ => -1

/-- Source lines 341-356, `get_attr_length` for the attribute `columns`. -/
def get_attr_length_columns (obj : PyObj) : Int :=
  match getAttr_columns obj with
  | Option.none => 0
  | some tmp => if PyObject_Length tmp = -1 then 0 else PyObject_Length tmp

/-- Source lines 329-339, `is_simple_frame`: `_data.is_mixed_type` is `False`. -/
def is_simple_frame : PyObj → Bool
  | .dataframe _ _ (some false) _ _ => true
  | _ => false

/-- The look-up `get_sub_attr(obj, "_data", "blocks")`. -/
def get_blocks : PyObj → Option (List (PdBlock PyObj))
  | .dataframe _ _ _ _ blocks => blocks
  | _ => Option.none

/-! ## Numpy array iteration functions (source lines 606-777) -/

/-- Pointer comparison `itemValue == npyarr->array`. -/
def sameObject (o : Option PyObj) (a : Option (PyArrayObject PyObj)) : Bool :=
  match o, a with
  | some (.ndarray x), some y => x.ob_id == y.ob_id
  | Option.none, Option.none => true
  | _, _ => false

/-- Source lines 610-617: `NpyArr_freeItemValue`. -/
def NpyArr_freeItemValue (tc : TypeContext) (st : Encoder) : TypeContext :=
  if tc.npyarr.isSome && !(sameObject tc.itemValue (npyLoad st tc.npyarr).array) then
    { tc with itemValue := Option.none }
  else tc

/-- Source line 619: `NpyArr_iterNextNone`. -/
def NpyArr_iterNextNone (_obj : PyObj) (tc : TypeContext) (st : Encoder) :
    Bool × TypeContext × Encoder :=
  (false, tc, st)

/-- Source lines 621-664: `NpyArr_iterBegin`.  The freshly allocated context is
appended to the heap; its index vector holds unspecified values (`st.uninit`)
except for the one entry the function writes. -/
def NpyArr_iterBegin (_obj : PyObj) (tc : TypeContext) (st : Encoder) :
    TypeContext × Encoder :=
  let obj := asArray (match tc.newObj with
    | some o => o
    | Option.none => _obj)
  match PyObject_Malloc st with
  | (false, st) =>
    ({ tc with npyarr := Option.none, iterNext := some IterNextFn.NpyArr_iterNextNone },
      PyErr_Set PyExc.MemoryError st)
  | (true, st) =>
    let ndim := PyArray_NDIM obj - 1
    let npyarr : NpyArrContext :=
      if tc.transpose then
        { array := some obj, dataptr := obj.data, ndim := ndim, curdim := 0,
          type_num := obj.type_num, dim := PyArray_DIM obj ndim,
          stride := PyArray_STRIDE obj ndim, stridedim := ndim,
          index := setIdx st.uninit ndim 0, inc := -1,
          columnLabels := tc.columnLabels, rowLabels := tc.rowLabels }
      else
        { array := some obj, dataptr := obj.data, ndim := ndim, curdim := 0,
          type_num := obj.type_num, dim := PyArray_DIM obj 0,
          stride := PyArray_STRIDE obj 0, stridedim := 0,
          index := setIdx st.uninit 0 0, inc := 1,
          columnLabels := tc.columnLabels, rowLabels := tc.rowLabels }
    ({ tc with npyarr := some st.npyHeap.length },
      { st with npyHeap := st.npyHeap ++ [npyarr] })

/-- Source lines 666-674: `NpyArr_iterEnd`; the released context is logged. -/
def NpyArr_iterEnd (_obj : PyObj) (tc : TypeContext) (st : Encoder) :
    TypeContext × Encoder :=
  match tc.npyarr with
  | some p => (NpyArr_freeItemValue tc st, { st with freed := st.freed ++ [p] })
  | Option.none => (tc, st)

/-- Source line 676: `NpyArrPassThru_iterBegin`. -/
def NpyArrPassThru_iterBegin (_obj : PyObj) (tc : TypeContext) (st : Encoder) :
    TypeContext × Encoder :=
  (tc, st)

/-- Source lines 678-690: `NpyArrPassThru_iterEnd`. -/
def NpyArrPassThru_iterEnd (_obj : PyObj) (tc : TypeContext) (st : Encoder) :
    TypeContext × Encoder :=
  let npyarr := npyLoad st tc.npyarr
  let arr := npyarr.array.getD noArray
  let npyarr := { npyarr with curdim := npyarr.curdim - 1 }
  let npyarr := { npyarr with
    dataptr := npyarr.dataptr - npyarr.stride * npyarr.index npyarr.stridedim }
  let npyarr := { npyarr with stridedim := npyarr.stridedim - npyarr.inc }
  let npyarr := { npyarr with dim := PyArray_DIM arr npyarr.stridedim }
  let npyarr := { npyarr with stride := PyArray_STRIDE arr npyarr.stridedim }
  let npyarr := { npyarr with dataptr := npyarr.dataptr + npyarr.stride }
  let st := npyStore st tc.npyarr npyarr
  (NpyArr_freeItemValue tc st, st)

/-- Source lines 692-722: `NpyArr_iterNextItem`.  A failing `getitem` leaves an
exception pending. -/
def NpyArr_iterNextItem (obj : PyObj) (tc : TypeContext) (st : Encoder) :
    Bool × TypeContext × Encoder :=
  let npyarr := npyLoad st tc.npyarr
  if PyErr_Occurred st then (false, tc, st)
  else if npyarr.index npyarr.stridedim ≥ npyarr.dim then (false, tc, st)
  else
    let tc := NpyArr_freeItemValue tc st
    let arr := npyarr.array.getD noArray
    let r : TypeContext × Encoder :=
      if PyTypeNum_ISDATETIME arr.type_num then
        ({ tc with itemValue := some obj },
          { st with npyType := arr.type_num, npyValue := npyarr.dataptr,
                    npyCtxtPassthru := tc.npyarr })
      else
        match arr.getitem npyarr.dataptr with
        | some v => ({ tc with itemValue := some v }, st)
        | Option.none => ({ tc with itemValue := Option.none }, PyErr_Set PyExc.Other st)
    let npyarr := { npyarr with dataptr := npyarr.dataptr + npyarr.stride }
    let npyarr := { npyarr with
      index := setIdx npyarr.index npyarr.stridedim (npyarr.index npyarr.stridedim + 1) }
    (true, r.1, npyStore r.2 tc.npyarr npyarr)

/-- Source lines 724-753: `NpyArr_iterNext`. -/
def NpyArr_iterNext (obj : PyObj) (tc : TypeContext) (st : Encoder) :
    Bool × TypeContext × Encoder :=
  let npyarr := npyLoad st tc.npyarr
  if PyErr_Occurred st then (false, tc, st)
  else if npyarr.curdim ≥ npyarr.ndim ∨ npyarr.index npyarr.stridedim ≥ npyarr.dim then
    NpyArr_iterNextItem obj { tc with iterNext := some IterNextFn.NpyArr_iterNextItem } st
  else
    let arr := npyarr.array.getD noArray
    let npyarr := { npyarr with
      index := setIdx npyarr.index npyarr.stridedim (npyarr.index npyarr.stridedim + 1) }
    let npyarr := { npyarr with curdim := npyarr.curdim + 1 }
    let npyarr := { npyarr with stridedim := npyarr.stridedim + npyarr.inc }
    let npyarr := { npyarr with dim := PyArray_DIM arr npyarr.stridedim }
    let npyarr := { npyarr with stride := PyArray_STRIDE arr npyarr.stridedim }
    let npyarr := { npyarr with index := setIdx npyarr.index npyarr.stridedim 0 }
    let st := npyStore st tc.npyarr npyarr
    (true, { tc with itemValue := npyarr.array.map PyObj.ndarray },
      { st with npyCtxtPassthru := tc.npyarr })

/-- Source lines 755-758: `NpyArr_iterGetValue`. -/
def NpyArr_iterGetValue (_obj : PyObj) (tc : TypeContext) : Option PyObj :=
  tc.itemValue

/-- Source lines 760-777: `NpyArr_iterGetName`; `none` when the label look-up
leaves the table. -/
def NpyArr_iterGetName (_obj : PyObj) (tc : TypeContext) (st : Encoder) : Option String :=
  let npyarr := npyLoad st tc.npyarr
  if tc.iterNext = some IterNextFn.NpyArr_iterNextItem then
    labelAt npyarr.columnLabels (npyarr.index npyarr.stridedim - 1)
  else
    labelAt npyarr.rowLabels (npyarr.index (npyarr.stridedim - npyarr.inc) - 1)

/-! ## Pandas block iteration functions (source lines 779-1088) -/

/-- Reading `blkCtxt->npyCtxts[i]`; the outer `none` is an access through a NULL or
unassigned table pointer or outside the table. -/
def ctxtsGet (t : CPtr (List (Option Nat))) (i : Int) : Option (Option Nat) :=
  match t with
  | CPtr.ok l => if 0 ≤ i then l.get? i.toNat else Option.none
  | _ => Option.none

/-- The pointer value read by `blkCtxt->npyCtxts[i]` (NULL when the access is
invalid). -/
def ctxtsAt (t : CPtr (List (Option Nat))) (i : Int) : Option Nat :=
  (ctxtsGet t i).getD Option.none

/-- Writing `table[i] = x`; `none` when the write goes through a NULL or
unassigned pointer or outside the table. -/
def tableSet {α : Type} (t : CPtr (List α)) (i : Int) (x : α) : Option (CPtr (List α)) :=
  match t with
  | CPtr.ok l =>
    if 0 ≤ i ∧ i.toNat < l.length then some (CPtr.ok (l.set i.toNat x)) else Option.none
  | _ => Option.none

/-- Source lines 788-799: `PdBlockPassThru_iterEnd`. -/
def PdBlockPassThru_iterEnd (_obj : PyObj) (tc : TypeContext) (st : Encoder) :
    TypeContext × Encoder :=
  let blkCtxt := blkLoad st tc.pdblock
  let blkCtxt :=
    if blkCtxt.transpose then { blkCtxt with colIdx := blkCtxt.colIdx + 1 }
    else { blkCtxt with colIdx := 0 }
  let st := blkStore st tc.pdblock blkCtxt
  (NpyArr_freeItemValue tc st, st)

/-- Source lines 801-812: `PdBlock_iterNextItem`. -/
def PdBlock_iterNextItem (obj : PyObj) (tc : TypeContext) (st : Encoder) :
    Bool × TypeContext × Encoder :=
  let blkCtxt := blkLoad st tc.pdblock
  if blkCtxt.colIdx ≥ blkCtxt.ncols then (false, tc, st)
  else
    let st := if (ctxtsGet blkCtxt.npyCtxts blkCtxt.colIdx).isNone then
      { st with fault := true } else st
    let tc := { tc with npyarr := ctxtsAt blkCtxt.npyCtxts blkCtxt.colIdx }
    let st := blkStore st tc.pdblock { blkCtxt with colIdx := blkCtxt.colIdx + 1 }
    NpyArr_iterNextItem obj tc st

/-- Source lines 814-834: `PdBlock_iterGetName`. -/
def PdBlock_iterGetName (_obj : PyObj) (tc : TypeContext) (st : Encoder) : Option String :=
  let blkCtxt := blkLoad st tc.pdblock
  let npyarr := npyLoad st (ctxtsAt blkCtxt.npyCtxts 0)
  if tc.iterNext = some IterNextFn.PdBlock_iterNextItem then
    labelAt npyarr.columnLabels (blkCtxt.colIdx - 1)
  else
    labelAt npyarr.rowLabels
      (if tc.iterNext ≠ some IterNextFn.PdBlock_iterNext then
        npyarr.index (npyarr.stridedim - npyarr.inc) - 1
      else npyarr.index npyarr.stridedim)

/-- Source lines 836-854: `PdBlock_iterGetName_Transpose`. -/
def PdBlock_iterGetName_Transpose (_obj : PyObj) (tc : TypeContext) (st : Encoder) :
    Option String :=
  let blkCtxt := blkLoad st tc.pdblock
  let npyarr := npyLoad st (ctxtsAt blkCtxt.npyCtxts blkCtxt.colIdx)
  if tc.iterNext = some IterNextFn.NpyArr_iterNextItem then
    labelAt npyarr.columnLabels (npyarr.index npyarr.stridedim - 1)
  else
    labelAt npyarr.rowLabels blkCtxt.colIdx

/-- Source lines 856-880: `PdBlock_iterNext`. -/
def PdBlock_iterNext (obj : PyObj) (tc : TypeContext) (st : Encoder) :
    Bool × TypeContext × Encoder :=
  let blkCtxt := blkLoad st tc.pdblock
  if PyErr_Occurred st ∨ st.errorMsg.isSome then (false, tc, st)
  else
    let stop : Bool :=
      if blkCtxt.transpose then decide (blkCtxt.colIdx ≥ blkCtxt.ncols)
      else
        let npyarr := npyLoad st (ctxtsAt blkCtxt.npyCtxts 0)
        decide (npyarr.index npyarr.stridedim ≥ npyarr.dim)
    if stop then (false, tc, st)
    else (true, { tc with itemValue := some obj }, { st with blkCtxtPassthru := tc.pdblock })

/-- Source lines 882-892: `PdBlockPassThru_iterBegin`. -/
def PdBlockPassThru_iterBegin (_obj : PyObj) (tc : TypeContext) (st : Encoder) :
    TypeContext × Encoder :=
  let blkCtxt := blkLoad st tc.pdblock
  if blkCtxt.transpose then
    ({ tc with iterNext := some IterNextFn.NpyArr_iterNextItem,
               iterGetName := some IterGetNameFn.PdBlock_iterGetName_Transpose,
               npyarr := ctxtsAt blkCtxt.npyCtxts blkCtxt.colIdx }, st)
  else (tc, st)

/-- Source lines 1015-1038, the body of the `do ... while` loop of
`PdBlock_iterBegin`: seed the walker of table column `colIdx`, which is column
`idx` of the block whose transposed values are `values`. -/
def PdBlock_seedColumn (obj : PyObj) (values : PyArrayObject PyObj) (colIdx idx : Int)
    (tc : TypeContext) (st : Encoder) : TypeContext × Encoder :=
  let blkCtxt := blkLoad st tc.pdblock
  let st := match tableSet blkCtxt.cindices colIdx idx with
    | some t => blkStore st tc.pdblock { blkCtxt with cindices := t }
    | Option.none => { st with fault := true }
  let tc := { tc with newObj := some (PyObj.ndarray values) }
  let r := NpyArr_iterBegin obj tc st
  let npyarr := r.1.npyarr
  let r : TypeContext × Encoder :=
    match npyarr with
    | some _ =>
      let c := npyLoad r.2 npyarr
      let st := npyStore r.2 npyarr { c with dataptr := c.dataptr + c.stride * idx }
      let n := NpyArr_iterNext obj r.1 st
      (n.2.1, n.2.2)
    | Option.none => r
  let tc := { r.1 with itemValue := Option.none }
  let st := { r.2 with npyCtxtPassthru := Option.none }
  let blkCtxt := blkLoad st tc.pdblock
  let st := match tableSet blkCtxt.npyCtxts colIdx npyarr with
    | some t => blkStore st tc.pdblock { blkCtxt with npyCtxts := t }
    | Option.none => { st with fault := true }
  ({ tc with newObj := Option.none }, st)

/-- The `do ... while (iternext(iter))` loop over the column locations of one
block; `idx` is `NpyIter_GetIterIndex`. -/
def PdBlock_seedLocs (obj : PyObj) (values : PyArrayObject PyObj) :
    List Int → Int → TypeContext → Encoder → TypeContext × Encoder
  | [], _, tc, st => (tc, st)
  | colIdx :: rest, idx, tc, st =>
    let r := PdBlock_seedColumn obj values colIdx idx tc st
    PdBlock_seedLocs obj values rest (idx + 1) r.1 r.2

/-- Source lines 965-1045, the `for` loop over the blocks of `PdBlock_iterBegin`;
the flag tells whether the loop ran to its end.  An empty location array makes
`NpyIter_New` fail. -/
def PdBlock_seedBlocks (obj : PyObj) :
    List (PdBlock PyObj) → TypeContext → Encoder → Bool × TypeContext × Encoder
  | [], tc, st => (true, tc, st)
  | block :: rest, tc, st =>
    match block.values with
    | Option.none =>
      (false, { tc with iterNext := some IterNextFn.NpyArr_iterNextNone },
        { (PyErr_Set PyExc.ValueError st) with errorMsg := some "" })
    | some tmp =>
      let values := PyArray_Transpose tmp
      match block.mgr_locs with
      | Option.none =>
        (false, { tc with iterNext := some IterNextFn.NpyArr_iterNextNone },
          PyErr_Set PyExc.Other st)
      | some [] =>
        (false, { tc with iterNext := some IterNextFn.NpyArr_iterNextNone },
          PyErr_Set PyExc.ValueError st)
      | some (c :: cs) =>
        let r := PdBlock_seedLocs obj values (c :: cs) 0 tc st
        PdBlock_seedBlocks obj rest r.1 r.2

/-- Source lines 894-1051: `PdBlock_iterBegin`. -/
def PdBlock_iterBegin (obj : PyObj) (tc : TypeContext) (st : Encoder) :
    TypeContext × Encoder :=
  let getName : IterGetNameFn :=
    if tc.transpose then IterGetNameFn.PdBlock_iterGetName_Transpose
    else IterGetNameFn.PdBlock_iterGetName
  let tc := { tc with iterGetName := some getName }
  match PyObject_Malloc st with
  | (false, st) =>
    ({ tc with iterNext := some IterNextFn.NpyArr_iterNextNone },
      PyErr_Set PyExc.MemoryError st)
  | (true, st) =>
    let p := some st.blkHeap.length
    let blkCtxt : PdBlockContext :=
      { colIdx := 0, transpose := tc.transpose, ncols := get_attr_length_columns obj,
        cindices := CPtr.uninit, npyCtxts := CPtr.uninit }
    let st := { st with blkHeap := st.blkHeap ++ [blkCtxt] }
    let tc := { tc with pdblock := p }
    if blkCtxt.ncols = 0 then
      ({ tc with iterNext := some IterNextFn.NpyArr_iterNextNone },
        blkStore st p { blkCtxt with npyCtxts := CPtr.null, cindices := CPtr.null })
    else
      match PyObject_Malloc st with
      | (false, st) =>
        ({ tc with iterNext := some IterNextFn.NpyArr_iterNextNone },
          PyErr_Set PyExc.MemoryError (blkStore st p { blkCtxt with npyCtxts := CPtr.null }))
      | (true, st) =>
        let blkCtxt := { blkCtxt with
          npyCtxts := CPtr.ok (List.replicate blkCtxt.ncols.toNat Option.none) }
        match PyObject_Malloc st with
        | (false, st) =>
          ({ tc with iterNext := some IterNextFn.NpyArr_iterNextNone },
            PyErr_Set PyExc.MemoryError
              (blkStore st p { blkCtxt with cindices := CPtr.null }))
        | (true, st) =>
          let blkCtxt := { blkCtxt with
            cindices := CPtr.ok ((List.range blkCtxt.ncols.toNat).map
              (fun (k : Nat) => st.uninit (k : Int))) }
          let st := blkStore st p blkCtxt
          match get_blocks obj with
          | Option.none =>
            ({ tc with iterNext := some IterNextFn.NpyArr_iterNextNone },
              PyErr_Set PyExc.Other st)
          | some blocks =>
            let tc := { tc with transpose := true }
            match PdBlock_seedBlocks obj blocks tc st with
            | (false, tc, st) => (tc, st)
            | (true, tc, st) =>
              let blkCtxt := blkLoad st p
              let st := if (ctxtsGet blkCtxt.npyCtxts 0).isNone then
                { st with fault := true } else st
              ({ tc with npyarr := ctxtsAt blkCtxt.npyCtxts 0 }, st)

/-- One round of the `for` loop of `PdBlock_iterEnd` (source lines 1065-1078). -/
def PdBlock_iterEnd_column (obj : PyObj) (i : Nat) (r : TypeContext × Encoder) :
    TypeContext × Encoder :=
  let tc := r.1
  let st := r.2
  let blkCtxt := blkLoad st tc.pdblock
  match ctxtsGet blkCtxt.npyCtxts i with
  | Option.none => (tc, { st with fault := true })
  | some Option.none => (tc, st)
  | some (some q) =>
    let c := npyLoad st (some q)
    let st := npyStore st (some q) { c with array := Option.none }
    let tc := { tc with npyarr := some q }
    let e := NpyArr_iterEnd obj tc st
    let blkCtxt := blkLoad e.2 tc.pdblock
    match tableSet blkCtxt.npyCtxts i Option.none with
    | some t => (e.1, blkStore e.2 tc.pdblock { blkCtxt with npyCtxts := t })
    | Option.none => (e.1, { e.2 with fault := true })

/-- Source lines 1053-1088: `PdBlock_iterEnd`.  Testing a pointer field that was
never assigned is a fault. -/
def PdBlock_iterEnd (obj : PyObj) (tc : TypeContext) (st : Encoder) :
    TypeContext × Encoder :=
  let tc := { tc with itemValue := Option.none }
  match tc.pdblock with
  | Option.none => (tc, st)
  | some _ =>
    let blkCtxt := blkLoad st tc.pdblock
    let r := (List.range blkCtxt.ncols.toNat).foldl
      (fun r i => PdBlock_iterEnd_column obj i r) (tc, st)
    let blkCtxt := blkLoad r.2 tc.pdblock
    let bad : Bool :=
      (match blkCtxt.npyCtxts with
        | CPtr.uninit => true
        | _ => false) ||
      (match blkCtxt.cindices with
        | CPtr.uninit => true
        | _ => false)
    (r.1, if bad then { r.2 with fault := true } else r.2)

/-! ## Tuple, iterator, reflection, list iteration (source lines 1090-1308) -/

/-- The items of a tuple, list or set object, in iteration order. -/
def seqItems : PyObj → List PyObj
  | .list items => items
  | .tuple items => items
  | .set items => items
  | _ => []

/-- Source lines 1094-1098: `Tuple_iterBegin`. -/
def Tuple_iterBegin (obj : PyObj) (tc : TypeContext) : TypeContext :=
  { tc with index := 0, size := (seqItems obj).length, itemValue := Option.none }

/-- Source lines 1100-1112: `Tuple_iterNext`. -/
def Tuple_iterNext (obj : PyObj) (tc : TypeContext) : Bool × TypeContext :=
  if tc.index ≥ tc.size then (false, tc)
  else (true, { tc with itemValue := (seqItems obj).get? tc.index.toNat,
                        index := tc.index + 1 })

/-- Source lines 1128-1131: `Iter_iterBegin`. -/
def Iter_iterBegin (obj : PyObj) (tc : TypeContext) : TypeContext :=
  { tc with itemValue := Option.none, iterator := some (seqItems obj) }

/-- Source lines 1133-1149: `Iter_iterNext`. -/
def Iter_iterNext (_obj : PyObj) (tc : TypeContext) : Bool × TypeContext :=
  let tc := { tc with itemValue := Option.none }
  match tc.iterator with
  | some (item :: rest) => (true, { tc with itemValue := some item, iterator := some rest })
  | _ => (false, tc)

/-- Source lines 1151-1161: `Iter_iterEnd`. -/
def Iter_iterEnd (_obj : PyObj) (tc : TypeContext) : TypeContext :=
  { tc with itemValue := Option.none, iterator := Option.none }

/-- The call `PyObject_Dir(obj)`: the attribute listing. -/
def PyObject_Dir : PyObj → List String
  | .inst _ _ dir _ _ => dir
  | _ => []

/-- The call `PyObject_GetAttr(obj, attrName)`. -/
def PyObject_GetAttr : PyObj → String → Option PyObj
  | .inst _ _ _ getattr _, attrName => getattr attrName
  | _, _ => Option.none

/-- Source lines 1176-1181: `Dir_iterBegin`. -/
def Dir_iterBegin (obj : PyObj) (tc : TypeContext) : TypeContext :=
  { tc with attrList := some (PyObject_Dir obj), index := 0,
            size := (PyObject_Dir obj).length }

/-- Source lines 1183-1196: `Dir_iterEnd`. -/
def Dir_iterEnd (_obj : PyObj) (tc : TypeContext) : TypeContext :=
  { tc with itemValue := Option.none, itemName := Option.none }

/-- The test `attrStr[0] == '_'`. -/
def startsWithUnderscore (attrName : String) : Bool :=
  match attrName.data with
  | c :: _ => decide (c = '_')
  | [] => false

/-- Source lines 1220-1253, the `for` loop of `Dir_iterNext` started at
`GET_TC(tc)->index = index`: the loop either leaves through `break` with an
attribute name, its value and the index it has stored (already incremented
once inside the loop body), or runs off the end of the listing. -/
def Dir_iterNext_loop (obj : PyObj) (attrList : List String) (size : Int) :
    Nat → Int → Option (String × PyObj × Int)
  | 0, _ => Option.none
  | fuel + 1, index =>
    if index < size then
      let attrName := attrList.getD index.toNat ""
      if startsWithUnderscore attrName then
        Dir_iterNext_loop obj attrList size fuel (index + 1)
      else
        match PyObject_GetAttr obj attrName with
        | Option.none => Dir_iterNext_loop obj attrList size fuel (index + 1)
        | some itemValue =>
          if PyCallable_Check itemValue then
            Dir_iterNext_loop obj attrList size fuel (index + 1)
          else some (attrName, itemValue, index + 1)
    else Option.none

/-- Source lines 1198-1267: `Dir_iterNext`. -/
def Dir_iterNext (obj : PyObj) (tc : TypeContext) (st : Encoder) : Bool × TypeContext :=
  if PyErr_Occurred st ∨ st.errorMsg.isSome then (false, tc)
  else
    let tc := { tc with itemValue := Option.none, itemName := Option.none }
    match Dir_iterNext_loop obj (tc.attrList.getD []) tc.size
        (tc.size - tc.index).toNat tc.index with
    | Option.none => (false, { tc with index := tc.size, itemValue := Option.none })
    | some (itemName, itemValue, index) =>
      (true, { tc with itemName := some itemName, itemValue := some itemValue,
                       index := index + 1 })

/-- Source lines 1274-1278: `Dir_iterGetName`. -/
def Dir_iterGetName (_obj : PyObj) (tc : TypeContext) : Option String :=
  tc.itemName

/-- Source lines 1284-1287: `List_iterBegin`. -/
def List_iterBegin (obj : PyObj) (tc : TypeContext) : TypeContext :=
  { tc with index := 0, size := (seqItems obj).length }

/-- Source lines 1289-1298: `List_iterNext`. -/
def List_iterNext (obj : PyObj) (tc : TypeContext) : Bool × TypeContext :=
  if tc.index ≥ tc.size then (false, tc)
  else (true, { tc with itemValue := (seqItems obj).get? tc.index.toNat,
                        index := tc.index + 1 })

/-! ## Index, Series, DataFrame fields iteration (source lines 1310-1481) -/

/-- Source lines 1313-1320: `Index_iterBegin`. -/
def Index_iterBegin (_obj : PyObj) (tc : TypeContext) (st : Encoder) :
    TypeContext × Encoder :=
  match PyObject_Malloc st with
  | (true, st) => ({ tc with index := 0, cStr := some "" }, st)
  | (false, st) =>
    ({ tc with index := 0, cStr := Option.none }, PyErr_Set PyExc.MemoryError st)

/-- Source lines 1322-1347: `Index_iterNext`. -/
def Index_iterNext (obj : PyObj) (tc : TypeContext) (st : Encoder) :
    Bool × TypeContext × Encoder :=
  if tc.cStr.isNone then (false, tc, st)
  else if tc.index = 0 then
    (true, { tc with cStr := some "name", itemValue := getAttr_name obj,
                     index := tc.index + 1 }, st)
  else if tc.index = 1 then
    match get_values obj with
    | Option.none =>
      (false, { tc with cStr := some "data", itemValue := Option.none },
        PyErr_Set PyExc.ValueError st)
    | some v =>
      (true, { tc with cStr := some "data", itemValue := some (PyObj.ndarray v),
                       index := tc.index + 1 }, st)
  else (false, tc, st)

/-- Source lines 1363-1372: `Series_iterBegin`. -/
def Series_iterBegin (_obj : PyObj) (tc : TypeContext) (st : Encoder) :
    TypeContext × Encoder :=
  match PyObject_Malloc st with
  | (true, st) =>
    ({ tc with index := 0, cStr := some "" }, { st with outputFormat := PANDAS_FORMAT.VALUES })
  | (false, st) =>
    ({ tc with index := 0, cStr := Option.none },
      PyErr_Set PyExc.MemoryError { st with outputFormat := PANDAS_FORMAT.VALUES })

/-- Source lines 1374-1402: `Series_iterNext`. -/
def Series_iterNext (obj : PyObj) (tc : TypeContext) (st : Encoder) :
    Bool × TypeContext × Encoder :=
  if tc.cStr.isNone then (false, tc, st)
  else if tc.index = 0 then
    (true, { tc with cStr := some "name", itemValue := getAttr_name obj,
                     index := tc.index + 1 }, st)
  else if tc.index = 1 then
    (true, { tc with cStr := some "index", itemValue := getAttr_index obj,
                     index := tc.index + 1 }, st)
  else if tc.index = 2 then
    match get_values obj with
    | Option.none =>
      (false, { tc with cStr := some "data", itemValue := Option.none },
        PyErr_Set PyExc.ValueError st)
    | some v =>
      (true, { tc with cStr := some "data", itemValue := some (PyObj.ndarray v),
                       index := tc.index + 1 }, st)
  else (false, tc, st)

/-- Source lines 1404-1408: `Series_iterEnd`. -/
def Series_iterEnd (_obj : PyObj) (tc : TypeContext) (st : Encoder) :
    TypeContext × Encoder :=
  (tc, { st with outputFormat := st.originalOutputFormat })

/-- Source lines 1422-1431: `DataFrame_iterBegin`. -/
def DataFrame_iterBegin (_obj : PyObj) (tc : TypeContext) (st : Encoder) :
    TypeContext × Encoder :=
  match PyObject_Malloc st with
  | (true, st) =>
    ({ tc with index := 0, cStr := some "" }, { st with outputFormat := PANDAS_FORMAT.VALUES })
  | (false, st) =>
    ({ tc with index := 0, cStr := Option.none },
      PyErr_Set PyExc.MemoryError { st with outputFormat := PANDAS_FORMAT.VALUES })

/-- Source lines 1433-1466: `DataFrame_iterNext`. -/
def DataFrame_iterNext (obj : PyObj) (tc : TypeContext) (st : Encoder) :
    Bool × TypeContext × Encoder :=
  if tc.cStr.isNone then (false, tc, st)
  else if tc.index = 0 then
    (true, { tc with cStr := some "columns", itemValue := getAttr_columns obj,
                     index := tc.index + 1 }, st)
  else if tc.index = 1 then
    (true, { tc with cStr := some "index", itemValue := getAttr_index obj,
                     index := tc.index + 1 }, st)
  else if tc.index = 2 then
    if is_simple_frame obj then
      match get_values obj with
      | Option.none =>
        (false, { tc with cStr := some "data", itemValue := Option.none },
          PyErr_Set PyExc.ValueError st)
      | some v =>
        (true, { tc with cStr := some "data", itemValue := some (PyObj.ndarray v),
                         index := tc.index + 1 }, st)
    else
      (true, { tc with cStr := some "data", itemValue := some obj,
                       index := tc.index + 1 }, st)
  else (false, tc, st)

/-- Source lines 1468-1472: `DataFrame_iterEnd`. -/
def DataFrame_iterEnd (_obj : PyObj) (tc : TypeContext) (st : Encoder) :
    TypeContext × Encoder :=
  (tc, { st with outputFormat := st.originalOutputFormat })

/-! ## Dict iteration (source lines 1483-1537) -/

/-- The key/value pairs of a dict object, in `PyDict_Next` order. -/
def dictItems : Option PyObj → List (PyObj × PyObj)
  | some (.dict items) => items
  | _ => []

/-- Source lines 1488-1491: `Dict_iterBegin`. -/
def Dict_iterBegin (_obj : PyObj) (tc : TypeContext) : TypeContext :=
  { tc with index := 0 }

/-- Source lines 1493-1519: `Dict_iterNext`; a key that is neither text nor bytes
is converted with `str`. -/
def Dict_iterNext (_obj : PyObj) (tc : TypeContext) (st : Encoder) : Bool × TypeContext :=
  let tc := { tc with itemName := Option.none }
  match (dictItems tc.dictObj).get? tc.index.toNat with
  | Option.none => (false, tc)
  | some (key, value) =>
    let name : Option String :=
      match key with
      | .unicode s => some s
      | .bytes s => some s
      | other => st.py.str other
    (true, { tc with index := tc.index + 1, itemName := name, itemValue := some value })

/-- Source lines 1521-1528: `Dict_iterEnd`. -/
def Dict_iterEnd (_obj : PyObj) (tc : TypeContext) : TypeContext :=
  { tc with itemName := Option.none }

/-! ## Label encoding (source lines 1539-1733) -/

/-- The `switch (enc->datetimeUnit)` that scales a nanosecond value (source lines
564-578, 1673-1690, 1901-1913); `none` is the `default:` case. -/
def scaleToUnit (unit : NPY_DATETIMEUNIT) (value : Int) : Option Int :=
  match unit with
  | NPY_DATETIMEUNIT.NPY_FR_ns => some value
  | NPY_DATETIMEUNIT.NPY_FR_us => some (cdiv value 1000)
  | NPY_DATETIMEUNIT.NPY_FR_ms => some (cdiv value 1000000)
  | NPY_DATETIMEUNIT.NPY_FR_s => some (cdiv value 1000000000)
  | NPY_DATETIMEUNIT.NPY_FR_other => Option.none

/-- The outcome of converting one label (the body of the `for` loop, source lines
1605-1709). -/
inductive LabelResult where
  | label (cLabel : String)
  | failed
  | badUnit

/-- Source lines 1612-1709: the conversion of one extracted item to its label text.
A failing Python call is `failed`; the `default:` case of the unit switch is
`badUnit`. -/
def NpyArr_encodeLabel (st : Encoder) (type_num : Int) (item : PyObj) : LabelResult :=
  if st.datetimeIso && (decide (type_num = NPY_TIMEDELTA) || PyDelta_Check item) then
    match st.py.timedeltaIsoformat item with
    | Option.none => LabelResult.failed
    | some iso => LabelResult.label iso
  else if PyTypeNum_ISDATETIME type_num || PyDateOrDateTime_Check item then
    match st.py.timestamp item with
    | Option.none => LabelResult.failed
    | some ts =>
      if st.datetimeIso then
        match ts.isoformat with
        | Option.none => LabelResult.failed
        | some iso => LabelResult.label iso
      else
        let value := if ts.hasValue then ts.value else ts.totalSecondsNs
        match scaleToUnit st.datetimeUnit value with
        | Option.none => LabelResult.badUnit
        | some v => LabelResult.label (toString v)
  else
    match st.py.str item with
    | Option.none => LabelResult.failed
    | some str => LabelResult.label str

/-- Source lines 1604-1729, the second `for` loop of `NpyArr_encodeLabels`: `n`
labels remain to be built, `dataptr` is the cursor, `ret` the entries built so
far.  Each entry needs one allocation. -/
def NpyArr_encodeLabels_loop (labels : PyArrayObject PyObj) (stride : Int) :
    Nat → Int → List String → Encoder → Option (List String) × Encoder
  | 0, _, ret, st => (some ret, st)
  | n + 1, dataptr, ret, st =>
    match labels.getitem dataptr with
    | Option.none => (Option.none, PyErr_Set PyExc.Other st)
    | some item =>
      match NpyArr_encodeLabel st labels.type_num item with
      | LabelResult.failed => (Option.none, PyErr_Set PyExc.Other st)
      | LabelResult.badUnit => (Option.none, { st with fault := true })
      | LabelResult.label cLabel =>
        match PyObject_Malloc st with
        | (false, st) => (Option.none, { (PyErr_Set PyExc.MemoryError st) with fault := true })
        | (true, st) =>
          if PyErr_Occurred st then (Option.none, st)
          else NpyArr_encodeLabels_loop labels stride n (dataptr + stride)
                 (ret ++ [cLabel]) st

/-- Source lines 1567-1733: `NpyArr_encodeLabels`.  The result is the label table
(`none` is the NULL return). -/
def NpyArr_encodeLabels (labels : Option (PyArrayObject PyObj)) (num : Int)
    (st : Encoder) : Option (List String) × Encoder :=
  match labels with
  | Option.none => (Option.none, st)
  | some labels =>
    if PyArray_SIZE labels < num then (Option.none, PyErr_Set PyExc.ValueError st)
    else
      match PyObject_Malloc st with
      | (false, st) => (Option.none, PyErr_Set PyExc.MemoryError st)
      | (true, st) =>
        NpyArr_encodeLabels_loop labels (PyArray_STRIDE labels 0) num.toNat labels.data [] st

/-! ## Scalar conversion functions (source lines 388-604) -/

/-- The nested JSON value the driver emits for a node. -/
inductive JSONValue where
  | null
  | true
  | false
  | long (v : Int)
  | double (v : Double)
  | utf8 (s : Option String)
  | array (items : List JSONValue)
  | object (members : List (Option String × JSONValue))
  | invalid

/-- Source lines 415-447: `PandasDateTimeStructToJSON`.  `outLong` tells whether
`outValue` points to a `JSINT64`; the epoch value written through it is stored in
`longValue`. -/
def PandasDateTimeStructToJSON (info : PyDateTimeInfo) (outLong : Bool)
    (tc : TypeContext) (st : Encoder) : Option String × TypeContext × Encoder :=
  if st.datetimeIso then
    match PyObject_Malloc st with
    | (false, st) =>
      (Option.none, { tc with cStr := Option.none },
        { (PyErr_Set PyExc.MemoryError st) with errorMsg := some "" })
    | (true, st) =>
      match info.iso8601 st.datetimeUnit with
      | some text => (some text, { tc with cStr := some text }, st)
      | Option.none =>
        (Option.none, tc, { (PyErr_Set PyExc.ValueError st) with errorMsg := some "" })
  else if outLong then
    (Option.none, { tc with longValue := info.epoch st.datetimeUnit }, st)
  else (Option.none, tc, { st with fault := true })

/-- Source lines 449-459: `NpyDateTimeScalarToJSON`. -/
def NpyDateTimeScalarToJSON (info : PyDateTimeInfo) (outLong : Bool)
    (tc : TypeContext) (st : Encoder) : Option String × TypeContext × Encoder :=
  PandasDateTimeStructToJSON info outLong tc st

/-- Source lines 461-479: `PyDateTimeToJSON`. -/
def PyDateTimeToJSON (info : PyDateTimeInfo) (outLong : Bool)
    (tc : TypeContext) (st : Encoder) : Option String × TypeContext × Encoder :=
  if info.convertible then PandasDateTimeStructToJSON info outLong tc st
  else
    let st := if PyErr_Occurred st then st else PyErr_Set PyExc.ValueError st
    (Option.none, tc, { st with errorMsg := some "" })

/-- The datetime payload of an object handed to a date conversion function. -/
def dateTimeInfoOf : PyObj → PyDateTimeInfo
  | .datetime info => info
  | .npDatetime _ info => info
  | _ => { convertible := false, epoch := fun _ => 0, iso8601 := fun _ => Option.none }

/-- Source lines 520-604: `NpyTypeToJSONType`.  `st.loadDouble npyType value` and
`st.loadInt npyType value` are the element stored at `value` read as `npyType`;
the cast to `NPY_INT64` wraps. -/
def NpyTypeToJSONType (tc : TypeContext) (npyType value : Int) (st : Encoder) :
    JSTYPES × TypeContext :=
  if PyTypeNum_ISFLOAT npyType then
    let doubleVal := st.loadDouble npyType value
    if npy_isnan doubleVal || npy_isinf doubleVal then (JSTYPES.JT_NULL, tc)
    else (JSTYPES.JT_DOUBLE, { tc with doubleValue := doubleVal })
  else if PyTypeNum_ISDATETIME npyType then
    let longVal := wrapInt64 (st.loadInt npyType value)
    if longVal = get_nat then (JSTYPES.JT_NULL, tc)
    else if st.datetimeIso then
      (JSTYPES.JT_UTF8,
        { tc with longValue := longVal,
                  PyTypeToJSON := some PyTypeToJSONFn.NpyDatetime64ToJSON })
    else
      (JSTYPES.JT_LONG, { tc with longValue := (scaleToUnit st.datetimeUnit longVal).getD longVal })
  else if PyTypeNum_ISINTEGER npyType then
    (JSTYPES.JT_LONG, { tc with longValue := wrapInt64 (st.loadInt npyType value) })
  else if PyTypeNum_ISBOOL npyType then
    (if st.loadBool value then JSTYPES.JT_TRUE else JSTYPES.JT_FALSE, tc)
  else (JSTYPES.JT_INVALID, tc)

/-- The call `PyLong_AsLongLong`: `-1` with `OverflowError` raised when the value
does not fit. -/
def PyLong_AsLongLong (v : Int) (st : Encoder) : Int × Encoder :=
  if NPY_MIN_INT64 ≤ v ∧ v ≤ NPY_MAX_INT64 then (v, st)
  else (-1, PyErr_Set PyExc.OverflowError st)

/-- The test `exc && PyErr_ExceptionMatches(PyExc_OverflowError)`. -/
def overflowPending (st : Encoder) : Bool :=
  decide (st.pyErr = some PyExc.OverflowError)

/-! ## Type classification (source lines 1735-2276) -/

/-- The encoder's `basicTypeContext`, used for a pending primitive: the fields
`objToJSON` initialises are NULL. -/
def basicTypeContext : TypeContext :=
  { iterBegin := Option.none, iterEnd := Option.none, iterNext := Option.none,
    iterGetName := Option.none, iterGetValue := Option.none,
    PyTypeToJSON := Option.none, newObj := Option.none, dictObj := Option.none,
    index := 0, size := 0, itemValue := Option.none, itemName := Option.none,
    attrList := Option.none, iterator := Option.none,
    doubleValue := Double.finite 0 0, longValue := 0, cStr := Option.none,
    npyarr := Option.none, pdblock := Option.none, transpose := false,
    rowLabels := Option.none, columnLabels := Option.none,
    rowLabelsLen := 0, columnLabelsLen := 0 }

/-- Source lines 1735-1749: `Object_invokeDefaultHandler`.  `encode` is the
driver's recursive entry point; the call is logged in `handlerCalls`.  The
result is what the nested `encode` emitted, if it ran. -/
def Object_invokeDefaultHandler (encode : Option PyObj → Encoder → JSONValue × Encoder)
    (obj : Option PyObj) (st : Encoder) : Option JSONValue × Encoder :=
  match st.defaultHandler with
  | Option.none => (Option.none, { st with fault := true })
  | some handler =>
    let st := { st with handlerCalls := st.handlerCalls ++ [obj] }
    match handler obj with
    | HandlerResult.raised e => (Option.none, PyErr_Set e st)
    | HandlerResult.null =>
      if PyErr_Occurred st then (Option.none, st)
      else (Option.none, PyErr_Set PyExc.TypeError st)
    | HandlerResult.returned tmpObj =>
      if PyErr_Occurred st then (Option.none, st)
      else
        let r := encode (some tmpObj) st
        (some r.1, r.2)

/-- The label `INVALID:` of `Object_beginTypeContext` (source lines 2271-2275). -/
def invalidContext : JSONTypeContext :=
  { type := JSTYPES.JT_INVALID, prv := Option.none, isBasic := false }

/-- A classified leaf or container: `tc->type = t` with private context `pc`. -/
def typed (t : JSTYPES) (pc : TypeContext) : JSONTypeContext :=
  { type := t, prv := some pc, isBasic := false }

/-- The five assignments installing the array walker (for example source lines
1984-1988). -/
def installNpyArr (pc : TypeContext) : TypeContext :=
  { pc with iterBegin := some IterBeginFn.NpyArr_iterBegin,
            iterEnd := some IterEndFn.NpyArr_iterEnd,
            iterNext := some IterNextFn.NpyArr_iterNext,
            iterGetValue := some IterGetValueFn.NpyArr_iterGetValue,
            iterGetName := some IterGetNameFn.NpyArr_iterGetName }

/-- The five assignments installing the dict iterator (source lines 2186-2191). -/
def installDict (pc : TypeContext) (dictObj : PyObj) : TypeContext :=
  { pc with iterBegin := some IterBeginFn.Dict_iterBegin,
            iterEnd := some IterEndFn.Dict_iterEnd,
            iterNext := some IterNextFn.Dict_iterNext,
            iterGetValue := some IterGetValueFn.Dict_iterGetValue,
            iterGetName := some IterGetNameFn.Dict_iterGetName,
            dictObj := some dictObj }

/-- Source lines 2110-2182: the orientation part of the table branch, after the
walker has been chosen. -/
def beginDataFrameOrient (obj : PyObj) (pc : TypeContext) (st : Encoder) :
    JSONTypeContext × Encoder :=
  match st.outputFormat with
  | PANDAS_FORMAT.VALUES => (typed JSTYPES.JT_ARRAY pc, st)
  | PANDAS_FORMAT.RECORDS =>
    match getAttr_columns obj with
    | Option.none => (invalidContext, PyErr_Set PyExc.Other st)
    | some tmpObj =>
      match get_values tmpObj with
      | Option.none => (invalidContext, PyErr_Set PyExc.ValueError st)
      | some values =>
        let pc := { pc with columnLabelsLen := PyObject_Length tmpObj }
        match NpyArr_encodeLabels (some values) pc.columnLabelsLen st with
        | (Option.none, st) => (invalidContext, st)
        | (some labels, st) =>
          (typed JSTYPES.JT_ARRAY { pc with columnLabels := some labels }, st)
  | PANDAS_FORMAT.SPLIT => (invalidContext, st)
  | fmt =>
    match (if fmt = PANDAS_FORMAT.INDEX then getAttr_index obj else getAttr_columns obj) with
    | Option.none => (invalidContext, PyErr_Set PyExc.Other st)
    | some tmpObj =>
      match get_values tmpObj with
      | Option.none => (invalidContext, PyErr_Set PyExc.ValueError st)
      | some values =>
        let pc := { pc with rowLabelsLen := PyObject_Length tmpObj }
        let r := NpyArr_encodeLabels (some values) pc.rowLabelsLen st
        let pc := { pc with rowLabels := r.1 }
        let st := r.2
        match (if fmt = PANDAS_FORMAT.INDEX then getAttr_columns obj
               else getAttr_index obj) with
        | Option.none => (invalidContext, PyErr_Set PyExc.Other st)
        | some tmpObj =>
          match get_values tmpObj with
          | Option.none => (invalidContext, PyErr_Set PyExc.ValueError st)
          | some values =>
            let pc := { pc with columnLabelsLen := PyObject_Length tmpObj }
            match NpyArr_encodeLabels (some values) pc.columnLabelsLen st with
            | (Option.none, st) => (invalidContext, st)
            | (some labels, st) =>
              let pc := { pc with columnLabels := some labels }
              let pc := if fmt = PANDAS_FORMAT.COLUMNS then { pc with transpose := true }
                        else pc
              (typed JSTYPES.JT_OBJECT pc, st)

/-- Source lines 1966-2269: the part of `Object_beginTypeContext` after the label
`ISITERABLE:`.  The second component is what a nested `encode` (default
handler) emitted. -/
def beginIterable (encode : Option PyObj → Encoder → JSONValue × Encoder)
    (obj : PyObj) (pc : TypeContext) (st : Encoder) :
    JSONTypeContext × Option JSONValue × Encoder :=
  match obj with
  | .index _ _ _ =>
    if st.outputFormat = PANDAS_FORMAT.SPLIT then
      (typed JSTYPES.JT_OBJECT
        { pc with iterBegin := some IterBeginFn.Index_iterBegin,
                  iterEnd := some IterEndFn.Index_iterEnd,
                  iterNext := some IterNextFn.Index_iterNext,
                  iterGetValue := some IterGetValueFn.Index_iterGetValue,
                  iterGetName := some IterGetNameFn.Index_iterGetName }, Option.none, st)
    else
      match get_values obj with
      | some v =>
        (typed JSTYPES.JT_ARRAY (installNpyArr { pc with newObj := some (PyObj.ndarray v) }),
          Option.none, st)
      | Option.none => (invalidContext, Option.none, PyErr_Set PyExc.ValueError st)
  | .series _ _ _ =>
    if st.outputFormat = PANDAS_FORMAT.SPLIT then
      (typed JSTYPES.JT_OBJECT
        { pc with iterBegin := some IterBeginFn.Series_iterBegin,
                  iterEnd := some IterEndFn.Series_iterEnd,
                  iterNext := some IterNextFn.Series_iterNext,
                  iterGetValue := some IterGetValueFn.Series_iterGetValue,
                  iterGetName := some IterGetNameFn.Series_iterGetName }, Option.none, st)
    else
      match get_values obj with
      | Option.none => (invalidContext, Option.none, PyErr_Set PyExc.ValueError st)
      | some newObj =>
        let pc := { pc with newObj := some (PyObj.ndarray newObj) }
        if st.outputFormat = PANDAS_FORMAT.INDEX ∨ st.outputFormat = PANDAS_FORMAT.COLUMNS then
          match getAttr_index obj with
          | Option.none => (invalidContext, Option.none, PyErr_Set PyExc.Other st)
          | some tmpObj =>
            match get_values tmpObj with
            | Option.none => (invalidContext, Option.none, PyErr_Set PyExc.ValueError st)
            | some values =>
              let pc := { pc with columnLabelsLen := PyArray_DIM newObj 0 }
              match NpyArr_encodeLabels (some values) pc.columnLabelsLen st with
              | (Option.none, st) => (invalidContext, Option.none, st)
              | (some labels, st) =>
                (typed JSTYPES.JT_OBJECT (installNpyArr { pc with columnLabels := some labels }),
                  Option.none, st)
        else (typed JSTYPES.JT_ARRAY (installNpyArr pc), Option.none, st)
  | .ndarray _ =>
    match st.npyCtxtPassthru with
    | some p =>
      let pc := { pc with npyarr := some p }
      let t := if (npyLoad st pc.npyarr).columnLabels.isSome then JSTYPES.JT_OBJECT
               else JSTYPES.JT_ARRAY
      (typed t
        { pc with iterBegin := some IterBeginFn.NpyArrPassThru_iterBegin,
                  iterNext := some IterNextFn.NpyArr_iterNext,
                  iterEnd := some IterEndFn.NpyArrPassThru_iterEnd,
                  iterGetValue := some IterGetValueFn.NpyArr_iterGetValue,
                  iterGetName := some IterGetNameFn.NpyArr_iterGetName },
        Option.none, { st with npyCtxtPassthru := Option.none })
    | Option.none => (typed JSTYPES.JT_ARRAY (installNpyArr pc), Option.none, st)
  | .dataframe _ _ _ _ _ =>
    match st.blkCtxtPassthru with
    | some p =>
      let pc := { pc with pdblock := some p }
      let blkCtxt := blkLoad st pc.pdblock
      let t := if (npyLoad st (ctxtsAt blkCtxt.npyCtxts 0)).columnLabels.isSome then
                 JSTYPES.JT_OBJECT
               else JSTYPES.JT_ARRAY
      (typed t
        { pc with iterBegin := some IterBeginFn.PdBlockPassThru_iterBegin,
                  iterEnd := some IterEndFn.PdBlockPassThru_iterEnd,
                  iterNext := some IterNextFn.PdBlock_iterNextItem,
                  iterGetName := some IterGetNameFn.PdBlock_iterGetName,
                  iterGetValue := some IterGetValueFn.NpyArr_iterGetValue },
        Option.none, { st with blkCtxtPassthru := Option.none })
    | Option.none =>
      if st.outputFormat = PANDAS_FORMAT.SPLIT then
        (typed JSTYPES.JT_OBJECT
          { pc with iterBegin := some IterBeginFn.DataFrame_iterBegin,
                    iterEnd := some IterEndFn.DataFrame_iterEnd,
                    iterNext := some IterNextFn.DataFrame_iterNext,
                    iterGetValue := some IterGetValueFn.DataFrame_iterGetValue,
                    iterGetName := some IterGetNameFn.DataFrame_iterGetName },
          Option.none, st)
      else if is_simple_frame obj then
        let pc := { pc with iterBegin := some IterBeginFn.NpyArr_iterBegin,
                            iterEnd := some IterEndFn.NpyArr_iterEnd,
                            iterNext := some IterNextFn.NpyArr_iterNext,
                            iterGetName := some IterGetNameFn.NpyArr_iterGetName }
        match get_values obj with
        | Option.none => (invalidContext, Option.none, PyErr_Set PyExc.ValueError st)
        | some v =>
          let pc := { pc with newObj := some (PyObj.ndarray v),
                              iterGetValue := some IterGetValueFn.NpyArr_iterGetValue }
          let r := beginDataFrameOrient obj pc st
          (r.1, Option.none, r.2)
      else
        let pc := { pc with iterBegin := some IterBeginFn.PdBlock_iterBegin,
                            iterEnd := some IterEndFn.PdBlock_iterEnd,
                            iterNext := some IterNextFn.PdBlock_iterNext,
                            iterGetName := some IterGetNameFn.PdBlock_iterGetName,
                            iterGetValue := some IterGetValueFn.NpyArr_iterGetValue }
        let r := beginDataFrameOrient obj pc st
        (r.1, Option.none, r.2)
  | .dict _ => (typed JSTYPES.JT_OBJECT (installDict pc obj), Option.none, st)
  | .list _ =>
    (typed JSTYPES.JT_ARRAY
      { pc with iterBegin := some IterBeginFn.List_iterBegin,
                iterEnd := some IterEndFn.List_iterEnd,
                iterNext := some IterNextFn.List_iterNext,
                iterGetValue := some IterGetValueFn.List_iterGetValue,
                iterGetName := some IterGetNameFn.List_iterGetName }, Option.none, st)
  | .tuple _ =>
    (typed JSTYPES.JT_ARRAY
      { pc with iterBegin := some IterBeginFn.Tuple_iterBegin,
                iterEnd := some IterEndFn.Tuple_iterEnd,
                iterNext := some IterNextFn.Tuple_iterNext,
                iterGetValue := some IterGetValueFn.Tuple_iterGetValue,
                iterGetName := some IterGetNameFn.Tuple_iterGetName }, Option.none, st)
  | .set _ =>
    (typed JSTYPES.JT_ARRAY
      { pc with iterBegin := some IterBeginFn.Iter_iterBegin,
                iterEnd := some IterEndFn.Iter_iterEnd,
                iterNext := some IterNextFn.Iter_iterNext,
                iterGetValue := some IterGetValueFn.Iter_iterGetValue,
                iterGetName := some IterGetNameFn.Iter_iterGetName }, Option.none, st)
  | other =>
    let toDict : Option (Option PyObj) :=
      match other with
      | .inst _ _ _ _ toDict => toDict
      | _ => Option.none
    match toDict with
    | some Option.none =>
      ({ type := JSTYPES.JT_NULL, prv := some pc, isBasic := false }, Option.none,
        { st with pyErr := Option.none })
    | some (some toDictResult) =>
      match toDictResult with
      | .dict _ => (typed JSTYPES.JT_OBJECT (installDict pc toDictResult), Option.none, st)
      | _ => ({ type := JSTYPES.JT_NULL, prv := some pc, isBasic := false }, Option.none, st)
    | Option.none =>
      let st := { st with pyErr := Option.none }
      if st.defaultHandler.isSome then
        let r := Object_invokeDefaultHandler encode (some obj) st
        (invalidContext, r.1, r.2)
      else
        (typed JSTYPES.JT_OBJECT
          { pc with iterBegin := some IterBeginFn.Dir_iterBegin,
                    iterEnd := some IterEndFn.Dir_iterEnd,
                    iterNext := some IterNextFn.Dir_iterNext,
                    iterGetValue := some IterGetValueFn.Dir_iterGetValue,
                    iterGetName := some IterGetNameFn.Dir_iterGetName }, Option.none, st)

/-- Source lines 1816-1964: the leaf checks of `Object_beginTypeContext`, tried
after the iterable test and before the label `ISITERABLE:`.  `none` means that
no leaf check applies and control falls through to `ISITERABLE:`. -/
def beginLeaf (obj : PyObj) (pc : TypeContext) (st : Encoder) :
    Option (JSONTypeContext × Encoder) :=
  match obj with
  | .long v =>
    let r := PyLong_AsLongLong v st
    let pc := { pc with longValue := r.1 }
    if overflowPending r.2 then some (invalidContext, r.2)
    else some (typed JSTYPES.JT_LONG pc, r.2)
  | .float val =>
    if npy_isnan val || npy_isinf val then some (typed JSTYPES.JT_NULL pc, st)
    else some (typed JSTYPES.JT_DOUBLE { pc with doubleValue := val }, st)
  | .bytes _ =>
    some (typed JSTYPES.JT_UTF8 { pc with PyTypeToJSON := some PyTypeToJSONFn.PyBytesToUTF8 }, st)
  | .unicode _ =>
    some (typed JSTYPES.JT_UTF8
      { pc with PyTypeToJSON := some PyTypeToJSONFn.PyUnicodeToUTF8 }, st)
  | .decimal asDouble =>
    some (typed JSTYPES.JT_DOUBLE { pc with doubleValue := asDouble }, st)
  | .nat => some (typed JSTYPES.JT_NULL pc, st)
  | .datetime info =>
    if st.datetimeIso then
      some (typed JSTYPES.JT_UTF8
        { pc with PyTypeToJSON := some PyTypeToJSONFn.PyDateTimeToJSON }, st)
    else
      let r := PyDateTimeToJSON info true pc st
      some (typed JSTYPES.JT_LONG r.2.1, r.2.2)
  | .time _ =>
    some (typed JSTYPES.JT_UTF8 { pc with PyTypeToJSON := some PyTypeToJSONFn.PyTimeToJSON }, st)
  | .npDatetime obval _ =>
    if obval = get_nat then some (typed JSTYPES.JT_NULL pc, st)
    else
      some (typed (if st.datetimeIso then JSTYPES.JT_UTF8 else JSTYPES.JT_LONG)
        { pc with PyTypeToJSON := some PyTypeToJSONFn.NpyDateTimeScalarToJSON }, st)
  | .timedelta attrValue totalSecondsNs =>
    let r : Int × Encoder :=
      match attrValue with
      | some v => PyLong_AsLongLong v st
      | Option.none => (totalSecondsNs, st)
    let value := (scaleToUnit r.2.datetimeUnit r.1).getD r.1
    if overflowPending r.2 then some (invalidContext, r.2)
    else if value = get_nat then some (typed JSTYPES.JT_NULL pc, r.2)
    else some (typed JSTYPES.JT_LONG { pc with longValue := value }, r.2)
  | .npInteger _ v =>
    let pc := { pc with longValue := wrapInt64 v }
    if overflowPending st then some (invalidContext, st)
    else some (typed JSTYPES.JT_LONG pc, st)
  | .npBool b =>
    some (typed (if b then JSTYPES.JT_TRUE else JSTYPES.JT_FALSE)
      { pc with longValue := if b then 1 else 0 }, st)
  | .npFloat v => some (typed JSTYPES.JT_DOUBLE { pc with doubleValue := v }, st)
  | .ndarray _ =>
    if PyArray_CheckScalar obj then some (invalidContext, PyErr_Set PyExc.TypeError st)
    else Option.none
  | _ => Option.none

/-- Source lines 1751-2276: `Object_beginTypeContext`.  The argument `none` is the
NULL object.  The second component of the result is what a nested `encode`
(run by the default handler) emitted during the call. -/
def Object_beginTypeContext (encode : Option PyObj → Encoder → JSONValue × Encoder)
    (_obj : Option PyObj) (st : Encoder) : JSONTypeContext × Option JSONValue × Encoder :=
  match _obj with
  | Option.none => (invalidContext, Option.none, st)
  | some obj =>
    if st.npyType ≥ 0 then
      let r := NpyTypeToJSONType basicTypeContext st.npyType st.npyValue st
      let tc : JSONTypeContext := { type := r.1, prv := some r.2, isBasic := true }
      if r.1 = JSTYPES.JT_INVALID then
        if st.defaultHandler.isSome then
          let st := { st with npyType := -1 }
          let item := ((npyLoad st st.npyCtxtPassthru).array.getD noArray).getitem st.npyValue
          let h := Object_invokeDefaultHandler encode item st
          (tc, h.1, { h.2 with npyCtxtPassthru := Option.none, npyType := -1 })
        else
          (tc, Option.none,
            { (PyErr_Set PyExc.RuntimeError st) with npyCtxtPassthru := Option.none,
                                                     npyType := -1 })
      else (tc, Option.none, { st with npyCtxtPassthru := Option.none, npyType := -1 })
    else if PyBool_Check obj then
      ({ type := if obj matches PyObj.bool true then JSTYPES.JT_TRUE else JSTYPES.JT_FALSE,
         prv := Option.none, isBasic := false }, Option.none, st)
    else if obj matches PyObj.none then
      ({ type := JSTYPES.JT_NULL, prv := Option.none, isBasic := false }, Option.none, st)
    else
      match createTypeContext st with
      | (Option.none, st) => (invalidContext, Option.none, st)
      | (some pc, st) =>
        if PyIter_Check obj || (PyArray_Check obj && !PyArray_CheckScalar obj) then
          beginIterable encode obj pc st
        else
          match beginLeaf obj pc st with
          | some r => (r.1, Option.none, r.2)
          | Option.none => beginIterable encode obj pc st

/-- Source lines 2278-2297: `Object_endTypeContext` (it only releases memory). -/
def Object_endTypeContext (_obj : Option PyObj) (_tc : JSONTypeContext) (st : Encoder) :
    Encoder :=
  st

/-- Source lines 388-413 and 481-518, with the dispatch of
`Object_getStringValue` (source lines 2299-2302) on `PyTypeToJSON`; the call
passes `outValue = NULL`. -/
def Object_getStringValue (obj : Option PyObj) (tc : TypeContext) (st : Encoder) :
    Option String × TypeContext × Encoder :=
  match tc.PyTypeToJSON with
  | some PyTypeToJSONFn.PyBytesToUTF8 =>
    (match obj with
      | some (.bytes s) => some s
      | _ => Option.none, tc, st)
  | some PyTypeToJSONFn.PyUnicodeToUTF8 =>
    (match obj with
      | some (.unicode s) => some s
      | _ => Option.none, tc, st)
  | some PyTypeToJSONFn.NpyDateTimeScalarToJSON =>
    NpyDateTimeScalarToJSON (dateTimeInfoOf (obj.getD PyObj.none)) false tc st
  | some PyTypeToJSONFn.PyDateTimeToJSON =>
    PyDateTimeToJSON (dateTimeInfoOf (obj.getD PyObj.none)) false tc st
  | some PyTypeToJSONFn.NpyDatetime64ToJSON =>
    PandasDateTimeStructToJSON (st.py.datetime64 tc.longValue) false tc st
  | some PyTypeToJSONFn.PyTimeToJSON =>
    match obj with
    | some (.time (some str)) => (some str, tc, st)
    | _ =>
      let st := if PyErr_Occurred st then st else PyErr_Set PyExc.ValueError st
      (Option.none, tc, { st with errorMsg := some "" })
  | Option.none => (Option.none, tc, { st with fault := true })

/-- Source lines 2304-2306: `Object_getLongValue`. -/
def Object_getLongValue (tc : TypeContext) : Int := tc.longValue

/-- Source lines 2308-2310: `Object_getDoubleValue`. -/
def Object_getDoubleValue (tc : TypeContext) : Double := tc.doubleValue

/-- Source lines 2314-2316: `Object_iterBegin`, the dispatch on `iterBegin`. -/
def Object_iterBegin (obj : PyObj) (tc : TypeContext) (st : Encoder) :
    TypeContext × Encoder :=
  match tc.iterBegin with
  | some IterBeginFn.NpyArr_iterBegin => NpyArr_iterBegin obj tc st
  | some IterBeginFn.NpyArrPassThru_iterBegin => NpyArrPassThru_iterBegin obj tc st
  | some IterBeginFn.PdBlock_iterBegin => PdBlock_iterBegin obj tc st
  | some IterBeginFn.PdBlockPassThru_iterBegin => PdBlockPassThru_iterBegin obj tc st
  | some IterBeginFn.Tuple_iterBegin => (Tuple_iterBegin obj tc, st)
  | some IterBeginFn.Iter_iterBegin => (Iter_iterBegin obj tc, st)
  | some IterBeginFn.Dir_iterBegin => (Dir_iterBegin obj tc, st)
  | some IterBeginFn.List_iterBegin => (List_iterBegin obj tc, st)
  | some IterBeginFn.Index_iterBegin => Index_iterBegin obj tc st
  | some IterBeginFn.Series_iterBegin => Series_iterBegin obj tc st
  | some IterBeginFn.DataFrame_iterBegin => DataFrame_iterBegin obj tc st
  | some IterBeginFn.Dict_iterBegin => (Dict_iterBegin obj tc, st)
  | Option.none => (tc, { st with fault := true })

/-- Source lines 2318-2320: `Object_iterNext`, the dispatch on `iterNext`. -/
def Object_iterNext (obj : PyObj) (tc : TypeContext) (st : Encoder) :
    Bool × TypeContext × Encoder :=
  match tc.iterNext with
  | some IterNextFn.NpyArr_iterNextNone => NpyArr_iterNextNone obj tc st
  | some IterNextFn.NpyArr_iterNextItem => NpyArr_iterNextItem obj tc st
  | some IterNextFn.NpyArr_iterNext => NpyArr_iterNext obj tc st
  | some IterNextFn.PdBlock_iterNextItem => PdBlock_iterNextItem obj tc st
  | some IterNextFn.PdBlock_iterNext => PdBlock_iterNext obj tc st
  | some IterNextFn.Tuple_iterNext => ((Tuple_iterNext obj tc).1, (Tuple_iterNext obj tc).2, st)
  | some IterNextFn.Iter_iterNext => ((Iter_iterNext obj tc).1, (Iter_iterNext obj tc).2, st)
  | some IterNextFn.Dir_iterNext => ((Dir_iterNext obj tc st).1, (Dir_iterNext obj tc st).2, st)
  | some IterNextFn.List_iterNext => ((List_iterNext obj tc).1, (List_iterNext obj tc).2, st)
  | some IterNextFn.Index_iterNext => Index_iterNext obj tc st
  | some IterNextFn.Series_iterNext => Series_iterNext obj tc st
  | some IterNextFn.DataFrame_iterNext => DataFrame_iterNext obj tc st
  | some IterNextFn.Dict_iterNext =>
    ((Dict_iterNext obj tc st).1, (Dict_iterNext obj tc st).2, st)
  | Option.none => (false, tc, { st with fault := true })

/-- Source lines 2322-2324: `Object_iterEnd`, the dispatch on `iterEnd`. -/
def Object_iterEnd (obj : PyObj) (tc : TypeContext) (st : Encoder) :
    TypeContext × Encoder :=
  match tc.iterEnd with
  | some IterEndFn.NpyArr_iterEnd => NpyArr_iterEnd obj tc st
  | some IterEndFn.NpyArrPassThru_iterEnd => NpyArrPassThru_iterEnd obj tc st
  | some IterEndFn.PdBlock_iterEnd => PdBlock_iterEnd obj tc st
  | some IterEndFn.PdBlockPassThru_iterEnd => PdBlockPassThru_iterEnd obj tc st
  | some IterEndFn.Tuple_iterEnd => (tc, st)
  | some IterEndFn.Iter_iterEnd => (Iter_iterEnd obj tc, st)
  | some IterEndFn.Dir_iterEnd => (Dir_iterEnd obj tc, st)
  | some IterEndFn.List_iterEnd => (tc, st)
  | some IterEndFn.Index_iterEnd => (tc, st)
  | some IterEndFn.Series_iterEnd => Series_iterEnd obj tc st
  | some IterEndFn.DataFrame_iterEnd => DataFrame_iterEnd obj tc st
  | some IterEndFn.Dict_iterEnd => (Dict_iterEnd obj tc, st)
  | Option.none => (tc, { st with fault := true })

/-- Source lines 2326-2328: `Object_iterGetValue`; every `*_iterGetValue` returns
`GET_TC(tc)->itemValue`. -/
def Object_iterGetValue (_obj : PyObj) (tc : TypeContext) : Option PyObj :=
  tc.itemValue

/-- Source lines 2330-2332: `Object_iterGetName`, the dispatch on `iterGetName`. -/
def Object_iterGetName (obj : PyObj) (tc : TypeContext) (st : Encoder) : Option String :=
  match tc.iterGetName with
  | some IterGetNameFn.NpyArr_iterGetName => NpyArr_iterGetName obj tc st
  | some IterGetNameFn.PdBlock_iterGetName => PdBlock_iterGetName obj tc st
  | some IterGetNameFn.PdBlock_iterGetName_Transpose => PdBlock_iterGetName_Transpose obj tc st
  | some IterGetNameFn.Dir_iterGetName => Dir_iterGetName obj tc
  | some IterGetNameFn.Index_iterGetName => tc.cStr
  | some IterGetNameFn.Series_iterGetName => tc.cStr
  | some IterGetNameFn.DataFrame_iterGetName => tc.cStr
  | some IterGetNameFn.Dict_iterGetName => tc.itemName
  | some IterGetNameFn.Tuple_iterGetName => Option.none
  | some IterGetNameFn.Iter_iterGetName => Option.none
  | some IterGetNameFn.List_iterGetName => Option.none
  | Option.none => Option.none

/-! ## The recursive driver and the entry point -/

/-- Modelled from the spec: the iteration loop of the RecursiveDriver (the
function `encode` of `ultrajsonenc.c`, which is not among the sources).  The
driver "repeatedly calls next/getValue/getName, recursing into each child ...
until the iterator ends".  `named` tells whether the container is an object;
the first argument bounds the number of rounds. -/
def iterLoop (encodeChild : Option PyObj → Encoder → JSONValue × Encoder) (named : Bool)
    (obj : PyObj) : Nat → TypeContext → Encoder →
    List (Option String × JSONValue) × TypeContext × Encoder
  | 0, tc, st => ([], tc, st)
  | k + 1, tc, st =>
    match Object_iterNext obj tc st with
    | (false, tc, st) => ([], tc, st)
    | (true, tc, st) =>
      let iterObj := Object_iterGetValue obj tc
      let objName := if named then Object_iterGetName obj tc st else Option.none
      let c := encodeChild iterObj st
      let r := iterLoop encodeChild named obj k tc c.2
      ((objName, c.1) :: r.1, r.2.1, r.2.2)

/-- Modelled from the spec: the RecursiveDriver (the function `encode` of
`ultrajsonenc.c`, which is not among the sources).  It "calls Dispatcher on the
root; for containers, Dispatcher installs an iterator and the driver repeatedly
calls next/getValue/getName, recursing into each child via Dispatcher again,
until the iterator ends"; "recursion depth is bounded by a caller-configured
maximum enforced by the driver".  The second argument is that remaining depth;
`loopFuel` bounds the rounds of each iteration loop.  The emitted text is
represented by its `JSONValue`. -/
def encode (loopFuel : Nat) : Nat → Option PyObj → Encoder → JSONValue × Encoder
  | 0, _, st => (JSONValue.invalid, { st with errorMsg := some "Maximum recursion level reached" })
  | depth + 1, obj, st =>
    match Object_beginTypeContext (encode loopFuel depth) obj st with
    | (tc, emitted, st) =>
      match tc.type, tc.prv, obj with
      | JSTYPES.JT_INVALID, _, _ => (emitted.getD JSONValue.invalid, st)
      | JSTYPES.JT_ARRAY, some pc, some o =>
        let b := Object_iterBegin o pc st
        let r := iterLoop (encode loopFuel depth) false o loopFuel b.1 b.2
        let e := Object_iterEnd o r.2.1 r.2.2
        (JSONValue.array (r.1.map Prod.snd), Object_endTypeContext obj tc e.2)
      | JSTYPES.JT_OBJECT, some pc, some o =>
        let b := Object_iterBegin o pc st
        let r := iterLoop (encode loopFuel depth) true o loopFuel b.1 b.2
        let e := Object_iterEnd o r.2.1 r.2.2
        (JSONValue.object r.1, Object_endTypeContext obj tc e.2)
      | JSTYPES.JT_LONG, some pc, _ =>
        (JSONValue.long (Object_getLongValue pc), Object_endTypeContext obj tc st)
      | JSTYPES.JT_INT, some pc, _ =>
        (JSONValue.long (Object_getLongValue pc), Object_endTypeContext obj tc st)
      | JSTYPES.JT_DOUBLE, some pc, _ =>
        (JSONValue.double (Object_getDoubleValue pc), Object_endTypeContext obj tc st)
      | JSTYPES.JT_UTF8, some pc, _ =>
        let v := Object_getStringValue obj pc st
        (JSONValue.utf8 v.1, Object_endTypeContext obj tc v.2.2)
      | JSTYPES.JT_TRUE, _, _ => (JSONValue.true, Object_endTypeContext obj tc st)
      | JSTYPES.JT_FALSE, _, _ => (JSONValue.false, Object_endTypeContext obj tc st)
      | JSTYPES.JT_NULL, _, _ => (JSONValue.null, Object_endTypeContext obj tc st)
      | _, _, _ => (JSONValue.invalid, { st with fault := true })

/-- Modelled from the spec: the bound `JSON_DOUBLE_MAX_DECIMALS` of `ultrajson.h`
(not among the sources); the spec gives the digit count as "bounded, e.g.
0..15". -/
def JSON_DOUBLE_MAX_DECIMALS : Int := 15

/-- Modelled from the spec: the default `JSON_MAX_RECURSION_DEPTH` of
`ultrajson.h` (not among the sources), the "caller-configured maximum" of the
recursion depth. -/
def JSON_MAX_RECURSION_DEPTH : Nat := 1024

/-- The keyword arguments of `objToJSON` after `PyArg_ParseTupleAndKeywords`; an
absent argument is `none`.  `default_handler` is `some none` for a value that is
not callable. -/
structure Args where
  obj : PyObj
  ensure_ascii : Option Bool
  double_precision : Option Int
  encode_html_chars : Option Bool
  orient : Option String
  date_unit : Option String
  iso_dates : Option Bool
  default_handler : Option (Option (Option PyObj → HandlerResult))
  indent : Option Int

/-- Source lines 2428-2442: the orientation selected by the `orient` string. -/
def parseOrient (sOrient : Option String) : Except PyExc PANDAS_FORMAT :=
  match sOrient with
  | Option.none => Except.ok PANDAS_FORMAT.COLUMNS
  | some s =>
    if s = "records" then Except.ok PANDAS_FORMAT.RECORDS
    else if s = "index" then Except.ok PANDAS_FORMAT.INDEX
    else if s = "split" then Except.ok PANDAS_FORMAT.SPLIT
    else if s = "values" then Except.ok PANDAS_FORMAT.VALUES
    else if s ≠ "columns" then Except.error PyExc.ValueError
    else Except.ok PANDAS_FORMAT.COLUMNS

/-- Source lines 2444-2459: the date unit selected by the `date_unit` string. -/
def parseDateUnit (sdateFormat : Option String) : Except PyExc NPY_DATETIMEUNIT :=
  match sdateFormat with
  | Option.none => Except.ok NPY_DATETIMEUNIT.NPY_FR_ms
  | some s =>
    if s = "s" then Except.ok NPY_DATETIMEUNIT.NPY_FR_s
    else if s = "ms" then Except.ok NPY_DATETIMEUNIT.NPY_FR_ms
    else if s = "us" then Except.ok NPY_DATETIMEUNIT.NPY_FR_us
    else if s = "ns" then Except.ok NPY_DATETIMEUNIT.NPY_FR_ns
    else Except.error PyExc.ValueError

/-- Source lines 2359-2475 of `objToJSON`: the encoder configured from the
arguments, or the exception raised while checking them.  `proc` is the process
state at the call (heap, allocator, memory, runtime). -/
def configureEncoder (proc : Encoder) (args : Args) : Except PyExc Encoder :=
  let idoublePrecision := args.double_precision.getD 10
  let st : Encoder :=
    { proc with npyCtxtPassthru := Option.none, blkCtxtPassthru := Option.none,
                npyType := -1, npyValue := 0, datetimeIso := false,
                datetimeUnit := NPY_DATETIMEUNIT.NPY_FR_ms,
                outputFormat := PANDAS_FORMAT.COLUMNS, defaultHandler := Option.none,
                doublePrecision := 10, forceASCII := true, encodeHTMLChars := false,
                indent := 0, errorMsg := Option.none }
  let st := if args.ensure_ascii = some false then { st with forceASCII := false } else st
  let st := if args.encode_html_chars = some true then { st with encodeHTMLChars := true }
            else st
  if idoublePrecision > JSON_DOUBLE_MAX_DECIMALS ∨ idoublePrecision < 0 then
    Except.error PyExc.ValueError
  else
    let st := { st with doublePrecision := idoublePrecision }
    match parseOrient args.orient with
    | Except.error e => Except.error e
    | Except.ok fmt =>
      let st := { st with outputFormat := fmt }
      match parseDateUnit args.date_unit with
      | Except.error e => Except.error e
      | Except.ok unit =>
        let st := { st with datetimeUnit := unit }
        let st := if args.iso_dates = some true then { st with datetimeIso := true } else st
        match args.default_handler with
        | some Option.none => Except.error PyExc.TypeError
        | handler =>
          let st := { st with defaultHandler := handler.join }
          let st := { st with indent := args.indent.getD 0 }
          Except.ok { st with originalOutputFormat := st.outputFormat }

/-- Source lines 2334-2503: `objToJSON`.  The result is the emitted value, or the
exception the caller receives; `JSON_EncodeObject` runs the driver on the
root. -/
def objToJSON (loopFuel : Nat) (proc : Encoder) (args : Args) : Except PyExc JSONValue :=
  match configureEncoder proc args with
  | Except.error e => Except.error e
  | Except.ok st =>
    let r := encode loopFuel JSON_MAX_RECURSION_DEPTH (some args.obj) st
    match r.2.pyErr with
    | some e => Except.error e
    | Option.none =>
      if r.2.errorMsg.isSome then Except.error PyExc.OverflowError
      else Except.ok r.1

/-- A Python runtime for the examples: `str` of a text or integer object. -/
def exampleRuntime : PyRuntime :=
  { str := fun o => match o with
      | .unicode s => some s
      | .long v => some (toString v)
      | _ => Option.none,
    timedeltaIsoformat := fun _ => Option.none,
    timestamp := fun _ => Option.none,
    datetime64 := fun _ =>
      { convertible := false, epoch := fun _ => 0, iso8601 := fun _ => Option.none } }

/-- A process state for the examples: no pending exception, empty heaps, an
allocator that never fails. -/
def exampleProcess : Encoder :=
  { npyCtxtPassthru := Option.none, blkCtxtPassthru := Option.none, npyType := -1, npyValue := 0,
    datetimeIso := false, datetimeUnit := NPY_DATETIMEUNIT.NPY_FR_ms,
    outputFormat := PANDAS_FORMAT.COLUMNS, originalOutputFormat := PANDAS_FORMAT.COLUMNS,
    defaultHandler := Option.none, errorMsg := Option.none, pyErr := Option.none,
    npyHeap := [], blkHeap := [], allocBudget := Option.none, uninit := fun _ => 0,
    loadDouble := fun _ _ => Double.nan, loadInt := fun _ _ => 0, loadBool := fun _ => false,
    handlerCalls := [], freed := [], fault := false, py := exampleRuntime,
    doublePrecision := 10, forceASCII := true, encodeHTMLChars := false, indent := 0 }

/-- The arguments `objToJSON(obj, orient=...)` with every other option absent. -/
def exampleArgs (obj : PyObj) (orient : Option String) : Args :=
  { obj := obj, ensure_ascii := Option.none, double_precision := Option.none,
    encode_html_chars := Option.none, orient := orient, date_unit := Option.none,
    iso_dates := Option.none, default_handler := Option.none, indent := Option.none }


/-- The allocator state after one successful `PyObject_Malloc`. -/
def afterMalloc (st : Encoder) : Encoder :=
  { st with allocBudget := st.allocBudget.map (fun n => n - 1) }

/-- The float list example of the spec: the dict with key a and value the list
1.0, 2.0, NaN. -/
def floatListExample : PyObj :=
  PyObj.dict [(PyObj.unicode "a",
    PyObj.list [PyObj.float (Double.finite 1 0), PyObj.float (Double.finite 2 0),
      PyObj.float Double.nan])]

/-- An object whose attribute listing is a, b, c, each a public attribute holding
an integer. -/
def threeAttrObject : PyObj :=
  PyObj.inst false false ["a", "b", "c"]
    (fun name => if name = "a" then some (PyObj.long 1)
      else if name = "b" then some (PyObj.long 2)
      else if name = "c" then some (PyObj.long 3)
      else Option.none)
    Option.none

/-- The entries of an attribute listing that the reflection iterator is specified
to yield: the name does not begin with an underscore, the attribute can be read,
and its value is not callable. -/
def publicAttributes (obj : PyObj) : List (String × PyObj) :=
  (PyObject_Dir obj).filterMap (fun name =>
    if startsWithUnderscore name then Option.none
    else match PyObject_GetAttr obj name with
      | some v => if PyCallable_Check v then Option.none else some (name, v)
      | Option.none => Option.none)

/-- A one-dimensional object array holding the given texts, 8 bytes apart from
address 0. -/
def textArray (ob_id : Nat) (xs : List String) : PyArrayObject PyObj :=
  { ob_id := ob_id, data := 0, dims := [xs.length], strides := [8], type_num := NPY_OBJECT,
    getitem := fun p => (xs.get? (p / 8).toNat).map PyObj.unicode }

/-- A two-dimensional `int64` array of the given shape and strides at address
`data`, whose memory holds `cells` in address order (8 bytes each). -/
def intArray (ob_id : Nat) (data : Int) (dims strides : List Int) (cells : List Int) :
    PyArrayObject PyObj :=
  { ob_id := ob_id, data := data, dims := dims, strides := strides, type_num := NPY_INT64,
    getitem := fun p => (cells.get? ((p - data) / 8).toNat).map PyObj.long }

/-- The column labels c0, c1 of the example table. -/
def exampleColumns : PyObj := PyObj.index Option.none 2 (some (textArray 1 ["c0", "c1"]))

/-- The row labels r0, r1 of the example table. -/
def exampleIndex : PyObj := PyObj.index Option.none 2 (some (textArray 2 ["r0", "r1"]))

/-- The 2 x 2 example table of the spec (column c0 = 1, 2 and column c1 = 3, 4),
uniformly typed: `values` is the dense row-major array with rows (1, 3), (2, 4). -/
def exampleTableDense : PyObj :=
  PyObj.dataframe (some exampleColumns) (some exampleIndex) (some false)
    (some (intArray 7 100 [2, 2] [16, 8] [1, 3, 2, 4])) Option.none

/-- The same table stored as one block: the block's values have one row per
column, so memory holds 1, 2, 3, 4 ("column-major"), and the block's columns
are table columns 0 and 1. -/
def exampleTableBlock : PyObj :=
  PyObj.dataframe (some exampleColumns) (some exampleIndex) (some true) Option.none
    (some [{ values := some (intArray 8 200 [2, 2] [16, 8] [1, 2, 3, 4]),
             mgr_locs := some [0, 1] }])

/-- A NumPy datetime scalar one second after the epoch (in nanoseconds), whose
epoch value in each unit is the scaled count. -/
def oneSecondScalar : PyObj :=
  PyObj.npDatetime 1000000000
    { convertible := true,
      epoch := fun u => match u with
        | NPY_DATETIMEUNIT.NPY_FR_s => 1
        | NPY_DATETIMEUNIT.NPY_FR_ms => 1000
        | NPY_DATETIMEUNIT.NPY_FR_us => 1000000
        | _ => 1000000000,
      iso8601 := fun _ => some "1970-01-01T00:00:01" }

/-- The source value at position `i` of a label array: the item extracted at
`data + i * stride`. -/
def labelItem (labels : PyArrayObject PyObj) (i : Nat) : Option PyObj :=
  labels.getitem (labels.data + i * PyArray_STRIDE labels 0)

/-- A label array of two texts, for the examples. -/
def exampleLabels : PyArrayObject PyObj := textArray 1 ["c0", "c1"]

/-- The private context with the reflection iterator installed (source lines
2263-2268). -/
def dirContext : TypeContext :=
  { basicTypeContext with
      iterBegin := some IterBeginFn.Dir_iterBegin,
      iterEnd := some IterEndFn.Dir_iterEnd,
      iterNext := some IterNextFn.Dir_iterNext,
      iterGetValue := some IterGetValueFn.Dir_iterGetValue,
      iterGetName := some IterGetNameFn.Dir_iterGetName }

/-- A default handler that replaces every node by the integer 7. -/
def sevenHandler : Option PyObj → HandlerResult :=
  fun _ => HandlerResult.returned (PyObj.long 7)

/-- The members columns and index of the split encoding of the example table. -/
def exampleSplitLabels : List (Option String × JSONValue) :=
  [(some "columns", JSONValue.array [JSONValue.utf8 (some "c0"), JSONValue.utf8 (some "c1")]),
   (some "index", JSONValue.array [JSONValue.utf8 (some "r0"), JSONValue.utf8 (some "r1")])]

/-- Rows as arrays of integers. -/
def intRows (rows : List (List Int)) : JSONValue :=
  JSONValue.array (rows.map (fun r => JSONValue.array (r.map JSONValue.long)))

/-- An encoder state between two nodes of a traversal: no primitive pending, both
hand-off slots empty, no exception or error message pending, an allocator that
does not fail. -/
structure CleanState (st : Encoder) : Prop where
  npyType : st.npyType = -1
  npyCtxtPassthru : st.npyCtxtPassthru = Option.none
  blkCtxtPassthru : st.blkCtxtPassthru = Option.none
  pyErr : st.pyErr = Option.none
  errorMsg : st.errorMsg = Option.none
  allocBudget : st.allocBudget = Option.none

/-- A leaf object that the driver (with `depth` levels left) encodes to `v` without
touching the encoder state, from every clean state. -/
def QuietLeaf (loopFuel depth : Nat) (item : PyObj) (v : JSONValue) : Prop :=
  ∀ st : Encoder, CleanState st → encode loopFuel depth (some item) st = (v, st)

/-- The state `st` with the address of the pending element replaced by `v`. -/
def withValue (st : Encoder) (v : Int) : Encoder :=
  { st with npyValue := v }

/-- An encoder state `S` that differs from `st` at most in what a traversal
changes between two nodes: the two context heaps, the address of the last pending
element, the log of released contexts and the orientation in force. -/
def Frame (st S : Encoder) : Prop :=
  ∃ nh bh nv fr fmt,
    S = { st with npyHeap := nh, blkHeap := bh, npyValue := nv, freed := fr,
                  outputFormat := fmt }

/-- The element of the array `a` at address `ptr` is a leaf that the driver (with
`depth` levels left) encodes to `v` in every clean state of the frame of `st`.  An
element of a datetime array is handed over as a pending primitive (type number,
address and cursor) and leaves only its address behind; any other element is the
object `getitem` returns and leaves the state unchanged. -/
def CellAt (loopFuel depth : Nat) (st : Encoder) (a : PyArrayObject PyObj) (ptr : Int)
    (v : JSONValue) : Prop :=
  if PyTypeNum_ISDATETIME a.type_num then
    ∀ (obj : PyObj) (S : Encoder) (q : Nat), CleanState S → Frame st S →
      encode loopFuel depth (some obj)
          { S with npyType := a.type_num, npyValue := ptr, npyCtxtPassthru := some q } =
        (v, withValue S ptr)
  else
    ∃ item, a.getitem ptr = some item ∧
      ∀ S : Encoder, CleanState S → Frame st S → encode loopFuel depth (some item) S = (v, S)

/-- The cursor `c` moved to the address `ptr` with the index vector `idx`. -/
def cursorAt (c : NpyArrContext) (ptr : Int) (idx : Int → Int) : NpyArrContext :=
  { c with dataptr := ptr, index := idx }

/-- The array cursor of a two-dimensional array `a` positioned on axis `axis` at
depth `depth`, with data pointer `dataptr` and index vector `index`; `t` is the
transpose flag the cursor was begun with. -/
def axisCtx (a : PyArrayObject PyObj) (t : Bool) (rl cl : Option (List String))
    (depth axis dataptr : Int) (index : Int → Int) : NpyArrContext :=
  { array := some a, dataptr := dataptr, curdim := depth, stridedim := axis,
    inc := if t then -1 else 1, dim := PyArray_DIM a axis, stride := PyArray_STRIDE a axis,
    ndim := 1, index := index, type_num := a.type_num, rowLabels := rl, columnLabels := cl }

/-- The state `st` with the array cursor at heap position `q` replaced by `c`. -/
def heapSet (st : Encoder) (q : Nat) (c : NpyArrContext) : Encoder :=
  { st with npyHeap := st.npyHeap.set q c }

/-- The private context of a child that resumes the array cursor `q` handed over
through `npyCtxtPassthru` (source lines 2040-2052). -/
def passThruContext (q : Nat) : TypeContext :=
  { basicTypeContext with
      npyarr := some q,
      iterBegin := some IterBeginFn.NpyArrPassThru_iterBegin,
      iterNext := some IterNextFn.NpyArr_iterNext,
      iterEnd := some IterEndFn.NpyArrPassThru_iterEnd,
      iterGetValue := some IterGetValueFn.NpyArr_iterGetValue,
      iterGetName := some IterGetNameFn.NpyArr_iterGetName }

/-- The value the driver emits for a container with the given members: an object
when `named`, otherwise the array of the member values. -/
def container (named : Bool) (members : List (Option String × JSONValue)) : JSONValue :=
  if named then JSONValue.object members else JSONValue.array (members.map Prod.snd)

/-- The members of one child of a labelled traversal: positions `0 .. m-1`, each
keyed by its label in `labels` when `named`. -/
def members (named : Bool) (labels : Option (List String)) (m : Nat)
    (cells : Int → JSONValue) : List (Option String × JSONValue) :=
  (List.range m).map (fun (k : Nat) =>
    (if named then labelAt labels (k : Int) else Option.none, cells (k : Int)))

/-- The members a two-level labelled traversal emits: `n` children, the `r`-th
keyed by its label in `outer` when `named` and holding the container of the `m`
cells `cells r 0 .. cells r (m-1)`, keyed by `inner` when that table exists. -/
def grid (named : Bool) (outer inner : Option (List String)) (n m : Nat)
    (cells : Int → Int → JSONValue) : List (Option String × JSONValue) :=
  (List.range n).map (fun (r : Nat) =>
    (if named then labelAt outer (r : Int) else Option.none,
      container inner.isSome (members inner.isSome inner m (cells (r : Int)))))

/-- The value emitted for an `R`-row, `C`-column table under an orientation other
than `split`, given its encoded row (index) labels, its encoded column labels and
the encoded cell of every position. -/
def tableOutput (fmt : PANDAS_FORMAT) (idxL colL : Option (List String)) (R C : Nat)
    (cells : Int → Int → JSONValue) : JSONValue :=
  match fmt with
  | PANDAS_FORMAT.VALUES => container false (grid false Option.none Option.none R C cells)
  | PANDAS_FORMAT.RECORDS => container false (grid false Option.none colL R C cells)
  | PANDAS_FORMAT.COLUMNS => container true (grid true colL idxL C R (fun c r => cells r c))
  | _ => container true (grid true idxL colL R C cells)

/-- The private context `Object_beginTypeContext` builds for a uniformly typed
table walked by the single array walker (source lines 2092-2108). -/
def denseContext (a : PyArrayObject PyObj) : TypeContext :=
  { basicTypeContext with
      iterBegin := some IterBeginFn.NpyArr_iterBegin,
      iterEnd := some IterEndFn.NpyArr_iterEnd,
      iterNext := some IterNextFn.NpyArr_iterNext,
      iterGetName := some IterGetNameFn.NpyArr_iterGetName,
      newObj := some (PyObj.ndarray a),
      iterGetValue := some IterGetValueFn.NpyArr_iterGetValue }

/-- The private context after the orientation part of the table branch (source
lines 2110-2182) has attached the label tables `idxL` (of the index) and `colL`
(of the columns) to the context `pc`. -/
def orientContext (fmt : PANDAS_FORMAT) (pc : TypeContext) (lenI lenC : Int)
    (idxL colL : List String) : TypeContext :=
  match fmt with
  | PANDAS_FORMAT.VALUES => pc
  | PANDAS_FORMAT.RECORDS => { pc with columnLabelsLen := lenC, columnLabels := some colL }
  | PANDAS_FORMAT.COLUMNS =>
    { pc with rowLabelsLen := lenC, rowLabels := some colL, columnLabelsLen := lenI,
              columnLabels := some idxL, transpose := true }
  | _ =>
    { pc with rowLabelsLen := lenI, rowLabels := some idxL, columnLabelsLen := lenC,
              columnLabels := some colL }

/-- The JSON type the orientation part assigns to a table. -/
def orientType (fmt : PANDAS_FORMAT) : JSTYPES :=
  match fmt with
  | PANDAS_FORMAT.VALUES => JSTYPES.JT_ARRAY
  | PANDAS_FORMAT.RECORDS => JSTYPES.JT_ARRAY
  | _ => JSTYPES.JT_OBJECT

/-- The encoder state while a block-stored table is walked: the block context
`blk` is the last allocated `PdBlockContext` and `ctxs` are the column walkers,
allocated after the contexts of `B`. -/
def blockState (B : Encoder) (blk : PdBlockContext) (ctxs : List NpyArrContext) : Encoder :=
  { B with npyHeap := B.npyHeap ++ ctxs, blkHeap := B.blkHeap ++ [blk] }

/-- One column of a block-stored table as `PdBlock_iterBegin` meets it: its table
position `loc` (an entry of `mgr_locs`), the transposed values `vals` of its block
and its position `idx` inside the block. -/
structure Seed where
  loc : Int
  vals : PyArrayObject PyObj
  idx : Int

/-- The walker of column `sd` when its next element is that of row `i`: the state
`PdBlock_seedColumn` leaves (for `i = 0`) advanced by `i` leaf reads. -/
def colCtx (rl cl : Option (List String)) (uninit : Int → Int) (sd : Seed) (i : Int) :
    NpyArrContext :=
  axisCtx sd.vals true rl cl 1 0
    (sd.vals.data + PyArray_STRIDE sd.vals 1 * sd.idx + i * PyArray_STRIDE sd.vals 0)
    (setIdx (setIdx uninit 1 1) 0 i)

/-- The block context after the slot of column `sd` has been filled with the walker
allocated at heap index `q`. -/
def seedSlot (blk : PdBlockContext) (sd : Seed) (q : Nat) : PdBlockContext :=
  { blk with
      cindices := (tableSet blk.cindices sd.loc sd.idx).getD blk.cindices,
      npyCtxts := (tableSet blk.npyCtxts sd.loc (some q)).getD blk.npyCtxts }

/-- The columns of one block in the order `PdBlock_seedLocs` meets them; `idx` is
the block position of the first. -/
def locSeeds (vals : PyArrayObject PyObj) : List Int → Int → List Seed
  | [], _ => []
  | loc :: rest, idx => { loc := loc, vals := vals, idx := idx } :: locSeeds vals rest (idx + 1)

/-- The columns of a block-stored table in the order `PdBlock_seedBlocks` meets
them. -/
def blockSeeds : List (PdBlock PyObj) → List Seed
  | [] => []
  | b :: rest =>
    (match b.values, b.mgr_locs with
      | some tmp, some locs => locSeeds (PyArray_Transpose tmp) locs 0
      | _, _ => []) ++ blockSeeds rest

/-- The block context after the slots of the columns `seeds` have been filled with
walkers allocated from heap index `q` on. -/
def seedSlots : Nat → List Seed → PdBlockContext → PdBlockContext
  | _, [], blk => blk
  | q, sd :: rest, blk => seedSlots (q + 1) rest (seedSlot blk sd q)

/-- Seeding the columns `seeds` one after the other with `PdBlock_seedColumn`. -/
def seedAll (obj : PyObj) : List Seed → TypeContext → Encoder → TypeContext × Encoder
  | [], tc, st => (tc, st)
  | sd :: rest, tc, st =>
    seedAll obj rest (PdBlock_seedColumn obj sd.vals sd.loc sd.idx tc st).1
      (PdBlock_seedColumn obj sd.vals sd.loc sd.idx tc st).2

/-- Two private contexts that differ at most in the walker pointer, the item value
and the substituted object. -/
def tcAgree (tc tc' : TypeContext) : Prop :=
  ∃ np iv no, tc' = { tc with npyarr := np, itemValue := iv, newObj := no }

/-- Both tables of a block context are allocated with `C` slots. -/
def TablesOk (blk : PdBlockContext) (C : Nat) : Prop :=
  ∃ I T, blk.cindices = CPtr.ok I ∧ blk.npyCtxts = CPtr.ok T ∧ I.length = C ∧ T.length = C

/-- What `PdBlock_seedColumn` needs of a column: a table position inside the table
and 2-D values with at least one column. -/
def SeedOk (C : Nat) (sd : Seed) : Prop :=
  0 ≤ sd.loc ∧ sd.loc.toNat < C ∧ sd.vals.dims.length = 2 ∧ 0 < PyArray_DIM sd.vals 1

/-- The block context `PdBlock_iterBegin` allocates before it seeds the columns
(source lines 908-947). -/
def freshBlock (t : Bool) (C : Nat) (uninit : Int → Int) : PdBlockContext :=
  { colIdx := 0, transpose := t, ncols := (C : Int),
    cindices := CPtr.ok ((List.range C).map (fun (k : Nat) => uninit (k : Int))),
    npyCtxts := CPtr.ok (List.replicate C Option.none) }

/-- The private context of a child that resumes the block context `p` handed over
through `blkCtxtPassthru` (source lines 2063-2078). -/
def blockPassThruContext (p : Nat) : TypeContext :=
  { basicTypeContext with
      pdblock := some p,
      iterBegin := some IterBeginFn.PdBlockPassThru_iterBegin,
      iterEnd := some IterEndFn.PdBlockPassThru_iterEnd,
      iterNext := some IterNextFn.PdBlock_iterNextItem,
      iterGetName := some IterGetNameFn.PdBlock_iterGetName,
      iterGetValue := some IterGetValueFn.NpyArr_iterGetValue }

/-- What the traversal of a block-stored table relies on once the columns `seeds`
are seeded after the contexts of `B` and recorded in the walker table `T`: every
table position below `C` is the slot of exactly one column, every column has `R`
rows, and the element of row `i` of the column at position `c` is a leaf encoded
as `cells i c`. -/
structure BlockWalk (lf d : Nat) (B : Encoder) (seeds : List Seed) (T : List (Option Nat))
    (R C : Nat) (cells : Int → Int → JSONValue) : Prop where
  clean : CleanState B
  nodup : (seeds.map Seed.loc).Nodup
  slot : ∀ s sd, seeds.get? s = some sd →
    ctxtsGet (CPtr.ok T) sd.loc = some (some (B.npyHeap.length + s))
  cover : ∀ c : Int, 0 ≤ c → c < C → ∃ s sd, seeds.get? s = some sd ∧ sd.loc = c
  range : ∀ sd ∈ seeds, 0 ≤ sd.loc ∧ sd.loc < C
  rows : ∀ sd ∈ seeds, PyArray_DIM sd.vals 0 = R
  cell : ∀ sd ∈ seeds, ∀ i : Int, 0 ≤ i → i < R →
    CellAt lf d B sd.vals
      (sd.vals.data + PyArray_STRIDE sd.vals 1 * sd.idx + i * PyArray_STRIDE sd.vals 0)
      (cells i sd.loc)

/-- The private context `Object_beginTypeContext` builds for a block-stored table
walked by the columnar walker (source lines 2100-2108). -/
def blockContext : TypeContext :=
  { basicTypeContext with
      iterBegin := some IterBeginFn.PdBlock_iterBegin,
      iterEnd := some IterEndFn.PdBlock_iterEnd,
      iterNext := some IterNextFn.PdBlock_iterNext,
      iterGetName := some IterGetNameFn.PdBlock_iterGetName,
      iterGetValue := some IterGetValueFn.NpyArr_iterGetValue }

/-- A well-formed block layout of an `R`-row, `C`-column table met in state `st`:
every block has values and a non-empty location array, every column has 2-D values
of `R` rows, the locations of all blocks together are the table positions
`0 .. C-1`, each once, and the element of row `i` of the column at position `c` is
a leaf encoded as `cells i c`. -/
structure BlockLayout (lf d : Nat) (st : Encoder) (blocks : List (PdBlock PyObj)) (R C : Nat)
    (cells : Int → Int → JSONValue) : Prop where
  valid : ∀ b ∈ blocks, ∃ tmp locs, b.values = some tmp ∧ b.mgr_locs = some locs ∧ locs ≠ []
  shape : ∀ sd ∈ blockSeeds blocks, sd.vals.dims.length = 2 ∧ 0 < PyArray_DIM sd.vals 1 ∧
    PyArray_DIM sd.vals 0 = R
  perm : ((blockSeeds blocks).map Seed.loc).Perm ((List.range C).map (fun (c : Nat) => (c : Int)))
  cell : ∀ sd ∈ blockSeeds blocks, ∀ i : Int, 0 ≤ i → i < R →
    CellAt lf d st sd.vals
      (sd.vals.data + PyArray_STRIDE sd.vals 1 * sd.idx + i * PyArray_STRIDE sd.vals 0)
      (cells i sd.loc)

/-- The private context `Object_beginTypeContext` builds for a table under
`orient=split` (source lines 2080-2090). -/
def splitContext : TypeContext :=
  { basicTypeContext with
      iterBegin := some IterBeginFn.DataFrame_iterBegin,
      iterEnd := some IterEndFn.DataFrame_iterEnd,
      iterNext := some IterNextFn.DataFrame_iterNext,
      iterGetValue := some IterGetValueFn.DataFrame_iterGetValue,
      iterGetName := some IterGetNameFn.DataFrame_iterGetName }

/-- The object `DataFrame_iterNext` hands to the driver for the field `data`
(source lines 1449-1458): the values array of a uniformly typed table, the table
itself otherwise. -/
def splitData (cols idx : Option PyObj) (mx : Option Bool) (v : Option (PyArrayObject PyObj))
    (blocks : Option (List (PdBlock PyObj))) : Option PyObj :=
  if is_simple_frame (PyObj.dataframe cols idx mx v blocks) then v.map PyObj.ndarray
  else some (PyObj.dataframe cols idx mx v blocks)

/-- The labels of a table as the orientation part meets them in state `st`: the
columns object holds `C` labels that encode to `colL`, the index object `R`
labels that encode to `idxL`, and neither encoding changes the state. -/
def TableLabels (st : Encoder) (cols idx : PyObj) (R C : Nat) (idxL colL : List String) :
    Prop :=
  ∃ cvals ivals, get_values cols = some cvals ∧ get_values idx = some ivals ∧
    PyObject_Length cols = (C : Int) ∧ PyObject_Length idx = (R : Int) ∧
    NpyArr_encodeLabels (some cvals) (C : Int) st = (some colL, st) ∧
    NpyArr_encodeLabels (some ivals) (R : Int) st = (some idxL, st)

/-- A uniformly typed `R x C` table, walked by the single array walker: `values`
is a 2-D array whose element at row `i`, column `j` is a leaf encoded as
`cells i j`. -/
def DenseTable (lf d : Nat) (st : Encoder) (df : PyObj) (R C : Nat)
    (idxL colL : List String) (cells : Int → Int → JSONValue) : Prop :=
  ∃ cols idx a blocks s0 s1,
    df = PyObj.dataframe (some cols) (some idx) (some false) (some a) blocks ∧
    TableLabels st cols idx R C idxL colL ∧
    a.dims = [(R : Int), (C : Int)] ∧ a.strides = [s0, s1] ∧
    ∀ i j : Int, 0 ≤ i → i < R → 0 ≤ j → j < C →
      CellAt lf d st a (a.data + i * s0 + j * s1) (cells i j)

/-- A block-stored `R x C` table with at least one column, walked by the columnar
walker. -/
def BlockTable (lf d : Nat) (st : Encoder) (df : PyObj) (R C : Nat)
    (idxL colL : List String) (cells : Int → Int → JSONValue) : Prop :=
  ∃ cols idx mx v blocks,
    df = PyObj.dataframe (some cols) (some idx) mx v (some blocks) ∧
    TableLabels st cols idx R C idxL colL ∧
    mx ≠ some false ∧ 0 < C ∧ BlockLayout lf d st blocks R C cells

/-- An `R x C` table with row labels `idxL`, column labels `colL` and cell
encodings `cells`, stored either way. -/
def IsTable (lf d : Nat) (st : Encoder) (df : PyObj) (R C : Nat)
    (idxL colL : List String) (cells : Int → Int → JSONValue) : Prop :=
  DenseTable lf d st df R C idxL colL cells ∨ BlockTable lf d st df R C idxL colL cells

/-- The values a container holds, in order, without their keys. -/
def leaves : JSONValue → List JSONValue
  | JSONValue.array xs => xs
  | JSONValue.object ms => ms.map Prod.snd
  | _ => []

/-- The cell encodings of the example table: row `i`, column `j` holds
`1 + i + 2 j` (column c0 = 1, 2 and column c1 = 3, 4). -/
def exampleCells : Int → Int → JSONValue :=
  fun i j => JSONValue.long (1 + i + 2 * j)

/-- The single block of the block-stored example table. -/
def exampleBlocks : List (PdBlock PyObj) :=
  [{ values := some (intArray 8 200 [2, 2] [16, 8] [1, 2, 3, 4]), mgr_locs := some [0, 1] }]

/-- The number of values of the C type `size_t` (64 bits). -/
def SIZE_T : Nat := 2 ^ 64

/-- Source line 65 of `kvec.h`: `kvec_t(type)`.  The pointer `a` is `none` when
null; otherwise it is the allocated buffer, one entry per element that fits, an
entry being `none` while it is uninitialised. -/
structure kvec_t (α : Type) where
  n : Nat
  m : Nat
  a : Option (List (Option α))
  deriving DecidableEq

/-- Source line 66 of `kvec.h`: `kv_init`. -/
def kv_init {α : Type} : kvec_t α :=
  { n := 0, m := 0, a := Option.none }

/-- Source line 70 of `kvec.h`: `kv_size`. -/
def kv_size {α : Type} (v : kvec_t α) : Nat := v.n

/-- Source line 71 of `kvec.h`: `kv_max`. -/
def kv_max {α : Type} (v : kvec_t α) : Nat := v.m

/-- Source line 68 of `kvec.h`: `kv_A`, the element `a[i]`; the outer `none` is a
read outside the allocated buffer (or through the null pointer). -/
def kv_A {α : Type} (v : kvec_t α) (i : Nat) : Option (Option α) :=
  (v.a.getD []).get? i

/-- The C library call `realloc(p, sizeof(type) * count)` on a buffer of elements:
when the allocator has memory (`ok`) the result holds `count` elements, the old
ones kept as far as they fit and the new ones uninitialised; otherwise the result
is the null pointer. -/
def realloc {α : Type} (ok : Bool) (p : Option (List (Option α))) (count : Nat) :
    Option (List (Option α)) :=
  if ok then
    some ((p.getD []).take count ++ List.replicate (count - (p.getD []).length) Option.none)
  else Option.none

/-- Source line 63 of `kvec.h`: `kv_roundup32` on a `size_t`. -/
def kv_roundup32 (x : Nat) : Nat :=
  let x := (x + SIZE_T - 1) % SIZE_T
  let x := x ||| (x >>> 1)
  let x := x ||| (x >>> 2)
  let x := x ||| (x >>> 4)
  let x := x ||| (x >>> 8)
  let x := x ||| (x >>> 16)
  (x + 1) % SIZE_T

/-- Source lines 85-91 of `kvec.h`: `kv_push(type, v, x)` with `sz = sizeof(type)`.
The result `none` is undefined behaviour: the store `a[n] = x` through the null
pointer or outside the allocated buffer. -/
def kv_push {α : Type} (sz : Nat) (ok : Bool) (v : kvec_t α) (x : α) : Option (kvec_t α) :=
  let v :=
    if v.n = v.m then
      let m := if v.m ≠ 0 then (v.m <<< 1) % SIZE_T else 2
      { v with m := m, a := realloc ok v.a (sz * m % SIZE_T / sz) }
    else v
  match v.a with
  | some buf =>
    if v.n < buf.length then
      some { v with a := some (buf.set v.n (some x)), n := (v.n + 1) % SIZE_T }
    else Option.none
  | Option.none => Option.none

/-- Source lines 133-135 of `kvec.h`: `kv_int64_push`. -/
def kv_int64_push (ok : Bool) (v : kvec_t Int) (x : Int) : Option (kvec_t Int) :=
  kv_push 8 ok v x

/-- Source lines 137-139 of `kvec.h`: `kv_double_push`. -/
def kv_double_push (ok : Bool) (v : kvec_t Double) (x : Double) : Option (kvec_t Double) :=
  kv_push 8 ok v x

/-- Source lines 98-102 of `kvec.h`: the side effects of `kv_a(type, v, i)` with
`sz = sizeof(type)` and `i` already cast to `size_t`; the value of the expression
is then the element `a[i]` of the result. -/
def kv_a {α : Type} (sz : Nat) (ok : Bool) (v : kvec_t α) (i : Nat) : kvec_t α :=
  if v.m ≤ i then
    let n := (i + 1) % SIZE_T
    let m := kv_roundup32 n
    { n := n, m := m, a := realloc ok v.a (sz * m % SIZE_T / sz) }
  else if v.n ≤ i then { v with n := i }
  else v

/-- A 2 x 3 `int64` array at address 100 with rows (1, 2, 3) and (4, 5, 6): the
row stride is 24 bytes, the element stride 8. -/
def exampleGrid : PyArrayObject PyObj :=
  intArray 7 100 [2, 3] [24, 8] [1, 2, 3, 4, 5, 6]

/-- The array walker begun on `exampleGrid` in normal mode. -/
def exampleBegun : TypeContext × Encoder :=
  NpyArr_iterBegin (PyObj.ndarray exampleGrid) (installNpyArr basicTypeContext) exampleProcess

/-- The state after the first `NpyArr_iterNext` on `exampleBegun`: the descent
into the first row. -/
def exampleDescended : Encoder :=
  (NpyArr_iterNext (PyObj.ndarray exampleGrid) exampleBegun.1 exampleBegun.2).2.2

/-- The state after the child begun on `exampleDescended` has consumed `k`
elements of the row with `NpyArr_iterNextItem`. -/
def exampleConsumed : Nat → Encoder
  | 0 => { exampleDescended with npyCtxtPassthru := Option.none }
  | k + 1 =>
    (NpyArr_iterNextItem (PyObj.ndarray exampleGrid)
      { (passThruContext 0) with iterNext := some IterNextFn.NpyArr_iterNextItem }
      (exampleConsumed k)).2.2

/-- The axis that is active at depth `e` of a cursor with direction `inc` over an
array of rank `N`: axis `e` in normal mode (`inc = 1`), axis `N - 1 - e` in
transposed mode. -/
def cursorAxis (N inc e : Int) : Int :=
  if inc = 1 then e else N - 1 - e

/-- The ArrayCursor invariant for a context `c` over the array `a`: the bounds of
the spec on depth, active axis, extent, stride and index, together with what makes
them inductive (the active axis is the one of the current depth, and the index of
every axis entered so far lies within its extent). -/
structure CursorInv (a : PyArrayObject PyObj) (c : NpyArrContext) : Prop where
  array : c.array = some a
  ndim : c.ndim = PyArray_NDIM a - 1
  inc : c.inc = 1 ∨ c.inc = -1
  depth_lo : 0 ≤ c.curdim
  depth_hi : c.curdim ≤ PyArray_NDIM a - 1
  axis : c.stridedim = cursorAxis (PyArray_NDIM a) c.inc c.curdim
  dim : c.dim = PyArray_DIM a c.stridedim
  stride : c.stride = PyArray_STRIDE a c.stridedim
  index : ∀ e : Int, 0 ≤ e → e ≤ c.curdim →
    0 ≤ c.index (cursorAxis (PyArray_NDIM a) c.inc e) ∧
      c.index (cursorAxis (PyArray_NDIM a) c.inc e) ≤
        PyArray_DIM a (cursorAxis (PyArray_NDIM a) c.inc e)

/-- Modelled from the spec: the encoder states the RecursiveDriver (the function
`encode` of `ultrajsonenc.c`, which is not among the sources) passes through while
the array cursor at heap position `q`, begun on the array `a`, is live.  The
driver "repeatedly calls next/getValue/getName, recursing into each child via
Dispatcher again, until the iterator ends": it calls `NpyArr_iterNext` or, once
installed, `NpyArr_iterNextItem`; the Dispatcher consumes a pending primitive
(`leaf`) or resumes the cursor handed over through `npyCtxtPassthru`
(`beginChild`), and every child context so begun is ended once with
`NpyArrPassThru_iterEnd` (`endChild`); whatever else runs in between leaves the
cursor and the hand-off fields alone (`frame`).  The last index counts the child
contexts of the cursor that are open. -/
inductive CursorReach (a : PyArrayObject PyObj) (q : Nat) : Encoder → Nat → Prop
  | begin (obj : PyObj) (tc : TypeContext) (st : Encoder) :
      st.npyCtxtPassthru = Option.none →
      (NpyArr_iterBegin obj tc st).1.npyarr = some q →
      (npyLoad (NpyArr_iterBegin obj tc st).2 (some q)).array = some a →
      CursorReach a q (NpyArr_iterBegin obj tc st).2 0
  | next (obj : PyObj) (tc : TypeContext) (st : Encoder) (k : Nat) :
      CursorReach a q st k → tc.npyarr = some q →
      CursorReach a q (NpyArr_iterNext obj tc st).2.2 k
  | nextItem (obj : PyObj) (tc : TypeContext) (st : Encoder) (k : Nat) :
      CursorReach a q st k → tc.npyarr = some q →
      CursorReach a q (NpyArr_iterNextItem obj tc st).2.2 k
  | leaf (st : Encoder) (k : Nat) :
      CursorReach a q st k → 0 ≤ st.npyType →
      CursorReach a q { st with npyCtxtPassthru := Option.none, npyType := -1 } k
  | beginChild (st : Encoder) (k : Nat) :
      CursorReach a q st k → st.npyType < 0 → st.npyCtxtPassthru = some q →
      CursorReach a q { st with npyCtxtPassthru := Option.none } (k + 1)
  | endChild (obj : PyObj) (tc : TypeContext) (st : Encoder) (k : Nat) :
      CursorReach a q st (k + 1) → tc.npyarr = some q →
      CursorReach a q (NpyArrPassThru_iterEnd obj tc st).2 k
  | frame (st st' : Encoder) (k : Nat) :
      CursorReach a q st k → q < st'.npyHeap.length →
      npyLoad st' (some q) = npyLoad st (some q) →
      st'.npyType = st.npyType → st'.npyCtxtPassthru = st.npyCtxtPassthru →
      CursorReach a q st' k

/-- The array cursor of a one-dimensional array `a` as `NpyArr_iterBegin` leaves
it, with data pointer `dataptr` and index vector `index`; `t` is the transpose flag
the cursor was begun with. -/
def vecCtx (a : PyArrayObject PyObj) (t : Bool) (rl cl : Option (List String))
    (dataptr : Int) (index : Int → Int) : NpyArrContext :=
  { array := some a, dataptr := dataptr, curdim := 0, stridedim := 0,
    inc := if t then -1 else 1, dim := PyArray_DIM a 0, stride := PyArray_STRIDE a 0,
    ndim := 0, index := index, type_num := a.type_num, rowLabels := rl, columnLabels := cl }

/-- An index object without labels: the columns of a table with no column. -/
def noColumns : PyObj := PyObj.index Option.none 0 (some (textArray 1 []))

/-- An index object with the single label r0. -/
def oneRow : PyObj := PyObj.index Option.none 1 (some (textArray 2 ["r0"]))

/-- A table of one row and no column in block storage: no block at all. -/
def noColumnsBlock : PyObj :=
  PyObj.dataframe (some noColumns) (some oneRow) (some true) Option.none (some [])

/-- The same table of one row and no column, uniformly typed: `values` is the dense
array of shape 1 x 0. -/
def noColumnsDense : PyObj :=
  PyObj.dataframe (some noColumns) (some oneRow) (some false)
    (some (intArray 7 100 [1, 0] [8, 8] [])) Option.none

/-- A series of the two integers 5 and 6 labelled r0 and r1. -/
def exampleSeries : PyObj :=
  PyObj.series Option.none (some exampleIndex) (some (intArray 9 300 [2] [8] [5, 6]))

/-- Source line 63 of `kvec.h`: `kv_roundup32` when its operand is a 32-bit unsigned
variable (the macro works on whatever unsigned lvalue it is given): the decrement
and the increment wrap modulo `2 ^ 32`. -/
def kv_roundup32_uint32 (x : Nat) : Nat :=
  let x := (x + 2 ^ 32 - 1) % 2 ^ 32
  let x := x ||| (x >>> 1)
  let x := x ||| (x >>> 2)
  let x := x ||| (x >>> 4)
  let x := x ||| (x >>> 8)
  let x := x ||| (x >>> 16)
  (x + 1) % 2 ^ 32

/-- Source line 1692: the number of bytes of `char buf[21]`, the buffer into which
`sprintf` formats the scaled epoch value of a label. -/
def epochLabelBufferSize : Nat := 21

/-- The 2 x 2 example table stored as one block whose columns are declared in reverse
order: the block's first column (values 1, 2 at address 200) is table column 1 and
its second column (values 3, 4 at address 216) is table column 0. -/
def swappedTable : PyObj :=
  PyObj.dataframe (some exampleColumns) (some exampleIndex) (some true) Option.none
    (some [{ values := some (intArray 8 200 [2, 2] [16, 8] [1, 2, 3, 4]),
             mgr_locs := some [1, 0] }])

/-- The outcome of the `k`-th of `k` successive calls of `next` (`Object_iterNext`) on
the node `obj`, each call continuing from the context and the state the previous
call left; for `k = 0` no call has been made yet. -/
def nextCalls (obj : PyObj) : Nat → TypeContext → Encoder → Bool × TypeContext × Encoder
  | 0, tc, st => (true, tc, st)
  | k + 1, tc, st =>
    Object_iterNext obj (nextCalls obj k tc st).2.1 (nextCalls obj k tc st).2.2

/-- The two orientation fields of the encoder: the current output format and the
format originally requested. -/
def formatOf (st : Encoder) : PANDAS_FORMAT × PANDAS_FORMAT :=
  (st.outputFormat, st.originalOutputFormat)

/-- Whether the begin operation is that of the split-mode fields iterator of a
series or a table. -/
def splitFieldsBegin : Option IterBeginFn → Bool
  | some IterBeginFn.Series_iterBegin => true
  | some IterBeginFn.DataFrame_iterBegin => true
  | _ => false

/-- Whether the end operation is that of the split-mode fields iterator of a
series or a table. -/
def splitFieldsEnd : Option IterEndFn → Bool
  | some IterEndFn.Series_iterEnd => true
  | some IterEndFn.DataFrame_iterEnd => true
  | _ => false

/-- A child encoder keeps both orientation fields on every state in which the
current format is SPLIT only if the requested format is SPLIT. -/
def KeepsFormat (enc : Option PyObj → Encoder → JSONValue × Encoder) : Prop :=
  ∀ (o : Option PyObj) (S : Encoder),
    (S.outputFormat = PANDAS_FORMAT.SPLIT → S.originalOutputFormat = PANDAS_FORMAT.SPLIT) →
    formatOf (enc o S).2 = formatOf S

/-- The begin and end operations installed in a container context belong
together, and the fields iterator of a series or a table is only installed
while the current format is SPLIT. -/
def PairedIterators (tc : JSONTypeContext) (S : Encoder) : Prop :=
  match tc.prv with
  | Option.none => True
  | some pc =>
    (tc.type = JSTYPES.JT_ARRAY ∨ tc.type = JSTYPES.JT_OBJECT) →
      splitFieldsBegin pc.iterBegin = splitFieldsEnd pc.iterEnd ∧
      (splitFieldsEnd pc.iterEnd = true → S.outputFormat = PANDAS_FORMAT.SPLIT)

/-- A mapping holding the same table under two keys. -/
def twoTables : PyObj :=
  PyObj.dict [(PyObj.unicode "a", exampleTableBlock), (PyObj.unicode "b", exampleTableBlock)]

/-- The example process state with the split orientation requested. -/
def splitProcess : Encoder :=
  { exampleProcess with outputFormat := PANDAS_FORMAT.SPLIT,
                        originalOutputFormat := PANDAS_FORMAT.SPLIT }

/-- The split form of the example table: its column labels, its index labels and
its rows of values. -/
def splitExample : JSONValue :=
  JSONValue.object
    [(some "columns", JSONValue.array [JSONValue.utf8 (some "c0"), JSONValue.utf8 (some "c1")]),
     (some "index", JSONValue.array [JSONValue.utf8 (some "r0"), JSONValue.utf8 (some "r1")]),
     (some "data", JSONValue.array
        [JSONValue.array [JSONValue.long 1, JSONValue.long 3],
         JSONValue.array [JSONValue.long 2, JSONValue.long 4]])]

/-! ## Theorems -/

theorem PyObject_Malloc_eq (st : Encoder) (h : st.allocBudget ≠ some 0) :
    PyObject_Malloc st = (true, afterMalloc st) := by
  obtain ⟨a1, a2, a3, a4, a5, a6, a7, a8, a9, a10, a11, a12, a13, budget, a15, a16, a17, a18,
    a19, a20, a21, a22, a23, a24, a25, a26⟩ := st
  cases budget with
  | none => rfl
  | some n =>
    cases n with
    | zero => exact absurd rfl h
    | succ m => rfl

theorem createTypeContext_eq (st : Encoder) (h : st.allocBudget ≠ some 0) :
    createTypeContext st = (some basicTypeContext, afterMalloc st) := by
  unfold createTypeContext
  rw [PyObject_Malloc_eq st h]
  rfl

/-- C7: a native float leaf, and a pending float-category array element, is classified
Null when its value is NaN or an infinity, without raising; otherwise it is classified
Double and the stored double is exactly the value.  The dict with key a and the float
list 1, 2, NaN encodes as an object whose member a is the array 1, 2, null. -/
theorem C7_float_nan_inf_null (encode : Option PyObj → Encoder → JSONValue × Encoder)
    (st : Encoder) (val : Double) (obj : PyObj) (halloc : st.allocBudget ≠ some 0) :
    (st.npyType < 0 →
      Object_beginTypeContext encode (some (PyObj.float val)) st =
        (if npy_isnan val || npy_isinf val then typed JSTYPES.JT_NULL basicTypeContext
         else typed JSTYPES.JT_DOUBLE { basicTypeContext with doubleValue := val },
         Option.none, afterMalloc st)) ∧
    (0 ≤ st.npyType → PyTypeNum_ISFLOAT st.npyType = true →
      Object_beginTypeContext encode (some obj) st =
        (if npy_isnan (st.loadDouble st.npyType st.npyValue) ||
            npy_isinf (st.loadDouble st.npyType st.npyValue)
         then { type := JSTYPES.JT_NULL, prv := some basicTypeContext, isBasic := true }
         else { type := JSTYPES.JT_DOUBLE,
                prv := some { basicTypeContext with
                  doubleValue := st.loadDouble st.npyType st.npyValue },
                isBasic := true },
         Option.none, { st with npyCtxtPassthru := Option.none, npyType := -1 })) ∧
    (ObjToJSON.encode 8 8 (some floatListExample) exampleProcess).1 =
      JSONValue.object [(some "a", JSONValue.array
        [JSONValue.double (Double.finite 1 0), JSONValue.double (Double.finite 2 0),
          JSONValue.null])] := by
  refine ⟨?_, ?_, ?_⟩
  · intro hp
    have h1 : ¬ (st.npyType ≥ 0) := by omega
    simp only [Object_beginTypeContext, h1, if_false, PyBool_Check, createTypeContext_eq st halloc,
      PyIter_Check, PyArray_Check, beginLeaf]
    by_cases hv : (npy_isnan val || npy_isinf val) = true <;> simp [hv]
  · intro hp hf
    have h1 : st.npyType ≥ 0 := hp
    simp only [Object_beginTypeContext, h1, if_true, NpyTypeToJSONType, hf]
    by_cases hv : (npy_isnan (st.loadDouble st.npyType st.npyValue) ||
        npy_isinf (st.loadDouble st.npyType st.npyValue)) = true <;> simp [hv]
  · rfl

/-- C7 witness: the classification of `NaN` in a fresh process, and of a finite
pending element. -/
theorem C7_float_nan_inf_null_witness :
    Object_beginTypeContext (ObjToJSON.encode 8 8) (some (PyObj.float Double.nan)) exampleProcess =
      (typed JSTYPES.JT_NULL basicTypeContext, Option.none, afterMalloc exampleProcess) :=
  (C7_float_nan_inf_null (ObjToJSON.encode 8 8) exampleProcess Double.nan PyObj.none
    (by decide)).1 (by decide)

theorem encode_succ (loopFuel depth : Nat) (obj : Option PyObj) (st : Encoder) :
    encode loopFuel (depth + 1) obj st =
      (match Object_beginTypeContext (encode loopFuel depth) obj st with
      | (tc, emitted, st) =>
        match tc.type, tc.prv, obj with
        | JSTYPES.JT_INVALID, _, _ => (emitted.getD JSONValue.invalid, st)
        | JSTYPES.JT_ARRAY, some pc, some o =>
          let b := Object_iterBegin o pc st
          let r := iterLoop (encode loopFuel depth) false o loopFuel b.1 b.2
          let e := Object_iterEnd o r.2.1 r.2.2
          (JSONValue.array (r.1.map Prod.snd), Object_endTypeContext obj tc e.2)
        | JSTYPES.JT_OBJECT, some pc, some o =>
          let b := Object_iterBegin o pc st
          let r := iterLoop (encode loopFuel depth) true o loopFuel b.1 b.2
          let e := Object_iterEnd o r.2.1 r.2.2
          (JSONValue.object r.1, Object_endTypeContext obj tc e.2)
        | JSTYPES.JT_LONG, some pc, _ =>
          (JSONValue.long (Object_getLongValue pc), Object_endTypeContext obj tc st)
        | JSTYPES.JT_INT, some pc, _ =>
          (JSONValue.long (Object_getLongValue pc), Object_endTypeContext obj tc st)
        | JSTYPES.JT_DOUBLE, some pc, _ =>
          (JSONValue.double (Object_getDoubleValue pc), Object_endTypeContext obj tc st)
        | JSTYPES.JT_UTF8, some pc, _ =>
          let v := Object_getStringValue obj pc st
          (JSONValue.utf8 v.1, Object_endTypeContext obj tc v.2.2)
        | JSTYPES.JT_TRUE, _, _ => (JSONValue.true, Object_endTypeContext obj tc st)
        | JSTYPES.JT_FALSE, _, _ => (JSONValue.false, Object_endTypeContext obj tc st)
        | JSTYPES.JT_NULL, _, _ => (JSONValue.null, Object_endTypeContext obj tc st)
        | _, _, _ => (JSONValue.invalid, { st with fault := true })) := by
  rfl

theorem beginTypeContext_long_in_range (encode : Option PyObj → Encoder → JSONValue × Encoder)
    (st : Encoder) (n : Int) (hp : st.npyType < 0) (halloc : st.allocBudget ≠ some 0)
    (herr : st.pyErr = Option.none) (hn : NPY_MIN_INT64 ≤ n ∧ n ≤ NPY_MAX_INT64) :
    Object_beginTypeContext encode (some (PyObj.long n)) st =
      (typed JSTYPES.JT_LONG { basicTypeContext with longValue := n }, Option.none,
        afterMalloc st) := by
  have h1 : ¬ (st.npyType ≥ 0) := by omega
  have h2 : (afterMalloc st).pyErr = Option.none := herr
  simp [Object_beginTypeContext, h1, PyBool_Check, createTypeContext_eq st halloc,
    PyIter_Check, PyArray_Check, beginLeaf, PyLong_AsLongLong, hn, overflowPending, h2]

theorem beginTypeContext_long_overflow (encode : Option PyObj → Encoder → JSONValue × Encoder)
    (st : Encoder) (n : Int) (hp : st.npyType < 0) (halloc : st.allocBudget ≠ some 0)
    (hn : ¬ (NPY_MIN_INT64 ≤ n ∧ n ≤ NPY_MAX_INT64)) :
    Object_beginTypeContext encode (some (PyObj.long n)) st =
      (invalidContext, Option.none, PyErr_Set PyExc.OverflowError (afterMalloc st)) := by
  have h1 : ¬ (st.npyType ≥ 0) := by omega
  simp [Object_beginTypeContext, h1, PyBool_Check, createTypeContext_eq st halloc,
    PyIter_Check, PyArray_Check, beginLeaf, PyLong_AsLongLong, hn, overflowPending, PyErr_Set]

/-- C8: a native integer leaf inside the signed 64-bit range is classified Long and the
stored value is the integer itself; outside the range the node is invalid with
OverflowError pending (no value is stored as a result), and `objToJSON` returns that
error instead of a JSON value. -/
theorem C8_long_exact_or_overflow (encode : Option PyObj → Encoder → JSONValue × Encoder)
    (st : Encoder) (n : Int) (hp : st.npyType < 0) (halloc : st.allocBudget ≠ some 0)
    (herr : st.pyErr = Option.none) :
    (NPY_MIN_INT64 ≤ n ∧ n ≤ NPY_MAX_INT64 →
      Object_beginTypeContext encode (some (PyObj.long n)) st =
        (typed JSTYPES.JT_LONG { basicTypeContext with longValue := n }, Option.none,
          afterMalloc st)) ∧
    (¬ (NPY_MIN_INT64 ≤ n ∧ n ≤ NPY_MAX_INT64) →
      Object_beginTypeContext encode (some (PyObj.long n)) st =
        (invalidContext, Option.none, PyErr_Set PyExc.OverflowError (afterMalloc st)) ∧
      ∀ (loopFuel : Nat) (proc : Encoder) (args : Args), args.obj = PyObj.long n →
        configureEncoder proc args = Except.ok st →
        objToJSON loopFuel proc args = Except.error PyExc.OverflowError) := by
  refine ⟨beginTypeContext_long_in_range encode st n hp halloc herr, fun hn => ⟨?_, ?_⟩⟩
  · exact beginTypeContext_long_overflow encode st n hp halloc hn
  · intro loopFuel proc args hobj hcfg
    unfold objToJSON
    rw [hcfg]
    simp only [JSON_MAX_RECURSION_DEPTH, show (1024 : Nat) = 1023 + 1 from rfl, encode_succ, hobj,
      beginTypeContext_long_overflow (ObjToJSON.encode loopFuel 1023) st n hp halloc hn]
    rfl

/-- C8 witness: the integer 2^63 in a freshly configured encoder. -/
theorem C8_long_exact_or_overflow_witness :
    Object_beginTypeContext (ObjToJSON.encode 8 8) (some (PyObj.long 9223372036854775808))
        exampleProcess =
      (invalidContext, Option.none, PyErr_Set PyExc.OverflowError (afterMalloc exampleProcess)) :=
  ((C8_long_exact_or_overflow (ObjToJSON.encode 8 8) exampleProcess 9223372036854775808
    (by decide) (by decide) rfl).2 (by decide)).1

/-- C10: on an object whose listing is a, b, c (all public, none callable) the
reflection iterator as driven by the driver yields a and c only: the second
increment of the cursor in `Dir_iterNext` skips b, although b is among the
attributes the iterator is specified to yield. -/
theorem C10_dir_iter_skips_entry :
    (encode 8 8 (some threeAttrObject) exampleProcess).1 =
        JSONValue.object [(some "a", JSONValue.long 1), (some "c", JSONValue.long 3)] ∧
      (publicAttributes threeAttrObject).map Prod.fst = ["a", "b", "c"] := by
  constructor <;> rfl

/-- C11: a timedelta leaf whose nanosecond value is the sentinel is classified Null
under unit ns, but under unit ms (and likewise us, s) the value is divided first,
no longer equals the sentinel, and the leaf is classified Long. -/
theorem C11_timedelta_sentinel_scaled_before_test
    (encode : Option PyObj → Encoder → JSONValue × Encoder) :
    (Object_beginTypeContext encode (some (PyObj.timedelta (some NPY_MIN_INT64) 0))
        { exampleProcess with datetimeUnit := NPY_DATETIMEUNIT.NPY_FR_ns }).1 =
      typed JSTYPES.JT_NULL basicTypeContext ∧
    (Object_beginTypeContext encode (some (PyObj.timedelta (some NPY_MIN_INT64) 0))
        { exampleProcess with datetimeUnit := NPY_DATETIMEUNIT.NPY_FR_us }).1 =
      typed JSTYPES.JT_LONG { basicTypeContext with longValue := -9223372036854775 } ∧
    (Object_beginTypeContext encode (some (PyObj.timedelta (some NPY_MIN_INT64) 0))
        { exampleProcess with datetimeUnit := NPY_DATETIMEUNIT.NPY_FR_ms }).1 =
      typed JSTYPES.JT_LONG { basicTypeContext with longValue := -9223372036854 } ∧
    (Object_beginTypeContext encode (some (PyObj.timedelta (some NPY_MIN_INT64) 0))
        { exampleProcess with datetimeUnit := NPY_DATETIMEUNIT.NPY_FR_s }).1 =
      typed JSTYPES.JT_LONG { basicTypeContext with longValue := -9223372036 } := by
  refine ⟨?_, ?_, ?_, ?_⟩ <;> rfl

/-- C12: a datetime scalar one second after the epoch, with ISO mode off and unit ms,
is classified Long, but the branch never stores the epoch value: the integer the
emitter obtains through `Object_getLongValue` is 0, not 1000. -/
theorem C12_datetime_scalar_long_never_stored :
    (Object_beginTypeContext (encode 8 8) (some oneSecondScalar) exampleProcess).1.type =
        JSTYPES.JT_LONG ∧
      (Object_beginTypeContext (encode 8 8) (some oneSecondScalar) exampleProcess).1.prv.map
          Object_getLongValue = some 0 ∧
      (encode 8 8 (some oneSecondScalar) exampleProcess).1 = JSONValue.long 0 ∧
      (dateTimeInfoOf oneSecondScalar).epoch exampleProcess.datetimeUnit = 1000 := by
  refine ⟨?_, ?_, ?_, ?_⟩ <;> rfl

/-- C15: a decimal leaf whose double value is NaN, and a typed float scalar whose value
is +Infinity, are classified Double (carrying NaN, +Infinity), not Null: these two
branches store the double without the NaN / infinity test of the float branch. -/
theorem C15_decimal_and_float_scalar_skip_float_rules
    (encode : Option PyObj → Encoder → JSONValue × Encoder) :
    (Object_beginTypeContext encode (some (PyObj.decimal Double.nan)) exampleProcess).1 =
        typed JSTYPES.JT_DOUBLE { basicTypeContext with doubleValue := Double.nan } ∧
      (Object_beginTypeContext encode (some (PyObj.npFloat Double.posInf)) exampleProcess).1 =
        typed JSTYPES.JT_DOUBLE { basicTypeContext with doubleValue := Double.posInf } ∧
      (Object_beginTypeContext encode (some (PyObj.float Double.nan)) exampleProcess).1 =
        typed JSTYPES.JT_NULL basicTypeContext := by
  refine ⟨?_, ?_, ?_⟩ <;> rfl

/-- C16: the unsigned 64-bit scalar 2^63 is classified Long with stored value -2^63 and
no exception pending; a pending unsigned 64-bit element 2^64 - 1 is classified Long
with stored value -1.  The cast wraps and nothing raises OverflowError. -/
theorem C16_unsigned_scalar_wraps
    (encode : Option PyObj → Encoder → JSONValue × Encoder) :
    Object_beginTypeContext encode
        (some (PyObj.npInteger NPY_ULONGLONG 9223372036854775808)) exampleProcess =
      (typed JSTYPES.JT_LONG { basicTypeContext with longValue := -9223372036854775808 },
        Option.none, afterMalloc exampleProcess) ∧
    (afterMalloc exampleProcess).pyErr = Option.none ∧
    (Object_beginTypeContext encode (some PyObj.none)
        { exampleProcess with npyType := NPY_ULONGLONG,
                              loadInt := fun _ _ => 18446744073709551615 }).1 =
      { type := JSTYPES.JT_LONG, prv := some { basicTypeContext with longValue := -1 },
        isBasic := true } := by
  refine ⟨?_, ?_, ?_⟩ <;> rfl

/-- C19: when the allocation of the walker table fails in `PdBlock_iterBegin` (the
context itself was allocated, the table has two columns), construction ends without a
fault and installs the empty iterator, but the following `PdBlock_iterEnd` indexes the
NULL walker table and tests the index-table pointer that was never assigned: the
teardown is a fault.  A failure of the context or of the index-table allocation, and a
complete construction, tear down without fault. -/
theorem C19_teardown_after_walker_table_failure :
    (PdBlock_iterBegin exampleTableBlock basicTypeContext
        { exampleProcess with allocBudget := some 1 }).2.fault = false ∧
      (PdBlock_iterBegin exampleTableBlock basicTypeContext
        { exampleProcess with allocBudget := some 1 }).1.iterNext =
          some IterNextFn.NpyArr_iterNextNone ∧
      (PdBlock_iterEnd exampleTableBlock
        (PdBlock_iterBegin exampleTableBlock basicTypeContext
          { exampleProcess with allocBudget := some 1 }).1
        (PdBlock_iterBegin exampleTableBlock basicTypeContext
          { exampleProcess with allocBudget := some 1 }).2).2.fault = true ∧
      (encode 8 8 (some exampleTableBlock)
        { exampleProcess with outputFormat := PANDAS_FORMAT.VALUES,
                              allocBudget := some 2 }).2.fault = true ∧
      (encode 8 8 (some exampleTableBlock)
        { exampleProcess with outputFormat := PANDAS_FORMAT.VALUES,
                              allocBudget := some 1 }).2.fault = false ∧
      (encode 8 8 (some exampleTableBlock)
        { exampleProcess with outputFormat := PANDAS_FORMAT.VALUES,
                              allocBudget := some 3 }).2.fault = false ∧
      (encode 8 8 (some exampleTableBlock)
        { exampleProcess with outputFormat := PANDAS_FORMAT.VALUES }).2.fault = false := by
  refine ⟨?_, ?_, ?_, ?_, ?_, ?_, ?_⟩ <;> rfl

theorem PyObject_Malloc_fields (st : Encoder) :
    (PyObject_Malloc st).2.datetimeIso = st.datetimeIso ∧
      (PyObject_Malloc st).2.datetimeUnit = st.datetimeUnit ∧
      (PyObject_Malloc st).2.py = st.py ∧
      (PyObject_Malloc st).2.pyErr = st.pyErr := by
  unfold PyObject_Malloc
  split <;> simp

theorem NpyArr_encodeLabel_congr (st st' : Encoder) (type_num : Int) (item : PyObj)
    (h1 : st'.datetimeIso = st.datetimeIso) (h2 : st'.datetimeUnit = st.datetimeUnit)
    (h3 : st'.py = st.py) :
    NpyArr_encodeLabel st' type_num item = NpyArr_encodeLabel st type_num item := by
  unfold NpyArr_encodeLabel
  rw [h1, h2, h3]

theorem scaleToUnit_isSome (unit : NPY_DATETIMEUNIT) (v : Int)
    (hunit : unit ≠ NPY_DATETIMEUNIT.NPY_FR_other) : ∃ w, scaleToUnit unit v = some w := by
  cases unit <;> simp_all [scaleToUnit]

theorem NpyArr_encodeLabel_unit (st : Encoder) (type_num : Int) (item : PyObj)
    (hunit : st.datetimeUnit ≠ NPY_DATETIMEUNIT.NPY_FR_other) :
    NpyArr_encodeLabel st type_num item ≠ LabelResult.badUnit := by
  unfold NpyArr_encodeLabel
  by_cases h1 : (st.datetimeIso && (decide (type_num = NPY_TIMEDELTA) || PyDelta_Check item)) = true
  · simp only [h1, if_true]
    cases st.py.timedeltaIsoformat item <;> simp
  · simp only [h1]
    by_cases h2 : (PyTypeNum_ISDATETIME type_num || PyDateOrDateTime_Check item) = true
    · simp only [h2, if_true]
      cases st.py.timestamp item with
      | none => simp
      | some ts =>
        simp only []
        by_cases h3 : st.datetimeIso = true
        · simp only [h3, if_true]
          cases ts.isoformat <;> simp
        · simp only [h3]
          obtain ⟨w, hw⟩ := scaleToUnit_isSome st.datetimeUnit
            (if ts.hasValue = true then ts.value else ts.totalSecondsNs) hunit
          simp [hw]
    · simp only [h2]
      cases st.py.str item <;> simp

theorem NpyArr_encodeLabels_loop_spec (labels : PyArrayObject PyObj) (stride : Int) (n : Nat) :
    ∀ (dataptr : Int) (ret : List String) (st : Encoder),
      st.datetimeUnit ≠ NPY_DATETIMEUNIT.NPY_FR_other →
      ((NpyArr_encodeLabels_loop labels stride n dataptr ret st).1 = Option.none →
        (NpyArr_encodeLabels_loop labels stride n dataptr ret st).2.pyErr.isSome = true) ∧
      (∀ tbl, (NpyArr_encodeLabels_loop labels stride n dataptr ret st).1 = some tbl →
        ∃ l : List String, tbl = ret ++ l ∧ l.length = n ∧
          ∀ k, k < n → ∃ item, labels.getitem (dataptr + k * stride) = some item ∧
            NpyArr_encodeLabel st labels.type_num item = LabelResult.label (l.getD k "")) := by
  induction n with
  | zero =>
    intro dataptr ret st _
    simp [NpyArr_encodeLabels_loop]
  | succ n ih =>
    intro dataptr ret st hunit
    unfold NpyArr_encodeLabels_loop
    cases hitem : labels.getitem dataptr with
    | none => simp [PyErr_Set]
    | some item =>
      simp only []
      cases hconv : NpyArr_encodeLabel st labels.type_num item with
      | failed => simp [PyErr_Set]
      | badUnit => exact absurd hconv (NpyArr_encodeLabel_unit st labels.type_num item hunit)
      | label cLabel =>
        simp only []
        have hf := PyObject_Malloc_fields st
        cases hm : PyObject_Malloc st with
        | mk ok st1 =>
          rw [hm] at hf
          cases ok with
          | false => simp [PyErr_Set]
          | true =>
            simp only []
            by_cases herr : PyErr_Occurred st1 = true
            · simp only [herr, if_true]
              refine ⟨fun _ => herr, fun tbl h => by simp at h⟩
            · simp only [herr]
              have hunit1 : st1.datetimeUnit ≠ NPY_DATETIMEUNIT.NPY_FR_other := by
                rw [hf.2.1]; exact hunit
              obtain ⟨ihn, ihs⟩ := ih (dataptr + stride) (ret ++ [cLabel]) st1 hunit1
              refine ⟨ihn, fun tbl h => ?_⟩
              obtain ⟨l, hl, hlen, hk⟩ := ihs tbl h
              refine ⟨cLabel :: l, by simp [hl], by simp [hlen], fun k hk' => ?_⟩
              cases k with
              | zero => exact ⟨item, by simpa using hitem, by simpa using hconv⟩
              | succ k =>
                obtain ⟨it, hit, hc⟩ := hk k (by omega)
                refine ⟨it, ?_, ?_⟩
                · rw [← hit]; congr 1; push_cast; ring
                · rw [← NpyArr_encodeLabel_congr st st1 _ _ hf.1 hf.2.1 hf.2.2.1]
                  simpa using hc

/-- C9: `NpyArr_encodeLabels` returns either no table or a table of exactly `num` labels
whose i-th entry is the conversion of the i-th source value.  It returns no table with
`ValueError` raised when the source holds fewer than `num` values, and no table with
an exception raised when one of the first `num` values cannot be extracted or
converted. -/
theorem C9_encodeLabels_all_or_nothing (labels : PyArrayObject PyObj) (num : Int)
    (st : Encoder) (hunit : st.datetimeUnit ≠ NPY_DATETIMEUNIT.NPY_FR_other) :
    ((NpyArr_encodeLabels (some labels) num st).1 = Option.none ∨
      ∃ tbl, (NpyArr_encodeLabels (some labels) num st).1 = some tbl ∧
        tbl.length = num.toNat ∧
        ∀ i, i < num.toNat → ∃ item, labelItem labels i = some item ∧
          NpyArr_encodeLabel st labels.type_num item = LabelResult.label (tbl.getD i "")) ∧
    (PyArray_SIZE labels < num →
      (NpyArr_encodeLabels (some labels) num st).1 = Option.none ∧
        (NpyArr_encodeLabels (some labels) num st).2.pyErr = some PyExc.ValueError) ∧
    (∀ i, i < num.toNat →
      (∀ item s, labelItem labels i = some item →
        NpyArr_encodeLabel st labels.type_num item ≠ LabelResult.label s) →
      (NpyArr_encodeLabels (some labels) num st).1 = Option.none ∧
        (NpyArr_encodeLabels (some labels) num st).2.pyErr.isSome = true) := by
  have key : ((NpyArr_encodeLabels (some labels) num st).1 = Option.none →
        (NpyArr_encodeLabels (some labels) num st).2.pyErr.isSome = true) ∧
      (∀ tbl, (NpyArr_encodeLabels (some labels) num st).1 = some tbl →
        tbl.length = num.toNat ∧
        ∀ i, i < num.toNat → ∃ item, labelItem labels i = some item ∧
          NpyArr_encodeLabel st labels.type_num item = LabelResult.label (tbl.getD i "")) := by
    unfold NpyArr_encodeLabels
    by_cases hsize : PyArray_SIZE labels < num
    · simp [hsize, PyErr_Set]
    · simp only [hsize, if_false]
      have hf := PyObject_Malloc_fields st
      cases hm : PyObject_Malloc st with
      | mk ok st1 =>
        rw [hm] at hf
        cases ok with
        | false => simp [PyErr_Set]
        | true =>
          simp only []
          have hunit1 : st1.datetimeUnit ≠ NPY_DATETIMEUNIT.NPY_FR_other := by
            rw [hf.2.1]; exact hunit
          obtain ⟨hn, hs⟩ := NpyArr_encodeLabels_loop_spec labels (PyArray_STRIDE labels 0)
            num.toNat labels.data [] st1 hunit1
          refine ⟨hn, fun tbl h => ?_⟩
          obtain ⟨l, hl, hlen, hk⟩ := hs tbl h
          simp only [List.nil_append] at hl
          subst hl
          refine ⟨hlen, fun i hi => ?_⟩
          obtain ⟨it, hit, hc⟩ := hk i hi
          exact ⟨it, hit, by
            rw [← NpyArr_encodeLabel_congr st st1 _ _ hf.1 hf.2.1 hf.2.2.1]; exact hc⟩
  refine ⟨?_, ?_, ?_⟩
  · cases h : (NpyArr_encodeLabels (some labels) num st).1 with
    | none => exact Or.inl rfl
    | some tbl => exact Or.inr ⟨tbl, rfl, key.2 tbl h⟩
  · intro hsize
    simp [NpyArr_encodeLabels, hsize, PyErr_Set]
  · intro i hi hbad
    have hnone : (NpyArr_encodeLabels (some labels) num st).1 = Option.none := by
      cases h : (NpyArr_encodeLabels (some labels) num st).1 with
      | none => rfl
      | some tbl =>
        obtain ⟨item, hitem, hc⟩ := (key.2 tbl h).2 i hi
        exact absurd hc (hbad item _ hitem)
    exact ⟨hnone, key.1 hnone⟩

/-- C9 witness: two text labels are encoded to the table c0, c1, and asking for three
labels of a two-element source fails with `ValueError`. -/
theorem C9_encodeLabels_all_or_nothing_witness :
    (NpyArr_encodeLabels (some exampleLabels) 2 exampleProcess).1 = some ["c0", "c1"] ∧
      ((NpyArr_encodeLabels (some exampleLabels) 3 exampleProcess).1 = Option.none ∧
        (NpyArr_encodeLabels (some exampleLabels) 3 exampleProcess).2.pyErr =
          some PyExc.ValueError) :=
  ⟨rfl, (C9_encodeLabels_all_or_nothing exampleLabels 3 exampleProcess (by decide)).2.1
    (by decide)⟩

/-- C20: with no primitive pending, a 0-dimensional array is classified invalid with
`TypeError` raised and no iterator installed, whereas an array of rank at least one
reaches container dispatch: it is an Array or Object whose iterator is the array
walker. -/
theorem C20_zero_dim_array_is_error (encode : Option PyObj → Encoder → JSONValue × Encoder)
    (st : Encoder) (a : PyArrayObject PyObj) (hp : st.npyType < 0)
    (halloc : st.allocBudget ≠ some 0) :
    (a.dims = [] →
      Object_beginTypeContext encode (some (PyObj.ndarray a)) st =
        (invalidContext, Option.none, PyErr_Set PyExc.TypeError (afterMalloc st))) ∧
    (a.dims ≠ [] →
      ((Object_beginTypeContext encode (some (PyObj.ndarray a)) st).1.type = JSTYPES.JT_ARRAY ∨
        (Object_beginTypeContext encode (some (PyObj.ndarray a)) st).1.type =
          JSTYPES.JT_OBJECT) ∧
      ((Object_beginTypeContext encode (some (PyObj.ndarray a)) st).1.prv.bind
          TypeContext.iterBegin = some IterBeginFn.NpyArr_iterBegin ∨
        (Object_beginTypeContext encode (some (PyObj.ndarray a)) st).1.prv.bind
          TypeContext.iterBegin = some IterBeginFn.NpyArrPassThru_iterBegin) ∧
      (Object_beginTypeContext encode (some (PyObj.ndarray a)) st).1.prv.bind
          TypeContext.iterNext = some IterNextFn.NpyArr_iterNext ∧
      (Object_beginTypeContext encode (some (PyObj.ndarray a)) st).2.2.pyErr = st.pyErr) := by
  have h1 : ¬ (st.npyType ≥ 0) := by omega
  constructor
  · intro hd
    simp [Object_beginTypeContext, h1, PyBool_Check, createTypeContext_eq st halloc,
      PyIter_Check, PyArray_Check, PyArray_CheckScalar, hd, beginLeaf]
  · intro hd
    have hd' : ¬ (a.dims.length = 0) := by
      intro h; exact hd (List.length_eq_zero.mp h)
    simp only [Object_beginTypeContext, h1, if_false, PyBool_Check, createTypeContext_eq st halloc,
      PyIter_Check, PyArray_Check, PyArray_CheckScalar, hd', decide_False, Bool.not_false,
      Bool.and_self, Bool.or_true, if_true, Bool.false_or, beginIterable]
    cases hpass : (afterMalloc st).npyCtxtPassthru with
    | none => simp [typed, installNpyArr, afterMalloc]
    | some p =>
      simp only [typed]
      split_ifs <;> simp_all [afterMalloc]

/-- C20 witness: a 0-dimensional array in a fresh process. -/
theorem C20_zero_dim_array_is_error_witness :
    Object_beginTypeContext (ObjToJSON.encode 8 8) (some (PyObj.ndarray noArray)) exampleProcess =
      (invalidContext, Option.none, PyErr_Set PyExc.TypeError (afterMalloc exampleProcess)) :=
  (C20_zero_dim_array_is_error (ObjToJSON.encode 8 8) exampleProcess noArray (by decide)
    (by decide)).1 rfl

/-- C17: for a node that is no leaf, no container and has no `toDict`: with a default
handler configured the handler is invoked once with that node (one entry is appended
to the call log), the node is classified invalid, a returned value is encoded by the
recursive driver, a NULL return without exception raises `TypeError`, and a raised
exception stays pending; the reflection iterator is installed only when no handler is
configured. -/
theorem C17_default_handler_or_reflection
    (encode : Option PyObj → Encoder → JSONValue × Encoder) (st : Encoder)
    (isIter callable : Bool) (dir : List String) (getattr : String → Option PyObj)
    (hp : st.npyType < 0) (halloc : st.allocBudget ≠ some 0) :
    (∀ handler, st.defaultHandler = some handler →
      (∀ tmpObj,
        handler (some (PyObj.inst isIter callable dir getattr Option.none)) =
          HandlerResult.returned tmpObj →
        Object_beginTypeContext encode
            (some (PyObj.inst isIter callable dir getattr Option.none)) st =
          (invalidContext,
            some (encode (some tmpObj)
              { (afterMalloc st) with
                  pyErr := Option.none,
                  handlerCalls := st.handlerCalls ++
                    [some (PyObj.inst isIter callable dir getattr Option.none)] }).1,
            (encode (some tmpObj)
              { (afterMalloc st) with
                  pyErr := Option.none,
                  handlerCalls := st.handlerCalls ++
                    [some (PyObj.inst isIter callable dir getattr Option.none)] }).2)) ∧
      (handler (some (PyObj.inst isIter callable dir getattr Option.none)) =
          HandlerResult.null →
        Object_beginTypeContext encode
            (some (PyObj.inst isIter callable dir getattr Option.none)) st =
          (invalidContext, Option.none,
            { (afterMalloc st) with
                pyErr := some PyExc.TypeError,
                handlerCalls := st.handlerCalls ++
                  [some (PyObj.inst isIter callable dir getattr Option.none)] })) ∧
      (∀ e,
        handler (some (PyObj.inst isIter callable dir getattr Option.none)) =
          HandlerResult.raised e →
        Object_beginTypeContext encode
            (some (PyObj.inst isIter callable dir getattr Option.none)) st =
          (invalidContext, Option.none,
            { (afterMalloc st) with
                pyErr := some e,
                handlerCalls := st.handlerCalls ++
                  [some (PyObj.inst isIter callable dir getattr Option.none)] }))) ∧
    (st.defaultHandler = Option.none →
      Object_beginTypeContext encode
          (some (PyObj.inst isIter callable dir getattr Option.none)) st =
        (typed JSTYPES.JT_OBJECT dirContext, Option.none,
          { (afterMalloc st) with pyErr := Option.none })) := by
  have h1 : ¬ (st.npyType ≥ 0) := by omega
  refine ⟨fun handler hh => ⟨fun tmpObj hr => ?_, fun hr => ?_, fun e hr => ?_⟩, fun hh => ?_⟩
  · cases isIter <;>
      simp [Object_beginTypeContext, h1, PyBool_Check, createTypeContext_eq st halloc,
        PyIter_Check, PyArray_Check, beginLeaf, beginIterable, Object_invokeDefaultHandler,
        afterMalloc, hh, hr, PyErr_Occurred]
  · cases isIter <;>
      simp [Object_beginTypeContext, h1, PyBool_Check, createTypeContext_eq st halloc,
        PyIter_Check, PyArray_Check, beginLeaf, beginIterable, Object_invokeDefaultHandler,
        afterMalloc, hh, hr, PyErr_Occurred, PyErr_Set]
  · cases isIter <;>
      simp [Object_beginTypeContext, h1, PyBool_Check, createTypeContext_eq st halloc,
        PyIter_Check, PyArray_Check, beginLeaf, beginIterable, Object_invokeDefaultHandler,
        afterMalloc, hh, hr, PyErr_Occurred, PyErr_Set]
  · cases isIter <;>
      simp [Object_beginTypeContext, h1, PyBool_Check, createTypeContext_eq st halloc,
        PyIter_Check, PyArray_Check, beginLeaf, beginIterable, afterMalloc, hh, typed,
        dirContext, basicTypeContext]

/-- C17 witness: with the handler that returns 7, an attribute-less object is encoded
as the handler's result 7 and the handler is called once. -/
theorem C17_default_handler_or_reflection_witness :
    (Object_beginTypeContext (encode 8 8) (some (PyObj.inst false false [] (fun _ => Option.none)
        Option.none)) { exampleProcess with defaultHandler := some sevenHandler }).2.1 =
      some (JSONValue.long 7) := by
  rw [((C17_default_handler_or_reflection (encode 8 8)
    { exampleProcess with defaultHandler := some sevenHandler } false false []
    (fun _ => Option.none) (by decide) (by decide)).1 sevenHandler rfl).1 (PyObj.long 7) rfl]
  rfl

@[simp] theorem npyStore_npyCtxtPassthru (st : Encoder) (p : Option Nat) (c : NpyArrContext) :
    (npyStore st p c).npyCtxtPassthru = st.npyCtxtPassthru := by
  unfold npyStore
  cases p with
  | none => rfl
  | some i => simp only []; split <;> rfl

@[simp] theorem npyStore_blkCtxtPassthru (st : Encoder) (p : Option Nat) (c : NpyArrContext) :
    (npyStore st p c).blkCtxtPassthru = st.blkCtxtPassthru := by
  unfold npyStore
  cases p with
  | none => rfl
  | some i => simp only []; split <;> rfl

@[simp] theorem npyStore_npyType (st : Encoder) (p : Option Nat) (c : NpyArrContext) :
    (npyStore st p c).npyType = st.npyType := by
  unfold npyStore
  cases p with
  | none => rfl
  | some i => simp only []; split <;> rfl

@[simp] theorem npyStore_npyValue (st : Encoder) (p : Option Nat) (c : NpyArrContext) :
    (npyStore st p c).npyValue = st.npyValue := by
  unfold npyStore
  cases p with
  | none => rfl
  | some i => simp only []; split <;> rfl

@[simp] theorem npyStore_datetimeIso (st : Encoder) (p : Option Nat) (c : NpyArrContext) :
    (npyStore st p c).datetimeIso = st.datetimeIso := by
  unfold npyStore
  cases p with
  | none => rfl
  | some i => simp only []; split <;> rfl

@[simp] theorem npyStore_datetimeUnit (st : Encoder) (p : Option Nat) (c : NpyArrContext) :
    (npyStore st p c).datetimeUnit = st.datetimeUnit := by
  unfold npyStore
  cases p with
  | none => rfl
  | some i => simp only []; split <;> rfl

@[simp] theorem npyStore_outputFormat (st : Encoder) (p : Option Nat) (c : NpyArrContext) :
    (npyStore st p c).outputFormat = st.outputFormat := by
  unfold npyStore
  cases p with
  | none => rfl
  | some i => simp only []; split <;> rfl

@[simp] theorem npyStore_originalOutputFormat (st : Encoder) (p : Option Nat) (c : NpyArrContext) :
    (npyStore st p c).originalOutputFormat = st.originalOutputFormat := by
  unfold npyStore
  cases p with
  | none => rfl
  | some i => simp only []; split <;> rfl

@[simp] theorem npyStore_defaultHandler (st : Encoder) (p : Option Nat) (c : NpyArrContext) :
    (npyStore st p c).defaultHandler = st.defaultHandler := by
  unfold npyStore
  cases p with
  | none => rfl
  | some i => simp only []; split <;> rfl

@[simp] theorem npyStore_errorMsg (st : Encoder) (p : Option Nat) (c : NpyArrContext) :
    (npyStore st p c).errorMsg = st.errorMsg := by
  unfold npyStore
  cases p with
  | none => rfl
  | some i => simp only []; split <;> rfl

@[simp] theorem npyStore_pyErr (st : Encoder) (p : Option Nat) (c : NpyArrContext) :
    (npyStore st p c).pyErr = st.pyErr := by
  unfold npyStore
  cases p with
  | none => rfl
  | some i => simp only []; split <;> rfl

@[simp] theorem npyStore_blkHeap (st : Encoder) (p : Option Nat) (c : NpyArrContext) :
    (npyStore st p c).blkHeap = st.blkHeap := by
  unfold npyStore
  cases p with
  | none => rfl
  | some i => simp only []; split <;> rfl

@[simp] theorem npyStore_allocBudget (st : Encoder) (p : Option Nat) (c : NpyArrContext) :
    (npyStore st p c).allocBudget = st.allocBudget := by
  unfold npyStore
  cases p with
  | none => rfl
  | some i => simp only []; split <;> rfl

@[simp] theorem npyStore_uninit (st : Encoder) (p : Option Nat) (c : NpyArrContext) :
    (npyStore st p c).uninit = st.uninit := by
  unfold npyStore
  cases p with
  | none => rfl
  | some i => simp only []; split <;> rfl

@[simp] theorem npyStore_loadDouble (st : Encoder) (p : Option Nat) (c : NpyArrContext) :
    (npyStore st p c).loadDouble = st.loadDouble := by
  unfold npyStore
  cases p with
  | none => rfl
  | some i => simp only []; split <;> rfl

@[simp] theorem npyStore_loadInt (st : Encoder) (p : Option Nat) (c : NpyArrContext) :
    (npyStore st p c).loadInt = st.loadInt := by
  unfold npyStore
  cases p with
  | none => rfl
  | some i => simp only []; split <;> rfl

@[simp] theorem npyStore_loadBool (st : Encoder) (p : Option Nat) (c : NpyArrContext) :
    (npyStore st p c).loadBool = st.loadBool := by
  unfold npyStore
  cases p with
  | none => rfl
  | some i => simp only []; split <;> rfl

@[simp] theorem npyStore_handlerCalls (st : Encoder) (p : Option Nat) (c : NpyArrContext) :
    (npyStore st p c).handlerCalls = st.handlerCalls := by
  unfold npyStore
  cases p with
  | none => rfl
  | some i => simp only []; split <;> rfl

@[simp] theorem npyStore_freed (st : Encoder) (p : Option Nat) (c : NpyArrContext) :
    (npyStore st p c).freed = st.freed := by
  unfold npyStore
  cases p with
  | none => rfl
  | some i => simp only []; split <;> rfl

@[simp] theorem npyStore_py (st : Encoder) (p : Option Nat) (c : NpyArrContext) :
    (npyStore st p c).py = st.py := by
  unfold npyStore
  cases p with
  | none => rfl
  | some i => simp only []; split <;> rfl

@[simp] theorem npyStore_doublePrecision (st : Encoder) (p : Option Nat) (c : NpyArrContext) :
    (npyStore st p c).doublePrecision = st.doublePrecision := by
  unfold npyStore
  cases p with
  | none => rfl
  | some i => simp only []; split <;> rfl

@[simp] theorem npyStore_forceASCII (st : Encoder) (p : Option Nat) (c : NpyArrContext) :
    (npyStore st p c).forceASCII = st.forceASCII := by
  unfold npyStore
  cases p with
  | none => rfl
  | some i => simp only []; split <;> rfl

@[simp] theorem npyStore_encodeHTMLChars (st : Encoder) (p : Option Nat) (c : NpyArrContext) :
    (npyStore st p c).encodeHTMLChars = st.encodeHTMLChars := by
  unfold npyStore
  cases p with
  | none => rfl
  | some i => simp only []; split <;> rfl

@[simp] theorem npyStore_indent (st : Encoder) (p : Option Nat) (c : NpyArrContext) :
    (npyStore st p c).indent = st.indent := by
  unfold npyStore
  cases p with
  | none => rfl
  | some i => simp only []; split <;> rfl

@[simp] theorem blkStore_npyCtxtPassthru (st : Encoder) (p : Option Nat) (c : PdBlockContext) :
    (blkStore st p c).npyCtxtPassthru = st.npyCtxtPassthru := by
  unfold blkStore
  cases p with
  | none => rfl
  | some i => simp only []; split <;> rfl

@[simp] theorem blkStore_blkCtxtPassthru (st : Encoder) (p : Option Nat) (c : PdBlockContext) :
    (blkStore st p c).blkCtxtPassthru = st.blkCtxtPassthru := by
  unfold blkStore
  cases p with
  | none => rfl
  | some i => simp only []; split <;> rfl

@[simp] theorem blkStore_npyType (st : Encoder) (p : Option Nat) (c : PdBlockContext) :
    (blkStore st p c).npyType = st.npyType := by
  unfold blkStore
  cases p with
  | none => rfl
  | some i => simp only []; split <;> rfl

@[simp] theorem blkStore_npyValue (st : Encoder) (p : Option Nat) (c : PdBlockContext) :
    (blkStore st p c).npyValue = st.npyValue := by
  unfold blkStore
  cases p with
  | none => rfl
  | some i => simp only []; split <;> rfl

@[simp] theorem blkStore_datetimeIso (st : Encoder) (p : Option Nat) (c : PdBlockContext) :
    (blkStore st p c).datetimeIso = st.datetimeIso := by
  unfold blkStore
  cases p with
  | none => rfl
  | some i => simp only []; split <;> rfl

@[simp] theorem blkStore_datetimeUnit (st : Encoder) (p : Option Nat) (c : PdBlockContext) :
    (blkStore st p c).datetimeUnit = st.datetimeUnit := by
  unfold blkStore
  cases p with
  | none => rfl
  | some i => simp only []; split <;> rfl

@[simp] theorem blkStore_outputFormat (st : Encoder) (p : Option Nat) (c : PdBlockContext) :
    (blkStore st p c).outputFormat = st.outputFormat := by
  unfold blkStore
  cases p with
  | none => rfl
  | some i => simp only []; split <;> rfl

@[simp] theorem blkStore_originalOutputFormat (st : Encoder) (p : Option Nat) (c : PdBlockContext) :
    (blkStore st p c).originalOutputFormat = st.originalOutputFormat := by
  unfold blkStore
  cases p with
  | none => rfl
  | some i => simp only []; split <;> rfl

@[simp] theorem blkStore_defaultHandler (st : Encoder) (p : Option Nat) (c : PdBlockContext) :
    (blkStore st p c).defaultHandler = st.defaultHandler := by
  unfold blkStore
  cases p with
  | none => rfl
  | some i => simp only []; split <;> rfl

@[simp] theorem blkStore_errorMsg (st : Encoder) (p : Option Nat) (c : PdBlockContext) :
    (blkStore st p c).errorMsg = st.errorMsg := by
  unfold blkStore
  cases p with
  | none => rfl
  | some i => simp only []; split <;> rfl

@[simp] theorem blkStore_pyErr (st : Encoder) (p : Option Nat) (c : PdBlockContext) :
    (blkStore st p c).pyErr = st.pyErr := by
  unfold blkStore
  cases p with
  | none => rfl
  | some i => simp only []; split <;> rfl

@[simp] theorem blkStore_npyHeap (st : Encoder) (p : Option Nat) (c : PdBlockContext) :
    (blkStore st p c).npyHeap = st.npyHeap := by
  unfold blkStore
  cases p with
  | none => rfl
  | some i => simp only []; split <;> rfl

@[simp] theorem blkStore_allocBudget (st : Encoder) (p : Option Nat) (c : PdBlockContext) :
    (blkStore st p c).allocBudget = st.allocBudget := by
  unfold blkStore
  cases p with
  | none => rfl
  | some i => simp only []; split <;> rfl

@[simp] theorem blkStore_uninit (st : Encoder) (p : Option Nat) (c : PdBlockContext) :
    (blkStore st p c).uninit = st.uninit := by
  unfold blkStore
  cases p with
  | none => rfl
  | some i => simp only []; split <;> rfl

@[simp] theorem blkStore_loadDouble (st : Encoder) (p : Option Nat) (c : PdBlockContext) :
    (blkStore st p c).loadDouble = st.loadDouble := by
  unfold blkStore
  cases p with
  | none => rfl
  | some i => simp only []; split <;> rfl

@[simp] theorem blkStore_loadInt (st : Encoder) (p : Option Nat) (c : PdBlockContext) :
    (blkStore st p c).loadInt = st.loadInt := by
  unfold blkStore
  cases p with
  | none => rfl
  | some i => simp only []; split <;> rfl

@[simp] theorem blkStore_loadBool (st : Encoder) (p : Option Nat) (c : PdBlockContext) :
    (blkStore st p c).loadBool = st.loadBool := by
  unfold blkStore
  cases p with
  | none => rfl
  | some i => simp only []; split <;> rfl

@[simp] theorem blkStore_handlerCalls (st : Encoder) (p : Option Nat) (c : PdBlockContext) :
    (blkStore st p c).handlerCalls = st.handlerCalls := by
  unfold blkStore
  cases p with
  | none => rfl
  | some i => simp only []; split <;> rfl

@[simp] theorem blkStore_freed (st : Encoder) (p : Option Nat) (c : PdBlockContext) :
    (blkStore st p c).freed = st.freed := by
  unfold blkStore
  cases p with
  | none => rfl
  | some i => simp only []; split <;> rfl

@[simp] theorem blkStore_py (st : Encoder) (p : Option Nat) (c : PdBlockContext) :
    (blkStore st p c).py = st.py := by
  unfold blkStore
  cases p with
  | none => rfl
  | some i => simp only []; split <;> rfl

@[simp] theorem blkStore_doublePrecision (st : Encoder) (p : Option Nat) (c : PdBlockContext) :
    (blkStore st p c).doublePrecision = st.doublePrecision := by
  unfold blkStore
  cases p with
  | none => rfl
  | some i => simp only []; split <;> rfl

@[simp] theorem blkStore_forceASCII (st : Encoder) (p : Option Nat) (c : PdBlockContext) :
    (blkStore st p c).forceASCII = st.forceASCII := by
  unfold blkStore
  cases p with
  | none => rfl
  | some i => simp only []; split <;> rfl

@[simp] theorem blkStore_encodeHTMLChars (st : Encoder) (p : Option Nat) (c : PdBlockContext) :
    (blkStore st p c).encodeHTMLChars = st.encodeHTMLChars := by
  unfold blkStore
  cases p with
  | none => rfl
  | some i => simp only []; split <;> rfl

@[simp] theorem blkStore_indent (st : Encoder) (p : Option Nat) (c : PdBlockContext) :
    (blkStore st p c).indent = st.indent := by
  unfold blkStore
  cases p with
  | none => rfl
  | some i => simp only []; split <;> rfl

/-- C18: each hand-off slot is emptied by the call of `Object_beginTypeContext` that
consumes it.  A pending primitive: the nested `encode` of a default handler's result
only ever starts with no primitive pending (forcing `npyType = -1` at its entry changes
nothing), and on return no primitive is pending and the array-cursor slot is empty.
The array-cursor slot and the block-cursor slot: the consuming call stores the cursor
in its own context and returns with the slot empty.  Seeding one column in
`PdBlock_iterBegin` leaves the array-cursor slot empty. -/
theorem C18_handoff_cleared_once_consumed
    (encode : Option PyObj → Encoder → JSONValue × Encoder) (st : Encoder) (obj : PyObj)
    (halloc : st.allocBudget ≠ some 0) :
    (0 ≤ st.npyType →
      Object_beginTypeContext encode (some obj) st =
          Object_beginTypeContext (fun o s => encode o { s with npyType := -1 }) (some obj) st ∧
        (Object_beginTypeContext encode (some obj) st).2.2.npyType = -1 ∧
        (Object_beginTypeContext encode (some obj) st).2.2.npyCtxtPassthru = Option.none) ∧
    (∀ (a : PyArrayObject PyObj) (p : Nat), st.npyType < 0 → a.dims ≠ [] →
      st.npyCtxtPassthru = some p →
      (Object_beginTypeContext encode (some (PyObj.ndarray a)) st).2.2.npyCtxtPassthru =
          Option.none ∧
        (Object_beginTypeContext encode (some (PyObj.ndarray a)) st).1.prv.bind
          TypeContext.npyarr = some p) ∧
    (∀ (columns index : Option PyObj) (mixed : Option Bool)
        (values : Option (PyArrayObject PyObj)) (blocks : Option (List (PdBlock PyObj)))
        (p : Nat), st.npyType < 0 → st.blkCtxtPassthru = some p →
      (Object_beginTypeContext encode
          (some (PyObj.dataframe columns index mixed values blocks)) st).2.2.blkCtxtPassthru =
          Option.none ∧
        (Object_beginTypeContext encode
          (some (PyObj.dataframe columns index mixed values blocks)) st).1.prv.bind
          TypeContext.pdblock = some p) ∧
    (∀ (values : PyArrayObject PyObj) (colIdx idx : Int) (tc : TypeContext),
      (PdBlock_seedColumn obj values colIdx idx tc st).2.npyCtxtPassthru = Option.none) := by
  refine ⟨fun hp => ?_, fun a p hp hd hpass => ?_, fun c i m v b p hp hpass => ?_,
    fun values colIdx idx tc => ?_⟩
  · have h1 : st.npyType ≥ 0 := hp
    simp only [Object_beginTypeContext, h1, if_true]
    by_cases hinv : (NpyTypeToJSONType basicTypeContext st.npyType st.npyValue st).1 =
        JSTYPES.JT_INVALID
    · simp only [hinv, if_true]
      by_cases hh : st.defaultHandler.isSome = true
      · simp only [hh, if_true, and_self, and_true]
        obtain ⟨handler, hhandler⟩ := Option.isSome_iff_exists.mp hh
        simp only [Object_invokeDefaultHandler, hhandler]
      · simp [hh]
    · simp [hinv]
  · have h1 : ¬ (st.npyType ≥ 0) := by omega
    have hd' : ¬ (a.dims.length = 0) := by
      intro h; exact hd (List.length_eq_zero.mp h)
    have hpass' : (afterMalloc st).npyCtxtPassthru = some p := hpass
    simp [Object_beginTypeContext, h1, PyBool_Check, createTypeContext_eq st halloc,
      PyIter_Check, PyArray_Check, PyArray_CheckScalar, hd', beginIterable, hpass', typed]
  · have h1 : ¬ (st.npyType ≥ 0) := by omega
    have hpass' : (afterMalloc st).blkCtxtPassthru = some p := hpass
    simp [Object_beginTypeContext, h1, PyBool_Check, createTypeContext_eq st halloc,
      PyIter_Check, PyArray_Check, PyArray_CheckScalar, beginLeaf, beginIterable, hpass', typed]
  · unfold PdBlock_seedColumn
    simp only []
    split <;> simp

/-- C18 witness: an array classified while the array-cursor slot holds cursor 0. -/
theorem C18_handoff_cleared_once_consumed_witness :
    (Object_beginTypeContext (encode 8 8) (some (PyObj.ndarray exampleLabels))
        { exampleProcess with npyCtxtPassthru := some 0 }).2.2.npyCtxtPassthru = Option.none ∧
      (Object_beginTypeContext (encode 8 8) (some (PyObj.ndarray exampleLabels))
        { exampleProcess with npyCtxtPassthru := some 0 }).1.prv.bind TypeContext.npyarr =
          some 0 :=
  (C18_handoff_cleared_once_consumed (encode 8 8)
    { exampleProcess with npyCtxtPassthru := some 0 } PyObj.none (by decide)).2.1
    exampleLabels 0 (by decide) (by simp [exampleLabels, textArray]) rfl

/-- C14: under orient=split the fields iterators, driven by the driver loop with any
child encoder, yield a fixed sequence of member names and then end: columns, index,
data for a table; name, index, data for a series; name, data for an index (whose
values exist).  Each `begin` that obtains its name buffer starts the cursor at 0, and
once the cursor is past the last field every further `next` reports the end and
changes nothing. -/
theorem C14_split_fields_sequence (k : Option PyObj → Encoder → JSONValue × Encoder)
    (obj : PyObj) (tc : TypeContext) (st : Encoder) (fuel : Nat)
    (hbuf : tc.cStr.isSome = true) (hidx : tc.index = 0) :
    (tc.iterNext = some IterNextFn.DataFrame_iterNext →
      tc.iterGetName = some IterGetNameFn.DataFrame_iterGetName →
      (is_simple_frame obj = true → (get_values obj).isSome = true) →
      (iterLoop k true obj (fuel + 4) tc st).1.map Prod.fst =
          [some "columns", some "index", some "data"] ∧
        (iterLoop k true obj (fuel + 4) tc st).2.1.index = 3) ∧
    (tc.iterNext = some IterNextFn.Series_iterNext →
      tc.iterGetName = some IterGetNameFn.Series_iterGetName →
      (get_values obj).isSome = true →
      (iterLoop k true obj (fuel + 4) tc st).1.map Prod.fst =
          [some "name", some "index", some "data"] ∧
        (iterLoop k true obj (fuel + 4) tc st).2.1.index = 3) ∧
    (tc.iterNext = some IterNextFn.Index_iterNext →
      tc.iterGetName = some IterGetNameFn.Index_iterGetName →
      (get_values obj).isSome = true →
      (iterLoop k true obj (fuel + 3) tc st).1.map Prod.fst = [some "name", some "data"] ∧
        (iterLoop k true obj (fuel + 3) tc st).2.1.index = 2) ∧
    (∀ (tc' : TypeContext) (st' : Encoder), 3 ≤ tc'.index →
      DataFrame_iterNext obj tc' st' = (false, tc', st') ∧
        Series_iterNext obj tc' st' = (false, tc', st')) ∧
    (∀ (tc' : TypeContext) (st' : Encoder), 2 ≤ tc'.index →
      Index_iterNext obj tc' st' = (false, tc', st')) ∧
    (∀ (pc : TypeContext), st.allocBudget ≠ some 0 →
      ((DataFrame_iterBegin obj pc st).1.cStr.isSome = true ∧
        (DataFrame_iterBegin obj pc st).1.index = 0) ∧
      ((Series_iterBegin obj pc st).1.cStr.isSome = true ∧
        (Series_iterBegin obj pc st).1.index = 0) ∧
      ((Index_iterBegin obj pc st).1.cStr.isSome = true ∧
        (Index_iterBegin obj pc st).1.index = 0)) := by
  have hbuf' : tc.cStr.isNone = false := by
    cases h : tc.cStr <;> simp_all
  refine ⟨fun hn hg hv => ?_, fun hn hg hv => ?_, fun hn hg hv => ?_, fun tc' st' h3 => ?_,
    fun tc' st' h2 => ?_, fun pc halloc => ?_⟩
  · by_cases hs : is_simple_frame obj = true
    · obtain ⟨v, hv'⟩ := Option.isSome_iff_exists.mp (hv hs)
      simp [iterLoop, Object_iterNext, Object_iterGetName, Object_iterGetValue,
        DataFrame_iterNext, hn, hg, hbuf', hidx, hs, hv']
    · simp [iterLoop, Object_iterNext, Object_iterGetName, Object_iterGetValue,
        DataFrame_iterNext, hn, hg, hbuf', hidx, hs]
  · obtain ⟨v, hv'⟩ := Option.isSome_iff_exists.mp hv
    simp [iterLoop, Object_iterNext, Object_iterGetName, Object_iterGetValue,
      Series_iterNext, hn, hg, hbuf', hidx, hv']
  · obtain ⟨v, hv'⟩ := Option.isSome_iff_exists.mp hv
    simp [iterLoop, Object_iterNext, Object_iterGetName, Object_iterGetValue,
      Index_iterNext, hn, hg, hbuf', hidx, hv']
  · have e0 : ¬ tc'.index = 0 := by omega
    have e1 : ¬ tc'.index = 1 := by omega
    have e2 : ¬ tc'.index = 2 := by omega
    constructor
    · unfold DataFrame_iterNext
      simp only [e0, e1, e2, if_false]
      split <;> rfl
    · unfold Series_iterNext
      simp only [e0, e1, e2, if_false]
      split <;> rfl
  · have e0 : ¬ tc'.index = 0 := by omega
    have e1 : ¬ tc'.index = 1 := by omega
    unfold Index_iterNext
    simp only [e0, e1, if_false]
    split <;> rfl
  · simp [DataFrame_iterBegin, Series_iterBegin, Index_iterBegin, PyObject_Malloc_eq st halloc]

/-- C14 witness: the split encoding of the example table names its members columns,
index, data. -/
theorem C14_split_fields_sequence_witness :
    (iterLoop (encode 8 8) true exampleTableDense 5
        { basicTypeContext with
            iterNext := some IterNextFn.DataFrame_iterNext,
            iterGetName := some IterGetNameFn.DataFrame_iterGetName,
            cStr := some "" } exampleProcess).1.map Prod.fst =
      [some "columns", some "index", some "data"] :=
  ((C14_split_fields_sequence (encode 8 8) exampleTableDense
    { basicTypeContext with
        iterNext := some IterNextFn.DataFrame_iterNext,
        iterGetName := some IterGetNameFn.DataFrame_iterGetName,
        cStr := some "" } exampleProcess 1 rfl rfl).1 rfl rfl (fun _ => rfl)).1

/-- C13 counterexample: for the example table (column c0 = 1, 2 and column c1 = 3, 4)
orient=split does not produce the data field 1, 2 / 3, 4 of the claim. -/
theorem C13_split_example_counterexample :
    objToJSON 8 exampleProcess (exampleArgs exampleTableBlock (some "split")) ≠
      Except.ok (JSONValue.object
        (exampleSplitLabels ++ [(some "data", intRows [[1, 2], [3, 4]])])) := by
  have h : objToJSON 8 exampleProcess (exampleArgs exampleTableBlock (some "split")) =
      Except.ok (JSONValue.object
        (exampleSplitLabels ++ [(some "data", intRows [[1, 3], [2, 4]])])) := by
    rfl
  rw [h]
  simp [exampleSplitLabels, intRows]

/-- C13 amended: for the example table, stored as one block or as a dense array,
orient=split produces the object with members columns = c0, c1, index = r0, r1 and
data = the rows 1, 3 and 2, 4 (row-major, as under orient=values). -/
theorem C13_split_example_rows :
    objToJSON 8 exampleProcess (exampleArgs exampleTableBlock (some "split")) =
        Except.ok (JSONValue.object
          (exampleSplitLabels ++ [(some "data", intRows [[1, 3], [2, 4]])])) ∧
      objToJSON 8 exampleProcess (exampleArgs exampleTableDense (some "split")) =
        Except.ok (JSONValue.object
          (exampleSplitLabels ++ [(some "data", intRows [[1, 3], [2, 4]])])) ∧
      objToJSON 8 exampleProcess (exampleArgs exampleTableBlock (some "values")) =
        Except.ok (intRows [[1, 3], [2, 4]]) := by
  refine ⟨?_, ?_, ?_⟩ <;> rfl

@[simp] theorem heapSet_npyCtxtPassthru (st : Encoder) (q : Nat) (c : NpyArrContext) :
    (heapSet st q c).npyCtxtPassthru = st.npyCtxtPassthru := rfl

@[simp] theorem heapSet_blkCtxtPassthru (st : Encoder) (q : Nat) (c : NpyArrContext) :
    (heapSet st q c).blkCtxtPassthru = st.blkCtxtPassthru := rfl

@[simp] theorem heapSet_npyType (st : Encoder) (q : Nat) (c : NpyArrContext) :
    (heapSet st q c).npyType = st.npyType := rfl

@[simp] theorem heapSet_npyValue (st : Encoder) (q : Nat) (c : NpyArrContext) :
    (heapSet st q c).npyValue = st.npyValue := rfl

@[simp] theorem heapSet_datetimeIso (st : Encoder) (q : Nat) (c : NpyArrContext) :
    (heapSet st q c).datetimeIso = st.datetimeIso := rfl

@[simp] theorem heapSet_datetimeUnit (st : Encoder) (q : Nat) (c : NpyArrContext) :
    (heapSet st q c).datetimeUnit = st.datetimeUnit := rfl

@[simp] theorem heapSet_outputFormat (st : Encoder) (q : Nat) (c : NpyArrContext) :
    (heapSet st q c).outputFormat = st.outputFormat := rfl

@[simp] theorem heapSet_originalOutputFormat (st : Encoder) (q : Nat) (c : NpyArrContext) :
    (heapSet st q c).originalOutputFormat = st.originalOutputFormat := rfl

@[simp] theorem heapSet_defaultHandler (st : Encoder) (q : Nat) (c : NpyArrContext) :
    (heapSet st q c).defaultHandler = st.defaultHandler := rfl

@[simp] theorem heapSet_errorMsg (st : Encoder) (q : Nat) (c : NpyArrContext) :
    (heapSet st q c).errorMsg = st.errorMsg := rfl

@[simp] theorem heapSet_pyErr (st : Encoder) (q : Nat) (c : NpyArrContext) :
    (heapSet st q c).pyErr = st.pyErr := rfl

@[simp] theorem heapSet_blkHeap (st : Encoder) (q : Nat) (c : NpyArrContext) :
    (heapSet st q c).blkHeap = st.blkHeap := rfl

@[simp] theorem heapSet_allocBudget (st : Encoder) (q : Nat) (c : NpyArrContext) :
    (heapSet st q c).allocBudget = st.allocBudget := rfl

@[simp] theorem heapSet_uninit (st : Encoder) (q : Nat) (c : NpyArrContext) :
    (heapSet st q c).uninit = st.uninit := rfl

@[simp] theorem heapSet_loadDouble (st : Encoder) (q : Nat) (c : NpyArrContext) :
    (heapSet st q c).loadDouble = st.loadDouble := rfl

@[simp] theorem heapSet_loadInt (st : Encoder) (q : Nat) (c : NpyArrContext) :
    (heapSet st q c).loadInt = st.loadInt := rfl

@[simp] theorem heapSet_loadBool (st : Encoder) (q : Nat) (c : NpyArrContext) :
    (heapSet st q c).loadBool = st.loadBool := rfl

@[simp] theorem heapSet_handlerCalls (st : Encoder) (q : Nat) (c : NpyArrContext) :
    (heapSet st q c).handlerCalls = st.handlerCalls := rfl

@[simp] theorem heapSet_freed (st : Encoder) (q : Nat) (c : NpyArrContext) :
    (heapSet st q c).freed = st.freed := rfl

@[simp] theorem heapSet_fault (st : Encoder) (q : Nat) (c : NpyArrContext) :
    (heapSet st q c).fault = st.fault := rfl

@[simp] theorem heapSet_py (st : Encoder) (q : Nat) (c : NpyArrContext) :
    (heapSet st q c).py = st.py := rfl

@[simp] theorem heapSet_doublePrecision (st : Encoder) (q : Nat) (c : NpyArrContext) :
    (heapSet st q c).doublePrecision = st.doublePrecision := rfl

@[simp] theorem heapSet_forceASCII (st : Encoder) (q : Nat) (c : NpyArrContext) :
    (heapSet st q c).forceASCII = st.forceASCII := rfl

@[simp] theorem heapSet_encodeHTMLChars (st : Encoder) (q : Nat) (c : NpyArrContext) :
    (heapSet st q c).encodeHTMLChars = st.encodeHTMLChars := rfl

@[simp] theorem heapSet_indent (st : Encoder) (q : Nat) (c : NpyArrContext) :
    (heapSet st q c).indent = st.indent := rfl

theorem getD_set_self {α : Type} (l : List α) (q : Nat) (c d : α) (h : q < l.length) :
    (l.set q c).getD q d = c := by
  simp [List.getD, h]

@[simp] theorem heapSet_length (st : Encoder) (q : Nat) (c : NpyArrContext) :
    (heapSet st q c).npyHeap.length = st.npyHeap.length := by
  simp [heapSet]

@[simp] theorem blkLoad_heapSet (st : Encoder) (q : Nat) (c : NpyArrContext) (p : Option Nat) :
    blkLoad (heapSet st q c) p = blkLoad st p := rfl

theorem npyLoad_heapSet (st : Encoder) (q : Nat) (c : NpyArrContext)
    (h : q < st.npyHeap.length) : npyLoad (heapSet st q c) (some q) = c := by
  simp only [npyLoad, heapSet]
  exact getD_set_self _ _ _ _ h

theorem npyStore_heapSet (st : Encoder) (q : Nat) (c c' : NpyArrContext)
    (h : q < st.npyHeap.length) : npyStore (heapSet st q c) (some q) c' = heapSet st q c' := by
  simp [npyStore, heapSet, h]

theorem heapSet_heapSet (st : Encoder) (q : Nat) (c c' : NpyArrContext) :
    heapSet (heapSet st q c) q c' = heapSet st q c' := by
  simp [heapSet]

theorem CleanState_heapSet (B : Encoder) (h : CleanState B) (q : Nat) (c : NpyArrContext) :
    CleanState (heapSet B q c) :=
  ⟨h.npyType, h.npyCtxtPassthru, h.blkCtxtPassthru, h.pyErr, h.errorMsg, h.allocBudget⟩

theorem setIdx_same (f : Int → Int) (k x : Int) : setIdx f k x k = x := by
  simp [setIdx]

theorem setIdx_collapse (f : Int → Int) (k x y : Int) :
    setIdx (setIdx f k x) k y = setIdx f k y := by
  funext i
  simp only [setIdx]
  split <;> rfl

theorem CleanState_heap (B : Encoder) (h : CleanState B) (H : List NpyArrContext) :
    CleanState { B with npyHeap := H } :=
  ⟨h.npyType, h.npyCtxtPassthru, h.blkCtxtPassthru, h.pyErr, h.errorMsg, h.allocBudget⟩

theorem freeItemValue_itemValue (tc : TypeContext) (st : Encoder) (v : Option PyObj) :
    { (NpyArr_freeItemValue tc st) with itemValue := v } = { tc with itemValue := v } := by
  unfold NpyArr_freeItemValue
  split <;> rfl

theorem freeItemValue_cases (tc : TypeContext) (st : Encoder) :
    NpyArr_freeItemValue tc st = tc ∨
      NpyArr_freeItemValue tc st = { tc with itemValue := Option.none } := by
  unfold NpyArr_freeItemValue
  split
  · exact Or.inr rfl
  · exact Or.inl rfl

theorem NpyArr_iterNextItem_step (obj : PyObj) (tc : TypeContext) (B : Encoder) (q : Nat)
    (ctx : NpyArrContext) (a : PyArrayObject PyObj) (item : PyObj)
    (hq : q < B.npyHeap.length) (herr : B.pyErr = Option.none) (hnpy : tc.npyarr = some q)
    (hlt : ctx.index ctx.stridedim < ctx.dim) (harr : ctx.array = some a)
    (hdt : PyTypeNum_ISDATETIME a.type_num = false)
    (hitem : a.getitem ctx.dataptr = some item) :
    NpyArr_iterNextItem obj tc (heapSet B q ctx) =
      (true, { tc with itemValue := some item },
        heapSet B q { ctx with
          dataptr := ctx.dataptr + ctx.stride,
          index := setIdx ctx.index ctx.stridedim (ctx.index ctx.stridedim + 1) }) := by
  have hnlt : ¬ (ctx.index ctx.stridedim ≥ ctx.dim) := by omega
  rcases freeItemValue_cases tc (heapSet B q ctx) with h | h <;>
    simp only [NpyArr_iterNextItem, hnpy, npyLoad_heapSet _ _ _ hq, PyErr_Occurred,
      heapSet_pyErr, herr, Option.isSome_none, Bool.false_eq_true, if_false, hnlt, harr,
      Option.getD_some, hdt, hitem, h, npyStore_heapSet _ _ _ _ hq]

theorem NpyArr_iterNextItem_end (obj : PyObj) (tc : TypeContext) (B : Encoder) (q : Nat)
    (ctx : NpyArrContext) (hq : q < B.npyHeap.length) (hnpy : tc.npyarr = some q)
    (hge : ctx.index ctx.stridedim ≥ ctx.dim) :
    NpyArr_iterNextItem obj tc (heapSet B q ctx) = (false, tc, heapSet B q ctx) := by
  simp only [NpyArr_iterNextItem, hnpy, npyLoad_heapSet _ _ _ hq, hge, if_true]
  split <;> rfl

@[simp] theorem withValue_npyHeap (st : Encoder) (v : Int) :
    (withValue st v).npyHeap = st.npyHeap := rfl

@[simp] theorem withValue_blkHeap (st : Encoder) (v : Int) :
    (withValue st v).blkHeap = st.blkHeap := rfl

@[simp] theorem withValue_uninit (st : Encoder) (v : Int) :
    (withValue st v).uninit = st.uninit := rfl

@[simp] theorem withValue_pyErr (st : Encoder) (v : Int) :
    (withValue st v).pyErr = st.pyErr := rfl

@[simp] theorem withValue_errorMsg (st : Encoder) (v : Int) :
    (withValue st v).errorMsg = st.errorMsg := rfl

@[simp] theorem withValue_outputFormat (st : Encoder) (v : Int) :
    (withValue st v).outputFormat = st.outputFormat := rfl

@[simp] theorem withValue_withValue (st : Encoder) (v w : Int) :
    withValue (withValue st v) w = withValue st w := rfl

theorem withValue_self (st : Encoder) : withValue st st.npyValue = st := rfl

theorem heapSet_withValue (st : Encoder) (v : Int) (q : Nat) (c : NpyArrContext) :
    heapSet (withValue st v) q c = withValue (heapSet st q c) v := rfl

theorem blockState_withValue (st : Encoder) (v : Int) (blk : PdBlockContext)
    (ctxs : List NpyArrContext) :
    blockState (withValue st v) blk ctxs = withValue (blockState st blk ctxs) v := rfl

@[simp] theorem blkLoad_withValue (st : Encoder) (v : Int) (p : Option Nat) :
    blkLoad (withValue st v) p = blkLoad st p := rfl

theorem CleanState_withValue (B : Encoder) (h : CleanState B) (v : Int) :
    CleanState (withValue B v) :=
  ⟨h.npyType, h.npyCtxtPassthru, h.blkCtxtPassthru, h.pyErr, h.errorMsg, h.allocBudget⟩

theorem Frame_refl (st : Encoder) : Frame st st :=
  ⟨st.npyHeap, st.blkHeap, st.npyValue, st.freed, st.outputFormat, rfl⟩

theorem Frame_trans (A B C : Encoder) (h1 : Frame A B) (h2 : Frame B C) : Frame A C := by
  obtain ⟨nh, bh, nv, fr, fmt, rfl⟩ := h1
  obtain ⟨nh', bh', nv', fr', fmt', rfl⟩ := h2
  exact ⟨nh', bh', nv', fr', fmt', rfl⟩

theorem Frame_symm (A B : Encoder) (h : Frame A B) : Frame B A := by
  obtain ⟨nh, bh, nv, fr, fmt, rfl⟩ := h
  exact ⟨A.npyHeap, A.blkHeap, A.npyValue, A.freed, A.outputFormat, rfl⟩

theorem Frame_heapSet (A B : Encoder) (h : Frame A B) (q : Nat) (c : NpyArrContext) :
    Frame A (heapSet B q c) :=
  Frame_trans A B _ h ⟨_, B.blkHeap, B.npyValue, B.freed, B.outputFormat, rfl⟩

theorem Frame_withValue (A B : Encoder) (h : Frame A B) (v : Int) : Frame A (withValue B v) :=
  Frame_trans A B _ h ⟨B.npyHeap, B.blkHeap, v, B.freed, B.outputFormat, rfl⟩

theorem Frame_blockState (A B : Encoder) (h : Frame A B) (blk : PdBlockContext)
    (ctxs : List NpyArrContext) : Frame A (blockState B blk ctxs) :=
  Frame_trans A B _ h ⟨_, _, B.npyValue, B.freed, B.outputFormat, rfl⟩

theorem Frame_heap (A B : Encoder) (h : Frame A B) (H : List NpyArrContext) :
    Frame A { B with npyHeap := H } :=
  Frame_trans A B _ h ⟨H, B.blkHeap, B.npyValue, B.freed, B.outputFormat, rfl⟩

theorem Frame_outputFormat (A B : Encoder) (h : Frame A B) (f : PANDAS_FORMAT) :
    Frame A { B with outputFormat := f } :=
  Frame_trans A B _ h ⟨B.npyHeap, B.blkHeap, B.npyValue, B.freed, f, rfl⟩

theorem CellAt_frame (lf d : Nat) (A B : Encoder) (a : PyArrayObject PyObj) (ptr : Int)
    (v : JSONValue) (h : Frame A B) (hc : CellAt lf d A a ptr v) : CellAt lf d B a ptr v := by
  unfold CellAt at hc ⊢
  split
  · rename_i hdt
    rw [if_pos hdt] at hc
    intro obj S q hS hF
    exact hc obj S q hS (Frame_trans A B S h hF)
  · rename_i hdt
    rw [if_neg hdt] at hc
    obtain ⟨item, hi, hq⟩ := hc
    exact ⟨item, hi, fun S hS hF => hq S hS (Frame_trans A B S h hF)⟩

theorem CellAt_of_quiet (lf d : Nat) (st : Encoder) (a : PyArrayObject PyObj) (ptr : Int)
    (v : JSONValue) (item : PyObj) (hdt : PyTypeNum_ISDATETIME a.type_num = false)
    (hi : a.getitem ptr = some item) (hq : QuietLeaf lf d item v) : CellAt lf d st a ptr v := by
  unfold CellAt
  rw [if_neg (by simp [hdt])]
  exact ⟨item, hi, fun S hS _ => hq S hS⟩

theorem blkLoad_congr (P B : Encoder) (h : P.blkHeap = B.blkHeap) (p : Option Nat) :
    blkLoad P p = blkLoad B p := by
  unfold blkLoad
  rw [h]

/-- One leaf of a traversal: `NpyArr_iterNextItem` on the cursor `ctx` yields the
element at `ctx.dataptr`, the state it leaves is the one with the cursor advanced
(over a state `P` with the heaps of `B`), and the driver encodes the element to
`v`, leaving the state with the cursor advanced and, at most, another pending
address. -/
theorem cell_step (lf d : Nat) (st0 : Encoder) (a : PyArrayObject PyObj) (v : JSONValue)
    (obj : PyObj) (tc : TypeContext) (B : Encoder) (q : Nat) (ctx : NpyArrContext)
    (hcell : CellAt lf d st0 a ctx.dataptr v)
    (hB : CleanState B) (hF : Frame st0 B) (hq : q < B.npyHeap.length)
    (hnpy : tc.npyarr = some q) (hlt : ctx.index ctx.stridedim < ctx.dim)
    (harr : ctx.array = some a) :
    ∃ iv nv P,
      NpyArr_iterNextItem obj tc (heapSet B q ctx) =
        (true, { tc with itemValue := iv },
          heapSet P q { ctx with
            dataptr := ctx.dataptr + ctx.stride,
            index := setIdx ctx.index ctx.stridedim (ctx.index ctx.stridedim + 1) }) ∧
      P.npyHeap = B.npyHeap ∧ P.blkHeap = B.blkHeap ∧
      encode lf d iv (heapSet P q { ctx with
            dataptr := ctx.dataptr + ctx.stride,
            index := setIdx ctx.index ctx.stridedim (ctx.index ctx.stridedim + 1) }) =
        (v, heapSet (withValue B nv) q { ctx with
            dataptr := ctx.dataptr + ctx.stride,
            index := setIdx ctx.index ctx.stridedim (ctx.index ctx.stridedim + 1) }) := by
  unfold CellAt at hcell
  by_cases hdt : PyTypeNum_ISDATETIME a.type_num = true
  · rw [if_pos hdt] at hcell
    have hnlt : ¬ (ctx.index ctx.stridedim ≥ ctx.dim) := by omega
    refine ⟨some obj, ctx.dataptr,
      { B with npyType := a.type_num, npyValue := ctx.dataptr, npyCtxtPassthru := some q },
      ?_, rfl, rfl, ?_⟩
    · rcases freeItemValue_cases tc (heapSet B q ctx) with h | h <;>
        simp only [NpyArr_iterNextItem, hnpy, npyLoad_heapSet _ _ _ hq, PyErr_Occurred,
          heapSet_pyErr, hB.pyErr, Option.isSome_none, Bool.false_eq_true, if_false, hnlt, harr,
          Option.getD_some, hdt, if_true, h] <;>
        simp [npyStore, heapSet, hq]
    · exact hcell obj (heapSet B q _) q (CleanState_heapSet B hB _ _) (Frame_heapSet _ _ hF _ _)
  · have hdt' : PyTypeNum_ISDATETIME a.type_num = false := by simpa using hdt
    rw [if_neg hdt] at hcell
    obtain ⟨item, hitem, hquiet⟩ := hcell
    refine ⟨some item, B.npyValue, B, ?_, rfl, rfl, ?_⟩
    · exact NpyArr_iterNextItem_step obj tc B q ctx a item hq hB.pyErr hnpy hlt harr hdt' hitem
    · exact hquiet (heapSet B q _) (CleanState_heapSet B hB _ _) (Frame_heapSet _ _ hF _ _)

theorem cursorAt_step (c0 : NpyArrContext) (p : Int) (u : Int → Int) (j : Int) :
    ({ (cursorAt c0 p (setIdx u c0.stridedim j)) with
        dataptr := (cursorAt c0 p (setIdx u c0.stridedim j)).dataptr +
          (cursorAt c0 p (setIdx u c0.stridedim j)).stride,
        index := setIdx (cursorAt c0 p (setIdx u c0.stridedim j)).index
          (cursorAt c0 p (setIdx u c0.stridedim j)).stridedim
          ((cursorAt c0 p (setIdx u c0.stridedim j)).index
            (cursorAt c0 p (setIdx u c0.stridedim j)).stridedim + 1) } : NpyArrContext) =
      cursorAt c0 (p + c0.stride) (setIdx u c0.stridedim (j + 1)) := by
  simp only [cursorAt, setIdx_collapse, setIdx_same]

theorem leaf_loop_ctx (lf d : Nat) (st0 : Encoder) (a : PyArrayObject PyObj) (named : Bool)
    (obj : PyObj) (c0 : NpyArrContext) (rowptr : Int) (cells : Int → JSONValue)
    (harr : c0.array = some a)
    (hcell : ∀ j, 0 ≤ j → j < c0.dim →
      CellAt lf d st0 a (rowptr + j * c0.stride) (cells j)) :
    ∀ (m : Nat) (j : Int) (u : Int → Int) (tc : TypeContext) (fuel : Nat) (B : Encoder) (q : Nat),
      CleanState B → Frame st0 B → q < B.npyHeap.length →
      0 ≤ j → j + m = c0.dim → m < fuel →
      tc.npyarr = some q → tc.iterNext = some IterNextFn.NpyArr_iterNextItem →
      (tc.iterGetName = some IterGetNameFn.NpyArr_iterGetName ∨
        (tc.iterGetName = some IterGetNameFn.PdBlock_iterGetName_Transpose ∧
          ctxtsAt (blkLoad B tc.pdblock).npyCtxts (blkLoad B tc.pdblock).colIdx = some q)) →
      ∃ iv nv,
        iterLoop (encode lf d) named obj fuel tc
            (heapSet B q (cursorAt c0 (rowptr + j * c0.stride) (setIdx u c0.stridedim j))) =
          ((List.range m).map (fun (k : Nat) =>
              (if named then labelAt c0.columnLabels (j + (k : Int)) else Option.none,
                cells (j + (k : Int)))),
            { tc with itemValue := iv },
            heapSet (withValue B nv) q (cursorAt c0 (rowptr + (j + m) * c0.stride)
              (setIdx u c0.stridedim (j + m)))) := by
  intro m
  induction m with
  | zero =>
    intro j u tc fuel B q hB hF hqlt hj hjm hfuel hnpy hnext hname
    obtain ⟨fuel', rfl⟩ : ∃ f, fuel = f + 1 := ⟨fuel - 1, by omega⟩
    refine ⟨tc.itemValue, B.npyValue, ?_⟩
    have hdim : c0.dim = j := by omega
    have hnx : ∀ S, Object_iterNext obj tc S = NpyArr_iterNextItem obj tc S := by
      intro S
      simp only [Object_iterNext, hnext]
    rw [iterLoop, hnx, NpyArr_iterNextItem_end obj tc B q _ hqlt hnpy
      (by simp [cursorAt, setIdx_same, hdim])]
    simp [withValue_self]
  | succ m ih =>
    intro j u tc fuel B q hB hF hqlt hj hjm hfuel hnpy hnext hname
    obtain ⟨fuel', rfl⟩ : ∃ f, fuel = f + 1 := ⟨fuel - 1, by omega⟩
    have hlt : j < c0.dim := by omega
    obtain ⟨iv0, nv0, P, hstep, hPn, hPb, hchild⟩ := cell_step lf d st0 a (cells j) obj tc B q
      (cursorAt c0 (rowptr + j * c0.stride) (setIdx u c0.stridedim j))
      (hcell j hj hlt) hB hF hqlt hnpy (by simp only [cursorAt, setIdx_same]; exact hlt) harr
    have hctx := cursorAt_step c0 (rowptr + j * c0.stride) u j
    rw [show rowptr + j * c0.stride + c0.stride = rowptr + (j + 1) * c0.stride by ring] at hctx
    rw [hctx] at hstep hchild
    have hqP : q < P.npyHeap.length := by rw [hPn]; exact hqlt
    obtain ⟨iv, nv, hloop0⟩ := ih (j + 1) u { tc with itemValue := iv0 } fuel'
      (withValue B nv0) q (CleanState_withValue B hB nv0) (Frame_withValue _ _ hF nv0) hqlt
      (by omega) (by push_cast at hjm ⊢; omega) (by omega) hnpy hnext hname
    have hloop : iterLoop (encode lf d) named obj fuel' { tc with itemValue := iv0 }
        (heapSet (withValue B nv0) q (cursorAt c0 (rowptr + (j + 1) * c0.stride)
          (setIdx u c0.stridedim (j + 1)))) =
        ((List.range m).map (fun (k : Nat) =>
            (if named then labelAt c0.columnLabels (j + 1 + (k : Int)) else Option.none,
              cells (j + 1 + (k : Int)))),
          { tc with itemValue := iv },
          heapSet (withValue B nv) q (cursorAt c0 (rowptr + (j + 1 + m) * c0.stride)
            (setIdx u c0.stridedim (j + 1 + m)))) := hloop0
    clear hloop0
    refine ⟨iv, nv, ?_⟩
    have hnameval : Object_iterGetName obj { tc with itemValue := iv0 }
        (heapSet P q (cursorAt c0 (rowptr + (j + 1) * c0.stride)
          (setIdx u c0.stridedim (j + 1)))) = labelAt c0.columnLabels j := by
      rcases hname with hn | ⟨hn, hc⟩
      · simp [Object_iterGetName, hn, NpyArr_iterGetName, hnext, hnpy,
          npyLoad_heapSet _ _ _ hqP, cursorAt, setIdx_same]
      · rw [← blkLoad_congr P B hPb] at hc
        simp only [Object_iterGetName, hn, PdBlock_iterGetName_Transpose, hnext, blkLoad_heapSet,
          hc, npyLoad_heapSet _ _ _ hqP, if_true]
        simp [cursorAt, setIdx_same]
    have hnx : ∀ S, Object_iterNext obj tc S = NpyArr_iterNextItem obj tc S := by
      intro S
      simp only [Object_iterNext, hnext]
    have hiv : ({ tc with itemValue := iv0 } : TypeContext).itemValue = iv0 := rfl
    generalize ({ tc with itemValue := iv0 } : TypeContext) = tc1
      at hstep hloop hnameval hiv
    rw [iterLoop, hnx, hstep]
    simp only [Object_iterGetValue, hnameval, hiv, hchild, hloop]
    rw [show j + 1 + (m : Int) = j + ((m + 1 : Nat) : Int) by push_cast; ring]
    refine Prod.ext ?_ rfl
    simp only [List.range_succ_eq_map, List.map_cons, List.map_map, Nat.cast_zero, add_zero,
      List.cons.injEq, true_and]
    apply List.map_congr_left
    intro k _
    simp only [Function.comp, Nat.succ_eq_add_one, Nat.cast_add, Nat.cast_one]
    have : j + 1 + (k : Int) = j + ((k : Int) + 1) := by ring
    rw [this]

theorem leaf_loop (lf d : Nat) (st0 : Encoder) (a : PyArrayObject PyObj) (t named : Bool)
    (rl cl : Option (List String)) (obj : PyObj) (depth axis rowptr : Int)
    (cells : Int → JSONValue)
    (hcell : ∀ j, 0 ≤ j → j < PyArray_DIM a axis →
      CellAt lf d st0 a (rowptr + j * PyArray_STRIDE a axis) (cells j)) :
    ∀ (m : Nat) (j : Int) (u : Int → Int) (tc : TypeContext) (fuel : Nat) (B : Encoder) (q : Nat),
      CleanState B → Frame st0 B → q < B.npyHeap.length →
      0 ≤ j → j + m = PyArray_DIM a axis → m < fuel →
      tc.npyarr = some q → tc.iterNext = some IterNextFn.NpyArr_iterNextItem →
      (tc.iterGetName = some IterGetNameFn.NpyArr_iterGetName ∨
        (tc.iterGetName = some IterGetNameFn.PdBlock_iterGetName_Transpose ∧
          ctxtsAt (blkLoad B tc.pdblock).npyCtxts (blkLoad B tc.pdblock).colIdx = some q)) →
      ∃ iv nv,
        iterLoop (encode lf d) named obj fuel tc
            (heapSet B q (axisCtx a t rl cl depth axis (rowptr + j * PyArray_STRIDE a axis)
              (setIdx u axis j))) =
          ((List.range m).map (fun (k : Nat) =>
              (if named then labelAt cl (j + (k : Int)) else Option.none, cells (j + (k : Int)))),
            { tc with itemValue := iv },
            heapSet (withValue B nv) q (axisCtx a t rl cl depth axis
              (rowptr + (j + m) * PyArray_STRIDE a axis) (setIdx u axis (j + m)))) :=
  leaf_loop_ctx lf d st0 a named obj (axisCtx a t rl cl depth axis 0 (fun _ => 0)) rowptr cells
    rfl hcell

theorem clear_npyCtxtPassthru (X : Encoder) (h : X.npyCtxtPassthru = Option.none)
    (v : Option Nat) :
    ({ ({ X with npyCtxtPassthru := v } : Encoder) with npyCtxtPassthru := Option.none } :
      Encoder) = X := by
  cases X
  simp only at h
  subst h
  rfl

theorem afterMalloc_clean (st : Encoder) (h : st.allocBudget = Option.none) :
    afterMalloc st = st := by
  cases st
  simp only at h
  subst h
  rfl

theorem begin_passthru_array (enc : Option PyObj → Encoder → JSONValue × Encoder)
    (a : PyArrayObject PyObj) (S : Encoder) (q : Nat) (hdims : a.dims ≠ [])
    (hty : S.npyType = -1) (halloc : S.allocBudget = Option.none)
    (hpass : S.npyCtxtPassthru = some q) :
    Object_beginTypeContext enc (some (PyObj.ndarray a)) S =
      (typed (if (npyLoad S (some q)).columnLabels.isSome then JSTYPES.JT_OBJECT
              else JSTYPES.JT_ARRAY) (passThruContext q),
        Option.none, { S with npyCtxtPassthru := Option.none }) := by
  have h1 : ¬ (S.npyType ≥ 0) := by rw [hty]; decide
  have hd' : ¬ (a.dims.length = 0) := by
    intro h; exact hdims (List.length_eq_zero.mp h)
  have hb : S.allocBudget ≠ some 0 := by rw [halloc]; simp
  simp only [Object_beginTypeContext, h1, if_false, PyBool_Check, createTypeContext_eq S hb,
    afterMalloc_clean S halloc, PyIter_Check, PyArray_Check, PyArray_CheckScalar, hd',
    decide_False, Bool.not_false, Bool.and_self, Bool.or_true, if_true, Bool.false_or,
    beginIterable, hpass]
  rfl

theorem iterLoop_congr_first (f : Option PyObj → Encoder → JSONValue × Encoder) (named : Bool)
    (obj : PyObj) (k : Nat) (tc tc' : TypeContext) (st : Encoder)
    (h : Object_iterNext obj tc st = Object_iterNext obj tc' st) :
    iterLoop f named obj (k + 1) tc st = iterLoop f named obj (k + 1) tc' st := by
  simp only [iterLoop, h]

theorem passThru_iterEnd_axis (obj : PyObj) (tc : TypeContext) (a : PyArrayObject PyObj)
    (t : Bool) (rl cl : Option (List String)) (o n rowptr : Int) (m : Int) (u : Int → Int)
    (B : Encoder) (q : Nat) (hqlt : q < B.npyHeap.length) (hnpy : tc.npyarr = some q)
    (hinc : n - (if t then -1 else 1) = o) :
    (NpyArrPassThru_iterEnd obj tc
        (heapSet B q (axisCtx a t rl cl 1 n (rowptr + m * PyArray_STRIDE a n)
          (setIdx u n m)))).2 =
      heapSet B q (axisCtx a t rl cl 0 o (rowptr + PyArray_STRIDE a o) (setIdx u n m)) := by
  simp only [NpyArrPassThru_iterEnd, hnpy, npyLoad_heapSet _ _ _ hqlt,
    npyStore_heapSet _ _ _ _ hqlt]
  simp only [axisCtx, setIdx_same, Option.getD_some, hinc]
  congr 2
  ring

theorem row_encode (lf d : Nat) (st0 : Encoder) (a : PyArrayObject PyObj) (t : Bool)
    (rl cl : Option (List String)) (o n rowptr : Int) (cells : Int → JSONValue) (m : Nat)
    (hdims : a.dims ≠ [])
    (hinc : n - (if t then -1 else 1) = o) (hm : PyArray_DIM a n = m) (hfuel : m < lf)
    (hcell : ∀ j, 0 ≤ j → j < PyArray_DIM a n →
      CellAt lf d st0 a (rowptr + j * PyArray_STRIDE a n) (cells j))
    (B : Encoder) (q : Nat) (hB : CleanState B) (hF : Frame st0 B)
    (hqlt : q < B.npyHeap.length) (u : Int → Int) :
    ∃ nv,
      encode lf (d + 1) (some (PyObj.ndarray a))
          { (heapSet B q (axisCtx a t rl cl 1 n rowptr (setIdx u n 0))) with
              npyCtxtPassthru := some q } =
        (container cl.isSome (members cl.isSome cl m cells),
          heapSet (withValue B nv) q
            (axisCtx a t rl cl 0 o (rowptr + PyArray_STRIDE a o) (setIdx u n m))) := by
  obtain ⟨lf', rfl⟩ : ∃ f, lf = f + 1 := ⟨lf - 1, by omega⟩
  have hS := CleanState_heapSet B hB q (axisCtx a t rl cl 1 n rowptr (setIdx u n 0))
  have hbegin := begin_passthru_array (encode (lf' + 1) d) a
    { (heapSet B q (axisCtx a t rl cl 1 n rowptr (setIdx u n 0))) with
        npyCtxtPassthru := some q } q hdims hS.npyType hS.allocBudget rfl
  rw [clear_npyCtxtPassthru _ hS.npyCtxtPassthru] at hbegin
  have hload : npyLoad ({ (heapSet B q (axisCtx a t rl cl 1 n rowptr (setIdx u n 0))) with
        npyCtxtPassthru := some q } : Encoder) (some q) =
      axisCtx a t rl cl 1 n rowptr (setIdx u n 0) := npyLoad_heapSet B q _ hqlt
  rw [hload] at hbegin
  have hcl : (axisCtx a t rl cl 1 n rowptr (setIdx u n 0)).columnLabels = cl := rfl
  rw [hcl] at hbegin
  -- the first round switches to item mode
  have hfirst : ∀ named : Bool, iterLoop (encode (lf' + 1) d) named (PyObj.ndarray a) (lf' + 1)
      (passThruContext q) (heapSet B q (axisCtx a t rl cl 1 n rowptr (setIdx u n 0))) =
      iterLoop (encode (lf' + 1) d) named (PyObj.ndarray a) (lf' + 1)
        { (passThruContext q) with iterNext := some IterNextFn.NpyArr_iterNextItem }
        (heapSet B q (axisCtx a t rl cl 1 n rowptr (setIdx u n 0))) := by
    intro named
    apply iterLoop_congr_first
    simp only [Object_iterNext, passThruContext, NpyArr_iterNext, npyLoad_heapSet _ _ _ hqlt,
      PyErr_Occurred, heapSet_pyErr, hB.pyErr, Option.isSome_none, Bool.false_eq_true, if_false,
      axisCtx, ge_iff_le, le_refl, true_or, if_true]
  have hleaf : ∀ named : Bool, ∃ iv nv, iterLoop (encode (lf' + 1) d) named (PyObj.ndarray a)
      (lf' + 1) (passThruContext q)
      (heapSet B q (axisCtx a t rl cl 1 n rowptr (setIdx u n 0))) =
      (members named cl m cells,
        { ({ (passThruContext q) with iterNext := some IterNextFn.NpyArr_iterNextItem } :
            TypeContext) with itemValue := iv },
        heapSet (withValue B nv) q (axisCtx a t rl cl 1 n (rowptr + m * PyArray_STRIDE a n)
          (setIdx u n m))) := by
    intro named
    obtain ⟨iv, nv, h⟩ := leaf_loop (lf' + 1) d st0 a t named rl cl (PyObj.ndarray a) 1 n rowptr
      cells hcell m 0 u
      { (passThruContext q) with iterNext := some IterNextFn.NpyArr_iterNextItem }
      (lf' + 1) B q hB hF hqlt (le_refl _) (by rw [hm]; simp) hfuel rfl rfl (Or.inl rfl)
    refine ⟨iv, nv, ?_⟩
    rw [hfirst named]
    simp only [zero_mul, add_zero, zero_add] at h
    exact h
  rw [encode_succ, hbegin]
  cases hc : cl.isSome
  · obtain ⟨iv, nv, h⟩ := hleaf false
    refine ⟨nv, ?_⟩
    simp only [typed, Bool.false_eq_true, if_false, Object_iterBegin, passThruContext,
      NpyArrPassThru_iterBegin] at h ⊢
    simp only [h, Object_iterEnd, Object_endTypeContext, container, Bool.false_eq_true, if_false]
    congr 1
    refine passThru_iterEnd_axis _ _ a t rl cl o n rowptr m u (withValue B nv) q hqlt ?_ hinc
    rfl
  · obtain ⟨iv, nv, h⟩ := hleaf true
    refine ⟨nv, ?_⟩
    simp only [typed, if_true, Object_iterBegin, passThruContext,
      NpyArrPassThru_iterBegin] at h ⊢
    simp only [h, Object_iterEnd, Object_endTypeContext, container, if_true]
    congr 1
    refine passThru_iterEnd_axis _ _ a t rl cl o n rowptr m u (withValue B nv) q hqlt ?_ hinc
    rfl

theorem setIdx_ne (f : Int → Int) (k x i : Int) (h : i ≠ k) : setIdx f k x i = f i := by
  simp [setIdx, h]

theorem NpyArr_iterNext_descend (obj : PyObj) (tc : TypeContext) (a : PyArrayObject PyObj)
    (t : Bool) (rl cl : Option (List String)) (o n ptr : Int) (U : Int → Int)
    (B : Encoder) (q : Nat) (hqlt : q < B.npyHeap.length) (herr : B.pyErr = Option.none)
    (hnpy : tc.npyarr = some q) (hn : o + (if t then -1 else 1) = n)
    (hlt : U o < PyArray_DIM a o) :
    NpyArr_iterNext obj tc (heapSet B q (axisCtx a t rl cl 0 o ptr U)) =
      (true, { tc with itemValue := some (PyObj.ndarray a) },
        { (heapSet B q (axisCtx a t rl cl 1 n ptr (setIdx (setIdx U o (U o + 1)) n 0))) with
            npyCtxtPassthru := some q }) := by
  have hnlt : ¬ (U o ≥ PyArray_DIM a o) := by omega
  simp only [NpyArr_iterNext, hnpy, npyLoad_heapSet _ _ _ hqlt, PyErr_Occurred, heapSet_pyErr,
    herr, Option.isSome_none, Bool.false_eq_true, if_false, npyStore_heapSet _ _ _ _ hqlt]
  simp only [axisCtx, ge_iff_le, Int.reduceLE, hnlt, false_or, not_le.mpr hlt, if_false,
    Option.getD_some, hn, Option.map_some', zero_add]

theorem NpyArr_iterNext_exhausted (obj : PyObj) (tc : TypeContext) (a : PyArrayObject PyObj)
    (t : Bool) (rl cl : Option (List String)) (o ptr : Int) (U : Int → Int)
    (B : Encoder) (q : Nat) (hqlt : q < B.npyHeap.length)
    (hnpy : tc.npyarr = some q) (hge : U o ≥ PyArray_DIM a o) :
    NpyArr_iterNext obj tc (heapSet B q (axisCtx a t rl cl 0 o ptr U)) =
      (false, tc, heapSet B q (axisCtx a t rl cl 0 o ptr U)) ∨
    NpyArr_iterNext obj tc (heapSet B q (axisCtx a t rl cl 0 o ptr U)) =
      (false, { tc with iterNext := some IterNextFn.NpyArr_iterNextItem },
        heapSet B q (axisCtx a t rl cl 0 o ptr U)) := by
  unfold NpyArr_iterNext
  by_cases herr : PyErr_Occurred (heapSet B q (axisCtx a t rl cl 0 o ptr U)) = true
  · left
    simp only [herr, if_true]
  · right
    have hc : (npyLoad (heapSet B q (axisCtx a t rl cl 0 o ptr U)) tc.npyarr).curdim ≥
        (npyLoad (heapSet B q (axisCtx a t rl cl 0 o ptr U)) tc.npyarr).ndim ∨
        (npyLoad (heapSet B q (axisCtx a t rl cl 0 o ptr U)) tc.npyarr).index
          (npyLoad (heapSet B q (axisCtx a t rl cl 0 o ptr U)) tc.npyarr).stridedim ≥
        (npyLoad (heapSet B q (axisCtx a t rl cl 0 o ptr U)) tc.npyarr).dim := by
      right
      rw [hnpy, npyLoad_heapSet _ _ _ hqlt]
      exact hge
    simp only [herr, Bool.false_eq_true, if_false, hc, if_true]
    exact NpyArr_iterNextItem_end obj _ B q _ hqlt hnpy hge

theorem top_loop (lf d : Nat) (st0 : Encoder) (a : PyArrayObject PyObj) (t named : Bool)
    (rl cl : Option (List String)) (obj : PyObj) (o n p : Int)
    (cells : Int → Int → JSONValue) (M : Nat)
    (hdims : a.dims ≠ [])
    (hn : o + (if t then -1 else 1) = n) (hM : PyArray_DIM a n = M) (hMlf : M < lf)
    (hcell : ∀ i j, 0 ≤ i → i < PyArray_DIM a o → 0 ≤ j → j < PyArray_DIM a n →
      CellAt lf d st0 a (p + i * PyArray_STRIDE a o + j * PyArray_STRIDE a n) (cells i j)) :
    ∀ (k : Nat) (i : Int) (U : Int → Int) (tc : TypeContext) (fuel : Nat) (B : Encoder) (q : Nat),
      CleanState B → Frame st0 B → q < B.npyHeap.length →
      0 ≤ i → i + k = PyArray_DIM a o → k < fuel → U o = i →
      tc.npyarr = some q → tc.iterNext = some IterNextFn.NpyArr_iterNext →
      tc.iterGetName = some IterGetNameFn.NpyArr_iterGetName →
      ∃ tc' U' nv,
        iterLoop (encode lf (d + 1)) named obj fuel tc
            (heapSet B q (axisCtx a t rl cl 0 o (p + i * PyArray_STRIDE a o) U)) =
          ((List.range k).map (fun (r : Nat) =>
              (if named then labelAt rl (i + (r : Int)) else Option.none,
                container cl.isSome (members cl.isSome cl M (cells (i + (r : Int)))))),
            tc',
            heapSet (withValue B nv) q
              (axisCtx a t rl cl 0 o (p + (i + k) * PyArray_STRIDE a o) U')) ∧
        tc'.npyarr = some q := by
  have hon : o ≠ n := by
    cases t <;> simp at hn <;> omega
  intro k
  induction k with
  | zero =>
    intro i U tc fuel B q hB hF hqlt hi hik hfuel hU hnpy hnext hname
    obtain ⟨fuel', rfl⟩ : ∃ f, fuel = f + 1 := ⟨fuel - 1, by omega⟩
    have hge : U o ≥ PyArray_DIM a o := by
      rw [hU]
      simp at hik
      omega
    have hnx : ∀ S, Object_iterNext obj tc S = NpyArr_iterNext obj tc S := by
      intro S
      simp only [Object_iterNext, hnext]
    rcases NpyArr_iterNext_exhausted obj tc a t rl cl o (p + i * PyArray_STRIDE a o) U B q
      hqlt hnpy hge with h | h
    · refine ⟨tc, U, B.npyValue, ?_, hnpy⟩
      rw [iterLoop, hnx, h]
      simp [withValue_self]
    · refine ⟨{ tc with iterNext := some IterNextFn.NpyArr_iterNextItem }, U, B.npyValue, ?_,
        hnpy⟩
      rw [iterLoop, hnx, h]
      simp [withValue_self]
  | succ k ih =>
    intro i U tc fuel B q hB hF hqlt hi hik hfuel hU hnpy hnext hname
    obtain ⟨fuel', rfl⟩ : ∃ f, fuel = f + 1 := ⟨fuel - 1, by omega⟩
    have hlt : i < PyArray_DIM a o := by
      push_cast at hik
      omega
    have hstep := NpyArr_iterNext_descend obj tc a t rl cl o n (p + i * PyArray_STRIDE a o) U
      B q hqlt hB.pyErr hnpy hn (by rw [hU]; exact hlt)
    rw [hU] at hstep
    obtain ⟨nv1, hrow⟩ := row_encode lf d st0 a t rl cl o n (p + i * PyArray_STRIDE a o)
      (cells i) M hdims (by omega) hM hMlf (fun j hj hjlt => hcell i j hi hlt hj hjlt) B q hB hF
      hqlt (setIdx U o (i + 1))
    have hU' : (setIdx (setIdx U o (i + 1)) n (M : Int)) o = i + 1 := by
      rw [setIdx_ne _ _ _ _ hon, setIdx_same]
    obtain ⟨tc', U', nv, hloop0, hnpy'⟩ := ih (i + 1) (setIdx (setIdx U o (i + 1)) n (M : Int))
      { tc with itemValue := some (PyObj.ndarray a) } fuel' (withValue B nv1) q
      (CleanState_withValue B hB nv1) (Frame_withValue _ _ hF nv1) hqlt (by omega)
      (by push_cast at hik ⊢; omega) (by omega) hU' hnpy hnext hname
    have hptr : p + i * PyArray_STRIDE a o + PyArray_STRIDE a o =
        p + (i + 1) * PyArray_STRIDE a o := by ring
    rw [hptr] at hrow
    have hnameval : Object_iterGetName obj { tc with itemValue := some (PyObj.ndarray a) }
        { (heapSet B q (axisCtx a t rl cl 1 n (p + i * PyArray_STRIDE a o)
            (setIdx (setIdx U o (i + 1)) n 0))) with npyCtxtPassthru := some q } =
        labelAt rl i := by
      have hl : npyLoad ({ (heapSet B q (axisCtx a t rl cl 1 n (p + i * PyArray_STRIDE a o)
            (setIdx (setIdx U o (i + 1)) n 0))) with npyCtxtPassthru := some q } : Encoder)
          (some q) = axisCtx a t rl cl 1 n (p + i * PyArray_STRIDE a o)
            (setIdx (setIdx U o (i + 1)) n 0) := npyLoad_heapSet B q _ hqlt
      simp only [Object_iterGetName, hname, NpyArr_iterGetName, hnext, hnpy, hl]
      have hno : n - (if t then -1 else 1) = o := by omega
      simp [axisCtx, hno, setIdx_ne _ _ _ _ hon, setIdx_same]
    have hnx : ∀ S, Object_iterNext obj tc S = NpyArr_iterNext obj tc S := by
      intro S
      simp only [Object_iterNext, hnext]
    have hiv : ({ tc with itemValue := some (PyObj.ndarray a) } : TypeContext).itemValue =
        some (PyObj.ndarray a) := rfl
    refine ⟨tc', U', nv, ?_, hnpy'⟩
    simp only [withValue_withValue] at hloop0
    generalize ({ tc with itemValue := some (PyObj.ndarray a) } : TypeContext) = tc1
      at hstep hloop0 hnameval hiv
    rw [iterLoop, hnx, hstep]
    simp only [Object_iterGetValue, hnameval, hiv, hrow, hloop0]
    rw [show i + 1 + (k : Int) = i + ((k + 1 : Nat) : Int) by push_cast; ring]
    refine Prod.ext ?_ rfl
    simp only [List.range_succ_eq_map, List.map_cons, List.map_map, Nat.cast_zero, add_zero,
      List.cons.injEq, true_and]
    apply List.map_congr_left
    intro r _
    simp only [Function.comp, Nat.succ_eq_add_one, Nat.cast_add, Nat.cast_one]
    have : i + 1 + (r : Int) = i + ((r : Int) + 1) := by ring
    rw [this]

theorem NpyArr_iterBegin_axis (obj : PyObj) (tc : TypeContext) (st : Encoder)
    (a : PyArrayObject PyObj) (t : Bool) (rl cl : Option (List String))
    (halloc : st.allocBudget = Option.none)
    (harr : asArray (match tc.newObj with
      | some o => o
      | Option.none => obj) = a)
    (h2 : a.dims.length = 2) (ht : tc.transpose = t) (hrl : tc.rowLabels = rl)
    (hcl : tc.columnLabels = cl) :
    NpyArr_iterBegin obj tc st =
      ({ tc with npyarr := some st.npyHeap.length },
        heapSet { st with npyHeap := st.npyHeap ++ [default] } st.npyHeap.length
          (axisCtx a t rl cl 0 (if t then 1 else 0) a.data
            (setIdx st.uninit (if t then 1 else 0) 0))) := by
  have hm : PyObject_Malloc st = (true, st) := by
    simp [PyObject_Malloc, halloc]
  have hnd : PyArray_NDIM a - 1 = 1 := by
    simp [PyArray_NDIM, h2]
  simp only [NpyArr_iterBegin, harr, hm, hnd, ht, hrl, hcl]
  cases t <;> simp [heapSet, axisCtx]

theorem array_walk (lf d : Nat) (a : PyArrayObject PyObj) (t named : Bool)
    (rl cl : Option (List String)) (obj : PyObj) (tc : TypeContext) (st : Encoder)
    (R C : Nat) (s0 s1 : Int) (cells : Int → Int → JSONValue)
    (hdims : a.dims = [(R : Int), (C : Int)]) (hstr : a.strides = [s0, s1])
    (hst : CleanState st)
    (harr : asArray (match tc.newObj with
      | some o => o
      | Option.none => obj) = a)
    (ht : tc.transpose = t) (hrl : tc.rowLabels = rl) (hcl : tc.columnLabels = cl)
    (hnext : tc.iterNext = some IterNextFn.NpyArr_iterNext)
    (hname : tc.iterGetName = some IterGetNameFn.NpyArr_iterGetName)
    (hR : R < lf) (hC : C < lf)
    (hq : ∀ i j : Int, 0 ≤ i → i < R → 0 ≤ j → j < C →
      CellAt lf d st a (a.data + i * s0 + j * s1) (cells i j)) :
    ∃ tc' st',
      iterLoop (encode lf (d + 1)) named obj lf (NpyArr_iterBegin obj tc st).1
          (NpyArr_iterBegin obj tc st).2 =
        (if t then grid named rl cl C R (fun c r => cells r c)
          else grid named rl cl R C cells, tc', st') ∧
      CleanState st' := by
  have h2 : a.dims.length = 2 := by rw [hdims]; rfl
  have hne : a.dims ≠ [] := by rw [hdims]; simp
  have hD0 : PyArray_DIM a 0 = R := by simp [PyArray_DIM, hdims]
  have hD1 : PyArray_DIM a 1 = C := by simp [PyArray_DIM, hdims]
  have hS0 : PyArray_STRIDE a 0 = s0 := by simp [PyArray_STRIDE, hstr]
  have hS1 : PyArray_STRIDE a 1 = s1 := by simp [PyArray_STRIDE, hstr]
  rw [NpyArr_iterBegin_axis obj tc st a t rl cl hst.allocBudget harr h2 ht hrl hcl]
  have hB : CleanState ({ st with npyHeap := st.npyHeap ++ [default] } : Encoder) :=
    CleanState_heap st hst _
  have hF : Frame st ({ st with npyHeap := st.npyHeap ++ [default] } : Encoder) :=
    Frame_heap st st (Frame_refl st) _
  have hqlt : st.npyHeap.length <
      ({ st with npyHeap := st.npyHeap ++ [default] } : Encoder).npyHeap.length := by
    simp
  cases t with
  | false =>
    obtain ⟨tc', U', nv, hloop, _⟩ := top_loop lf d st a false named rl cl obj 0 1 a.data cells C
      hne (by simp) hD1 hC
      (fun i j hi hil hj hjl => by
        rw [hS0, hS1]
        exact hq i j hi (by rw [← hD0]; exact hil) hj (by rw [← hD1]; exact hjl))
      R 0 (setIdx st.uninit 0 0) { tc with npyarr := some st.npyHeap.length } lf
      { st with npyHeap := st.npyHeap ++ [default] } st.npyHeap.length hB hF hqlt (le_refl _)
      (by rw [hD0]; simp) hR (setIdx_same _ _ _) rfl hnext hname
    refine ⟨tc', heapSet (withValue { st with npyHeap := st.npyHeap ++ [default] } nv)
      st.npyHeap.length
      (axisCtx a false rl cl 0 0 (a.data + (0 + (R : Int)) * PyArray_STRIDE a 0) U'), ?_,
      CleanState_heapSet _ (CleanState_withValue _ hB nv) _ _⟩
    simp only [zero_mul, add_zero, zero_add] at hloop
    simp only [Bool.false_eq_true, if_false, zero_add]
    exact hloop
  | true =>
    obtain ⟨tc', U', nv, hloop, _⟩ := top_loop lf d st a true named rl cl obj 1 0 a.data
      (fun c r => cells r c) R hne (by simp) hD0 hR
      (fun i j hi hil hj hjl => by
        rw [hS0, hS1]
        have hc := hq j i hj (by rw [← hD0]; exact hjl) hi (by rw [← hD1]; exact hil)
        rw [show a.data + i * s1 + j * s0 = a.data + j * s0 + i * s1 by ring]
        exact hc)
      C 0 (setIdx st.uninit 1 0) { tc with npyarr := some st.npyHeap.length } lf
      { st with npyHeap := st.npyHeap ++ [default] } st.npyHeap.length hB hF hqlt (le_refl _)
      (by rw [hD1]; simp) hC (setIdx_same _ _ _) rfl hnext hname
    refine ⟨tc', heapSet (withValue { st with npyHeap := st.npyHeap ++ [default] } nv)
      st.npyHeap.length
      (axisCtx a true rl cl 0 1 (a.data + (0 + (C : Int)) * PyArray_STRIDE a 1) U'), ?_,
      CleanState_heapSet _ (CleanState_withValue _ hB nv) _ _⟩
    simp only [zero_mul, add_zero, zero_add] at hloop
    simp only [if_true, zero_add]
    exact hloop

theorem PdBlock_iterEnd_column_err (obj : PyObj) (i : Nat) (r : TypeContext × Encoder) :
    (PdBlock_iterEnd_column obj i r).2.pyErr = r.2.pyErr ∧
      (PdBlock_iterEnd_column obj i r).2.errorMsg = r.2.errorMsg := by
  unfold PdBlock_iterEnd_column
  simp only []
  split
  · exact ⟨rfl, rfl⟩
  · exact ⟨rfl, rfl⟩
  · simp only [NpyArr_iterEnd]
    split <;> simp

theorem PdBlock_iterEnd_fold_err (obj : PyObj) (l : List Nat) (r : TypeContext × Encoder) :
    (l.foldl (fun r i => PdBlock_iterEnd_column obj i r) r).2.pyErr = r.2.pyErr ∧
      (l.foldl (fun r i => PdBlock_iterEnd_column obj i r) r).2.errorMsg = r.2.errorMsg := by
  induction l generalizing r with
  | nil => exact ⟨rfl, rfl⟩
  | cons i l ih =>
    simp only [List.foldl_cons]
    obtain ⟨h1, h2⟩ := ih (PdBlock_iterEnd_column obj i r)
    obtain ⟨h3, h4⟩ := PdBlock_iterEnd_column_err obj i r
    exact ⟨h1.trans h3, h2.trans h4⟩

theorem Object_iterEnd_err (obj : PyObj) (tc : TypeContext) (st : Encoder) :
    (Object_iterEnd obj tc st).2.pyErr = st.pyErr ∧
      (Object_iterEnd obj tc st).2.errorMsg = st.errorMsg := by
  unfold Object_iterEnd
  split
  · simp only [NpyArr_iterEnd]
    split <;> exact ⟨rfl, rfl⟩
  · simp [NpyArrPassThru_iterEnd]
  · simp only [PdBlock_iterEnd]
    split
    · exact ⟨rfl, rfl⟩
    · obtain ⟨h1, h2⟩ := PdBlock_iterEnd_fold_err obj
        (List.range (blkLoad st tc.pdblock).ncols.toNat) ({ tc with itemValue := Option.none }, st)
      split <;> exact ⟨h1, h2⟩
  · simp [PdBlockPassThru_iterEnd]
  all_goals exact ⟨rfl, rfl⟩

theorem encode_of_begin_array (lf d : Nat) (o : PyObj) (st st1 : Encoder) (pc : TypeContext)
    (hb : Object_beginTypeContext (encode lf d) (some o) st =
      (typed JSTYPES.JT_ARRAY pc, Option.none, st1)) :
    encode lf (d + 1) (some o) st =
      (container false
          (iterLoop (encode lf d) false o lf (Object_iterBegin o pc st1).1
            (Object_iterBegin o pc st1).2).1,
        (Object_iterEnd o
          (iterLoop (encode lf d) false o lf (Object_iterBegin o pc st1).1
            (Object_iterBegin o pc st1).2).2.1
          (iterLoop (encode lf d) false o lf (Object_iterBegin o pc st1).1
            (Object_iterBegin o pc st1).2).2.2).2) := by
  rw [encode_succ, hb]
  rfl

theorem encode_of_begin_object (lf d : Nat) (o : PyObj) (st st1 : Encoder) (pc : TypeContext)
    (hb : Object_beginTypeContext (encode lf d) (some o) st =
      (typed JSTYPES.JT_OBJECT pc, Option.none, st1)) :
    encode lf (d + 1) (some o) st =
      (container true
          (iterLoop (encode lf d) true o lf (Object_iterBegin o pc st1).1
            (Object_iterBegin o pc st1).2).1,
        (Object_iterEnd o
          (iterLoop (encode lf d) true o lf (Object_iterBegin o pc st1).1
            (Object_iterBegin o pc st1).2).2.1
          (iterLoop (encode lf d) true o lf (Object_iterBegin o pc st1).1
            (Object_iterBegin o pc st1).2).2.2).2) := by
  rw [encode_succ, hb]
  rfl

theorem begin_dataframe (enc : Option PyObj → Encoder → JSONValue × Encoder)
    (cols idx : Option PyObj) (m : Option Bool) (v : Option (PyArrayObject PyObj))
    (blocks : Option (List (PdBlock PyObj))) (st : Encoder) (hty : st.npyType = -1)
    (halloc : st.allocBudget = Option.none) :
    Object_beginTypeContext enc (some (PyObj.dataframe cols idx m v blocks)) st =
      beginIterable enc (PyObj.dataframe cols idx m v blocks) basicTypeContext st := by
  have h1 : ¬ (st.npyType ≥ 0) := by rw [hty]; decide
  have hb : st.allocBudget ≠ some 0 := by rw [halloc]; simp
  simp only [Object_beginTypeContext, h1, if_false, PyBool_Check, createTypeContext_eq st hb,
    afterMalloc_clean st halloc, PyIter_Check, PyArray_Check, beginLeaf,
    Bool.false_eq_true, Bool.false_and, Bool.or_self]

theorem dense_dispatch (enc : Option PyObj → Encoder → JSONValue × Encoder)
    (cols idx : PyObj) (a : PyArrayObject PyObj)
    (blocks : Option (List (PdBlock PyObj))) (st : Encoder) (hst : CleanState st)
    (hfmt : st.outputFormat ≠ PANDAS_FORMAT.SPLIT) :
    Object_beginTypeContext enc
        (some (PyObj.dataframe (some cols) (some idx) (some false) (some a) blocks)) st =
      ((beginDataFrameOrient (PyObj.dataframe (some cols) (some idx) (some false) (some a) blocks)
          (denseContext a) st).1, Option.none,
        (beginDataFrameOrient (PyObj.dataframe (some cols) (some idx) (some false) (some a) blocks)
          (denseContext a) st).2) := by
  rw [begin_dataframe enc _ _ _ _ _ st hst.npyType hst.allocBudget]
  simp only [beginIterable, hst.blkCtxtPassthru, hfmt, if_false, is_simple_frame, if_true,
    get_values]
  rfl

theorem orient_context (obj cols idx : PyObj) (pc : TypeContext) (st : Encoder)
    (cvals ivals : PyArrayObject PyObj) (colL idxL : List String)
    (hgc : getAttr_columns obj = some cols) (hgi : getAttr_index obj = some idx)
    (hcv : get_values cols = some cvals) (hiv : get_values idx = some ivals)
    (hcl : NpyArr_encodeLabels (some cvals) (PyObject_Length cols) st = (some colL, st))
    (hil : NpyArr_encodeLabels (some ivals) (PyObject_Length idx) st = (some idxL, st))
    (hfmt : st.outputFormat ≠ PANDAS_FORMAT.SPLIT) :
    beginDataFrameOrient obj pc st =
      (typed (orientType st.outputFormat)
        (orientContext st.outputFormat pc (PyObject_Length idx) (PyObject_Length cols)
          idxL colL), st) := by
  unfold beginDataFrameOrient
  cases hf : st.outputFormat with
  | SPLIT => exact absurd hf hfmt
  | VALUES => rfl
  | RECORDS => simp only [hgc, hcv, hcl]; rfl
  | INDEX => simp [hgc, hgi, hcv, hiv, hcl, hil, orientType, orientContext]
  | COLUMNS => simp [hgc, hgi, hcv, hiv, hcl, hil, orientType, orientContext]

theorem dense_encode (lf d : Nat) (cols idx : PyObj) (a : PyArrayObject PyObj)
    (blocks : Option (List (PdBlock PyObj))) (st : Encoder) (R C : Nat) (s0 s1 : Int)
    (cells : Int → Int → JSONValue) (cvals ivals : PyArrayObject PyObj)
    (colL idxL : List String)
    (hdims : a.dims = [(R : Int), (C : Int)]) (hstr : a.strides = [s0, s1])
    (hst : CleanState st)
    (hR : R < lf) (hC : C < lf)
    (hq : ∀ i j : Int, 0 ≤ i → i < R → 0 ≤ j → j < C →
      CellAt lf d st a (a.data + i * s0 + j * s1) (cells i j))
    (hcv : get_values cols = some cvals) (hiv : get_values idx = some ivals)
    (hcl : NpyArr_encodeLabels (some cvals) (PyObject_Length cols) st = (some colL, st))
    (hil : NpyArr_encodeLabels (some ivals) (PyObject_Length idx) st = (some idxL, st))
    (hfmt : st.outputFormat ≠ PANDAS_FORMAT.SPLIT) :
    ∃ st',
      encode lf (d + 2)
          (some (PyObj.dataframe (some cols) (some idx) (some false) (some a) blocks)) st =
        (tableOutput st.outputFormat (some idxL) (some colL) R C cells, st') ∧
      st'.pyErr = Option.none ∧ st'.errorMsg = Option.none := by
  have hb := dense_dispatch (encode lf (d + 1)) cols idx a blocks st hst hfmt
  rw [orient_context (PyObj.dataframe (some cols) (some idx) (some false) (some a) blocks) cols idx (denseContext a) st cvals ivals colL idxL rfl rfl hcv hiv hcl hil
    hfmt] at hb
  have walk : ∀ (named : Bool) (pc : TypeContext),
      asArray (match pc.newObj with
        | some o => o
        | Option.none => PyObj.dataframe (some cols) (some idx) (some false) (some a) blocks) = a →
      pc.iterNext = some IterNextFn.NpyArr_iterNext →
      pc.iterGetName = some IterGetNameFn.NpyArr_iterGetName →
      pc.iterBegin = some IterBeginFn.NpyArr_iterBegin →
      ∃ tc' st', iterLoop (encode lf (d + 1)) named
          (PyObj.dataframe (some cols) (some idx) (some false) (some a) blocks) lf
          (Object_iterBegin (PyObj.dataframe (some cols) (some idx) (some false) (some a) blocks)
            pc st).1
          (Object_iterBegin (PyObj.dataframe (some cols) (some idx) (some false) (some a) blocks)
            pc st).2 =
        (if pc.transpose then grid named pc.rowLabels pc.columnLabels C R (fun c r => cells r c)
          else grid named pc.rowLabels pc.columnLabels R C cells, tc', st') ∧
        CleanState st' := by
    intro named pc harr hnext hname hbegin
    have hbg : Object_iterBegin (PyObj.dataframe (some cols) (some idx) (some false) (some a)
        blocks) pc st = NpyArr_iterBegin (PyObj.dataframe (some cols) (some idx) (some false)
        (some a) blocks) pc st := by
      simp only [Object_iterBegin, hbegin]
    rw [hbg]
    exact array_walk lf d a pc.transpose named pc.rowLabels pc.columnLabels _ pc st R C s0 s1
      cells hdims hstr hst harr rfl rfl rfl hnext hname hR hC hq
  cases hf : st.outputFormat with
  | SPLIT => exact absurd hf hfmt
  | VALUES =>
    rw [hf] at hb
    obtain ⟨tc', st', hw, hc⟩ := walk false (orientContext PANDAS_FORMAT.VALUES (denseContext a)
      (PyObject_Length idx) (PyObject_Length cols) idxL colL) rfl rfl rfl rfl
    have he := encode_of_begin_array lf (d + 1) _ st st _ hb
    rw [hw] at he
    exact ⟨_, he, by rw [(Object_iterEnd_err _ _ _).1]; exact hc.pyErr,
      by rw [(Object_iterEnd_err _ _ _).2]; exact hc.errorMsg⟩
  | RECORDS =>
    rw [hf] at hb
    obtain ⟨tc', st', hw, hc⟩ := walk false (orientContext PANDAS_FORMAT.RECORDS (denseContext a)
      (PyObject_Length idx) (PyObject_Length cols) idxL colL) rfl rfl rfl rfl
    have he := encode_of_begin_array lf (d + 1) _ st st _ hb
    rw [hw] at he
    exact ⟨_, he, by rw [(Object_iterEnd_err _ _ _).1]; exact hc.pyErr,
      by rw [(Object_iterEnd_err _ _ _).2]; exact hc.errorMsg⟩
  | INDEX =>
    rw [hf] at hb
    obtain ⟨tc', st', hw, hc⟩ := walk true (orientContext PANDAS_FORMAT.INDEX (denseContext a)
      (PyObject_Length idx) (PyObject_Length cols) idxL colL) rfl rfl rfl rfl
    have he := encode_of_begin_object lf (d + 1) _ st st _ hb
    rw [hw] at he
    exact ⟨_, he, by rw [(Object_iterEnd_err _ _ _).1]; exact hc.pyErr,
      by rw [(Object_iterEnd_err _ _ _).2]; exact hc.errorMsg⟩
  | COLUMNS =>
    rw [hf] at hb
    obtain ⟨tc', st', hw, hc⟩ := walk true (orientContext PANDAS_FORMAT.COLUMNS (denseContext a)
      (PyObject_Length idx) (PyObject_Length cols) idxL colL) rfl rfl rfl rfl
    have he := encode_of_begin_object lf (d + 1) _ st st _ hb
    rw [hw] at he
    exact ⟨_, he, by rw [(Object_iterEnd_err _ _ _).1]; exact hc.pyErr,
      by rw [(Object_iterEnd_err _ _ _).2]; exact hc.errorMsg⟩

@[simp] theorem blockState_npyCtxtPassthru (B : Encoder) (blk : PdBlockContext)
    (ctxs : List NpyArrContext) : (blockState B blk ctxs).npyCtxtPassthru = B.npyCtxtPassthru := rfl

@[simp] theorem blockState_blkCtxtPassthru (B : Encoder) (blk : PdBlockContext)
    (ctxs : List NpyArrContext) : (blockState B blk ctxs).blkCtxtPassthru = B.blkCtxtPassthru := rfl

@[simp] theorem blockState_npyType (B : Encoder) (blk : PdBlockContext)
    (ctxs : List NpyArrContext) : (blockState B blk ctxs).npyType = B.npyType := rfl

@[simp] theorem blockState_npyValue (B : Encoder) (blk : PdBlockContext)
    (ctxs : List NpyArrContext) : (blockState B blk ctxs).npyValue = B.npyValue := rfl

@[simp] theorem blockState_datetimeIso (B : Encoder) (blk : PdBlockContext)
    (ctxs : List NpyArrContext) : (blockState B blk ctxs).datetimeIso = B.datetimeIso := rfl

@[simp] theorem blockState_datetimeUnit (B : Encoder) (blk : PdBlockContext)
    (ctxs : List NpyArrContext) : (blockState B blk ctxs).datetimeUnit = B.datetimeUnit := rfl

@[simp] theorem blockState_outputFormat (B : Encoder) (blk : PdBlockContext)
    (ctxs : List NpyArrContext) : (blockState B blk ctxs).outputFormat = B.outputFormat := rfl

@[simp] theorem blockState_originalOutputFormat (B : Encoder) (blk : PdBlockContext)
    (ctxs : List NpyArrContext) : (blockState B blk ctxs).originalOutputFormat = B.originalOutputFormat := rfl

@[simp] theorem blockState_defaultHandler (B : Encoder) (blk : PdBlockContext)
    (ctxs : List NpyArrContext) : (blockState B blk ctxs).defaultHandler = B.defaultHandler := rfl

@[simp] theorem blockState_errorMsg (B : Encoder) (blk : PdBlockContext)
    (ctxs : List NpyArrContext) : (blockState B blk ctxs).errorMsg = B.errorMsg := rfl

@[simp] theorem blockState_pyErr (B : Encoder) (blk : PdBlockContext)
    (ctxs : List NpyArrContext) : (blockState B blk ctxs).pyErr = B.pyErr := rfl

@[simp] theorem blockState_allocBudget (B : Encoder) (blk : PdBlockContext)
    (ctxs : List NpyArrContext) : (blockState B blk ctxs).allocBudget = B.allocBudget := rfl

@[simp] theorem blockState_uninit (B : Encoder) (blk : PdBlockContext)
    (ctxs : List NpyArrContext) : (blockState B blk ctxs).uninit = B.uninit := rfl

@[simp] theorem blockState_loadDouble (B : Encoder) (blk : PdBlockContext)
    (ctxs : List NpyArrContext) : (blockState B blk ctxs).loadDouble = B.loadDouble := rfl

@[simp] theorem blockState_loadInt (B : Encoder) (blk : PdBlockContext)
    (ctxs : List NpyArrContext) : (blockState B blk ctxs).loadInt = B.loadInt := rfl

@[simp] theorem blockState_loadBool (B : Encoder) (blk : PdBlockContext)
    (ctxs : List NpyArrContext) : (blockState B blk ctxs).loadBool = B.loadBool := rfl

@[simp] theorem blockState_handlerCalls (B : Encoder) (blk : PdBlockContext)
    (ctxs : List NpyArrContext) : (blockState B blk ctxs).handlerCalls = B.handlerCalls := rfl

@[simp] theorem blockState_freed (B : Encoder) (blk : PdBlockContext)
    (ctxs : List NpyArrContext) : (blockState B blk ctxs).freed = B.freed := rfl

@[simp] theorem blockState_fault (B : Encoder) (blk : PdBlockContext)
    (ctxs : List NpyArrContext) : (blockState B blk ctxs).fault = B.fault := rfl

@[simp] theorem blockState_py (B : Encoder) (blk : PdBlockContext)
    (ctxs : List NpyArrContext) : (blockState B blk ctxs).py = B.py := rfl

@[simp] theorem blockState_doublePrecision (B : Encoder) (blk : PdBlockContext)
    (ctxs : List NpyArrContext) : (blockState B blk ctxs).doublePrecision = B.doublePrecision := rfl

@[simp] theorem blockState_forceASCII (B : Encoder) (blk : PdBlockContext)
    (ctxs : List NpyArrContext) : (blockState B blk ctxs).forceASCII = B.forceASCII := rfl

@[simp] theorem blockState_encodeHTMLChars (B : Encoder) (blk : PdBlockContext)
    (ctxs : List NpyArrContext) : (blockState B blk ctxs).encodeHTMLChars = B.encodeHTMLChars := rfl

@[simp] theorem blockState_indent (B : Encoder) (blk : PdBlockContext)
    (ctxs : List NpyArrContext) : (blockState B blk ctxs).indent = B.indent := rfl

@[simp] theorem blockState_npyHeap_length (B : Encoder) (blk : PdBlockContext)
    (ctxs : List NpyArrContext) :
    (blockState B blk ctxs).npyHeap.length = B.npyHeap.length + ctxs.length := by
  simp [blockState]

theorem CleanState_blockState (B : Encoder) (h : CleanState B) (blk : PdBlockContext)
    (ctxs : List NpyArrContext) : CleanState (blockState B blk ctxs) :=
  ⟨h.npyType, h.npyCtxtPassthru, h.blkCtxtPassthru, h.pyErr, h.errorMsg, h.allocBudget⟩

theorem blkLoad_blockState (B : Encoder) (blk : PdBlockContext) (ctxs : List NpyArrContext) :
    blkLoad (blockState B blk ctxs) (some B.blkHeap.length) = blk := by
  simp [blkLoad, blockState, List.getD]

theorem blkStore_blockState (B : Encoder) (blk blk' : PdBlockContext)
    (ctxs : List NpyArrContext) :
    blkStore (blockState B blk ctxs) (some B.blkHeap.length) blk' = blockState B blk' ctxs := by
  simp [blkStore, blockState]

theorem npyLoad_blockState (B : Encoder) (blk : PdBlockContext) (ctxs : List NpyArrContext)
    (s : Nat) :
    npyLoad (blockState B blk ctxs) (some (B.npyHeap.length + s)) = ctxs.getD s default := by
  simp [npyLoad, blockState, List.getD, List.getElem?_append_right]

theorem heapSet_blockState (B : Encoder) (blk : PdBlockContext) (ctxs : List NpyArrContext)
    (s : Nat) (c : NpyArrContext) :
    heapSet (blockState B blk ctxs) (B.npyHeap.length + s) c =
      blockState B blk (ctxs.set s c) := by
  simp [heapSet, blockState, List.set_append]

theorem heapSet_self (S : Encoder) (q : Nat) (h : q < S.npyHeap.length) :
    heapSet S q (npyLoad S (some q)) = S := by
  cases S
  simp only [heapSet, npyLoad, List.getD] at *
  congr 1
  apply List.ext_getElem
  · simp
  · intro n h1 h2
    by_cases hn : n = q
    · subst hn
      simp [List.getElem?_eq_getElem h]
    · simp [List.getElem_set, Ne.symm hn]

theorem clear_blkCtxtPassthru (X : Encoder) (h : X.blkCtxtPassthru = Option.none)
    (v : Option Nat) :
    ({ ({ X with blkCtxtPassthru := v } : Encoder) with blkCtxtPassthru := Option.none } :
      Encoder) = X := by
  cases X
  simp only at h
  subst h
  rfl

theorem blkStore_heapSet (S : Encoder) (q : Nat) (c : NpyArrContext) (p : Option Nat)
    (b : PdBlockContext) :
    blkStore (heapSet S q c) p b = heapSet (blkStore S p b) q c := by
  unfold blkStore heapSet
  cases p with
  | none => rfl
  | some i =>
    simp only []
    split <;> rfl

theorem blockState_snoc (B : Encoder) (blk : PdBlockContext) (ctxs : List NpyArrContext)
    (c : NpyArrContext) :
    heapSet (blockState B blk (ctxs ++ [default])) (B.npyHeap.length + ctxs.length) c =
      blockState B blk (ctxs ++ [c]) := by
  rw [heapSet_blockState]
  simp

theorem blockState_grow (B : Encoder) (blk : PdBlockContext) (ctxs : List NpyArrContext) :
    ({ (blockState B blk ctxs) with
        npyHeap := (blockState B blk ctxs).npyHeap ++ [default] } : Encoder) =
      blockState B blk (ctxs ++ [default]) := by
  simp [blockState]

theorem clear_npyCtxtPassthru_flat (X : Encoder) (h : X.npyCtxtPassthru = Option.none) :
    ({ X with npyCtxtPassthru := Option.none } : Encoder) = X := by
  cases X
  simp only at h
  subst h
  rfl

theorem PdBlock_seedColumn_spec (obj : PyObj) (sd : Seed) (tc : TypeContext) (B : Encoder)
    (blk : PdBlockContext) (ctxs : List NpyArrContext) (I : List Int) (T : List (Option Nat))
    (rl cl : Option (List String))
    (hB : CleanState B) (hp : tc.pdblock = some B.blkHeap.length)
    (htr : tc.transpose = true) (hrl : tc.rowLabels = rl) (hcl : tc.columnLabels = cl)
    (hci : blk.cindices = CPtr.ok I) (hct : blk.npyCtxts = CPtr.ok T)
    (hloc : 0 ≤ sd.loc) (hlocI : sd.loc.toNat < I.length) (hlocT : sd.loc.toNat < T.length)
    (h2 : sd.vals.dims.length = 2) (hpos : 0 < PyArray_DIM sd.vals 1) :
    PdBlock_seedColumn obj sd.vals sd.loc sd.idx tc (blockState B blk ctxs) =
      ({ tc with npyarr := some (B.npyHeap.length + ctxs.length), itemValue := Option.none,
                 newObj := Option.none },
        blockState B (seedSlot blk sd (B.npyHeap.length + ctxs.length))
          (ctxs ++ [colCtx rl cl B.uninit sd 0])) := by
  have hload : ∀ blk ctxs, blkLoad (blockState B blk ctxs) tc.pdblock = blk := by
    intro blk ctxs
    rw [hp]
    exact blkLoad_blockState B blk ctxs
  have hstore : ∀ blk blk' ctxs,
      blkStore (blockState B blk ctxs) tc.pdblock blk' = blockState B blk' ctxs := by
    intro blk blk' ctxs
    rw [hp]
    exact blkStore_blockState B blk blk' ctxs
  have hS1 : CleanState (blockState B { blk with cindices := CPtr.ok (I.set sd.loc.toNat sd.idx) }
      ctxs) := CleanState_blockState B hB _ _
  have hbegin := NpyArr_iterBegin_axis obj
    { tc with newObj := some (PyObj.ndarray sd.vals) }
    (blockState B { blk with cindices := CPtr.ok (I.set sd.loc.toNat sd.idx) } ctxs)
    sd.vals true rl cl hS1.allocBudget rfl h2 htr hrl hcl
  rw [blockState_grow, blockState_npyHeap_length] at hbegin
  simp only [if_true, blockState_uninit] at hbegin
  have hB' : CleanState (blockState B { blk with cindices := CPtr.ok (I.set sd.loc.toNat sd.idx) }
      (ctxs ++ [default])) := CleanState_blockState B hB _ _
  have hqlt : B.npyHeap.length + ctxs.length <
      (blockState B { blk with cindices := CPtr.ok (I.set sd.loc.toNat sd.idx) }
        (ctxs ++ [default])).npyHeap.length := by
    simp
  have hnext := NpyArr_iterNext_descend obj
    ({ ({ tc with newObj := some (PyObj.ndarray sd.vals) } : TypeContext) with
        npyarr := some (B.npyHeap.length + ctxs.length) })
    sd.vals true rl cl 1 0 (sd.vals.data + PyArray_STRIDE sd.vals 1 * sd.idx)
    (setIdx B.uninit 1 0) _ _ hqlt hB'.pyErr rfl (by simp)
    (by rw [setIdx_same]; exact hpos)
  rw [setIdx_same, setIdx_collapse] at hnext
  simp only [] at hnext
  have hctx : ({ (axisCtx sd.vals true rl cl 0 1 sd.vals.data (setIdx B.uninit 1 0)) with
      dataptr := (axisCtx sd.vals true rl cl 0 1 sd.vals.data (setIdx B.uninit 1 0)).dataptr +
        (axisCtx sd.vals true rl cl 0 1 sd.vals.data (setIdx B.uninit 1 0)).stride * sd.idx } :
      NpyArrContext) =
      axisCtx sd.vals true rl cl 0 1 (sd.vals.data + PyArray_STRIDE sd.vals 1 * sd.idx)
        (setIdx B.uninit 1 0) := rfl
  simp only [PdBlock_seedColumn, hload, hci, tableSet, hloc, hlocI, and_self,
    if_true, hstore, hbegin, npyLoad_heapSet _ _ _ hqlt,
    npyStore_heapSet _ _ _ _ hqlt, hctx, hnext]
  rw [clear_npyCtxtPassthru_flat _ (CleanState_heapSet _ hB' _ _).npyCtxtPassthru]
  simp only [blkLoad_heapSet, hload, hct, tableSet, hloc, hlocT, and_self, if_true,
    blkStore_heapSet, hstore, blockState_snoc, seedSlot, hci, Option.getD_some, colCtx,
    zero_add, zero_mul, add_zero, true_and]
  simp only [hlocI, if_true, Option.getD_some]

theorem seedLocs_eq (obj : PyObj) (vals : PyArrayObject PyObj) (locs : List Int) (idx : Int)
    (tc : TypeContext) (st : Encoder) :
    PdBlock_seedLocs obj vals locs idx tc st = seedAll obj (locSeeds vals locs idx) tc st := by
  induction locs generalizing idx tc st with
  | nil => rfl
  | cons loc rest ih =>
    simp only [PdBlock_seedLocs, locSeeds, seedAll]
    exact ih _ _ _

theorem seedAll_append (obj : PyObj) (l1 l2 : List Seed) (tc : TypeContext) (st : Encoder) :
    seedAll obj (l1 ++ l2) tc st =
      seedAll obj l2 (seedAll obj l1 tc st).1 (seedAll obj l1 tc st).2 := by
  induction l1 generalizing tc st with
  | nil => rfl
  | cons sd rest ih =>
    simp only [List.cons_append, seedAll]
    exact ih _ _

theorem seedBlocks_eq (obj : PyObj) (blocks : List (PdBlock PyObj)) (tc : TypeContext)
    (st : Encoder)
    (hvalid : ∀ b ∈ blocks, ∃ tmp locs, b.values = some tmp ∧ b.mgr_locs = some locs ∧
      locs ≠ []) :
    PdBlock_seedBlocks obj blocks tc st =
      (true, (seedAll obj (blockSeeds blocks) tc st).1,
        (seedAll obj (blockSeeds blocks) tc st).2) := by
  induction blocks generalizing tc st with
  | nil => rfl
  | cons b rest ih =>
    obtain ⟨tmp, locs, hv, hl, hne⟩ := hvalid b (List.mem_cons_self _ _)
    have hrest := fun tc st => ih tc st (fun b' hb' => hvalid b' (List.mem_cons_of_mem _ hb'))
    cases locs with
    | nil => exact absurd rfl hne
    | cons c cs =>
      simp only [PdBlock_seedBlocks, hv, hl, blockSeeds, seedAll_append, seedLocs_eq]
      exact hrest _ _

theorem tcAgree_refl (tc : TypeContext) : tcAgree tc tc := ⟨tc.npyarr, tc.itemValue, tc.newObj, rfl⟩

theorem tcAgree_trans (a b c : TypeContext) (h1 : tcAgree a b) (h2 : tcAgree b c) :
    tcAgree a c := by
  obtain ⟨n1, i1, o1, rfl⟩ := h1
  obtain ⟨n2, i2, o2, rfl⟩ := h2
  exact ⟨n2, i2, o2, rfl⟩

theorem TablesOk_seedSlot (blk : PdBlockContext) (C : Nat) (sd : Seed) (q : Nat)
    (h : TablesOk blk C) (hsd : SeedOk C sd) : TablesOk (seedSlot blk sd q) C := by
  obtain ⟨I, T, hI, hT, hIl, hTl⟩ := h
  obtain ⟨h0, hlt, _, _⟩ := hsd
  refine ⟨I.set sd.loc.toNat sd.idx, T.set sd.loc.toNat (some q), ?_, ?_, ?_, ?_⟩
  · simp [seedSlot, hI, tableSet, h0, hIl, hlt]
  · simp [seedSlot, hT, tableSet, h0, hTl, hlt]
  · simp [hIl]
  · simp [hTl]

theorem seedAll_spec (obj : PyObj) (C : Nat) (rl cl : Option (List String)) (B : Encoder)
    (hB : CleanState B) (seeds : List Seed) :
    ∀ (tc : TypeContext) (blk : PdBlockContext) (ctxs : List NpyArrContext),
      (∀ sd ∈ seeds, SeedOk C sd) → TablesOk blk C →
      tc.pdblock = some B.blkHeap.length → tc.transpose = true →
      tc.rowLabels = rl → tc.columnLabels = cl →
      tcAgree tc (seedAll obj seeds tc (blockState B blk ctxs)).1 ∧
      (seedAll obj seeds tc (blockState B blk ctxs)).2 =
        blockState B (seedSlots (B.npyHeap.length + ctxs.length) seeds blk)
          (ctxs ++ seeds.map (fun sd => colCtx rl cl B.uninit sd 0)) := by
  induction seeds with
  | nil =>
    intro tc blk ctxs _ _ _ _ _ _
    exact ⟨tcAgree_refl tc, by simp [seedAll, seedSlots]⟩
  | cons sd rest ih =>
    intro tc blk ctxs hok htab hp htr hrl hcl
    obtain ⟨I, T, hI, hT, hIl, hTl⟩ := htab
    have hsd := hok sd (List.mem_cons_self _ _)
    obtain ⟨h0, hlt, h2, hpos⟩ := hsd
    have hstep := PdBlock_seedColumn_spec obj sd tc B blk ctxs I T rl cl hB hp htr hrl hcl hI hT
      h0 (by rw [hIl]; exact hlt) (by rw [hTl]; exact hlt) h2 hpos
    simp only [seedAll, hstep]
    obtain ⟨ha, hs⟩ := ih
      { tc with npyarr := some (B.npyHeap.length + ctxs.length), itemValue := Option.none,
                newObj := Option.none }
      (seedSlot blk sd (B.npyHeap.length + ctxs.length)) (ctxs ++ [colCtx rl cl B.uninit sd 0])
      (fun sd' h' => hok sd' (List.mem_cons_of_mem _ h'))
      (TablesOk_seedSlot blk C sd _ ⟨I, T, hI, hT, hIl, hTl⟩ (hok sd (List.mem_cons_self _ _)))
      hp htr hrl hcl
    refine ⟨tcAgree_trans _ _ _ ⟨_, _, _, rfl⟩ ha, ?_⟩
    rw [hs]
    simp [seedSlots, Nat.add_assoc]

theorem malloc_clean (X : Encoder) (h : X.allocBudget = Option.none) :
    PyObject_Malloc X = (true, X) := by
  simp [PyObject_Malloc, h]

theorem TablesOk_seedSlots (C : Nat) (seeds : List Seed) :
    ∀ (q : Nat) (blk : PdBlockContext), (∀ sd ∈ seeds, SeedOk C sd) → TablesOk blk C →
      TablesOk (seedSlots q seeds blk) C := by
  induction seeds with
  | nil => intro q blk _ h; exact h
  | cons sd rest ih =>
    intro q blk hok h
    exact ih (q + 1) _ (fun sd' h' => hok sd' (List.mem_cons_of_mem _ h'))
      (TablesOk_seedSlot blk C sd q h (hok sd (List.mem_cons_self _ _)))

theorem seedSlots_fields (seeds : List Seed) :
    ∀ (q : Nat) (blk : PdBlockContext),
      (seedSlots q seeds blk).colIdx = blk.colIdx ∧
      (seedSlots q seeds blk).transpose = blk.transpose ∧
      (seedSlots q seeds blk).ncols = blk.ncols := by
  induction seeds with
  | nil => intro q blk; exact ⟨rfl, rfl, rfl⟩
  | cons sd rest ih =>
    intro q blk
    exact ih (q + 1) (seedSlot blk sd q)

theorem TablesOk_freshBlock (t : Bool) (C : Nat) (uninit : Int → Int) :
    TablesOk (freshBlock t C uninit) C :=
  ⟨_, _, rfl, rfl, by simp, by simp⟩

theorem PdBlock_iterBegin_spec (df : PyObj) (tc : TypeContext) (st : Encoder) (C : Nat)
    (blocks : List (PdBlock PyObj)) (rl cl : Option (List String)) (t : Bool)
    (hst : CleanState st) (hC : get_attr_length_columns df = (C : Int)) (hCpos : 0 < C)
    (hblocks : get_blocks df = some blocks)
    (hvalid : ∀ b ∈ blocks, ∃ tmp locs, b.values = some tmp ∧ b.mgr_locs = some locs ∧
      locs ≠ [])
    (hok : ∀ sd ∈ blockSeeds blocks, SeedOk C sd)
    (htr : tc.transpose = t) (hrl : tc.rowLabels = rl) (hcl : tc.columnLabels = cl) :
    (PdBlock_iterBegin df tc st).2 =
        blockState st (seedSlots st.npyHeap.length (blockSeeds blocks)
            (freshBlock t C st.uninit))
          ((blockSeeds blocks).map (fun sd => colCtx rl cl st.uninit sd 0)) ∧
      tcAgree
        { tc with
            iterGetName := some (if t then IterGetNameFn.PdBlock_iterGetName_Transpose
              else IterGetNameFn.PdBlock_iterGetName),
            pdblock := some st.blkHeap.length, transpose := true }
        (PdBlock_iterBegin df tc st).1 := by
  have hm0 := malloc_clean st hst.allocBudget
  have hm1 : ∀ bh, PyObject_Malloc ({ st with blkHeap := bh } : Encoder) =
      (true, { st with blkHeap := bh }) := fun bh => malloc_clean _ hst.allocBudget
  have hne : ¬ ((C : Int) = 0) := by omega
  have hinit : blkStore ({ st with blkHeap := st.blkHeap ++
        [({ colIdx := 0, transpose := t, ncols := (C : Int),
            cindices := CPtr.uninit, npyCtxts := CPtr.uninit } : PdBlockContext)] } : Encoder)
      (some st.blkHeap.length)
      { colIdx := 0, transpose := t, ncols := (C : Int),
        cindices := CPtr.ok ((List.range C).map (fun (k : Nat) => st.uninit (k : Int))),
        npyCtxts := CPtr.ok (List.replicate C Option.none) } =
      blockState st (freshBlock t C st.uninit) [] := by
    simp [blkStore, blockState, freshBlock]
  have hspec := seedAll_spec df C rl cl st hst (blockSeeds blocks)
    { tc with
        iterGetName := some (if t then IterGetNameFn.PdBlock_iterGetName_Transpose
          else IterGetNameFn.PdBlock_iterGetName),
        pdblock := some st.blkHeap.length, transpose := true }
    (freshBlock t C st.uninit) [] hok (TablesOk_freshBlock t C st.uninit) rfl rfl hrl hcl
  simp only [List.length_nil, add_zero, List.nil_append] at hspec
  obtain ⟨hagree, hstate⟩ := hspec
  obtain ⟨I, T, hI, hT, hIl, hTl⟩ := TablesOk_seedSlots C (blockSeeds blocks) st.npyHeap.length
    (freshBlock t C st.uninit) hok (TablesOk_freshBlock t C st.uninit)
  have hget : (ctxtsGet (CPtr.ok T) 0).isNone = false := by
    have : 0 < T.length := by omega
    cases T with
    | nil => simp at this
    | cons x xs => simp [ctxtsGet]
  unfold PdBlock_iterBegin
  simp only [hm0, hC, hne, if_false, hm1, Int.toNat_ofNat, htr, hblocks, hinit,
    seedBlocks_eq df blocks _ _ hvalid, hstate, blkLoad_blockState, hT, hget,
    Bool.false_eq_true, if_false, true_and]
  obtain ⟨np, iv, no, hr⟩ := hagree
  rw [hr]
  exact ⟨_, _, _, rfl⟩

theorem seedSlot_get_other (blk : PdBlockContext) (sd : Seed) (q : Nat) (c : Int)
    (hc : 0 ≤ c) (h0 : 0 ≤ sd.loc) (hne : sd.loc ≠ c) :
    ctxtsGet (seedSlot blk sd q).npyCtxts c = ctxtsGet blk.npyCtxts c := by
  unfold seedSlot tableSet
  cases hT : blk.npyCtxts with
  | uninit => rfl
  | null => rfl
  | ok T =>
    simp only []
    split
    · have hne' : sd.loc.toNat ≠ c.toNat := by omega
      simp [ctxtsGet, hc, List.getElem?_set, hne']
    · rfl

theorem seedSlot_get_self (blk : PdBlockContext) (C : Nat) (sd : Seed) (q : Nat)
    (h : TablesOk blk C) (hsd : SeedOk C sd) :
    ctxtsGet (seedSlot blk sd q).npyCtxts sd.loc = some (some q) := by
  obtain ⟨I, T, hI, hT, hIl, hTl⟩ := h
  obtain ⟨h0, hlt, _, _⟩ := hsd
  simp [seedSlot, hT, tableSet, h0, hTl, hlt, ctxtsGet, List.getElem?_set]

theorem seedSlots_get_other (seeds : List Seed) (c : Int) (hc : 0 ≤ c) :
    ∀ (q : Nat) (blk : PdBlockContext), (∀ sd ∈ seeds, 0 ≤ sd.loc ∧ sd.loc ≠ c) →
      ctxtsGet (seedSlots q seeds blk).npyCtxts c = ctxtsGet blk.npyCtxts c := by
  induction seeds with
  | nil => intro q blk _; rfl
  | cons sd rest ih =>
    intro q blk h
    simp only [seedSlots]
    rw [ih (q + 1) _ (fun sd' h' => h sd' (List.mem_cons_of_mem _ h'))]
    exact seedSlot_get_other blk sd q c hc (h sd (List.mem_cons_self _ _)).1
      (h sd (List.mem_cons_self _ _)).2

theorem seedSlots_get (C : Nat) (seeds : List Seed) :
    ∀ (q : Nat) (blk : PdBlockContext), TablesOk blk C → (∀ sd ∈ seeds, SeedOk C sd) →
      (seeds.map Seed.loc).Nodup →
      ∀ (s : Nat) (sd : Seed), seeds.get? s = some sd →
        ctxtsGet (seedSlots q seeds blk).npyCtxts sd.loc = some (some (q + s)) := by
  induction seeds with
  | nil => intro q blk _ _ _ s sd h; simp at h
  | cons sd0 rest ih =>
    intro q blk htab hok hnd s sd hs
    simp only [List.map_cons, List.nodup_cons] at hnd
    cases s with
    | zero =>
      simp only [List.get?_cons_zero, Option.some.injEq] at hs
      subst hs
      simp only [seedSlots, add_zero]
      rw [seedSlots_get_other rest sd0.loc (hok sd0 (List.mem_cons_self _ _)).1 (q + 1) _
        (fun sd' h' => ⟨(hok sd' (List.mem_cons_of_mem _ h')).1, fun heq =>
          hnd.1 (heq ▸ List.mem_map_of_mem Seed.loc h')⟩)]
      exact seedSlot_get_self blk C sd0 q htab (hok sd0 (List.mem_cons_self _ _))
    | succ s' =>
      simp only [List.get?_cons_succ] at hs
      simp only [seedSlots]
      rw [ih (q + 1) _ (TablesOk_seedSlot blk C sd0 q htab (hok sd0 (List.mem_cons_self _ _)))
        (fun sd' h' => hok sd' (List.mem_cons_of_mem _ h')) hnd.2 s' sd hs]
      congr 2
      omega

theorem map_set_unique {α : Type} (seeds : List Seed) (f g : Seed → α) (s : Nat) (sd : Seed)
    (hs : seeds.get? s = some sd) (hnd : (seeds.map Seed.loc).Nodup) :
    (seeds.map f).set s (g sd) =
      seeds.map (fun x => if x.loc = sd.loc then g x else f x) := by
  induction seeds generalizing s with
  | nil => simp at hs
  | cons sd0 rest ih =>
    simp only [List.map_cons, List.nodup_cons] at hnd
    cases s with
    | zero =>
      simp only [List.get?_cons_zero, Option.some.injEq] at hs
      subst hs
      simp only [List.map_cons, List.set_cons_zero, if_true, List.cons.injEq, true_and]
      apply List.map_congr_left
      intro x hx
      have : x.loc ≠ sd0.loc := fun heq => hnd.1 (heq ▸ List.mem_map_of_mem Seed.loc hx)
      simp [this]
    | succ s' =>
      simp only [List.get?_cons_succ] at hs
      have hmem : sd ∈ rest := List.get?_mem hs
      have : sd0.loc ≠ sd.loc := fun heq => hnd.1 (heq ▸ List.mem_map_of_mem Seed.loc hmem)
      simp only [List.map_cons, List.set_cons_succ, this, if_false, List.cons.injEq, true_and]
      exact ih s' hs hnd.2

theorem getD_map_seed {α : Type} (seeds : List Seed) (f : Seed → α) (s : Nat) (sd : Seed)
    (hs : seeds.get? s = some sd) (d : α) : (seeds.map f).getD s d = f sd := by
  rw [List.get?_eq_getElem?] at hs
  simp [List.getD, hs]

theorem begin_passthru_block (enc : Option PyObj → Encoder → JSONValue × Encoder)
    (cols idx : Option PyObj) (m : Option Bool) (v : Option (PyArrayObject PyObj))
    (blocks : Option (List (PdBlock PyObj))) (S : Encoder) (p : Nat)
    (hty : S.npyType = -1) (halloc : S.allocBudget = Option.none)
    (hpass : S.blkCtxtPassthru = some p) :
    Object_beginTypeContext enc (some (PyObj.dataframe cols idx m v blocks)) S =
      (typed (if (npyLoad S (ctxtsAt (blkLoad S (some p)).npyCtxts 0)).columnLabels.isSome then
          JSTYPES.JT_OBJECT else JSTYPES.JT_ARRAY) (blockPassThruContext p),
        Option.none, { S with blkCtxtPassthru := Option.none }) := by
  rw [begin_dataframe enc _ _ _ _ _ S hty halloc]
  simp only [beginIterable, hpass]
  rfl

theorem walker_load (lf d : Nat) (B : Encoder) (seeds : List Seed) (T : List (Option Nat))
    (R C : Nat) (cells : Int → Int → JSONValue) (W : BlockWalk lf d B seeds T R C cells)
    (blk : PdBlockContext) (f : Seed → NpyArrContext) (s : Nat) (sd : Seed)
    (hs : seeds.get? s = some sd) :
    ctxtsAt (CPtr.ok T) sd.loc = some (B.npyHeap.length + s) ∧
      npyLoad (blockState B blk (seeds.map f)) (some (B.npyHeap.length + s)) = f sd := by
  refine ⟨?_, ?_⟩
  · simp [ctxtsAt, W.slot s sd hs]
  · rw [npyLoad_blockState, getD_map_seed seeds f s sd hs]

theorem PdBlock_iterNextItem_step (obj : PyObj) (tc : TypeContext) (B : Encoder)
    (blk0 : PdBlockContext) (T : List (Option Nat)) (ctxs : List NpyArrContext) (c : Int)
    (s : Nat) (ctx : NpyArrContext) (a : PyArrayObject PyObj) (item : PyObj)
    (hB : CleanState B) (hp : tc.pdblock = some B.blkHeap.length)
    (hT : blk0.npyCtxts = CPtr.ok T) (hc : c < blk0.ncols)
    (hget : ctxtsGet (CPtr.ok T) c = some (some (B.npyHeap.length + s)))
    (hs : s < ctxs.length) (hctx : ctxs.getD s default = ctx)
    (hlt : ctx.index ctx.stridedim < ctx.dim) (harr : ctx.array = some a)
    (hdt : PyTypeNum_ISDATETIME a.type_num = false)
    (hitem : a.getitem ctx.dataptr = some item) :
    PdBlock_iterNextItem obj tc (blockState B { blk0 with colIdx := c } ctxs) =
      (true, { tc with npyarr := some (B.npyHeap.length + s), itemValue := some item },
        blockState B { blk0 with colIdx := c + 1 }
          (ctxs.set s { ctx with
            dataptr := ctx.dataptr + ctx.stride,
            index := setIdx ctx.index ctx.stridedim (ctx.index ctx.stridedim + 1) })) := by
  have hload : ∀ blk, blkLoad (blockState B blk ctxs) tc.pdblock = blk := by
    intro blk
    rw [hp]
    exact blkLoad_blockState B blk ctxs
  have hstore : ∀ blk blk',
      blkStore (blockState B blk ctxs) tc.pdblock blk' = blockState B blk' ctxs := by
    intro blk blk'
    rw [hp]
    exact blkStore_blockState B blk blk' ctxs
  have hnc : ¬ (c ≥ blk0.ncols) := by omega
  have hget' : ctxtsGet blk0.npyCtxts c = some (some (B.npyHeap.length + s)) := by
    rw [hT]; exact hget
  have hat : ctxtsAt blk0.npyCtxts c = some (B.npyHeap.length + s) := by
    simp [ctxtsAt, hget']
  have hqlt : B.npyHeap.length + s <
      (blockState B { blk0 with colIdx := c + 1 } ctxs).npyHeap.length := by
    simp [hs]
  have hself : blockState B { blk0 with colIdx := c + 1 } ctxs =
      heapSet (blockState B { blk0 with colIdx := c + 1 } ctxs) (B.npyHeap.length + s) ctx := by
    have := heapSet_self (blockState B { blk0 with colIdx := c + 1 } ctxs)
      (B.npyHeap.length + s) hqlt
    rw [npyLoad_blockState, hctx] at this
    exact this.symm
  have hstep := NpyArr_iterNextItem_step obj
    { tc with npyarr := some (B.npyHeap.length + s) }
    (blockState B { blk0 with colIdx := c + 1 } ctxs) (B.npyHeap.length + s) ctx a item hqlt
    (CleanState_blockState B hB _ _).pyErr rfl hlt harr hdt hitem
  rw [← hself, heapSet_blockState] at hstep
  simp only [PdBlock_iterNextItem, hload, hnc, if_false, hget', hat, hstore,
    Option.isNone_some, Bool.false_eq_true, hstep]

theorem npyLoad_congr (P Q : Encoder) (h : P.npyHeap = Q.npyHeap) (p : Option Nat) :
    npyLoad P p = npyLoad Q p := by
  unfold npyLoad
  rw [h]

theorem Object_iterGetName_congr (obj : PyObj) (tc : TypeContext) (P Q : Encoder)
    (hn : P.npyHeap = Q.npyHeap) (hb : P.blkHeap = Q.blkHeap) :
    Object_iterGetName obj tc P = Object_iterGetName obj tc Q := by
  simp only [Object_iterGetName, NpyArr_iterGetName, PdBlock_iterGetName,
    PdBlock_iterGetName_Transpose, npyLoad_congr P Q hn, blkLoad_congr P Q hb]

theorem BlockWalk_withValue (lf d : Nat) (B : Encoder) (seeds : List Seed)
    (T : List (Option Nat)) (R C : Nat) (cells : Int → Int → JSONValue)
    (W : BlockWalk lf d B seeds T R C cells) (v : Int) :
    BlockWalk lf d (withValue B v) seeds T R C cells :=
  ⟨CleanState_withValue B W.clean v, W.nodup, W.slot, W.cover, W.range, W.rows,
    fun sd hsd i hi0 hiR =>
      CellAt_frame lf d B (withValue B v) _ _ _ (Frame_withValue B B (Frame_refl B) v)
        (W.cell sd hsd i hi0 hiR)⟩

/-- One leaf of a row of a block-stored table: `PdBlock_iterNextItem` on column
`c` advances the column index and the walker of the column, and the driver encodes
the element to `v`. -/
theorem PdBlock_cell_step (lf d : Nat) (st0 : Encoder) (a : PyArrayObject PyObj)
    (v : JSONValue) (obj : PyObj) (tc : TypeContext) (B : Encoder)
    (blk0 : PdBlockContext) (T : List (Option Nat)) (ctxs : List NpyArrContext) (c : Int)
    (s : Nat) (ctx : NpyArrContext)
    (hcell : CellAt lf d st0 a ctx.dataptr v)
    (hB : CleanState B) (hF : Frame st0 B) (hp : tc.pdblock = some B.blkHeap.length)
    (hT : blk0.npyCtxts = CPtr.ok T) (hc : c < blk0.ncols)
    (hget : ctxtsGet (CPtr.ok T) c = some (some (B.npyHeap.length + s)))
    (hs : s < ctxs.length) (hctx : ctxs.getD s default = ctx)
    (hlt : ctx.index ctx.stridedim < ctx.dim) (harr : ctx.array = some a) :
    ∃ iv nv P,
      PdBlock_iterNextItem obj tc (blockState B { blk0 with colIdx := c } ctxs) =
        (true, { tc with npyarr := some (B.npyHeap.length + s), itemValue := iv }, P) ∧
      P.npyHeap = (blockState B { blk0 with colIdx := c + 1 }
        (ctxs.set s { ctx with
          dataptr := ctx.dataptr + ctx.stride,
          index := setIdx ctx.index ctx.stridedim (ctx.index ctx.stridedim + 1) })).npyHeap ∧
      P.blkHeap = (blockState B { blk0 with colIdx := c + 1 }
        (ctxs.set s { ctx with
          dataptr := ctx.dataptr + ctx.stride,
          index := setIdx ctx.index ctx.stridedim (ctx.index ctx.stridedim + 1) })).blkHeap ∧
      encode lf d iv P =
        (v, blockState (withValue B nv) { blk0 with colIdx := c + 1 }
          (ctxs.set s { ctx with
            dataptr := ctx.dataptr + ctx.stride,
            index := setIdx ctx.index ctx.stridedim (ctx.index ctx.stridedim + 1) })) := by
  have hload : ∀ blk, blkLoad (blockState B blk ctxs) tc.pdblock = blk := by
    intro blk
    rw [hp]
    exact blkLoad_blockState B blk ctxs
  have hstore : ∀ blk blk',
      blkStore (blockState B blk ctxs) tc.pdblock blk' = blockState B blk' ctxs := by
    intro blk blk'
    rw [hp]
    exact blkStore_blockState B blk blk' ctxs
  have hnc : ¬ (c ≥ blk0.ncols) := by omega
  have hget' : ctxtsGet blk0.npyCtxts c = some (some (B.npyHeap.length + s)) := by
    rw [hT]; exact hget
  have hat : ctxtsAt blk0.npyCtxts c = some (B.npyHeap.length + s) := by
    simp [ctxtsAt, hget']
  have hqlt : B.npyHeap.length + s <
      (blockState B { blk0 with colIdx := c + 1 } ctxs).npyHeap.length := by
    simp [hs]
  have hself : blockState B { blk0 with colIdx := c + 1 } ctxs =
      heapSet (blockState B { blk0 with colIdx := c + 1 } ctxs) (B.npyHeap.length + s) ctx := by
    have := heapSet_self (blockState B { blk0 with colIdx := c + 1 } ctxs)
      (B.npyHeap.length + s) hqlt
    rw [npyLoad_blockState, hctx] at this
    exact this.symm
  obtain ⟨iv, nv, P, hstep, hPn, hPb, hchild⟩ := cell_step lf d st0 a v obj
    { tc with npyarr := some (B.npyHeap.length + s) }
    (blockState B { blk0 with colIdx := c + 1 } ctxs) (B.npyHeap.length + s) ctx hcell
    (CleanState_blockState B hB _ _) (Frame_blockState _ _ hF _ _) hqlt rfl hlt harr
  rw [← hself] at hstep
  generalize ({ ctx with
      dataptr := ctx.dataptr + ctx.stride,
      index := setIdx ctx.index ctx.stridedim (ctx.index ctx.stridedim + 1) } :
    NpyArrContext) = ctx' at hstep hchild ⊢
  refine ⟨iv, nv, heapSet P (B.npyHeap.length + s) ctx', ?_, ?_, ?_, ?_⟩
  · simp only [PdBlock_iterNextItem, hload, hnc, if_false, hget', hat, hstore,
      Option.isNone_some, Bool.false_eq_true, hstep]
  · rw [← heapSet_blockState]
    simp only [heapSet, hPn]
  · rw [← heapSet_blockState]
    simp only [heapSet, hPb]
  · rw [hchild, heapSet_withValue, heapSet_blockState]
    rfl

theorem colCtx_step (rl cl : Option (List String)) (u : Int → Int) (sd : Seed) (i : Int) :
    ({ (colCtx rl cl u sd i) with
        dataptr := (colCtx rl cl u sd i).dataptr + (colCtx rl cl u sd i).stride,
        index := setIdx (colCtx rl cl u sd i).index (colCtx rl cl u sd i).stridedim
          ((colCtx rl cl u sd i).index (colCtx rl cl u sd i).stridedim + 1) } :
      NpyArrContext) = colCtx rl cl u sd (i + 1) := by
  simp only [colCtx, axisCtx, setIdx_collapse, setIdx_same]
  congr 1
  ring

theorem block_row_loop (lf d : Nat) (seeds : List Seed) (T : List (Option Nat))
    (R C : Nat) (cells : Int → Int → JSONValue)
    (named : Bool) (rl cl : Option (List String)) (obj : PyObj) (blk0 : PdBlockContext)
    (i : Int) (hi0 : 0 ≤ i) (hiR : i < R) (hT : blk0.npyCtxts = CPtr.ok T)
    (hnc : blk0.ncols = C) :
    ∀ (m : Nat) (c : Int) (tc : TypeContext) (fuel : Nat) (B : Encoder),
      BlockWalk lf d B seeds T R C cells →
      0 ≤ c → c + m = C → m < fuel → tc.pdblock = some B.blkHeap.length →
      tc.iterNext = some IterNextFn.PdBlock_iterNextItem →
      tc.iterGetName = some IterGetNameFn.PdBlock_iterGetName →
      ∃ tc' nv,
        iterLoop (encode lf d) named obj fuel tc
            (blockState B { blk0 with colIdx := c }
              (seeds.map (fun sd => colCtx rl cl B.uninit sd
                (if sd.loc < c then i + 1 else i)))) =
          ((List.range m).map (fun (k : Nat) =>
              (if named then labelAt cl (c + (k : Int)) else Option.none,
                cells i (c + (k : Int)))),
            tc',
            blockState (withValue B nv) { blk0 with colIdx := c + m }
              (seeds.map (fun sd => colCtx rl cl B.uninit sd
                (if sd.loc < c + m then i + 1 else i)))) ∧
        tcAgree tc tc' := by
  intro m
  induction m with
  | zero =>
    intro c tc fuel B W hc hcm hfuel hp hnext hname
    obtain ⟨fuel', rfl⟩ : ∃ f, fuel = f + 1 := ⟨fuel - 1, by omega⟩
    refine ⟨tc, B.npyValue, ?_, tcAgree_refl tc⟩
    have hge : c ≥ blk0.ncols := by rw [hnc]; simp at hcm; omega
    have hnx : ∀ S, Object_iterNext obj tc S = PdBlock_iterNextItem obj tc S := by
      intro S
      simp only [Object_iterNext, hnext]
    rw [iterLoop, hnx]
    simp only [PdBlock_iterNextItem, hp, blkLoad_blockState, hge, if_true, List.range_zero,
      List.map_nil, Nat.cast_zero, add_zero, withValue_self]
  | succ m ih =>
    intro c tc fuel B W hc hcm hfuel hp hnext hname
    obtain ⟨fuel', rfl⟩ : ∃ f, fuel = f + 1 := ⟨fuel - 1, by omega⟩
    have hcC : c < C := by push_cast at hcm; omega
    obtain ⟨s, sd, hs, hloc⟩ := W.cover c hc hcC
    have hmem : sd ∈ seeds := List.get?_mem hs
    have hslot := W.slot s sd hs
    rw [hloc] at hslot
    have hslen : s < (seeds.map (fun sd => colCtx rl cl B.uninit sd
        (if sd.loc < c then i + 1 else i))).length := by
      rw [List.length_map]
      exact List.get?_eq_some.mp hs |>.1
    have hctx : (seeds.map (fun sd => colCtx rl cl B.uninit sd
        (if sd.loc < c then i + 1 else i))).getD s default = colCtx rl cl B.uninit sd i := by
      rw [getD_map_seed seeds _ s sd hs, hloc]
      simp
    obtain ⟨iv0, nv0, P, hstep, hPn, hPb, hchild⟩ := PdBlock_cell_step lf d B sd.vals
      (cells i sd.loc) obj tc B blk0 T _ c s (colCtx rl cl B.uninit sd i)
      (W.cell sd hmem i hi0 hiR) W.clean (Frame_refl B) hp hT (by rw [hnc]; exact hcC) hslot
      hslen hctx
      (by simp [colCtx, axisCtx, setIdx_same, W.rows sd hmem]; exact hiR) rfl
    rw [colCtx_step] at hPn hPb hchild
    have hset : (seeds.map (fun sd => colCtx rl cl B.uninit sd
        (if sd.loc < c then i + 1 else i))).set s (colCtx rl cl B.uninit sd (i + 1)) =
        seeds.map (fun sd => colCtx rl cl B.uninit sd (if sd.loc < c + 1 then i + 1 else i)) := by
      rw [map_set_unique seeds _ (fun x => colCtx rl cl B.uninit x (i + 1)) s sd hs W.nodup]
      apply List.map_congr_left
      intro x _
      rw [hloc]
      by_cases h1 : x.loc = c
      · simp [h1]
      · by_cases h2 : x.loc < c
        · have h3 : x.loc < c + 1 := by omega
          simp [h1, h2, h3]
        · have h3 : ¬ x.loc < c + 1 := by omega
          simp [h1, h2, h3]
    rw [hset] at hPn hPb hchild
    rw [hloc] at hchild
    obtain ⟨tc', nv, hloop0, hagree⟩ := ih (c + 1)
      { tc with npyarr := some (B.npyHeap.length + s), itemValue := iv0 } fuel'
      (withValue B nv0) (BlockWalk_withValue lf d B seeds T R C cells W nv0)
      (by omega) (by push_cast at hcm ⊢; omega) (by omega) hp hnext hname
    have hloop : iterLoop (encode lf d) named obj fuel'
        { tc with npyarr := some (B.npyHeap.length + s), itemValue := iv0 }
        (blockState (withValue B nv0) { blk0 with colIdx := c + 1 }
          (seeds.map (fun sd => colCtx rl cl B.uninit sd
            (if sd.loc < c + 1 then i + 1 else i)))) =
        ((List.range m).map (fun (k : Nat) =>
            (if named then labelAt cl (c + 1 + (k : Int)) else Option.none,
              cells i (c + 1 + (k : Int)))),
          tc',
          blockState (withValue B nv) { blk0 with colIdx := c + 1 + m }
            (seeds.map (fun sd => colCtx rl cl B.uninit sd
              (if sd.loc < c + 1 + m then i + 1 else i)))) := hloop0
    clear hloop0
    refine ⟨tc', nv, ?_, tcAgree_trans _ _ _ ⟨_, _, _, rfl⟩ hagree⟩
    -- the name of the member just produced
    obtain ⟨s0, sd0, hs0, hloc0⟩ := W.cover 0 (le_refl _) (by omega)
    have hl0 := walker_load lf d B seeds T R C cells W { blk0 with colIdx := c + 1 }
      (fun sd => colCtx rl cl B.uninit sd (if sd.loc < c + 1 then i + 1 else i)) s0 sd0 hs0
    rw [hloc0] at hl0
    have hnameval : Object_iterGetName obj
        { tc with npyarr := some (B.npyHeap.length + s), itemValue := iv0 } P =
        labelAt cl c := by
      rw [Object_iterGetName_congr obj _ P _ hPn hPb]
      have hat0 : ctxtsAt blk0.npyCtxts 0 = some (B.npyHeap.length + s0) := by
        rw [hT]; exact hl0.1
      simp only [Object_iterGetName, hname, PdBlock_iterGetName, hp, blkLoad_blockState, hat0,
        hl0.2, hnext, if_true]
      simp [colCtx, axisCtx]
    have hnx : ∀ S, Object_iterNext obj tc S = PdBlock_iterNextItem obj tc S := by
      intro S
      simp only [Object_iterNext, hnext]
    have hiv : ({ tc with npyarr := some (B.npyHeap.length + s), itemValue := iv0 } :
        TypeContext).itemValue = iv0 := rfl
    generalize ({ tc with npyarr := some (B.npyHeap.length + s), itemValue := iv0 } :
      TypeContext) = tc1 at hstep hloop hnameval hiv
    rw [iterLoop, hnx, hstep]
    simp only [Object_iterGetValue, hnameval, hiv, hchild, hloop]
    rw [show c + 1 + (m : Int) = c + ((m + 1 : Nat) : Int) by push_cast; ring]
    refine Prod.ext ?_ rfl
    simp only [List.range_succ_eq_map, List.map_cons, List.map_map, Nat.cast_zero, add_zero,
      List.cons.injEq, true_and]
    apply List.map_congr_left
    intro k _
    simp only [Function.comp, Nat.succ_eq_add_one, Nat.cast_add, Nat.cast_one]
    have : c + 1 + (k : Int) = c + ((k : Int) + 1) := by ring
    rw [this]

theorem PdBlockPassThru_iterEnd_state (obj : PyObj) (tc : TypeContext) (B : Encoder)
    (blk : PdBlockContext) (ctxs : List NpyArrContext)
    (hp : tc.pdblock = some B.blkHeap.length) :
    (PdBlockPassThru_iterEnd obj tc (blockState B blk ctxs)).2 =
      blockState B (if blk.transpose then { blk with colIdx := blk.colIdx + 1 }
        else { blk with colIdx := 0 }) ctxs := by
  simp only [PdBlockPassThru_iterEnd, hp, blkLoad_blockState, blkStore_blockState]

theorem block_row_encode (lf d : Nat) (B : Encoder) (seeds : List Seed) (T : List (Option Nat))
    (R C : Nat) (cells : Int → Int → JSONValue) (W : BlockWalk lf d B seeds T R C cells)
    (rl cl : Option (List String)) (blk0 : PdBlockContext)
    (i : Int) (hi0 : 0 ≤ i) (hiR : i < R) (hT : blk0.npyCtxts = CPtr.ok T)
    (hnc : blk0.ncols = C) (htr : blk0.transpose = false) (hC : 0 < C) (hfuel : C < lf)
    (cols idx : Option PyObj) (mx : Option Bool) (v : Option (PyArrayObject PyObj))
    (blocks : Option (List (PdBlock PyObj))) :
    ∃ nv,
      encode lf (d + 1) (some (PyObj.dataframe cols idx mx v blocks))
          { (blockState B { blk0 with colIdx := 0 }
              (seeds.map (fun sd => colCtx rl cl B.uninit sd i))) with
            blkCtxtPassthru := some B.blkHeap.length } =
        (container cl.isSome (members cl.isSome cl C (cells i)),
          blockState (withValue B nv) { blk0 with colIdx := 0 }
            (seeds.map (fun sd => colCtx rl cl B.uninit sd (i + 1)))) := by
  have hS := CleanState_blockState B W.clean { blk0 with colIdx := 0 }
    (seeds.map (fun sd => colCtx rl cl B.uninit sd i))
  have hbegin := begin_passthru_block (encode lf d) cols idx mx v blocks
    { (blockState B { blk0 with colIdx := 0 }
        (seeds.map (fun sd => colCtx rl cl B.uninit sd i))) with
      blkCtxtPassthru := some B.blkHeap.length } B.blkHeap.length hS.npyType hS.allocBudget rfl
  rw [clear_blkCtxtPassthru _ hS.blkCtxtPassthru] at hbegin
  obtain ⟨s0, sd0, hs0, hloc0⟩ := W.cover 0 (le_refl _) (by omega)
  have hl0 := walker_load lf d B seeds T R C cells W { blk0 with colIdx := 0 }
    (fun sd => colCtx rl cl B.uninit sd i) s0 sd0 hs0
  rw [hloc0] at hl0
  have hat0 : ctxtsAt blk0.npyCtxts 0 = some (B.npyHeap.length + s0) := by
    rw [hT]; exact hl0.1
  have hbl : blkLoad ({ (blockState B { blk0 with colIdx := 0 }
        (seeds.map (fun sd => colCtx rl cl B.uninit sd i))) with
      blkCtxtPassthru := some B.blkHeap.length } : Encoder) (some B.blkHeap.length) =
      { blk0 with colIdx := 0 } :=
    blkLoad_blockState B { blk0 with colIdx := 0 }
      (seeds.map (fun sd => colCtx rl cl B.uninit sd i))
  have hnl : npyLoad ({ (blockState B { blk0 with colIdx := 0 }
        (seeds.map (fun sd => colCtx rl cl B.uninit sd i))) with
      blkCtxtPassthru := some B.blkHeap.length } : Encoder)
      (some (B.npyHeap.length + s0)) = colCtx rl cl B.uninit sd0 i := hl0.2
  rw [hbl] at hbegin
  simp only [hat0, hnl] at hbegin
  have hclab : (colCtx rl cl B.uninit sd0 i).columnLabels = cl := rfl
  rw [hclab] at hbegin
  -- the loop over the columns
  have hinit : seeds.map (fun sd => colCtx rl cl B.uninit sd i) =
      seeds.map (fun sd => colCtx rl cl B.uninit sd (if sd.loc < 0 then i + 1 else i)) := by
    apply List.map_congr_left
    intro x hx
    have := (W.range x hx).1
    have h3 : ¬ x.loc < 0 := by omega
    simp [h3]
  have hfinal : seeds.map (fun sd => colCtx rl cl B.uninit sd
        (if sd.loc < 0 + (C : Int) then i + 1 else i)) =
      seeds.map (fun sd => colCtx rl cl B.uninit sd (i + 1)) := by
    apply List.map_congr_left
    intro x hx
    have := (W.range x hx).2
    simp [this]
  have hloop : ∀ named : Bool, ∃ tc' nv,
      iterLoop (encode lf d) named (PyObj.dataframe cols idx mx v blocks) lf
          (blockPassThruContext B.blkHeap.length)
          (blockState B { blk0 with colIdx := 0 }
            (seeds.map (fun sd => colCtx rl cl B.uninit sd i))) =
        (members named cl C (cells i), tc',
          blockState (withValue B nv) { blk0 with colIdx := 0 + (C : Int) }
            (seeds.map (fun sd => colCtx rl cl B.uninit sd (i + 1)))) ∧
      tcAgree (blockPassThruContext B.blkHeap.length) tc' := by
    intro named
    obtain ⟨tc', nv, h, ha⟩ := block_row_loop lf d seeds T R C cells named rl cl
      (PyObj.dataframe cols idx mx v blocks) blk0 i hi0 hiR hT hnc C 0
      (blockPassThruContext B.blkHeap.length) lf B W (le_refl _) (by simp) hfuel rfl rfl rfl
    rw [← hinit, hfinal] at h
    simp only [zero_add] at h
    refine ⟨tc', nv, ?_, ha⟩
    rw [h]
    simp [members]
  have hbeg : Object_iterBegin (PyObj.dataframe cols idx mx v blocks)
      (blockPassThruContext B.blkHeap.length)
      (blockState B { blk0 with colIdx := 0 }
        (seeds.map (fun sd => colCtx rl cl B.uninit sd i))) =
      (blockPassThruContext B.blkHeap.length,
        blockState B { blk0 with colIdx := 0 }
          (seeds.map (fun sd => colCtx rl cl B.uninit sd i))) := by
    simp only [Object_iterBegin, blockPassThruContext, PdBlockPassThru_iterBegin,
      blkLoad_blockState, htr, Bool.false_eq_true, if_false]
  have hend : ∀ tc' nv, tcAgree (blockPassThruContext B.blkHeap.length) tc' →
      (Object_iterEnd (PyObj.dataframe cols idx mx v blocks) tc'
        (blockState (withValue B nv) { blk0 with colIdx := 0 + (C : Int) }
          (seeds.map (fun sd => colCtx rl cl B.uninit sd (i + 1))))).2 =
      blockState (withValue B nv) { blk0 with colIdx := 0 }
        (seeds.map (fun sd => colCtx rl cl B.uninit sd (i + 1))) := by
    intro tc' nv ha
    obtain ⟨np, iv, no, rfl⟩ := ha
    simp only [Object_iterEnd, blockPassThruContext]
    rw [PdBlockPassThru_iterEnd_state _ _ (withValue B nv) _ _ rfl]
    simp [htr]
  cases hc : cl.isSome
  · rw [hc] at hbegin
    obtain ⟨tc', nv, h, ha⟩ := hloop false
    refine ⟨nv, ?_⟩
    rw [encode_of_begin_array lf d _ _ _ _ hbegin, hbeg, h, hend tc' nv ha]
  · rw [hc] at hbegin
    obtain ⟨tc', nv, h, ha⟩ := hloop true
    refine ⟨nv, ?_⟩
    rw [encode_of_begin_object lf d _ _ _ _ hbegin, hbeg, h, hend tc' nv ha]

theorem block_rows_loop (lf d : Nat) (seeds : List Seed) (T : List (Option Nat))
    (R C : Nat) (cells : Int → Int → JSONValue)
    (named : Bool) (rl cl : Option (List String)) (blk0 : PdBlockContext)
    (hT : blk0.npyCtxts = CPtr.ok T) (hnc : blk0.ncols = C) (htr : blk0.transpose = false)
    (hC : 0 < C) (hCfuel : C < lf)
    (cols idx : Option PyObj) (mx : Option Bool) (v : Option (PyArrayObject PyObj))
    (blocks : Option (List (PdBlock PyObj))) :
    ∀ (k : Nat) (i : Int) (tc : TypeContext) (fuel : Nat) (B : Encoder),
      BlockWalk lf d B seeds T R C cells →
      0 ≤ i → i + k = R → k < fuel → tc.pdblock = some B.blkHeap.length →
      tc.iterNext = some IterNextFn.PdBlock_iterNext →
      tc.iterGetName = some IterGetNameFn.PdBlock_iterGetName →
      ∃ tc' st',
        iterLoop (encode lf (d + 1)) named (PyObj.dataframe cols idx mx v blocks) fuel tc
            (blockState B { blk0 with colIdx := 0 }
              (seeds.map (fun sd => colCtx rl cl B.uninit sd i))) =
          ((List.range k).map (fun (r : Nat) =>
              (if named then labelAt rl (i + (r : Int)) else Option.none,
                container cl.isSome (members cl.isSome cl C (cells (i + (r : Int)))))),
            tc', st') ∧
        CleanState st' := by
  intro k
  induction k with
  | zero =>
    intro i tc fuel B W hi hik hfuel hp hnext hname
    obtain ⟨fuel', rfl⟩ : ∃ f, fuel = f + 1 := ⟨fuel - 1, by omega⟩
    obtain ⟨s0, sd0, hs0, hloc0⟩ := W.cover 0 (le_refl _) (by omega)
    have hmem0 : sd0 ∈ seeds := List.get?_mem hs0
    have hat0 : ctxtsAt blk0.npyCtxts 0 = some (B.npyHeap.length + s0) := by
      have := (walker_load lf d B seeds T R C cells W blk0
        (fun sd => colCtx rl cl B.uninit sd 0) s0 sd0 hs0).1
      rw [hloc0] at this
      rw [hT]; exact this
    have hload0 : ∀ i : Int, npyLoad (blockState B { blk0 with colIdx := 0 }
        (seeds.map (fun sd => colCtx rl cl B.uninit sd i))) (some (B.npyHeap.length + s0)) =
        colCtx rl cl B.uninit sd0 i := fun i =>
      (walker_load lf d B seeds T R C cells W { blk0 with colIdx := 0 }
        (fun sd => colCtx rl cl B.uninit sd i) s0 sd0 hs0).2
    have hnx : ∀ S, Object_iterNext (PyObj.dataframe cols idx mx v blocks) tc S =
        PdBlock_iterNext (PyObj.dataframe cols idx mx v blocks) tc S := by
      intro S
      simp only [Object_iterNext, hnext]
    have hS := CleanState_blockState B W.clean { blk0 with colIdx := 0 }
      (seeds.map (fun sd => colCtx rl cl B.uninit sd i))
    refine ⟨tc, _, ?_, hS⟩
    rw [iterLoop, hnx]
    have hge : (R : Int) ≤ i := by simp at hik; omega
    simp only [PdBlock_iterNext, hp, blkLoad_blockState, PyErr_Occurred, blockState_pyErr,
      blockState_errorMsg, W.clean.pyErr, W.clean.errorMsg,
      Option.isSome_none, Bool.false_eq_true, or_self, if_false, hat0, hload0]
    simp [htr, colCtx, axisCtx, setIdx_same, W.rows sd0 hmem0, hge]
  | succ k ih =>
    intro i tc fuel B W hi hik hfuel hp hnext hname
    obtain ⟨fuel', rfl⟩ : ∃ f, fuel = f + 1 := ⟨fuel - 1, by omega⟩
    obtain ⟨s0, sd0, hs0, hloc0⟩ := W.cover 0 (le_refl _) (by omega)
    have hmem0 : sd0 ∈ seeds := List.get?_mem hs0
    have hat0 : ctxtsAt blk0.npyCtxts 0 = some (B.npyHeap.length + s0) := by
      have := (walker_load lf d B seeds T R C cells W blk0
        (fun sd => colCtx rl cl B.uninit sd 0) s0 sd0 hs0).1
      rw [hloc0] at this
      rw [hT]; exact this
    have hload0 : ∀ i : Int, npyLoad (blockState B { blk0 with colIdx := 0 }
        (seeds.map (fun sd => colCtx rl cl B.uninit sd i))) (some (B.npyHeap.length + s0)) =
        colCtx rl cl B.uninit sd0 i := fun i =>
      (walker_load lf d B seeds T R C cells W { blk0 with colIdx := 0 }
        (fun sd => colCtx rl cl B.uninit sd i) s0 sd0 hs0).2
    have hlt : i < R := by push_cast at hik; omega
    have hnx : ∀ S, Object_iterNext (PyObj.dataframe cols idx mx v blocks) tc S =
        PdBlock_iterNext (PyObj.dataframe cols idx mx v blocks) tc S := by
      intro S
      simp only [Object_iterNext, hnext]
    have hS := CleanState_blockState B W.clean { blk0 with colIdx := 0 }
      (seeds.map (fun sd => colCtx rl cl B.uninit sd i))
    have hstep : PdBlock_iterNext (PyObj.dataframe cols idx mx v blocks) tc
        (blockState B { blk0 with colIdx := 0 }
          (seeds.map (fun sd => colCtx rl cl B.uninit sd i))) =
        (true, { tc with itemValue := some (PyObj.dataframe cols idx mx v blocks) },
          { (blockState B { blk0 with colIdx := 0 }
              (seeds.map (fun sd => colCtx rl cl B.uninit sd i))) with
            blkCtxtPassthru := some B.blkHeap.length }) := by
      simp only [PdBlock_iterNext, hp, blkLoad_blockState, PyErr_Occurred, blockState_pyErr,
        blockState_errorMsg, W.clean.pyErr, W.clean.errorMsg,
        Option.isSome_none, Bool.false_eq_true, or_self, if_false, hat0, hload0]
      have hnge : ¬ ((R : Int) ≤ i) := by omega
      simp [htr, colCtx, axisCtx, setIdx_same, W.rows sd0 hmem0, hnge]
    obtain ⟨nv1, hrow⟩ := block_row_encode lf d B seeds T R C cells W rl cl blk0 i hi hlt hT
      hnc htr hC hCfuel cols idx mx v blocks
    obtain ⟨tc', st', hloop0, hclean⟩ := ih (i + 1)
      { tc with itemValue := some (PyObj.dataframe cols idx mx v blocks) } fuel'
      (withValue B nv1) (BlockWalk_withValue lf d B seeds T R C cells W nv1)
      (by omega) (by push_cast at hik ⊢; omega) (by omega) hp hnext hname
    have hloop1 : iterLoop (encode lf (d + 1)) named (PyObj.dataframe cols idx mx v blocks) fuel'
        { tc with itemValue := some (PyObj.dataframe cols idx mx v blocks) }
        (blockState (withValue B nv1) { blk0 with colIdx := 0 }
          (seeds.map (fun sd => colCtx rl cl B.uninit sd (i + 1)))) =
        ((List.range k).map (fun (r : Nat) =>
            (if named then labelAt rl (i + 1 + (r : Int)) else Option.none,
              container cl.isSome (members cl.isSome cl C (cells (i + 1 + (r : Int)))))),
          tc', st') := hloop0
    clear hloop0
    have hnameval : Object_iterGetName (PyObj.dataframe cols idx mx v blocks)
        { tc with itemValue := some (PyObj.dataframe cols idx mx v blocks) }
        { (blockState B { blk0 with colIdx := 0 }
            (seeds.map (fun sd => colCtx rl cl B.uninit sd i))) with
          blkCtxtPassthru := some B.blkHeap.length } = labelAt rl i := by
      have hbl : blkLoad ({ (blockState B { blk0 with colIdx := 0 }
            (seeds.map (fun sd => colCtx rl cl B.uninit sd i))) with
          blkCtxtPassthru := some B.blkHeap.length } : Encoder) (some B.blkHeap.length) =
          { blk0 with colIdx := 0 } :=
        blkLoad_blockState B { blk0 with colIdx := 0 }
          (seeds.map (fun sd => colCtx rl cl B.uninit sd i))
      have hnl : npyLoad ({ (blockState B { blk0 with colIdx := 0 }
            (seeds.map (fun sd => colCtx rl cl B.uninit sd i))) with
          blkCtxtPassthru := some B.blkHeap.length } : Encoder)
          (some (B.npyHeap.length + s0)) = colCtx rl cl B.uninit sd0 i := hload0 i
      simp only [Object_iterGetName, hname, PdBlock_iterGetName, hp, hbl, hat0, hnl, hnext]
      simp [colCtx, axisCtx, setIdx_same]
    have hiv : ({ tc with itemValue := some (PyObj.dataframe cols idx mx v blocks) } :
        TypeContext).itemValue = some (PyObj.dataframe cols idx mx v blocks) := rfl
    refine ⟨tc', st', ?_, hclean⟩
    generalize ({ tc with itemValue := some (PyObj.dataframe cols idx mx v blocks) } :
      TypeContext) = tc1 at hstep hloop1 hnameval hiv
    rw [iterLoop, hnx, hstep]
    simp only [Object_iterGetValue, hnameval, hiv, hrow, hloop1]
    refine Prod.ext ?_ rfl
    simp only [List.range_succ_eq_map, List.map_cons, List.map_map, Nat.cast_zero, add_zero,
      List.cons.injEq, true_and]
    apply List.map_congr_left
    intro r _
    simp only [Function.comp, Nat.succ_eq_add_one, Nat.cast_add, Nat.cast_one]
    have : i + 1 + (r : Int) = i + ((r : Int) + 1) := by ring
    rw [this]

theorem block_col_encode (lf d : Nat) (B : Encoder) (seeds : List Seed) (T : List (Option Nat))
    (R C : Nat) (cells : Int → Int → JSONValue) (W : BlockWalk lf d B seeds T R C cells)
    (rl cl : Option (List String)) (blk0 : PdBlockContext)
    (c : Int) (hc0 : 0 ≤ c) (hcC : c < C) (hT : blk0.npyCtxts = CPtr.ok T)
    (htr : blk0.transpose = true) (hfuel : R < lf)
    (cols idx : Option PyObj) (mx : Option Bool) (v : Option (PyArrayObject PyObj))
    (blocks : Option (List (PdBlock PyObj))) :
    ∃ nv,
      encode lf (d + 1) (some (PyObj.dataframe cols idx mx v blocks))
          { (blockState B { blk0 with colIdx := c }
              (seeds.map (fun sd => colCtx rl cl B.uninit sd
                (if sd.loc < c then (R : Int) else 0)))) with
            blkCtxtPassthru := some B.blkHeap.length } =
        (container cl.isSome (members cl.isSome cl R (fun i => cells i c)),
          blockState (withValue B nv) { blk0 with colIdx := c + 1 }
            (seeds.map (fun sd => colCtx rl cl B.uninit sd
              (if sd.loc < c + 1 then (R : Int) else 0)))) := by
  have hS := CleanState_blockState B W.clean { blk0 with colIdx := c }
    (seeds.map (fun sd => colCtx rl cl B.uninit sd (if sd.loc < c then (R : Int) else 0)))
  have hbegin := begin_passthru_block (encode lf d) cols idx mx v blocks
    { (blockState B { blk0 with colIdx := c }
        (seeds.map (fun sd => colCtx rl cl B.uninit sd
          (if sd.loc < c then (R : Int) else 0)))) with
      blkCtxtPassthru := some B.blkHeap.length } B.blkHeap.length hS.npyType hS.allocBudget rfl
  rw [clear_blkCtxtPassthru _ hS.blkCtxtPassthru] at hbegin
  obtain ⟨s0, sd0, hs0, hloc0⟩ := W.cover 0 (le_refl _) (by omega)
  have hl0 := walker_load lf d B seeds T R C cells W { blk0 with colIdx := c }
    (fun sd => colCtx rl cl B.uninit sd (if sd.loc < c then (R : Int) else 0)) s0 sd0 hs0
  rw [hloc0] at hl0
  have hat0 : ctxtsAt blk0.npyCtxts 0 = some (B.npyHeap.length + s0) := by
    rw [hT]; exact hl0.1
  have hbl : blkLoad ({ (blockState B { blk0 with colIdx := c }
        (seeds.map (fun sd => colCtx rl cl B.uninit sd
          (if sd.loc < c then (R : Int) else 0)))) with
      blkCtxtPassthru := some B.blkHeap.length } : Encoder) (some B.blkHeap.length) =
      { blk0 with colIdx := c } :=
    blkLoad_blockState B { blk0 with colIdx := c }
      (seeds.map (fun sd => colCtx rl cl B.uninit sd (if sd.loc < c then (R : Int) else 0)))
  have hnl : npyLoad ({ (blockState B { blk0 with colIdx := c }
        (seeds.map (fun sd => colCtx rl cl B.uninit sd
          (if sd.loc < c then (R : Int) else 0)))) with
      blkCtxtPassthru := some B.blkHeap.length } : Encoder)
      (some (B.npyHeap.length + s0)) =
      colCtx rl cl B.uninit sd0 (if sd0.loc < c then (R : Int) else 0) := hl0.2
  rw [hbl] at hbegin
  simp only [hat0, hnl] at hbegin
  have hclab : (colCtx rl cl B.uninit sd0 (if sd0.loc < c then (R : Int) else 0)).columnLabels =
      cl := rfl
  rw [hclab] at hbegin
  -- the walker of the column
  obtain ⟨s, sd, hs, hloc⟩ := W.cover c hc0 hcC
  have hmem : sd ∈ seeds := List.get?_mem hs
  have hl := walker_load lf d B seeds T R C cells W { blk0 with colIdx := c }
    (fun sd => colCtx rl cl B.uninit sd (if sd.loc < c then (R : Int) else 0)) s sd hs
  rw [hloc] at hl
  have hatc : ctxtsAt blk0.npyCtxts c = some (B.npyHeap.length + s) := by
    rw [hT]; exact hl.1
  have hctx0 : npyLoad (blockState B { blk0 with colIdx := c }
      (seeds.map (fun sd => colCtx rl cl B.uninit sd (if sd.loc < c then (R : Int) else 0))))
      (some (B.npyHeap.length + s)) = colCtx rl cl B.uninit sd 0 := by
    rw [hl.2]
    simp [hloc]
  have hqlt : B.npyHeap.length + s < (blockState B { blk0 with colIdx := c }
      (seeds.map (fun sd => colCtx rl cl B.uninit sd
        (if sd.loc < c then (R : Int) else 0)))).npyHeap.length := by
    rw [blockState_npyHeap_length, List.length_map]
    have := (List.get?_eq_some.mp hs).1
    omega
  have hself := heapSet_self _ _ hqlt
  rw [hctx0] at hself
  have hset : heapSet (blockState B { blk0 with colIdx := c }
      (seeds.map (fun sd => colCtx rl cl B.uninit sd (if sd.loc < c then (R : Int) else 0))))
      (B.npyHeap.length + s) (colCtx rl cl B.uninit sd R) =
      blockState B { blk0 with colIdx := c }
        (seeds.map (fun sd => colCtx rl cl B.uninit sd
          (if sd.loc < c + 1 then (R : Int) else 0))) := by
    rw [heapSet_blockState,
      map_set_unique seeds _ (fun x => colCtx rl cl B.uninit x R) s sd hs W.nodup]
    congr 1
    apply List.map_congr_left
    intro x _
    rw [hloc]
    by_cases h1 : x.loc = c
    · simp [h1]
    · by_cases h2 : x.loc < c
      · have h3 : x.loc < c + 1 := by omega
        simp [h1, h2, h3]
      · have h3 : ¬ x.loc < c + 1 := by omega
        simp [h1, h2, h3]
  have hbeg : Object_iterBegin (PyObj.dataframe cols idx mx v blocks)
      (blockPassThruContext B.blkHeap.length)
      (blockState B { blk0 with colIdx := c }
        (seeds.map (fun sd => colCtx rl cl B.uninit sd
          (if sd.loc < c then (R : Int) else 0)))) =
      ({ (blockPassThruContext B.blkHeap.length) with
          iterNext := some IterNextFn.NpyArr_iterNextItem,
          iterGetName := some IterGetNameFn.PdBlock_iterGetName_Transpose,
          npyarr := some (B.npyHeap.length + s) },
        blockState B { blk0 with colIdx := c }
          (seeds.map (fun sd => colCtx rl cl B.uninit sd
            (if sd.loc < c then (R : Int) else 0)))) := by
    simp only [Object_iterBegin, blockPassThruContext, PdBlockPassThru_iterBegin,
      blkLoad_blockState, htr, if_true, hatc]
  have hloop : ∀ named : Bool, ∃ iv nv,
      iterLoop (encode lf d) named (PyObj.dataframe cols idx mx v blocks) lf
          { (blockPassThruContext B.blkHeap.length) with
            iterNext := some IterNextFn.NpyArr_iterNextItem,
            iterGetName := some IterGetNameFn.PdBlock_iterGetName_Transpose,
            npyarr := some (B.npyHeap.length + s) }
          (blockState B { blk0 with colIdx := c }
            (seeds.map (fun sd => colCtx rl cl B.uninit sd
              (if sd.loc < c then (R : Int) else 0)))) =
        (members named cl R (fun i => cells i c),
          { ({ (blockPassThruContext B.blkHeap.length) with
              iterNext := some IterNextFn.NpyArr_iterNextItem,
              iterGetName := some IterGetNameFn.PdBlock_iterGetName_Transpose,
              npyarr := some (B.npyHeap.length + s) } : TypeContext) with itemValue := iv },
          blockState (withValue B nv) { blk0 with colIdx := c }
            (seeds.map (fun sd => colCtx rl cl B.uninit sd
              (if sd.loc < c + 1 then (R : Int) else 0)))) := by
    intro named
    obtain ⟨iv, nv, h⟩ := leaf_loop lf d B sd.vals true named rl cl
      (PyObj.dataframe cols idx mx v blocks) 1 0
      (sd.vals.data + PyArray_STRIDE sd.vals 1 * sd.idx) (fun i => cells i c)
      (fun j hj hjlt => by
        have := W.cell sd hmem j hj (by rw [← W.rows sd hmem]; exact hjlt)
        rw [hloc] at this
        exact this)
      R 0 (setIdx B.uninit 1 1)
      { (blockPassThruContext B.blkHeap.length) with
        iterNext := some IterNextFn.NpyArr_iterNextItem,
        iterGetName := some IterGetNameFn.PdBlock_iterGetName_Transpose,
        npyarr := some (B.npyHeap.length + s) }
      lf
      (blockState B { blk0 with colIdx := c }
        (seeds.map (fun sd => colCtx rl cl B.uninit sd (if sd.loc < c then (R : Int) else 0))))
      (B.npyHeap.length + s) hS (Frame_blockState B B (Frame_refl B) _ _) hqlt (le_refl _)
      (by rw [W.rows sd hmem]; simp) hfuel rfl rfl
      (Or.inr ⟨rfl, by
        show ctxtsAt (blkLoad _ (some B.blkHeap.length)).npyCtxts
          (blkLoad _ (some B.blkHeap.length)).colIdx = _
        rw [blkLoad_blockState]
        exact hatc⟩)
    refine ⟨iv, nv, ?_⟩
    have e1 : axisCtx sd.vals true rl cl 1 0
        (sd.vals.data + PyArray_STRIDE sd.vals 1 * sd.idx + 0 * PyArray_STRIDE sd.vals 0)
        (setIdx (setIdx B.uninit 1 1) 0 0) = colCtx rl cl B.uninit sd 0 := rfl
    have e2 : axisCtx sd.vals true rl cl 1 0
        (sd.vals.data + PyArray_STRIDE sd.vals 1 * sd.idx +
          (0 + (R : Int)) * PyArray_STRIDE sd.vals 0)
        (setIdx (setIdx B.uninit 1 1) 0 (0 + (R : Int))) =
        colCtx rl cl B.uninit sd (0 + (R : Int)) := rfl
    rw [e1, e2, hself, zero_add, heapSet_withValue, hset, ← blockState_withValue] at h
    rw [h]
    simp [members]
  have hend : ∀ iv nv,
      (Object_iterEnd (PyObj.dataframe cols idx mx v blocks)
        { ({ (blockPassThruContext B.blkHeap.length) with
            iterNext := some IterNextFn.NpyArr_iterNextItem,
            iterGetName := some IterGetNameFn.PdBlock_iterGetName_Transpose,
            npyarr := some (B.npyHeap.length + s) } : TypeContext) with itemValue := iv }
        (blockState (withValue B nv) { blk0 with colIdx := c }
          (seeds.map (fun sd => colCtx rl cl B.uninit sd
            (if sd.loc < c + 1 then (R : Int) else 0))))).2 =
      blockState (withValue B nv) { blk0 with colIdx := c + 1 }
        (seeds.map (fun sd => colCtx rl cl B.uninit sd
          (if sd.loc < c + 1 then (R : Int) else 0))) := by
    intro iv nv
    simp only [Object_iterEnd, blockPassThruContext]
    rw [PdBlockPassThru_iterEnd_state _ _ (withValue B nv) _ _ rfl]
    simp [htr]
  cases hc : cl.isSome
  · rw [hc] at hbegin
    obtain ⟨iv, nv, h⟩ := hloop false
    refine ⟨nv, ?_⟩
    rw [encode_of_begin_array lf d _ _ _ _ hbegin, hbeg, h, hend iv nv]
  · rw [hc] at hbegin
    obtain ⟨iv, nv, h⟩ := hloop true
    refine ⟨nv, ?_⟩
    rw [encode_of_begin_object lf d _ _ _ _ hbegin, hbeg, h, hend iv nv]

theorem block_cols_loop (lf d : Nat) (seeds : List Seed) (T : List (Option Nat))
    (R C : Nat) (cells : Int → Int → JSONValue)
    (named : Bool) (rl cl : Option (List String)) (blk0 : PdBlockContext)
    (hT : blk0.npyCtxts = CPtr.ok T) (hnc : blk0.ncols = C) (htr : blk0.transpose = true)
    (hRfuel : R < lf)
    (cols idx : Option PyObj) (mx : Option Bool) (v : Option (PyArrayObject PyObj))
    (blocks : Option (List (PdBlock PyObj))) :
    ∀ (k : Nat) (c : Int) (tc : TypeContext) (fuel : Nat) (B : Encoder),
      BlockWalk lf d B seeds T R C cells →
      0 ≤ c → c + k = C → k < fuel → tc.pdblock = some B.blkHeap.length →
      tc.iterNext = some IterNextFn.PdBlock_iterNext →
      tc.iterGetName = some IterGetNameFn.PdBlock_iterGetName_Transpose →
      ∃ tc' st',
        iterLoop (encode lf (d + 1)) named (PyObj.dataframe cols idx mx v blocks) fuel tc
            (blockState B { blk0 with colIdx := c }
              (seeds.map (fun sd => colCtx rl cl B.uninit sd
                (if sd.loc < c then (R : Int) else 0)))) =
          ((List.range k).map (fun (r : Nat) =>
              (if named then labelAt rl (c + (r : Int)) else Option.none,
                container cl.isSome
                  (members cl.isSome cl R (fun i => cells i (c + (r : Int)))))),
            tc', st') ∧
        CleanState st' := by
  intro k
  induction k with
  | zero =>
    intro c tc fuel B W hc hck hfuel hp hnext hname
    obtain ⟨fuel', rfl⟩ : ∃ f, fuel = f + 1 := ⟨fuel - 1, by omega⟩
    have hnx : ∀ S, Object_iterNext (PyObj.dataframe cols idx mx v blocks) tc S =
        PdBlock_iterNext (PyObj.dataframe cols idx mx v blocks) tc S := by
      intro S
      simp only [Object_iterNext, hnext]
    have hS := CleanState_blockState B W.clean { blk0 with colIdx := c }
      (seeds.map (fun sd => colCtx rl cl B.uninit sd (if sd.loc < c then (R : Int) else 0)))
    refine ⟨tc, _, ?_, hS⟩
    rw [iterLoop, hnx]
    have hge : (C : Int) ≤ c := by simp at hck; omega
    simp only [PdBlock_iterNext, hp, blkLoad_blockState, PyErr_Occurred, blockState_pyErr,
      blockState_errorMsg, W.clean.pyErr, W.clean.errorMsg,
      Option.isSome_none, Bool.false_eq_true, or_self, if_false]
    simp [htr, hnc, hge]
  | succ k ih =>
    intro c tc fuel B W hc hck hfuel hp hnext hname
    obtain ⟨fuel', rfl⟩ : ∃ f, fuel = f + 1 := ⟨fuel - 1, by omega⟩
    have hcC : c < C := by push_cast at hck; omega
    have hnx : ∀ S, Object_iterNext (PyObj.dataframe cols idx mx v blocks) tc S =
        PdBlock_iterNext (PyObj.dataframe cols idx mx v blocks) tc S := by
      intro S
      simp only [Object_iterNext, hnext]
    have hstep : PdBlock_iterNext (PyObj.dataframe cols idx mx v blocks) tc
        (blockState B { blk0 with colIdx := c }
          (seeds.map (fun sd => colCtx rl cl B.uninit sd
            (if sd.loc < c then (R : Int) else 0)))) =
        (true, { tc with itemValue := some (PyObj.dataframe cols idx mx v blocks) },
          { (blockState B { blk0 with colIdx := c }
              (seeds.map (fun sd => colCtx rl cl B.uninit sd
                (if sd.loc < c then (R : Int) else 0)))) with
            blkCtxtPassthru := some B.blkHeap.length }) := by
      simp only [PdBlock_iterNext, hp, blkLoad_blockState, PyErr_Occurred, blockState_pyErr,
        blockState_errorMsg, W.clean.pyErr, W.clean.errorMsg,
        Option.isSome_none, Bool.false_eq_true, or_self, if_false]
      have hnge : ¬ ((C : Int) ≤ c) := by omega
      simp [htr, hnc, hnge]
    obtain ⟨nv1, hcol⟩ := block_col_encode lf d B seeds T R C cells W rl cl blk0 c hc hcC hT
      htr hRfuel cols idx mx v blocks
    obtain ⟨tc', st', hloop1, hclean⟩ := ih (c + 1)
      { tc with itemValue := some (PyObj.dataframe cols idx mx v blocks) } fuel'
      (withValue B nv1) (BlockWalk_withValue lf d B seeds T R C cells W nv1)
      (by omega) (by push_cast at hck ⊢; omega) (by omega) hp hnext hname
    have hloop0 : iterLoop (encode lf (d + 1)) named (PyObj.dataframe cols idx mx v blocks)
        fuel' { tc with itemValue := some (PyObj.dataframe cols idx mx v blocks) }
        (blockState (withValue B nv1) { blk0 with colIdx := c + 1 }
          (seeds.map (fun sd => colCtx rl cl B.uninit sd
            (if sd.loc < c + 1 then (R : Int) else 0)))) =
        ((List.range k).map (fun (r : Nat) =>
            (if named then labelAt rl (c + 1 + (r : Int)) else Option.none,
              container cl.isSome
                (members cl.isSome cl R (fun i => cells i (c + 1 + (r : Int)))))),
          tc', st') := hloop1
    clear hloop1
    obtain ⟨s, sd, hs, hloc⟩ := W.cover c hc hcC
    have hl := walker_load lf d B seeds T R C cells W { blk0 with colIdx := c }
      (fun sd => colCtx rl cl B.uninit sd (if sd.loc < c then (R : Int) else 0)) s sd hs
    rw [hloc] at hl
    have hatc : ctxtsAt blk0.npyCtxts c = some (B.npyHeap.length + s) := by
      rw [hT]; exact hl.1
    have hnameval : Object_iterGetName (PyObj.dataframe cols idx mx v blocks)
        { tc with itemValue := some (PyObj.dataframe cols idx mx v blocks) }
        { (blockState B { blk0 with colIdx := c }
            (seeds.map (fun sd => colCtx rl cl B.uninit sd
              (if sd.loc < c then (R : Int) else 0)))) with
          blkCtxtPassthru := some B.blkHeap.length } = labelAt rl c := by
      have hbl : blkLoad ({ (blockState B { blk0 with colIdx := c }
            (seeds.map (fun sd => colCtx rl cl B.uninit sd
              (if sd.loc < c then (R : Int) else 0)))) with
          blkCtxtPassthru := some B.blkHeap.length } : Encoder) (some B.blkHeap.length) =
          { blk0 with colIdx := c } :=
        blkLoad_blockState B { blk0 with colIdx := c }
          (seeds.map (fun sd => colCtx rl cl B.uninit sd
            (if sd.loc < c then (R : Int) else 0)))
      have hnl : npyLoad ({ (blockState B { blk0 with colIdx := c }
            (seeds.map (fun sd => colCtx rl cl B.uninit sd
              (if sd.loc < c then (R : Int) else 0)))) with
          blkCtxtPassthru := some B.blkHeap.length } : Encoder)
          (some (B.npyHeap.length + s)) =
          colCtx rl cl B.uninit sd (if sd.loc < c then (R : Int) else 0) := hl.2
      simp only [Object_iterGetName, hname, PdBlock_iterGetName_Transpose, hp, hbl, hatc, hnl,
        hnext]
      simp [colCtx, axisCtx]
    have hiv : ({ tc with itemValue := some (PyObj.dataframe cols idx mx v blocks) } :
        TypeContext).itemValue = some (PyObj.dataframe cols idx mx v blocks) := rfl
    refine ⟨tc', st', ?_, hclean⟩
    generalize ({ tc with itemValue := some (PyObj.dataframe cols idx mx v blocks) } :
      TypeContext) = tc1 at hstep hloop0 hnameval hiv
    rw [iterLoop, hnx, hstep]
    simp only [Object_iterGetValue, hnameval, hiv, hcol, hloop0]
    refine Prod.ext ?_ rfl
    simp only [List.range_succ_eq_map, List.map_cons, List.map_map, Nat.cast_zero, add_zero,
      List.cons.injEq, true_and]
    apply List.map_congr_left
    intro r _
    simp only [Function.comp, Nat.succ_eq_add_one, Nat.cast_add, Nat.cast_one]
    have : c + 1 + (r : Int) = c + ((r : Int) + 1) := by ring
    rw [this]

theorem block_dispatch (enc : Option PyObj → Encoder → JSONValue × Encoder)
    (cols idx : PyObj) (mx : Option Bool) (v : Option (PyArrayObject PyObj))
    (blocks : Option (List (PdBlock PyObj))) (st : Encoder) (hst : CleanState st)
    (hmx : mx ≠ some false) (hfmt : st.outputFormat ≠ PANDAS_FORMAT.SPLIT) :
    Object_beginTypeContext enc (some (PyObj.dataframe (some cols) (some idx) mx v blocks)) st =
      ((beginDataFrameOrient (PyObj.dataframe (some cols) (some idx) mx v blocks)
          blockContext st).1, Option.none,
        (beginDataFrameOrient (PyObj.dataframe (some cols) (some idx) mx v blocks)
          blockContext st).2) := by
  rw [begin_dataframe enc _ _ _ _ _ st hst.npyType hst.allocBudget]
  have hsf : is_simple_frame (PyObj.dataframe (some cols) (some idx) mx v blocks) = false := by
    cases mx with
    | none => rfl
    | some b =>
      cases b with
      | false => exact absurd rfl hmx
      | true => rfl
  simp only [beginIterable, hst.blkCtxtPassthru, hfmt, if_false, hsf, Bool.false_eq_true]
  rfl

theorem BlockLayout_seedOk (lf d : Nat) (st : Encoder) (blocks : List (PdBlock PyObj))
    (R C : Nat) (cells : Int → Int → JSONValue) (L : BlockLayout lf d st blocks R C cells) :
    ∀ sd ∈ blockSeeds blocks, SeedOk C sd := by
  intro sd hsd
  have hmem : sd.loc ∈ (blockSeeds blocks).map Seed.loc := List.mem_map_of_mem Seed.loc hsd
  rw [L.perm.mem_iff] at hmem
  obtain ⟨c, hc, hcl⟩ := List.mem_map.mp hmem
  rw [List.mem_range] at hc
  obtain ⟨h2, hpos, _⟩ := L.shape sd hsd
  refine ⟨by omega, by omega, h2, hpos⟩

theorem BlockLayout_walk (lf d : Nat) (st0 : Encoder) (blocks : List (PdBlock PyObj))
    (R C : Nat) (cells : Int → Int → JSONValue) (L : BlockLayout lf d st0 blocks R C cells)
    (st : Encoder) (hst : CleanState st) (hF : Frame st0 st) (blk : PdBlockContext) (htab : TablesOk blk C) :
    ∃ T, (seedSlots st.npyHeap.length (blockSeeds blocks) blk).npyCtxts = CPtr.ok T ∧
      BlockWalk lf d st (blockSeeds blocks) T R C cells := by
  have hok := BlockLayout_seedOk lf d st0 blocks R C cells L
  obtain ⟨I, T, hI, hT, hIl, hTl⟩ := TablesOk_seedSlots C (blockSeeds blocks) st.npyHeap.length
    blk hok htab
  have hnd : ((blockSeeds blocks).map Seed.loc).Nodup := by
    rw [L.perm.nodup_iff]
    exact (List.nodup_range C).map (fun a b h => by simpa using h)
  refine ⟨T, hT, ?_⟩
  refine ⟨hst, hnd, ?_, ?_, ?_, ?_, ?_⟩
  · intro s sd hs
    rw [← hT]
    exact seedSlots_get C (blockSeeds blocks) st.npyHeap.length blk htab hok hnd s sd hs
  · intro c hc0 hcC
    have hmem : c ∈ (blockSeeds blocks).map Seed.loc := by
      rw [L.perm.mem_iff]
      exact List.mem_map.mpr ⟨c.toNat, List.mem_range.mpr (by omega), by omega⟩
    obtain ⟨sd, hsd, hloc⟩ := List.mem_map.mp hmem
    obtain ⟨s, hs⟩ := List.get?_of_mem hsd
    exact ⟨s, sd, hs, hloc⟩
  · intro sd hsd
    obtain ⟨h0, hlt, _, _⟩ := hok sd hsd
    exact ⟨h0, by omega⟩
  · intro sd hsd
    exact (L.shape sd hsd).2.2
  · intro sd hsd i hi0 hiR
    exact CellAt_frame lf d st0 st _ _ _ hF (L.cell sd hsd i hi0 hiR)

theorem atCol_self (blk : PdBlockContext) (h : blk.colIdx = 0) :
    ({ blk with colIdx := 0 } : PdBlockContext) = blk := by
  cases blk
  simp only at h
  subst h
  rfl

theorem block_walk (lf d : Nat) (cols idx : PyObj) (mx : Option Bool)
    (v : Option (PyArrayObject PyObj)) (blocks : List (PdBlock PyObj)) (st : Encoder)
    (R C : Nat) (cells : Int → Int → JSONValue) (named : Bool) (pc : TypeContext)
    (L : BlockLayout lf d st blocks R C cells) (hst : CleanState st)
    (hlen : PyObject_Length cols = (C : Int)) (hCpos : 0 < C) (hR : R < lf) (hC : C < lf)
    (hnext : pc.iterNext = some IterNextFn.PdBlock_iterNext)
    (hbeginFn : pc.iterBegin = some IterBeginFn.PdBlock_iterBegin) :
    ∃ tc' st',
      iterLoop (encode lf (d + 1)) named
          (PyObj.dataframe (some cols) (some idx) mx v (some blocks)) lf
          (Object_iterBegin (PyObj.dataframe (some cols) (some idx) mx v (some blocks)) pc st).1
          (Object_iterBegin (PyObj.dataframe (some cols) (some idx) mx v (some blocks)) pc st).2 =
        (if pc.transpose then grid named pc.rowLabels pc.columnLabels C R (fun c r => cells r c)
          else grid named pc.rowLabels pc.columnLabels R C cells, tc', st') ∧
      CleanState st' := by
  have hbg : Object_iterBegin (PyObj.dataframe (some cols) (some idx) mx v (some blocks)) pc st =
      PdBlock_iterBegin (PyObj.dataframe (some cols) (some idx) mx v (some blocks)) pc st := by
    simp only [Object_iterBegin, hbeginFn]
  rw [hbg]
  have hncols : get_attr_length_columns
      (PyObj.dataframe (some cols) (some idx) mx v (some blocks)) = (C : Int) := by
    have : ¬ ((C : Int) = -1) := by omega
    simp [get_attr_length_columns, getAttr_columns, hlen, this]
  have hok := BlockLayout_seedOk lf d st blocks R C cells L
  obtain ⟨t, htp⟩ : ∃ t, pc.transpose = t := ⟨_, rfl⟩
  obtain ⟨hstate, hagree⟩ := PdBlock_iterBegin_spec
    (PyObj.dataframe (some cols) (some idx) mx v (some blocks)) pc st C blocks
    pc.rowLabels pc.columnLabels t hst hncols hCpos rfl L.valid hok htp rfl rfl
  obtain ⟨T, hT, W⟩ := BlockLayout_walk lf d st blocks R C cells L st hst (Frame_refl st)
    (freshBlock t C st.uninit) (TablesOk_freshBlock _ _ _)
  obtain ⟨hcol, htrp, hnc⟩ := seedSlots_fields (blockSeeds blocks) st.npyHeap.length
    (freshBlock t C st.uninit)
  rw [hstate]
  obtain ⟨np, iv, no, htc⟩ := hagree
  rw [htc, htp]
  rw [← atCol_self _ hcol]
  cases t with
  | false =>
    obtain ⟨tc', st', hloop, hclean⟩ := block_rows_loop lf d (blockSeeds blocks) T R C cells
      named pc.rowLabels pc.columnLabels
      (seedSlots st.npyHeap.length (blockSeeds blocks) (freshBlock false C st.uninit))
      hT hnc htrp hCpos hC (some cols) (some idx) mx v (some blocks) R 0 
      { ({ pc with
            iterGetName := some (if false then IterGetNameFn.PdBlock_iterGetName_Transpose
              else IterGetNameFn.PdBlock_iterGetName),
            pdblock := some st.blkHeap.length, transpose := true } : TypeContext) with
          npyarr := np, itemValue := iv, newObj := no }
      lf st W (le_refl _)
      (by simp) hR rfl hnext rfl
    simp only [zero_add] at hloop
    refine ⟨tc', st', ?_, hclean⟩
    simp only [Bool.false_eq_true, if_false]
    exact hloop
  | true =>
    have hinit : (blockSeeds blocks).map (fun sd => colCtx pc.rowLabels pc.columnLabels st.uninit
        sd 0) = (blockSeeds blocks).map (fun sd => colCtx pc.rowLabels pc.columnLabels st.uninit
        sd (if sd.loc < 0 then (R : Int) else 0)) := by
      apply List.map_congr_left
      intro x hx
      have := (W.range x hx).1
      have h3 : ¬ x.loc < 0 := by omega
      simp [h3]
    rw [hinit]
    obtain ⟨tc', st', hloop, hclean⟩ := block_cols_loop lf d (blockSeeds blocks) T R C cells
      named pc.rowLabels pc.columnLabels
      (seedSlots st.npyHeap.length (blockSeeds blocks) (freshBlock true C st.uninit))
      hT hnc htrp hR (some cols) (some idx) mx v (some blocks) C 0 
      { ({ pc with
            iterGetName := some (if true then IterGetNameFn.PdBlock_iterGetName_Transpose
              else IterGetNameFn.PdBlock_iterGetName),
            pdblock := some st.blkHeap.length, transpose := true } : TypeContext) with
          npyarr := np, itemValue := iv, newObj := no }
      lf st W (le_refl _)
      (by simp) hC rfl hnext rfl
    simp only [zero_add] at hloop
    refine ⟨tc', st', ?_, hclean⟩
    simp only [if_true]
    exact hloop

theorem block_encode (lf d : Nat) (cols idx : PyObj) (mx : Option Bool)
    (v : Option (PyArrayObject PyObj)) (blocks : List (PdBlock PyObj)) (st : Encoder)
    (R C : Nat) (cells : Int → Int → JSONValue) (cvals ivals : PyArrayObject PyObj)
    (colL idxL : List String)
    (L : BlockLayout lf d st blocks R C cells) (hst : CleanState st) (hmx : mx ≠ some false)
    (hlen : PyObject_Length cols = (C : Int)) (hCpos : 0 < C) (hR : R < lf) (hC : C < lf)
    (hcv : get_values cols = some cvals) (hiv : get_values idx = some ivals)
    (hcl : NpyArr_encodeLabels (some cvals) (PyObject_Length cols) st = (some colL, st))
    (hil : NpyArr_encodeLabels (some ivals) (PyObject_Length idx) st = (some idxL, st))
    (hfmt : st.outputFormat ≠ PANDAS_FORMAT.SPLIT) :
    ∃ st',
      encode lf (d + 2)
          (some (PyObj.dataframe (some cols) (some idx) mx v (some blocks))) st =
        (tableOutput st.outputFormat (some idxL) (some colL) R C cells, st') ∧
      st'.pyErr = Option.none ∧ st'.errorMsg = Option.none := by
  have hb := block_dispatch (encode lf (d + 1)) cols idx mx v (some blocks) st hst hmx hfmt
  rw [orient_context (PyObj.dataframe (some cols) (some idx) mx v (some blocks)) cols idx
    blockContext st cvals ivals colL idxL rfl rfl hcv hiv hcl hil hfmt] at hb
  have walk : ∀ (named : Bool) (fmt : PANDAS_FORMAT), fmt ≠ PANDAS_FORMAT.SPLIT →
      ∃ tc' st', iterLoop (encode lf (d + 1)) named
          (PyObj.dataframe (some cols) (some idx) mx v (some blocks)) lf
          (Object_iterBegin (PyObj.dataframe (some cols) (some idx) mx v (some blocks))
            (orientContext fmt blockContext (PyObject_Length idx) (PyObject_Length cols)
              idxL colL) st).1
          (Object_iterBegin (PyObj.dataframe (some cols) (some idx) mx v (some blocks))
            (orientContext fmt blockContext (PyObject_Length idx) (PyObject_Length cols)
              idxL colL) st).2 =
        (if (orientContext fmt blockContext (PyObject_Length idx) (PyObject_Length cols)
              idxL colL).transpose then
            grid named
              (orientContext fmt blockContext (PyObject_Length idx) (PyObject_Length cols)
                idxL colL).rowLabels
              (orientContext fmt blockContext (PyObject_Length idx) (PyObject_Length cols)
                idxL colL).columnLabels C R (fun c r => cells r c)
          else
            grid named
              (orientContext fmt blockContext (PyObject_Length idx) (PyObject_Length cols)
                idxL colL).rowLabels
              (orientContext fmt blockContext (PyObject_Length idx) (PyObject_Length cols)
                idxL colL).columnLabels R C cells, tc', st') ∧
        CleanState st' := by
    intro named fmt _
    exact block_walk lf d cols idx mx v blocks st R C cells named _ L hst hlen hCpos hR hC
      (by cases fmt <;> rfl) (by cases fmt <;> rfl)
  cases hf : st.outputFormat with
  | SPLIT => exact absurd hf hfmt
  | VALUES =>
    rw [hf] at hb
    obtain ⟨tc', st', hw, hc⟩ := walk false PANDAS_FORMAT.VALUES (by decide)
    have he := encode_of_begin_array lf (d + 1) _ st st _ hb
    rw [hw] at he
    exact ⟨_, he, by rw [(Object_iterEnd_err _ _ _).1]; exact hc.pyErr,
      by rw [(Object_iterEnd_err _ _ _).2]; exact hc.errorMsg⟩
  | RECORDS =>
    rw [hf] at hb
    obtain ⟨tc', st', hw, hc⟩ := walk false PANDAS_FORMAT.RECORDS (by decide)
    have he := encode_of_begin_array lf (d + 1) _ st st _ hb
    rw [hw] at he
    exact ⟨_, he, by rw [(Object_iterEnd_err _ _ _).1]; exact hc.pyErr,
      by rw [(Object_iterEnd_err _ _ _).2]; exact hc.errorMsg⟩
  | INDEX =>
    rw [hf] at hb
    obtain ⟨tc', st', hw, hc⟩ := walk true PANDAS_FORMAT.INDEX (by decide)
    have he := encode_of_begin_object lf (d + 1) _ st st _ hb
    rw [hw] at he
    exact ⟨_, he, by rw [(Object_iterEnd_err _ _ _).1]; exact hc.pyErr,
      by rw [(Object_iterEnd_err _ _ _).2]; exact hc.errorMsg⟩
  | COLUMNS =>
    rw [hf] at hb
    obtain ⟨tc', st', hw, hc⟩ := walk true PANDAS_FORMAT.COLUMNS (by decide)
    have he := encode_of_begin_object lf (d + 1) _ st st _ hb
    rw [hw] at he
    exact ⟨_, he, by rw [(Object_iterEnd_err _ _ _).1]; exact hc.pyErr,
      by rw [(Object_iterEnd_err _ _ _).2]; exact hc.errorMsg⟩

theorem QuietLeaf_long (lf d : Nat) (n : Int) (hn : NPY_MIN_INT64 ≤ n ∧ n ≤ NPY_MAX_INT64) :
    QuietLeaf lf (d + 1) (PyObj.long n) (JSONValue.long n) := by
  intro st hst
  have hp : st.npyType < 0 := by rw [hst.npyType]; decide
  have hb : st.allocBudget ≠ some 0 := by rw [hst.allocBudget]; simp
  rw [encode_succ, beginTypeContext_long_in_range _ st n hp hb hst.pyErr hn,
    afterMalloc_clean st hst.allocBudget]
  rfl

theorem begin_ndarray (enc : Option PyObj → Encoder → JSONValue × Encoder)
    (a : PyArrayObject PyObj) (st : Encoder) (hdims : a.dims ≠ []) (hst : CleanState st) :
    Object_beginTypeContext enc (some (PyObj.ndarray a)) st =
      (typed JSTYPES.JT_ARRAY (installNpyArr basicTypeContext), Option.none, st) := by
  have h1 : ¬ (st.npyType ≥ 0) := by rw [hst.npyType]; decide
  have hd' : ¬ (a.dims.length = 0) := by
    intro h; exact hdims (List.length_eq_zero.mp h)
  have hb : st.allocBudget ≠ some 0 := by rw [hst.allocBudget]; simp
  simp only [Object_beginTypeContext, h1, if_false, PyBool_Check, createTypeContext_eq st hb,
    afterMalloc_clean st hst.allocBudget, PyIter_Check, PyArray_Check, PyArray_CheckScalar, hd',
    decide_False, Bool.not_false, Bool.and_self, Bool.or_true, if_true, Bool.false_or,
    beginIterable, hst.npyCtxtPassthru]
  rfl

theorem ndarray_encode (lf d : Nat) (a : PyArrayObject PyObj) (st : Encoder) (R C : Nat)
    (s0 s1 : Int) (cells : Int → Int → JSONValue)
    (hdims : a.dims = [(R : Int), (C : Int)]) (hstr : a.strides = [s0, s1])
    (hst : CleanState st)
    (hR : R < lf) (hC : C < lf)
    (hq : ∀ i j : Int, 0 ≤ i → i < R → 0 ≤ j → j < C →
      CellAt lf d st a (a.data + i * s0 + j * s1) (cells i j)) :
    ∃ st',
      encode lf (d + 2) (some (PyObj.ndarray a)) st =
        (container false (grid false Option.none Option.none R C cells), st') ∧
      st'.pyErr = Option.none ∧ st'.errorMsg = Option.none := by
  have hne : a.dims ≠ [] := by rw [hdims]; simp
  have hb := begin_ndarray (encode lf (d + 1)) a st hne hst
  have hbg : Object_iterBegin (PyObj.ndarray a) (installNpyArr basicTypeContext) st =
      NpyArr_iterBegin (PyObj.ndarray a) (installNpyArr basicTypeContext) st := rfl
  obtain ⟨tc', st', hw, hc⟩ := array_walk lf d a false false Option.none Option.none
    (PyObj.ndarray a) (installNpyArr basicTypeContext) st R C s0 s1 cells hdims hstr hst
    rfl rfl rfl rfl rfl rfl hR hC hq
  have he := encode_of_begin_array lf (d + 1) _ st st _ hb
  rw [hbg, hw] at he
  exact ⟨_, he, by rw [(Object_iterEnd_err _ _ _).1]; exact hc.pyErr,
    by rw [(Object_iterEnd_err _ _ _).2]; exact hc.errorMsg⟩

theorem split_encode (lf d : Nat) (cols idx : PyObj) (mx : Option Bool)
    (v : Option (PyArrayObject PyObj)) (blocks : Option (List (PdBlock PyObj)))
    (st S2 S3 S4 : Encoder) (vc vi vd : JSONValue)
    (hst : CleanState st) (hfmt : st.outputFormat = PANDAS_FORMAT.SPLIT) (hfuel : 3 < lf)
    (hv : is_simple_frame (PyObj.dataframe (some cols) (some idx) mx v blocks) = true →
      v.isSome = true)
    (hcols : encode lf d (some cols) { st with outputFormat := PANDAS_FORMAT.VALUES } =
      (vc, S2))
    (hidx : encode lf d (some idx) S2 = (vi, S3))
    (hdata : encode lf d (splitData (some cols) (some idx) mx v blocks) S3 = (vd, S4)) :
    encode lf (d + 1) (some (PyObj.dataframe (some cols) (some idx) mx v blocks)) st =
      (JSONValue.object [(some "columns", vc), (some "index", vi), (some "data", vd)],
        { S4 with outputFormat := S4.originalOutputFormat }) := by
  obtain ⟨lf', rfl⟩ : ∃ f, lf = f + 4 := ⟨lf - 4, by omega⟩
  have hb : Object_beginTypeContext (encode (lf' + 4) d)
      (some (PyObj.dataframe (some cols) (some idx) mx v blocks)) st =
      (typed JSTYPES.JT_OBJECT splitContext, Option.none, st) := by
    rw [begin_dataframe _ _ _ _ _ _ st hst.npyType hst.allocBudget]
    simp only [beginIterable, hst.blkCtxtPassthru, hfmt, if_true]
    rfl
  rw [encode_of_begin_object (lf' + 4) d _ st st _ hb]
  have hm : PyObject_Malloc st = (true, st) := malloc_clean st hst.allocBudget
  have hbg : Object_iterBegin (PyObj.dataframe (some cols) (some idx) mx v blocks)
      splitContext st =
      ({ splitContext with index := 0, cStr := some "" },
        { st with outputFormat := PANDAS_FORMAT.VALUES }) := by
    simp only [Object_iterBegin, splitContext, DataFrame_iterBegin, hm]
  rw [hbg]
  by_cases hs : is_simple_frame (PyObj.dataframe (some cols) (some idx) mx v blocks) = true
  · obtain ⟨a, rfl⟩ := Option.isSome_iff_exists.mp (hv hs)
    simp only [splitData, hs, if_true, Option.map_some'] at hdata
    simp [iterLoop, Object_iterNext, DataFrame_iterNext, splitContext, basicTypeContext,
      Object_iterGetValue, Object_iterGetName, getAttr_columns, getAttr_index, hcols, hidx,
      hs, get_values, hdata, Object_iterEnd, DataFrame_iterEnd, container]
  · simp only [splitData, hs, Bool.false_eq_true, if_false] at hdata
    simp [iterLoop, Object_iterNext, DataFrame_iterNext, splitContext, basicTypeContext,
      Object_iterGetValue, Object_iterGetName, getAttr_columns, getAttr_index, hcols, hidx,
      hs, hdata, Object_iterEnd, DataFrame_iterEnd, container]

theorem malloc_outputFormat (st : Encoder) (fmt : PANDAS_FORMAT) :
    PyObject_Malloc { st with outputFormat := fmt } =
      ((PyObject_Malloc st).1, { (PyObject_Malloc st).2 with outputFormat := fmt }) := by
  obtain ⟨a1, a2, a3, a4, a5, a6, a7, a8, a9, a10, a11, a12, a13, budget, a15, a16, a17, a18,
    a19, a20, a21, a22, a23, a24, a25, a26⟩ := st
  cases budget with
  | none => rfl
  | some n =>
    cases n with
    | zero => rfl
    | succ m => rfl

theorem encodeLabels_loop_outputFormat (labels : PyArrayObject PyObj) (stride : Int)
    (fmt : PANDAS_FORMAT) (n : Nat) :
    ∀ (dataptr : Int) (ret : List String) (st : Encoder),
      NpyArr_encodeLabels_loop labels stride n dataptr ret { st with outputFormat := fmt } =
        ((NpyArr_encodeLabels_loop labels stride n dataptr ret st).1,
          { (NpyArr_encodeLabels_loop labels stride n dataptr ret st).2 with
            outputFormat := fmt }) := by
  induction n with
  | zero => intro dataptr ret st; rfl
  | succ n ih =>
    intro dataptr ret st
    simp only [NpyArr_encodeLabels_loop]
    cases hitem : labels.getitem dataptr with
    | none => rfl
    | some item =>
      simp only []
      have hl : NpyArr_encodeLabel { st with outputFormat := fmt } labels.type_num item =
          NpyArr_encodeLabel st labels.type_num item := rfl
      rw [hl]
      cases hconv : NpyArr_encodeLabel st labels.type_num item with
      | failed => rfl
      | badUnit => rfl
      | label cLabel =>
        simp only []
        rw [malloc_outputFormat]
        cases hm : PyObject_Malloc st with
        | mk ok st1 =>
          cases ok with
          | false => rfl
          | true =>
            simp only []
            have he : PyErr_Occurred ({ st1 with outputFormat := fmt } : Encoder) =
                PyErr_Occurred st1 := rfl
            rw [he]
            by_cases herr : PyErr_Occurred st1 = true
            · simp only [herr, if_true]
            · simp only [herr, Bool.false_eq_true, if_false]
              exact ih _ _ _

theorem encodeLabels_outputFormat (labels : Option (PyArrayObject PyObj)) (num : Int)
    (st : Encoder) (fmt : PANDAS_FORMAT) :
    NpyArr_encodeLabels labels num { st with outputFormat := fmt } =
      ((NpyArr_encodeLabels labels num st).1,
        { (NpyArr_encodeLabels labels num st).2 with outputFormat := fmt }) := by
  unfold NpyArr_encodeLabels
  cases labels with
  | none => rfl
  | some l =>
    simp only []
    by_cases hsize : PyArray_SIZE l < num
    · simp only [hsize, if_true]
      rfl
    · simp only [hsize, if_false]
      rw [malloc_outputFormat]
      cases hm : PyObject_Malloc st with
      | mk ok st1 =>
        cases ok with
        | false => rfl
        | true => exact encodeLabels_loop_outputFormat l _ fmt _ _ _ _

theorem encodeLabels_loop_length (labels : PyArrayObject PyObj) (stride : Int) (n : Nat) :
    ∀ (dataptr : Int) (ret : List String) (st : Encoder) (tbl : List String),
      (NpyArr_encodeLabels_loop labels stride n dataptr ret st).1 = some tbl →
      tbl.length = ret.length + n := by
  induction n with
  | zero =>
    intro dataptr ret st tbl h
    simp only [NpyArr_encodeLabels_loop, Option.some.injEq] at h
    simp [← h]
  | succ n ih =>
    intro dataptr ret st tbl h
    unfold NpyArr_encodeLabels_loop at h
    cases hitem : labels.getitem dataptr with
    | none => simp [hitem] at h
    | some item =>
      simp only [hitem] at h
      cases hconv : NpyArr_encodeLabel st labels.type_num item with
      | failed => simp [hconv] at h
      | badUnit => simp [hconv] at h
      | label cLabel =>
        simp only [hconv] at h
        cases hm : PyObject_Malloc st with
        | mk ok st1 =>
          simp only [hm] at h
          cases ok with
          | false => simp at h
          | true =>
            simp only [] at h
            by_cases herr : PyErr_Occurred st1 = true
            · simp [herr] at h
            · simp only [herr, Bool.false_eq_true, if_false] at h
              have := ih _ _ _ _ h
              simp at this
              omega

theorem encodeLabels_length (labels : PyArrayObject PyObj) (num : Int) (st st' : Encoder)
    (tbl : List String) (h : NpyArr_encodeLabels (some labels) num st = (some tbl, st')) :
    tbl.length = num.toNat := by
  unfold NpyArr_encodeLabels at h
  simp only [] at h
  by_cases hsize : PyArray_SIZE labels < num
  · simp [hsize] at h
  · simp only [hsize, if_false] at h
    cases hm : PyObject_Malloc st with
    | mk ok st1 =>
      simp only [hm] at h
      cases ok with
      | false => simp at h
      | true =>
        simp only [] at h
        have := encodeLabels_loop_length labels _ _ _ _ _ tbl (by rw [h])
        simpa using this

theorem TableLabels_length (st : Encoder) (cols idx : PyObj) (R C : Nat)
    (idxL colL : List String) (h : TableLabels st cols idx R C idxL colL) :
    idxL.length = R ∧ colL.length = C := by
  obtain ⟨cvals, ivals, _, _, _, _, hc, hi⟩ := h
  exact ⟨by simpa using encodeLabels_length ivals _ st st idxL hi,
    by simpa using encodeLabels_length cvals _ st st colL hc⟩

theorem TableLabels_outputFormat (st : Encoder) (cols idx : PyObj) (R C : Nat)
    (idxL colL : List String) (h : TableLabels st cols idx R C idxL colL)
    (fmt : PANDAS_FORMAT) :
    TableLabels { st with outputFormat := fmt } cols idx R C idxL colL := by
  obtain ⟨cvals, ivals, h1, h2, h3, h4, hc, hi⟩ := h
  refine ⟨cvals, ivals, h1, h2, h3, h4, ?_, ?_⟩
  · rw [encodeLabels_outputFormat, hc]
  · rw [encodeLabels_outputFormat, hi]

theorem BlockLayout_frame (lf d : Nat) (A B : Encoder) (blocks : List (PdBlock PyObj))
    (R C : Nat) (cells : Int → Int → JSONValue) (L : BlockLayout lf d A blocks R C cells)
    (h : Frame A B) : BlockLayout lf d B blocks R C cells :=
  ⟨L.valid, L.shape, L.perm,
    fun sd hsd i hi0 hiR => CellAt_frame lf d A B _ _ _ h (L.cell sd hsd i hi0 hiR)⟩

theorem IsTable_outputFormat (lf d : Nat) (st : Encoder) (df : PyObj) (R C : Nat)
    (idxL colL : List String) (cells : Int → Int → JSONValue)
    (h : IsTable lf d st df R C idxL colL cells) (fmt : PANDAS_FORMAT) :
    IsTable lf d { st with outputFormat := fmt } df R C idxL colL cells := by
  rcases h with ⟨cols, idx, a, blocks, s0, s1, hdf, hl, h⟩ | ⟨cols, idx, mx, v, blocks, hdf, hl, h⟩
  · obtain ⟨hdims, hstr, hq⟩ := h
    exact Or.inl ⟨cols, idx, a, blocks, s0, s1, hdf,
      TableLabels_outputFormat st cols idx R C idxL colL hl fmt, hdims, hstr,
      fun i j hi0 hiR hj0 hjC => CellAt_frame lf d st _ a _ _
        (Frame_outputFormat st st (Frame_refl st) fmt) (hq i j hi0 hiR hj0 hjC)⟩
  · obtain ⟨hmx, hC, L⟩ := h
    exact Or.inr ⟨cols, idx, mx, v, blocks, hdf,
      TableLabels_outputFormat st cols idx R C idxL colL hl fmt, hmx, hC,
      BlockLayout_frame lf d st _ blocks R C cells L
        (Frame_outputFormat st st (Frame_refl st) fmt)⟩

theorem table_encode (lf d : Nat) (st : Encoder) (df : PyObj) (R C : Nat)
    (idxL colL : List String) (cells : Int → Int → JSONValue)
    (h : IsTable lf d st df R C idxL colL cells) (hst : CleanState st)
    (hR : R < lf) (hC : C < lf) (hfmt : st.outputFormat ≠ PANDAS_FORMAT.SPLIT) :
    ∃ st',
      encode lf (d + 2) (some df) st =
        (tableOutput st.outputFormat (some idxL) (some colL) R C cells, st') ∧
      st'.pyErr = Option.none ∧ st'.errorMsg = Option.none := by
  rcases h with ⟨cols, idx, a, blocks, s0, s1, rfl, ⟨cvals, ivals, hcv, hiv, hlc, hli, hc, hi⟩,
      hdims, hstr, hq⟩ |
    ⟨cols, idx, mx, v, blocks, rfl, ⟨cvals, ivals, hcv, hiv, hlc, hli, hc, hi⟩, hmx, hCpos, L⟩
  · exact dense_encode lf d cols idx a blocks st R C s0 s1 cells cvals ivals colL idxL hdims
      hstr hst hR hC hq hcv hiv (by rw [hlc]; exact hc) (by rw [hli]; exact hi) hfmt
  · exact block_encode lf d cols idx mx v blocks st R C cells cvals ivals colL idxL L hst hmx
      hlc hCpos hR hC hcv hiv (by rw [hlc]; exact hc) (by rw [hli]; exact hi) hfmt

theorem labelAt_some (l : List String) (k : Nat) : labelAt (some l) (k : Int) = l.get? k := by
  simp [labelAt]

theorem leaves_container (named : Bool) (ms : List (Option String × JSONValue)) :
    leaves (container named ms) = ms.map Prod.snd := by
  cases named <;> rfl

theorem members_snd (named : Bool) (labels : Option (List String)) (m : Nat)
    (cells : Int → JSONValue) :
    (members named labels m cells).map Prod.snd =
      (List.range m).map (fun (k : Nat) => cells (k : Int)) := by
  simp [members, Function.comp_def]

theorem grid_leaves (named : Bool) (outer inner : Option (List String)) (n m : Nat)
    (cells : Int → Int → JSONValue) :
    (grid named outer inner n m cells).map (fun x => leaves x.2) =
      (List.range n).map (fun (r : Nat) =>
        (List.range m).map (fun (k : Nat) => cells (r : Int) (k : Int))) := by
  simp [grid, Function.comp_def, leaves_container, members_snd]

theorem grid_labelled (outer inner : List String) (n m : Nat) (cells : Int → Int → JSONValue) :
    grid true (some outer) (some inner) n m cells =
      (List.range n).map (fun (r : Nat) =>
        (outer.get? r, JSONValue.object ((List.range m).map (fun (k : Nat) =>
          (inner.get? k, cells (r : Int) (k : Int)))))) := by
  simp [grid, container, members, labelAt_some]

theorem grid_records (inner : List String) (n m : Nat) (cells : Int → Int → JSONValue) :
    (grid false Option.none (some inner) n m cells).map Prod.snd =
      (List.range n).map (fun (r : Nat) =>
        JSONValue.object ((List.range m).map (fun (k : Nat) =>
          (inner.get? k, cells (r : Int) (k : Int))))) := by
  simp [grid, container, members, labelAt_some, Function.comp_def]

theorem grid_values (n m : Nat) (cells : Int → Int → JSONValue) :
    (grid false Option.none Option.none n m cells).map Prod.snd =
      (List.range n).map (fun (r : Nat) =>
        JSONValue.array ((List.range m).map (fun (k : Nat) => cells (r : Int) (k : Int)))) := by
  simp [grid, container, members, Function.comp_def]

theorem exampleProcess_clean (fmt : PANDAS_FORMAT) :
    CleanState { exampleProcess with outputFormat := fmt } :=
  ⟨rfl, rfl, rfl, rfl, rfl, rfl⟩

theorem exampleCells_quiet (lf d : Nat) (i j : Int) (hi0 : 0 ≤ i) (hi : i < 2) (hj0 : 0 ≤ j)
    (hj : j < 2) : QuietLeaf lf (d + 1) (PyObj.long (1 + i + 2 * j)) (exampleCells i j) := by
  apply QuietLeaf_long
  simp only [NPY_MIN_INT64, NPY_MAX_INT64]
  constructor <;> omega

theorem exampleLabels_table (fmt : PANDAS_FORMAT) :
    TableLabels { exampleProcess with outputFormat := fmt } exampleColumns exampleIndex 2 2
      ["r0", "r1"] ["c0", "c1"] :=
  ⟨textArray 1 ["c0", "c1"], textArray 2 ["r0", "r1"], rfl, rfl, rfl, rfl, rfl, rfl⟩

theorem exampleDense_table (lf d : Nat) (fmt : PANDAS_FORMAT) :
    IsTable lf (d + 1) { exampleProcess with outputFormat := fmt } exampleTableDense 2 2
      ["r0", "r1"] ["c0", "c1"] exampleCells := by
  refine Or.inl ⟨exampleColumns, exampleIndex, intArray 7 100 [2, 2] [16, 8] [1, 3, 2, 4],
    Option.none, 16, 8, rfl, exampleLabels_table fmt, rfl, rfl, ?_⟩
  intro i j hi0 hi hj0 hj
  refine CellAt_of_quiet lf (d + 1) _ _ _ _ (PyObj.long (1 + i + 2 * j)) rfl ?_
    (exampleCells_quiet lf d i j hi0 hi hj0 hj)
  have hi' : i = 0 ∨ i = 1 := by omega
  have hj' : j = 0 ∨ j = 1 := by omega
  rcases hi' with rfl | rfl <;> rcases hj' with rfl | rfl <;> rfl

theorem exampleBlock_seeds :
    blockSeeds exampleBlocks =
      [Seed.mk 0 (PyArray_Transpose (intArray 8 200 [2, 2] [16, 8] [1, 2, 3, 4])) 0,
       Seed.mk 1 (PyArray_Transpose (intArray 8 200 [2, 2] [16, 8] [1, 2, 3, 4])) 1] := rfl

theorem exampleBlock_layout (lf d : Nat) (st : Encoder) :
    BlockLayout lf (d + 1) st exampleBlocks 2 2 exampleCells := by
  refine ⟨?_, ?_, ?_, ?_⟩
  · intro b hb
    simp only [exampleBlocks, List.mem_singleton] at hb
    subst hb
    exact ⟨_, _, rfl, rfl, by simp⟩
  · intro sd hsd
    rw [exampleBlock_seeds] at hsd
    simp only [List.mem_cons, List.mem_singleton, List.not_mem_nil, or_false] at hsd
    rcases hsd with rfl | rfl <;> exact ⟨rfl, by decide, rfl⟩
  · rw [exampleBlock_seeds]
    exact List.Perm.refl _
  · intro sd hsd i hi0 hi
    rw [exampleBlock_seeds] at hsd
    simp only [List.mem_cons, List.mem_singleton, List.not_mem_nil, or_false] at hsd
    have hi' : i = 0 ∨ i = 1 := by omega
    rcases hsd with rfl | rfl
    · refine CellAt_of_quiet lf (d + 1) _ _ _ _ (PyObj.long (1 + i + 2 * 0)) rfl ?_
        (exampleCells_quiet lf d i 0 hi0 hi (by decide) (by decide))
      rcases hi' with rfl | rfl <;> rfl
    · refine CellAt_of_quiet lf (d + 1) _ _ _ _ (PyObj.long (1 + i + 2 * 1)) rfl ?_
        (exampleCells_quiet lf d i 1 hi0 hi (by decide) (by decide))
      rcases hi' with rfl | rfl <;> rfl

theorem exampleBlock_table (lf d : Nat) (fmt : PANDAS_FORMAT) :
    IsTable lf (d + 1) { exampleProcess with outputFormat := fmt } exampleTableBlock 2 2
      ["r0", "r1"] ["c0", "c1"] exampleCells :=
  Or.inr ⟨exampleColumns, exampleIndex, some true, Option.none, exampleBlocks, rfl,
    exampleLabels_table fmt,
    by simp, by decide, exampleBlock_layout lf d _⟩

/-- C1: for every 2-D array of shape R x C with base pointer `a.data` and strides
`s0`, `s1` (of any element type, the element at address `a.data + i * s0 + j * s1`
being a leaf encoded as `cells i j`), the complete array-walker
traversal started by `NpyArr_iterBegin` yields in normal mode exactly R children, the
i-th holding exactly the C leaves of the addresses `a.data + i * s0 + j * s1` in
ascending j, and in transposed mode exactly C children, the j-th holding exactly the R
leaves of the addresses `a.data + j * s1 + i * s0` in ascending i; so every element
is read exactly once. -/
theorem C1_array_walker_reads_each_element_once (lf d : Nat) (a : PyArrayObject PyObj)
    (t : Bool) (obj : PyObj) (tc : TypeContext) (st : Encoder) (R C : Nat) (s0 s1 : Int)
    (cells : Int → Int → JSONValue)
    (hdims : a.dims = [(R : Int), (C : Int)]) (hstr : a.strides = [s0, s1])
    (hst : CleanState st)
    (harr : asArray (match tc.newObj with
      | some o => o
      | Option.none => obj) = a)
    (ht : tc.transpose = t)
    (hnext : tc.iterNext = some IterNextFn.NpyArr_iterNext)
    (hname : tc.iterGetName = some IterGetNameFn.NpyArr_iterGetName)
    (hR : R < lf) (hC : C < lf)
    (hq : ∀ i j : Int, 0 ≤ i → i < R → 0 ≤ j → j < C →
      CellAt lf d st a (a.data + i * s0 + j * s1) (cells i j)) :
    (iterLoop (encode lf (d + 1)) false obj lf (NpyArr_iterBegin obj tc st).1
        (NpyArr_iterBegin obj tc st).2).1.map (fun child => leaves child.2) =
      if t then
        (List.range C).map (fun (j : Nat) =>
          (List.range R).map (fun (i : Nat) => cells (i : Int) (j : Int)))
      else
        (List.range R).map (fun (i : Nat) =>
          (List.range C).map (fun (j : Nat) => cells (i : Int) (j : Int))) := by
  obtain ⟨tc', st', hw, _⟩ := array_walk lf d a t false tc.rowLabels tc.columnLabels obj tc st
    R C s0 s1 cells hdims hstr hst harr ht rfl rfl hnext hname hR hC hq
  rw [hw]
  cases t
  · simp only [Bool.false_eq_true, if_false]
    exact grid_leaves _ _ _ _ _ _
  · simp only [if_true]
    exact grid_leaves _ _ _ _ _ _

/-- C1 witness: the 2 x 2 integer array with rows (1, 3) and (2, 4), walked in
transposed mode, yields the two columns (1, 2) and (3, 4). -/
theorem C1_array_walker_reads_each_element_once_witness :
    (iterLoop (encode 8 2) false (PyObj.ndarray (intArray 7 100 [2, 2] [16, 8] [1, 3, 2, 4])) 8
        (NpyArr_iterBegin (PyObj.ndarray (intArray 7 100 [2, 2] [16, 8] [1, 3, 2, 4]))
          { (installNpyArr basicTypeContext) with transpose := true }
          exampleProcess).1
        (NpyArr_iterBegin (PyObj.ndarray (intArray 7 100 [2, 2] [16, 8] [1, 3, 2, 4]))
          { (installNpyArr basicTypeContext) with transpose := true }
          exampleProcess).2).1.map (fun child => leaves child.2) =
      if true then
        (List.range 2).map (fun (j : Nat) =>
          (List.range 2).map (fun (i : Nat) => exampleCells (i : Int) (j : Int)))
      else
        (List.range 2).map (fun (i : Nat) =>
          (List.range 2).map (fun (j : Nat) => exampleCells (i : Int) (j : Int))) :=
  C1_array_walker_reads_each_element_once 8 1 (intArray 7 100 [2, 2] [16, 8] [1, 3, 2, 4]) true
    (PyObj.ndarray (intArray 7 100 [2, 2] [16, 8] [1, 3, 2, 4]))
    { (installNpyArr basicTypeContext) with transpose := true } exampleProcess 2 2 16 8
    exampleCells rfl rfl (exampleProcess_clean PANDAS_FORMAT.COLUMNS) rfl rfl rfl rfl
    (by decide) (by decide)
    (fun i j hi0 hi hj0 hj => by
      refine CellAt_of_quiet 8 (0 + 1) _ _ _ _ (PyObj.long (1 + i + 2 * j)) rfl ?_
        (exampleCells_quiet 8 0 i j hi0 hi hj0 hj)
      have hi' : i = 0 ∨ i = 1 := by omega
      have hj' : j = 0 ∨ j = 1 := by omega
      rcases hi' with rfl | rfl <;> rcases hj' with rfl | rfl <;> rfl)

/-- C2: for every R x C table with R row labels and C column labels, whether it is
uniformly typed (single array walker) or block-stored (columnar walker), orient=index
produces an object of exactly R members, each keyed and holding an object of exactly C
keyed members, and orient=columns produces an object of exactly C members, each keyed
and holding an object of exactly R keyed members; no exception or error is pending
afterwards. -/
theorem C2_index_and_columns_key_counts (lf d : Nat) (st : Encoder) (df : PyObj) (R C : Nat)
    (idxL colL : List String) (cells : Int → Int → JSONValue)
    (h : IsTable lf d st df R C idxL colL cells) (hst : CleanState st)
    (hR : R < lf) (hC : C < lf) :
    (st.outputFormat = PANDAS_FORMAT.INDEX →
      ∃ ms st', encode lf (d + 2) (some df) st = (JSONValue.object ms, st') ∧
        st'.pyErr = Option.none ∧ st'.errorMsg = Option.none ∧ ms.length = R ∧
        ∀ m ∈ ms, m.1.isSome = true ∧ ∃ ns, m.2 = JSONValue.object ns ∧ ns.length = C ∧
          ∀ n ∈ ns, n.1.isSome = true) ∧
    (st.outputFormat = PANDAS_FORMAT.COLUMNS →
      ∃ ms st', encode lf (d + 2) (some df) st = (JSONValue.object ms, st') ∧
        st'.pyErr = Option.none ∧ st'.errorMsg = Option.none ∧ ms.length = C ∧
        ∀ m ∈ ms, m.1.isSome = true ∧ ∃ ns, m.2 = JSONValue.object ns ∧ ns.length = R ∧
          ∀ n ∈ ns, n.1.isSome = true) := by
  have hlen : idxL.length = R ∧ colL.length = C := by
    rcases h with ⟨cols, idx, a, blocks, s0, s1, _, hl, _⟩ | ⟨cols, idx, mx, v, blocks, _, hl, _⟩
    · exact TableLabels_length st cols idx R C idxL colL hl
    · exact TableLabels_length st cols idx R C idxL colL hl
  have key : ∀ (outer inner : List String) (n m : Nat) (f : Int → Int → JSONValue),
      outer.length = n → inner.length = m →
      (grid true (some outer) (some inner) n m f).length = n ∧
      ∀ x ∈ grid true (some outer) (some inner) n m f, x.1.isSome = true ∧
        ∃ ns, x.2 = JSONValue.object ns ∧ ns.length = m ∧ ∀ y ∈ ns, y.1.isSome = true := by
    intro outer inner n m f ho hi
    rw [grid_labelled]
    refine ⟨by simp, ?_⟩
    intro x hx
    obtain ⟨r, hr, rfl⟩ := List.mem_map.mp hx
    rw [List.mem_range] at hr
    refine ⟨?_, _, rfl, by simp, ?_⟩
    · have : r < outer.length := by omega
      simp [this]
    · intro y hy
      obtain ⟨k, hk, rfl⟩ := List.mem_map.mp hy
      rw [List.mem_range] at hk
      have : k < inner.length := by omega
      simp [this]
  refine ⟨?_, ?_⟩
  · intro hf
    obtain ⟨st', he, h1, h2⟩ := table_encode lf d st df R C idxL colL cells h hst hR hC
      (by rw [hf]; decide)
    rw [hf] at he
    obtain ⟨k1, k2⟩ := key idxL colL R C cells hlen.1 hlen.2
    exact ⟨_, st', he, h1, h2, k1, k2⟩
  · intro hf
    obtain ⟨st', he, h1, h2⟩ := table_encode lf d st df R C idxL colL cells h hst hR hC
      (by rw [hf]; decide)
    rw [hf] at he
    obtain ⟨k1, k2⟩ := key colL idxL C R (fun c r => cells r c) hlen.2 hlen.1
    exact ⟨_, st', he, h1, h2, k1, k2⟩

/-- C2 witness: the block-stored 2 x 2 example table under orient=index. -/
theorem C2_index_and_columns_key_counts_witness :
    (({ exampleProcess with outputFormat := PANDAS_FORMAT.INDEX } : Encoder).outputFormat =
        PANDAS_FORMAT.INDEX →
      ∃ ms st', encode 8 3 (some exampleTableBlock)
          { exampleProcess with outputFormat := PANDAS_FORMAT.INDEX } =
          (JSONValue.object ms, st') ∧
        st'.pyErr = Option.none ∧ st'.errorMsg = Option.none ∧ ms.length = 2 ∧
        ∀ m ∈ ms, m.1.isSome = true ∧ ∃ ns, m.2 = JSONValue.object ns ∧ ns.length = 2 ∧
          ∀ n ∈ ns, n.1.isSome = true) ∧
    (({ exampleProcess with outputFormat := PANDAS_FORMAT.INDEX } : Encoder).outputFormat =
        PANDAS_FORMAT.COLUMNS →
      ∃ ms st', encode 8 3 (some exampleTableBlock)
          { exampleProcess with outputFormat := PANDAS_FORMAT.INDEX } =
          (JSONValue.object ms, st') ∧
        st'.pyErr = Option.none ∧ st'.errorMsg = Option.none ∧ ms.length = 2 ∧
        ∀ m ∈ ms, m.1.isSome = true ∧ ∃ ns, m.2 = JSONValue.object ns ∧ ns.length = 2 ∧
          ∀ n ∈ ns, n.1.isSome = true) :=
  C2_index_and_columns_key_counts 8 1 { exampleProcess with outputFormat := PANDAS_FORMAT.INDEX }
    exampleTableBlock 2 2 ["r0", "r1"] ["c0", "c1"] exampleCells
    (exampleBlock_table 8 0 PANDAS_FORMAT.INDEX) (exampleProcess_clean PANDAS_FORMAT.INDEX)
    (by decide) (by decide)

/-- C3: for every R x C table (stored either way), under orient=index the i-th
top-level key is the i-th row (index) label and inside it the j-th nested key is the
j-th column label with value cell (i, j); under orient=columns the j-th top-level key
is the j-th column label and inside it the i-th nested key is the i-th row label with
value cell (i, j).  The orientation part sets the transpose flag exactly for
orient=columns, where it installs the column labels as row-label table and the index
labels as column-label table; under orient=index it installs them unswapped. -/
theorem C3_labels_follow_emitted_axes (lf d : Nat) (st : Encoder) (df : PyObj) (R C : Nat)
    (idxL colL : List String) (cells : Int → Int → JSONValue)
    (h : IsTable lf d st df R C idxL colL cells) (hst : CleanState st)
    (hR : R < lf) (hC : C < lf) :
    (st.outputFormat = PANDAS_FORMAT.INDEX →
      ∃ st', encode lf (d + 2) (some df) st =
        (JSONValue.object ((List.range R).map (fun (i : Nat) =>
          (idxL.get? i, JSONValue.object ((List.range C).map (fun (j : Nat) =>
            (colL.get? j, cells (i : Int) (j : Int))))))), st')) ∧
    (st.outputFormat = PANDAS_FORMAT.COLUMNS →
      ∃ st', encode lf (d + 2) (some df) st =
        (JSONValue.object ((List.range C).map (fun (j : Nat) =>
          (colL.get? j, JSONValue.object ((List.range R).map (fun (i : Nat) =>
            (idxL.get? i, cells (i : Int) (j : Int))))))), st')) ∧
    (st.outputFormat ≠ PANDAS_FORMAT.SPLIT →
      ∀ pc : TypeContext, pc.transpose = false →
        ∃ pc', (beginDataFrameOrient df pc st).1.prv = some pc' ∧
          (pc'.transpose = true ↔ st.outputFormat = PANDAS_FORMAT.COLUMNS) ∧
          (st.outputFormat = PANDAS_FORMAT.INDEX →
            pc'.rowLabels = some idxL ∧ pc'.columnLabels = some colL) ∧
          (st.outputFormat = PANDAS_FORMAT.COLUMNS →
            pc'.rowLabels = some colL ∧ pc'.columnLabels = some idxL)) := by
  refine ⟨?_, ?_, ?_⟩
  · intro hf
    obtain ⟨st', he, _, _⟩ := table_encode lf d st df R C idxL colL cells h hst hR hC
      (by rw [hf]; decide)
    rw [hf] at he
    refine ⟨st', ?_⟩
    rw [he]
    simp only [tableOutput, container, if_true, grid_labelled]
  · intro hf
    obtain ⟨st', he, _, _⟩ := table_encode lf d st df R C idxL colL cells h hst hR hC
      (by rw [hf]; decide)
    rw [hf] at he
    refine ⟨st', ?_⟩
    rw [he]
    simp only [tableOutput, container, if_true, grid_labelled]
  · intro hfmt pc hpc
    have horient : ∃ cols idx, beginDataFrameOrient df pc st =
        (typed (orientType st.outputFormat)
          (orientContext st.outputFormat pc (PyObject_Length idx) (PyObject_Length cols)
            idxL colL), st) := by
      rcases h with ⟨cols, idx, a, blocks, s0, s1, rfl, ⟨cvals, ivals, hcv, hiv, hlc, hli, hc, hi⟩,
          _⟩ |
        ⟨cols, idx, mx, v, blocks, rfl, ⟨cvals, ivals, hcv, hiv, hlc, hli, hc, hi⟩, _⟩
      · exact ⟨cols, idx, orient_context _ cols idx pc st cvals ivals colL idxL rfl rfl hcv hiv
          (by rw [hlc]; exact hc) (by rw [hli]; exact hi) hfmt⟩
      · exact ⟨cols, idx, orient_context _ cols idx pc st cvals ivals colL idxL rfl rfl hcv hiv
          (by rw [hlc]; exact hc) (by rw [hli]; exact hi) hfmt⟩
    obtain ⟨cols, idx, ho⟩ := horient
    rw [ho]
    refine ⟨_, rfl, ?_, ?_, ?_⟩
    · cases hf : st.outputFormat <;> simp [orientContext, hpc]
    · intro hf
      rw [hf]
      exact ⟨rfl, rfl⟩
    · intro hf
      rw [hf]
      exact ⟨rfl, rfl⟩

/-- C3 witness: the uniformly typed 2 x 2 example table under orient=columns. -/
theorem C3_labels_follow_emitted_axes_witness :
    (({ exampleProcess with outputFormat := PANDAS_FORMAT.COLUMNS } : Encoder).outputFormat =
        PANDAS_FORMAT.INDEX →
      ∃ st', encode 8 3 (some exampleTableDense)
          { exampleProcess with outputFormat := PANDAS_FORMAT.COLUMNS } =
        (JSONValue.object ((List.range 2).map (fun (i : Nat) =>
          (["r0", "r1"].get? i, JSONValue.object ((List.range 2).map (fun (j : Nat) =>
            (["c0", "c1"].get? j, exampleCells (i : Int) (j : Int))))))), st')) ∧
    (({ exampleProcess with outputFormat := PANDAS_FORMAT.COLUMNS } : Encoder).outputFormat =
        PANDAS_FORMAT.COLUMNS →
      ∃ st', encode 8 3 (some exampleTableDense)
          { exampleProcess with outputFormat := PANDAS_FORMAT.COLUMNS } =
        (JSONValue.object ((List.range 2).map (fun (j : Nat) =>
          (["c0", "c1"].get? j, JSONValue.object ((List.range 2).map (fun (i : Nat) =>
            (["r0", "r1"].get? i, exampleCells (i : Int) (j : Int))))))), st')) ∧
    (({ exampleProcess with outputFormat := PANDAS_FORMAT.COLUMNS } : Encoder).outputFormat ≠
        PANDAS_FORMAT.SPLIT →
      ∀ pc : TypeContext, pc.transpose = false →
        ∃ pc', (beginDataFrameOrient exampleTableDense pc
            { exampleProcess with outputFormat := PANDAS_FORMAT.COLUMNS }).1.prv = some pc' ∧
          (pc'.transpose = true ↔
            ({ exampleProcess with outputFormat := PANDAS_FORMAT.COLUMNS } :
              Encoder).outputFormat = PANDAS_FORMAT.COLUMNS) ∧
          (({ exampleProcess with outputFormat := PANDAS_FORMAT.COLUMNS } :
              Encoder).outputFormat = PANDAS_FORMAT.INDEX →
            pc'.rowLabels = some ["r0", "r1"] ∧ pc'.columnLabels = some ["c0", "c1"]) ∧
          (({ exampleProcess with outputFormat := PANDAS_FORMAT.COLUMNS } :
              Encoder).outputFormat = PANDAS_FORMAT.COLUMNS →
            pc'.rowLabels = some ["c0", "c1"] ∧ pc'.columnLabels = some ["r0", "r1"])) :=
  C3_labels_follow_emitted_axes 8 1 { exampleProcess with outputFormat := PANDAS_FORMAT.COLUMNS }
    exampleTableDense 2 2 ["r0", "r1"] ["c0", "c1"] exampleCells
    (exampleDense_table 8 0 PANDAS_FORMAT.COLUMNS) (exampleProcess_clean PANDAS_FORMAT.COLUMNS)
    (by decide) (by decide)

/-- C4: for every R x C table (stored either way), orient=records produces an array of
exactly R objects in row order, the i-th object having exactly C members, the j-th
keyed by the j-th column label and holding cell (i, j); no exception or error is
pending afterwards.  For the example table (column c0 = 1, 2 and column c1 = 3, 4),
stored either way, `objToJSON` with orient=records returns the array of the objects
c0: 1, c1: 3 and c0: 2, c1: 4. -/
theorem C4_records_rows_keyed_by_column (lf d : Nat) (st : Encoder) (df : PyObj) (R C : Nat)
    (idxL colL : List String) (cells : Int → Int → JSONValue) :
    (IsTable lf d st df R C idxL colL cells → CleanState st → R < lf → C < lf →
      st.outputFormat = PANDAS_FORMAT.RECORDS →
      ∃ st', encode lf (d + 2) (some df) st =
          (JSONValue.array ((List.range R).map (fun (i : Nat) =>
            JSONValue.object ((List.range C).map (fun (j : Nat) =>
              (colL.get? j, cells (i : Int) (j : Int)))))), st') ∧
        st'.pyErr = Option.none ∧ st'.errorMsg = Option.none) ∧
    objToJSON 8 exampleProcess (exampleArgs exampleTableBlock (some "records")) =
      Except.ok (JSONValue.array
        [JSONValue.object [(some "c0", JSONValue.long 1), (some "c1", JSONValue.long 3)],
         JSONValue.object [(some "c0", JSONValue.long 2), (some "c1", JSONValue.long 4)]]) ∧
    objToJSON 8 exampleProcess (exampleArgs exampleTableDense (some "records")) =
      Except.ok (JSONValue.array
        [JSONValue.object [(some "c0", JSONValue.long 1), (some "c1", JSONValue.long 3)],
         JSONValue.object [(some "c0", JSONValue.long 2), (some "c1", JSONValue.long 4)]]) := by
  refine ⟨?_, rfl, rfl⟩
  intro h hst hR hC hf
  obtain ⟨st', he, h1, h2⟩ := table_encode lf d st df R C idxL colL cells h hst hR hC
    (by rw [hf]; decide)
  rw [hf] at he
  refine ⟨st', ?_, h1, h2⟩
  rw [he]
  simp only [tableOutput, container, Bool.false_eq_true, if_false, grid_records]

/-- C4 witness: the block-stored 2 x 2 example table under orient=records. -/
theorem C4_records_rows_keyed_by_column_witness :
    ∃ st', encode 8 3 (some exampleTableBlock)
        { exampleProcess with outputFormat := PANDAS_FORMAT.RECORDS } =
        (JSONValue.array ((List.range 2).map (fun (i : Nat) =>
          JSONValue.object ((List.range 2).map (fun (j : Nat) =>
            (["c0", "c1"].get? j, exampleCells (i : Int) (j : Int)))))), st') ∧
      st'.pyErr = Option.none ∧ st'.errorMsg = Option.none :=
  (C4_records_rows_keyed_by_column 8 1
    { exampleProcess with outputFormat := PANDAS_FORMAT.RECORDS } exampleTableBlock 2 2
    ["r0", "r1"] ["c0", "c1"] exampleCells).1
    (exampleBlock_table 8 0 PANDAS_FORMAT.RECORDS) (exampleProcess_clean PANDAS_FORMAT.RECORDS)
    (by decide) (by decide) rfl

theorem CleanState_outputFormat (st : Encoder) (h : CleanState st) (fmt : PANDAS_FORMAT) :
    CleanState { st with outputFormat := fmt } :=
  ⟨h.npyType, h.npyCtxtPassthru, h.blkCtxtPassthru, h.pyErr, h.errorMsg, h.allocBudget⟩

theorem values_begin (obj : PyObj) (pc : TypeContext) (S : Encoder)
    (hf : S.outputFormat = PANDAS_FORMAT.VALUES) :
    beginDataFrameOrient obj pc S = (typed JSTYPES.JT_ARRAY pc, S) := by
  unfold beginDataFrameOrient
  rw [hf]

theorem values_encode (lf d : Nat) (st : Encoder) (df : PyObj) (R C : Nat)
    (idxL colL : List String) (cells : Int → Int → JSONValue)
    (h : IsTable lf d st df R C idxL colL cells) (S : Encoder) (hS : CleanState S)
    (hF : Frame st S)
    (hf : S.outputFormat = PANDAS_FORMAT.VALUES) (hR : R < lf) (hC : C < lf) :
    ∃ S', encode lf (d + 2) (some df) S =
      (container false (grid false Option.none Option.none R C cells), S') := by
  have hfmt : S.outputFormat ≠ PANDAS_FORMAT.SPLIT := by rw [hf]; decide
  rcases h with ⟨cols, idx, a, blocks, s0, s1, rfl, _, hdims, hstr, hq⟩ |
    ⟨cols, idx, mx, v, blocks, rfl, ⟨_, _, _, _, hlc, _, _, _⟩, hmx, hCpos, L⟩
  · have hb := dense_dispatch (encode lf (d + 1)) cols idx a blocks S hS hfmt
    rw [values_begin _ _ S hf] at hb
    have hbg : Object_iterBegin (PyObj.dataframe (some cols) (some idx) (some false) (some a)
        blocks) (denseContext a) S = NpyArr_iterBegin (PyObj.dataframe (some cols) (some idx)
        (some false) (some a) blocks) (denseContext a) S := rfl
    obtain ⟨tc', st', hw, _⟩ := array_walk lf d a false false Option.none Option.none
      (PyObj.dataframe (some cols) (some idx) (some false) (some a) blocks) (denseContext a) S
      R C s0 s1 cells hdims hstr hS rfl rfl rfl rfl rfl rfl hR hC
      (fun i j hi0 hiR hj0 hjC => CellAt_frame lf d st S a _ _ hF (hq i j hi0 hiR hj0 hjC))
    have he := encode_of_begin_array lf (d + 1) _ S S _ hb
    rw [hbg, hw] at he
    exact ⟨_, he⟩
  · have hb := block_dispatch (encode lf (d + 1)) cols idx mx v (some blocks) S hS hmx hfmt
    rw [values_begin _ _ S hf] at hb
    obtain ⟨tc', st', hw, _⟩ := block_walk lf d cols idx mx v blocks S R C cells false
      blockContext (BlockLayout_frame lf d st S blocks R C cells L hF) hS hlc hCpos hR hC rfl rfl
    have he := encode_of_begin_array lf (d + 1) _ S S _ hb
    rw [hw] at he
    exact ⟨_, he⟩

theorem split_data_encode (lf d : Nat) (st : Encoder) (df : PyObj) (R C : Nat)
    (idxL colL : List String) (cells : Int → Int → JSONValue)
    (h0 : IsTable lf d st df R C idxL colL cells) (hst : CleanState st)
    (hR : R < lf) (hC : C < lf) (hfuel : 3 < lf) (vc vi : JSONValue) (S2 S3 : Encoder)
    (hcols : encode lf (d + 2) (getAttr_columns df)
      { st with outputFormat := PANDAS_FORMAT.VALUES } = (vc, S2))
    (hidx : encode lf (d + 2) (getAttr_index df) S2 = (vi, S3))
    (hS3 : CleanState S3) (hF3 : Frame st S3)
    (hf3 : S3.outputFormat = PANDAS_FORMAT.VALUES) :
    ∃ st', encode lf (d + 3) (some df) { st with outputFormat := PANDAS_FORMAT.SPLIT } =
      (JSONValue.object [(some "columns", vc), (some "index", vi),
        (some "data", container false (grid false Option.none Option.none R C cells))], st') := by
  have hS := CleanState_outputFormat st hst PANDAS_FORMAT.SPLIT
  have hh := h0
  rcases h0 with ⟨cols, idx, a, blocks, s0, s1, rfl, hl, hdims, hstr, hq⟩ |
    ⟨cols, idx, mx, v, blocks, rfl, hl, hmx, hCpos, L⟩
  · obtain ⟨S4, hd, _, _⟩ := ndarray_encode lf d a S3 R C s0 s1 cells hdims hstr hS3 hR hC
      (fun i j hi0 hiR hj0 hjC => CellAt_frame lf d st S3 a _ _ hF3 (hq i j hi0 hiR hj0 hjC))
    exact ⟨_, split_encode lf (d + 2) cols idx (some false) (some a) blocks
      { st with outputFormat := PANDAS_FORMAT.SPLIT } S2 S3 S4 vc vi _ hS rfl hfuel
      (fun _ => rfl) hcols hidx hd⟩
  · have hsf : is_simple_frame (PyObj.dataframe (some cols) (some idx) mx v (some blocks)) =
        false := by
      cases mx with
      | none => rfl
      | some b =>
        cases b with
        | false => exact absurd rfl hmx
        | true => rfl
    obtain ⟨S4, hd⟩ := values_encode lf d st _ R C idxL colL cells hh S3 hS3 hF3 hf3 hR hC
    have hd' : encode lf (d + 2) (splitData (some cols) (some idx) mx v (some blocks)) S3 =
        (container false (grid false Option.none Option.none R C cells), S4) := by
      simp only [splitData, hsf, Bool.false_eq_true, if_false]
      exact hd
    exact ⟨_, split_encode lf (d + 2) cols idx mx v (some blocks)
      { st with outputFormat := PANDAS_FORMAT.SPLIT } S2 S3 S4 vc vi _ hS rfl hfuel
      (fun h => by rw [hsf] at h; exact absurd h (by decide)) hcols hidx hd'⟩

/-- C5: for every table (stored either way) whose columns and index objects encode
without error and leave the configuration of the encoder as it was, the orientations are mutually consistent: the rows emitted under
orient=values are, in the same order, the rows emitted under orient=records with
their keys dropped, and the value of the field data emitted under orient=split is the
whole output emitted under orient=values. -/
theorem C5_values_records_split_agree (lf d : Nat) (st : Encoder) (df : PyObj) (R C : Nat)
    (idxL colL : List String) (cells : Int → Int → JSONValue) (vc vi : JSONValue)
    (S2 S3 : Encoder)
    (h0 : IsTable lf d st df R C idxL colL cells)
    (h1 : IsTable lf (d + 1) st df R C idxL colL cells) (hst : CleanState st)
    (hR : R < lf) (hC : C < lf) (hfuel : 3 < lf)
    (hcols : encode lf (d + 2) (getAttr_columns df)
      { st with outputFormat := PANDAS_FORMAT.VALUES } = (vc, S2))
    (hidx : encode lf (d + 2) (getAttr_index df) S2 = (vi, S3))
    (hS3 : CleanState S3) (hF3 : Frame st S3)
    (hf3 : S3.outputFormat = PANDAS_FORMAT.VALUES) :
    ∃ rows : List JSONValue,
      (encode lf (d + 3) (some df) { st with outputFormat := PANDAS_FORMAT.RECORDS }).1 =
        JSONValue.array rows ∧
      (encode lf (d + 3) (some df) { st with outputFormat := PANDAS_FORMAT.VALUES }).1 =
        JSONValue.array (rows.map (fun r => JSONValue.array (leaves r))) ∧
      (encode lf (d + 3) (some df) { st with outputFormat := PANDAS_FORMAT.SPLIT }).1 =
        JSONValue.object [(some "columns", vc), (some "index", vi),
          (some "data",
            (encode lf (d + 3) (some df)
              { st with outputFormat := PANDAS_FORMAT.VALUES }).1)] := by
  obtain ⟨stR, heR, _, _⟩ := table_encode lf (d + 1)
    { st with outputFormat := PANDAS_FORMAT.RECORDS } df R C idxL colL cells
    (IsTable_outputFormat lf (d + 1) st df R C idxL colL cells h1 _)
    (CleanState_outputFormat st hst _) hR hC (by simp)
  obtain ⟨stV, heV, _, _⟩ := table_encode lf (d + 1)
    { st with outputFormat := PANDAS_FORMAT.VALUES } df R C idxL colL cells
    (IsTable_outputFormat lf (d + 1) st df R C idxL colL cells h1 _)
    (CleanState_outputFormat st hst _) hR hC (by simp)
  obtain ⟨stS, heS⟩ := split_data_encode lf d st df R C idxL colL cells h0 hst hR hC
    hfuel vc vi S2 S3 hcols hidx hS3 hF3 hf3
  refine ⟨(grid false Option.none (some colL) R C cells).map Prod.snd, ?_, ?_, ?_⟩
  · rw [heR]
    rfl
  · rw [heV]
    simp only [tableOutput, container, Bool.false_eq_true, if_false, grid_values, grid_records,
      List.map_map, Function.comp_def, leaves]
  · rw [heS, heV]
    rfl

/-- C5 witness: the block-stored 2 x 2 example table. -/
theorem C5_values_records_split_agree_witness :
    ∃ rows : List JSONValue,
      (encode 8 4 (some exampleTableBlock)
        { exampleProcess with outputFormat := PANDAS_FORMAT.RECORDS }).1 =
        JSONValue.array rows ∧
      (encode 8 4 (some exampleTableBlock)
        { exampleProcess with outputFormat := PANDAS_FORMAT.VALUES }).1 =
        JSONValue.array (rows.map (fun r => JSONValue.array (leaves r))) ∧
      (encode 8 4 (some exampleTableBlock)
        { exampleProcess with outputFormat := PANDAS_FORMAT.SPLIT }).1 =
        JSONValue.object
          [(some "columns",
              (encode 8 3 (getAttr_columns exampleTableBlock)
                { exampleProcess with outputFormat := PANDAS_FORMAT.VALUES }).1),
            (some "index",
              (encode 8 3 (getAttr_index exampleTableBlock)
                (encode 8 3 (getAttr_columns exampleTableBlock)
                  { exampleProcess with outputFormat := PANDAS_FORMAT.VALUES }).2).1),
            (some "data",
              (encode 8 4 (some exampleTableBlock)
                { exampleProcess with outputFormat := PANDAS_FORMAT.VALUES }).1)] :=
  C5_values_records_split_agree 8 1 exampleProcess exampleTableBlock 2 2 ["r0", "r1"]
    ["c0", "c1"] exampleCells _ _ _ _
    (exampleBlock_table 8 0 PANDAS_FORMAT.COLUMNS) (exampleBlock_table 8 1 PANDAS_FORMAT.COLUMNS)
    (exampleProcess_clean PANDAS_FORMAT.COLUMNS) (by decide) (by decide) (by decide)
    rfl rfl ⟨rfl, rfl, rfl, rfl, rfl, rfl⟩ ⟨_, _, _, _, _, rfl⟩ rfl

/-- C6 counterexample: for the block-stored example table (column c0 = 1, 2 and column
c1 = 3, 4) it is not the case that the non-transposed columnar walk emits one column
per top-level step while the transposed walk emits one row per step: the
non-transposed walk emits the rows (1, 3) and (2, 4). -/
theorem C6_modes_swapped_counterexample :
    ¬ ((iterLoop (encode 8 2) false exampleTableBlock 8
          (PdBlock_iterBegin exampleTableBlock blockContext exampleProcess).1
          (PdBlock_iterBegin exampleTableBlock blockContext exampleProcess).2).1.map
          (fun child => leaves child.2) =
        [[JSONValue.long 1, JSONValue.long 2], [JSONValue.long 3, JSONValue.long 4]] ∧
      (iterLoop (encode 8 2) false exampleTableBlock 8
          (PdBlock_iterBegin exampleTableBlock { blockContext with transpose := true }
            exampleProcess).1
          (PdBlock_iterBegin exampleTableBlock { blockContext with transpose := true }
            exampleProcess).2).1.map
          (fun child => leaves child.2) =
        [[JSONValue.long 1, JSONValue.long 3], [JSONValue.long 2, JSONValue.long 4]]) := by
  have h : (iterLoop (encode 8 2) false exampleTableBlock 8
      (PdBlock_iterBegin exampleTableBlock blockContext exampleProcess).1
      (PdBlock_iterBegin exampleTableBlock blockContext exampleProcess).2).1.map
      (fun child => leaves child.2) =
      [[JSONValue.long 1, JSONValue.long 3], [JSONValue.long 2, JSONValue.long 4]] := by
    rfl
  rw [h]
  simp

/-- C6 amended: in the columnar walker over a well-formed block layout of an R x C
table, transposed iteration (the transpose flag of the context set, as under
orient=columns) emits one logical column per top-level step, the c-th child holding
the R elements of column c in row order, whereas non-transposed iteration proceeds
row by row, the i-th child holding the current element of every column in column
order, and ends after the R rows. -/
theorem C6_transposed_by_column_else_by_row (lf d : Nat) (cols idx : PyObj) (mx : Option Bool)
    (v : Option (PyArrayObject PyObj)) (blocks : List (PdBlock PyObj)) (st : Encoder)
    (R C : Nat) (cells : Int → Int → JSONValue) (pc : TypeContext)
    (L : BlockLayout lf d st blocks R C cells) (hst : CleanState st)
    (hlen : PyObject_Length cols = (C : Int)) (hCpos : 0 < C) (hR : R < lf) (hC : C < lf)
    (hnext : pc.iterNext = some IterNextFn.PdBlock_iterNext)
    (hbeginFn : pc.iterBegin = some IterBeginFn.PdBlock_iterBegin) :
    (iterLoop (encode lf (d + 1)) false
        (PyObj.dataframe (some cols) (some idx) mx v (some blocks)) lf
        (PdBlock_iterBegin (PyObj.dataframe (some cols) (some idx) mx v (some blocks)) pc st).1
        (PdBlock_iterBegin (PyObj.dataframe (some cols) (some idx) mx v (some blocks)) pc st).2
      ).1.map (fun child => leaves child.2) =
      if pc.transpose then
        (List.range C).map (fun (c : Nat) =>
          (List.range R).map (fun (i : Nat) => cells (i : Int) (c : Int)))
      else
        (List.range R).map (fun (i : Nat) =>
          (List.range C).map (fun (c : Nat) => cells (i : Int) (c : Int))) := by
  have hbg : Object_iterBegin (PyObj.dataframe (some cols) (some idx) mx v (some blocks)) pc st =
      PdBlock_iterBegin (PyObj.dataframe (some cols) (some idx) mx v (some blocks)) pc st := by
    simp only [Object_iterBegin, hbeginFn]
  obtain ⟨tc', st', hw, _⟩ := block_walk lf d cols idx mx v blocks st R C cells false pc L hst
    hlen hCpos hR hC hnext hbeginFn
  rw [hbg] at hw
  rw [hw]
  cases pc.transpose
  · simp only [Bool.false_eq_true, if_false]
    exact grid_leaves _ _ _ _ _ _
  · simp only [if_true]
    exact grid_leaves _ _ _ _ _ _

/-- C6 witness: the block-stored 2 x 2 example table walked in transposed mode. -/
theorem C6_transposed_by_column_else_by_row_witness :
    (iterLoop (encode 8 2) false
        (PyObj.dataframe (some exampleColumns) (some exampleIndex) (some true) Option.none
          (some exampleBlocks)) 8
        (PdBlock_iterBegin
          (PyObj.dataframe (some exampleColumns) (some exampleIndex) (some true) Option.none
            (some exampleBlocks))
          { blockContext with transpose := true } exampleProcess).1
        (PdBlock_iterBegin
          (PyObj.dataframe (some exampleColumns) (some exampleIndex) (some true) Option.none
            (some exampleBlocks))
          { blockContext with transpose := true } exampleProcess).2
      ).1.map (fun child => leaves child.2) =
      if ({ blockContext with transpose := true } : TypeContext).transpose then
        (List.range 2).map (fun (c : Nat) =>
          (List.range 2).map (fun (i : Nat) => exampleCells (i : Int) (c : Int)))
      else
        (List.range 2).map (fun (i : Nat) =>
          (List.range 2).map (fun (c : Nat) => exampleCells (i : Int) (c : Int))) :=
  C6_transposed_by_column_else_by_row 8 1 exampleColumns exampleIndex (some true) Option.none
    exampleBlocks exampleProcess 2 2 exampleCells { blockContext with transpose := true }
    (exampleBlock_layout 8 0 exampleProcess) (exampleProcess_clean PANDAS_FORMAT.COLUMNS) rfl (by decide)
    (by decide) (by decide) rfl rfl

/-- C21: when no primitive is pending, a boolean and the null value are recognised
before every other check and whatever the configuration and the allocator are:
`true` gets the shape True, `false` the shape False and `None` the shape Null; the
shape of a boolean is never Long or Int although `PyLong_Check` accepts it; no
private context is allocated (`prv` stays null, the state is unchanged) and the
driver emits the literal. -/
theorem C21_bool_and_null_recognised_first
    (enc : Option PyObj → Encoder → JSONValue × Encoder) (st : Encoder) (b : Bool)
    (lf d : Nat) (h : st.npyType < 0) :
    Object_beginTypeContext enc (some (PyObj.bool b)) st =
        ({ type := if b then JSTYPES.JT_TRUE else JSTYPES.JT_FALSE, prv := Option.none,
           isBasic := false }, Option.none, st) ∧
      Object_beginTypeContext enc (some PyObj.none) st =
        ({ type := JSTYPES.JT_NULL, prv := Option.none, isBasic := false }, Option.none, st) ∧
      PyLong_Check (PyObj.bool b) = true ∧
      (Object_beginTypeContext enc (some (PyObj.bool b)) st).1.type ≠ JSTYPES.JT_LONG ∧
      (Object_beginTypeContext enc (some (PyObj.bool b)) st).1.type ≠ JSTYPES.JT_INT ∧
      encode lf (d + 1) (some (PyObj.bool b)) st =
        (if b then JSONValue.true else JSONValue.false, st) ∧
      encode lf (d + 1) (some PyObj.none) st = (JSONValue.null, st) := by
  have h1 : ¬ (st.npyType ≥ 0) := by omega
  have hb : Object_beginTypeContext enc (some (PyObj.bool b)) st =
      ({ type := if b then JSTYPES.JT_TRUE else JSTYPES.JT_FALSE, prv := Option.none,
         isBasic := false }, Option.none, st) := by
    cases b <;> simp [Object_beginTypeContext, h1, PyBool_Check]
  have hn : Object_beginTypeContext enc (some PyObj.none) st =
      ({ type := JSTYPES.JT_NULL, prv := Option.none, isBasic := false }, Option.none, st) := by
    simp [Object_beginTypeContext, h1, PyBool_Check]
  have hb' := fun e => (show Object_beginTypeContext e (some (PyObj.bool b)) st =
      ({ type := if b then JSTYPES.JT_TRUE else JSTYPES.JT_FALSE, prv := Option.none,
         isBasic := false }, Option.none, st) by
    cases b <;> simp [Object_beginTypeContext, h1, PyBool_Check])
  have hn' := fun e => (show Object_beginTypeContext e (some PyObj.none) st =
      ({ type := JSTYPES.JT_NULL, prv := Option.none, isBasic := false }, Option.none, st) by
    simp [Object_beginTypeContext, h1, PyBool_Check])
  refine ⟨hb, hn, by cases b <;> rfl, ?_, ?_, ?_, ?_⟩
  · rw [hb]; cases b <;> simp
  · rw [hb]; cases b <;> simp
  · rw [encode_succ, hb']
    cases b <;> simp [Object_endTypeContext]
  · rw [encode_succ, hn']
    simp [Object_endTypeContext]

/-- C21 witness: in the example process, configured with an allocator that has no
memory left, `True` is still emitted as the literal true. -/
theorem C21_bool_and_null_recognised_first_witness :
    encode 4 1 (some (PyObj.bool true)) { exampleProcess with allocBudget := some 0 } =
      (JSONValue.true, { exampleProcess with allocBudget := some 0 }) :=
  (C21_bool_and_null_recognised_first (encode 4 0) { exampleProcess with allocBudget := some 0 }
    true 4 0 (by decide)).2.2.2.2.2.1

theorem parseOrient_error (o : Option String) (e : PyExc)
    (h : parseOrient o = Except.error e) : e = PyExc.ValueError := by
  unfold parseOrient at h
  split at h
  · cases h
  · split_ifs at h
    cases h
    rfl

theorem parseDateUnit_error (o : Option String) (e : PyExc)
    (h : parseDateUnit o = Except.error e) : e = PyExc.ValueError := by
  unfold parseDateUnit at h
  split at h
  · cases h
  · split_ifs at h
    cases h
    rfl

theorem objToJSON_of_configure_error (lf : Nat) (proc : Encoder) (args : Args) (e : PyExc)
    (h : configureEncoder proc args = Except.error e) :
    objToJSON lf proc args = Except.error e := by
  simp [objToJSON, h]

theorem configureEncoder_ok (proc : Encoder) (args : Args) (st : Encoder)
    (h : configureEncoder proc args = Except.ok st) :
    parseOrient args.orient = Except.ok st.outputFormat ∧
      parseDateUnit args.date_unit = Except.ok st.datetimeUnit ∧
      st.originalOutputFormat = st.outputFormat ∧
      st.doublePrecision = args.double_precision.getD 10 ∧
      0 ≤ args.double_precision.getD 10 ∧
      args.double_precision.getD 10 ≤ JSON_DOUBLE_MAX_DECIMALS := by
  unfold configureEncoder at h
  simp only [] at h
  split at h
  · cases h
  · rename_i hp
    split at h
    · cases h
    · rename_i fmt ho
      split at h
      · cases h
      · rename_i unit hd
        split at h
        · cases h
        · injection h with h
          subst h
          refine ⟨?_, ?_, ?_, ?_, ?_, ?_⟩
          · rw [ho]; split_ifs <;> rfl
          · rw [hd]; split_ifs <;> rfl
          · split_ifs <;> rfl
          · split_ifs <;> rfl
          · omega
          · omega

theorem configureEncoder_precision_error (proc : Encoder) (args : Args)
    (h : args.double_precision.getD 10 > JSON_DOUBLE_MAX_DECIMALS ∨
      args.double_precision.getD 10 < 0) :
    configureEncoder proc args = Except.error PyExc.ValueError := by
  simp only [configureEncoder, h, if_true]

theorem configureEncoder_string_error (proc : Encoder) (args : Args)
    (h : (∀ f, parseOrient args.orient ≠ Except.ok f) ∨
      (∀ u, parseDateUnit args.date_unit ≠ Except.ok u)) :
    configureEncoder proc args = Except.error PyExc.ValueError := by
  by_cases hp : args.double_precision.getD 10 > JSON_DOUBLE_MAX_DECIMALS ∨
      args.double_precision.getD 10 < 0
  · exact configureEncoder_precision_error proc args hp
  · unfold configureEncoder
    simp only []
    split
    · rfl
    · split
      · rename_i e ho
        rw [parseOrient_error _ _ ho]
      · rename_i fmt ho
        split
        · rename_i e hd
          rw [parseDateUnit_error _ _ hd]
        · rename_i unit hd
          rcases h with h | h
          · exact absurd ho (h fmt)
          · exact absurd hd (h unit)

theorem configureEncoder_error (proc : Encoder) (args : Args) (e : PyExc)
    (h : configureEncoder proc args = Except.error e) :
    (args.double_precision.getD 10 > JSON_DOUBLE_MAX_DECIMALS ∨
        args.double_precision.getD 10 < 0) ∨
      (∃ e1, parseOrient args.orient = Except.error e1) ∨
      (∃ e2, parseDateUnit args.date_unit = Except.error e2) ∨
      args.default_handler = some Option.none := by
  unfold configureEncoder at h
  simp only [] at h
  split at h
  · rename_i hp
    exact Or.inl hp
  · split at h
    · rename_i e1 ho
      exact Or.inr (Or.inl ⟨e1, ho⟩)
    · split at h
      · rename_i e2 hd
        exact Or.inr (Or.inr (Or.inl ⟨e2, hd⟩))
      · split at h
        · rename_i hh
          exact Or.inr (Or.inr (Or.inr hh))
        · cases h

theorem configureEncoder_accepts (proc : Encoder) (args : Args) (f : PANDAS_FORMAT)
    (u : NPY_DATETIMEUNIT)
    (hp : ¬ (args.double_precision.getD 10 > JSON_DOUBLE_MAX_DECIMALS ∨
      args.double_precision.getD 10 < 0))
    (ho : parseOrient args.orient = Except.ok f)
    (hd : parseDateUnit args.date_unit = Except.ok u)
    (hh : args.default_handler ≠ some Option.none) :
    ∃ st, configureEncoder proc args = Except.ok st := by
  cases hres : configureEncoder proc args with
  | ok st => exact ⟨st, rfl⟩
  | error e =>
    rcases configureEncoder_error proc args e hres with h | ⟨e1, h⟩ | ⟨e2, h⟩ | h
    · exact absurd h hp
    · rw [ho] at h; cases h
    · rw [hd] at h; cases h
    · exact absurd h hh

/-- C24: `objToJSON` checks its two string options before it encodes.  The orient
string is accepted exactly when it is one of records, index, split, values,
columns, and then selects that orientation; an omitted orient selects columns.
The date_unit string is accepted exactly when it is one of s, ms, us, ns, and then
selects that unit; an omitted date_unit selects ms.  Whenever one of the two
strings is rejected the configuration step ends with ValueError, so the call
raises ValueError without running the driver; and whenever the configuration
succeeds the encoder holds the selected orientation and unit. -/
theorem C24_orient_and_date_unit_validated (lf : Nat) (proc : Encoder) (args : Args) :
    (∀ f, parseOrient args.orient = Except.ok f ↔
      (args.orient = Option.none ∧ f = PANDAS_FORMAT.COLUMNS) ∨
      (args.orient = some "records" ∧ f = PANDAS_FORMAT.RECORDS) ∨
      (args.orient = some "index" ∧ f = PANDAS_FORMAT.INDEX) ∨
      (args.orient = some "split" ∧ f = PANDAS_FORMAT.SPLIT) ∨
      (args.orient = some "values" ∧ f = PANDAS_FORMAT.VALUES) ∨
      (args.orient = some "columns" ∧ f = PANDAS_FORMAT.COLUMNS)) ∧
    (∀ u, parseDateUnit args.date_unit = Except.ok u ↔
      (args.date_unit = Option.none ∧ u = NPY_DATETIMEUNIT.NPY_FR_ms) ∨
      (args.date_unit = some "s" ∧ u = NPY_DATETIMEUNIT.NPY_FR_s) ∨
      (args.date_unit = some "ms" ∧ u = NPY_DATETIMEUNIT.NPY_FR_ms) ∨
      (args.date_unit = some "us" ∧ u = NPY_DATETIMEUNIT.NPY_FR_us) ∨
      (args.date_unit = some "ns" ∧ u = NPY_DATETIMEUNIT.NPY_FR_ns)) ∧
    (((∀ f, parseOrient args.orient ≠ Except.ok f) ∨
        (∀ u, parseDateUnit args.date_unit ≠ Except.ok u)) →
      configureEncoder proc args = Except.error PyExc.ValueError ∧
        objToJSON lf proc args = Except.error PyExc.ValueError) ∧
    (∀ st, configureEncoder proc args = Except.ok st →
      parseOrient args.orient = Except.ok st.outputFormat ∧
        parseDateUnit args.date_unit = Except.ok st.datetimeUnit ∧
        st.originalOutputFormat = st.outputFormat) ∧
    (∀ f u, parseOrient args.orient = Except.ok f →
      parseDateUnit args.date_unit = Except.ok u →
      0 ≤ args.double_precision.getD 10 →
      args.double_precision.getD 10 ≤ JSON_DOUBLE_MAX_DECIMALS →
      args.default_handler ≠ some Option.none →
      ∃ st, configureEncoder proc args = Except.ok st ∧ st.outputFormat = f ∧
        st.datetimeUnit = u) := by
  refine ⟨?_, ?_, ?_, ?_, ?_⟩
  · intro f
    cases ho : args.orient with
    | none => simp [parseOrient, eq_comm]
    | some s =>
      simp only [parseOrient]
      by_cases h1 : s = "records"
      · subst h1; simp [eq_comm]
      by_cases h2 : s = "index"
      · subst h2; simp [eq_comm]
      by_cases h3 : s = "split"
      · subst h3; simp [eq_comm]
      by_cases h4 : s = "values"
      · subst h4; simp [eq_comm]
      by_cases h5 : s = "columns"
      · subst h5; simp [eq_comm]
      simp [h1, h2, h3, h4, h5]
  · intro u
    cases hd : args.date_unit with
    | none => simp [parseDateUnit, eq_comm]
    | some s =>
      simp only [parseDateUnit]
      by_cases h1 : s = "s"
      · subst h1; simp [eq_comm]
      by_cases h2 : s = "ms"
      · subst h2; simp [eq_comm]
      by_cases h3 : s = "us"
      · subst h3; simp [eq_comm]
      by_cases h4 : s = "ns"
      · subst h4; simp [eq_comm]
      simp [h1, h2, h3, h4]
  · intro h
    have hc := configureEncoder_string_error proc args h
    exact ⟨hc, objToJSON_of_configure_error lf proc args _ hc⟩
  · intro st h
    obtain ⟨h1, h2, h3, _⟩ := configureEncoder_ok proc args st h
    exact ⟨h1, h2, h3⟩
  · intro f u ho hd h0 h15 hh
    obtain ⟨st, hst⟩ := configureEncoder_accepts proc args f u (by omega) ho hd hh
    obtain ⟨h1, h2, _⟩ := configureEncoder_ok proc args st hst
    rw [ho] at h1
    rw [hd] at h2
    injection h1 with h1
    injection h2 with h2
    exact ⟨st, hst, h1.symm, h2.symm⟩

/-- C25: with `d` the parsed `double_precision` option (10 when it is omitted),
`objToJSON` raises ValueError without running the driver whenever `d < 0` or
`d > JSON_DOUBLE_MAX_DECIMALS`; whenever the configuration succeeds `d` lies in
`0 .. JSON_DOUBLE_MAX_DECIMALS` and is the precision of the encoder; and a `d`
inside the range is accepted (the configuration succeeds with precision `d`) once
the other options are acceptable. -/
theorem C25_double_precision_range (lf : Nat) (proc : Encoder) (args : Args) :
    ((args.double_precision.getD 10 < 0 ∨
        args.double_precision.getD 10 > JSON_DOUBLE_MAX_DECIMALS) →
      configureEncoder proc args = Except.error PyExc.ValueError ∧
        objToJSON lf proc args = Except.error PyExc.ValueError) ∧
    (∀ st, configureEncoder proc args = Except.ok st →
      0 ≤ args.double_precision.getD 10 ∧
        args.double_precision.getD 10 ≤ JSON_DOUBLE_MAX_DECIMALS ∧
        st.doublePrecision = args.double_precision.getD 10) ∧
    (0 ≤ args.double_precision.getD 10 →
      args.double_precision.getD 10 ≤ JSON_DOUBLE_MAX_DECIMALS →
      (∃ f, parseOrient args.orient = Except.ok f) →
      (∃ u, parseDateUnit args.date_unit = Except.ok u) →
      args.default_handler ≠ some Option.none →
      ∃ st, configureEncoder proc args = Except.ok st ∧
        st.doublePrecision = args.double_precision.getD 10) ∧
    (args.double_precision = Option.none → args.double_precision.getD 10 = 10) := by
  refine ⟨?_, ?_, ?_, ?_⟩
  · intro h
    have hc := configureEncoder_precision_error proc args (by omega)
    exact ⟨hc, objToJSON_of_configure_error lf proc args _ hc⟩
  · intro st h
    obtain ⟨_, _, _, h4, h5, h6⟩ := configureEncoder_ok proc args st h
    exact ⟨h5, h6, h4⟩
  · intro h0 h15 ⟨f, ho⟩ ⟨u, hd⟩ hh
    obtain ⟨st, hst⟩ := configureEncoder_accepts proc args f u (by omega) ho hd hh
    exact ⟨st, hst, (configureEncoder_ok proc args st hst).2.2.2.1⟩
  · intro h
    rw [h]
    rfl

/-- C24 witness: the orient string "rows" is none of the five names, so the call
raises ValueError. -/
theorem C24_orient_and_date_unit_validated_witness :
    objToJSON 8 exampleProcess (exampleArgs (PyObj.long 1) (some "rows")) =
      Except.error PyExc.ValueError :=
  ((C24_orient_and_date_unit_validated 8 exampleProcess
    (exampleArgs (PyObj.long 1) (some "rows"))).2.2.1
    (Or.inl (fun f h => by simp [exampleArgs, parseOrient] at h))).2

/-- C25 witness: the precision 16 exceeds the bound 15, so the call raises
ValueError. -/
theorem C25_double_precision_range_witness :
    objToJSON 8 exampleProcess
        { (exampleArgs (PyObj.long 1) Option.none) with double_precision := some 16 } =
      Except.error PyExc.ValueError :=
  ((C25_double_precision_range 8 exampleProcess
    { (exampleArgs (PyObj.long 1) Option.none) with double_precision := some 16 }).1
    (Or.inr (by decide))).2

theorem realloc_grow {α : Type} (p : Option (List (Option α))) (count : Nat)
    (h : (p.getD []).length ≤ count) :
    realloc true p count =
      some (p.getD [] ++ List.replicate (count - (p.getD []).length) Option.none) := by
  simp [realloc, List.take_of_length_le h]

theorem kv_push_grow {α : Type} (sz : Nat) (v : kvec_t α) (x : α) (M : Nat)
    (hsz : 0 < sz) (hnm : v.n = v.m) (hlen : (v.a.getD []).length = v.m)
    (hM : M = if v.m = 0 then 2 else 2 * v.m) (hfit : sz * M < SIZE_T) :
    kv_push sz true v x =
      some { n := v.n + 1, m := M,
             a := some ((v.a.getD [] ++ List.replicate (M - v.m) Option.none).set v.n (some x)) } := by
  have hMlt : M < SIZE_T := lt_of_le_of_lt (Nat.le_mul_of_pos_left M hsz) hfit
  have hmM : v.m < M := by
    rw [hM]; split <;> omega
  have hm' : (if v.m ≠ 0 then (v.m <<< 1) % SIZE_T else 2) = M := by
    rw [hM]
    by_cases h0 : v.m = 0
    · simp [h0]
    · simp only [h0, ne_eq, not_false_eq_true, if_true, if_false, Nat.shiftLeft_eq, pow_one]
      rw [Nat.mod_eq_of_lt]
      · ring
      · rw [hM] at hMlt
        simp only [h0, if_false] at hMlt
        omega
  have hcount : sz * M % SIZE_T / sz = M := by
    rw [Nat.mod_eq_of_lt hfit, Nat.mul_div_cancel_left M hsz]
  have hn1 : (v.n + 1) % SIZE_T = v.n + 1 := by
    apply Nat.mod_eq_of_lt
    omega
  simp only [kv_push, hnm, if_true, hm', hcount]
  rw [realloc_grow v.a M (by omega)]
  simp only [hlen]
  have hl : (v.a.getD [] ++ List.replicate (M - v.m) (Option.none : Option α)).length = M := by
    simp [hlen]; omega
  rw [← hnm] at hl hmM ⊢
  simp only [hn1]
  rw [if_pos (by rw [hl]; exact hmM)]

theorem kv_push_room {α : Type} (sz : Nat) (ok : Bool) (v : kvec_t α) (x : α)
    (hnm : v.n < v.m) (hlen : (v.a.getD []).length = v.m) (hm : v.m < SIZE_T) :
    kv_push sz ok v x =
      some { n := v.n + 1, m := v.m, a := some ((v.a.getD []).set v.n (some x)) } := by
  have hne : v.n ≠ v.m := by omega
  have hn1 : (v.n + 1) % SIZE_T = v.n + 1 := by
    apply Nat.mod_eq_of_lt
    omega
  cases ha : v.a with
  | none =>
    rw [ha] at hlen
    simp at hlen
    omega
  | some buf =>
    rw [ha] at hlen
    simp only [Option.getD_some] at hlen
    simp only [kv_push, hne, if_false, ha, hlen, hnm, if_true, hn1, Option.getD_some]

theorem kv_push_wraps (x : Int) (m : Nat) (buf : List (Option Int)) (hm : m = 2 ^ 60) :
    kv_int64_push true ⟨m, m, some buf⟩ x = Option.none := by
  have hm0 : m ≠ 0 := by rw [hm]; norm_num
  have h1 : (m <<< 1) % SIZE_T = 2 * m := by
    rw [hm]; simp [SIZE_T, Nat.shiftLeft_eq]
  have h2 : 8 * (2 * m) % SIZE_T / 8 = 0 := by
    rw [hm]; simp [SIZE_T]
  simp only [kv_int64_push, kv_push, if_true, ne_eq, hm0, not_false_eq_true, h1, h2, realloc,
    List.take_zero, Nat.zero_sub, List.replicate_zero, List.append_nil, List.length_nil,
    Nat.not_lt_zero, if_false]

/-- C26 counterexample: on the full vector (10, 20) with `n = m = 2`, when the
reallocation fails `kv_int64_push` stores through the null pointer, so no element
is appended; and on a full vector of `2 ^ 60` elements the doubled capacity in
bytes, `8 * 2 ^ 61`, wraps to 0, so the store falls outside the buffer although
the reallocation succeeds. -/
theorem C26_push_counterexample :
    kv_size (⟨2, 2, some [some 10, some 20]⟩ : kvec_t Int) ≤
        kv_max (⟨2, 2, some [some 10, some 20]⟩ : kvec_t Int) ∧
      kv_int64_push false ⟨2, 2, some [some 10, some 20]⟩ 30 = Option.none ∧
      kv_int64_push true ⟨2 ^ 60, 2 ^ 60, some (List.replicate (2 ^ 60) Option.none)⟩ 30 =
        Option.none := by
  exact ⟨by decide, by decide,
    kv_push_wraps 30 (2 ^ 60) (List.replicate (2 ^ 60) Option.none) rfl⟩

/-- C26 (amended): for every vector with size `n <= m`, a buffer of `m` elements
and `m` below `2 ^ 64`, and every value `x`: provided that, when `n = m`, the
reallocation succeeds and the new capacity in bytes (`sizeof(type)` times 2 for
`m = 0`, times `2 m` otherwise) is below `2 ^ 64`, `kv_push` is defined, the size
becomes `n + 1`, the element at position `n` is `x`, the elements at the positions
below `n` are unchanged, the size is at most the capacity, and the capacity is
unchanged unless `n = m`, when it becomes 2 for `m = 0` and `2 m` otherwise. -/
theorem C26_push_appends_when_realloc_succeeds {α : Type} (sz : Nat) (ok : Bool)
    (v : kvec_t α) (x : α) (hsz : 0 < sz) (hn : kv_size v ≤ kv_max v)
    (hlen : (v.a.getD []).length = kv_max v) (hm : kv_max v < SIZE_T)
    (hgrow : kv_size v = kv_max v →
      ok = true ∧ sz * (if kv_max v = 0 then 2 else 2 * kv_max v) < SIZE_T) :
    ∃ w, kv_push sz ok v x = some w ∧
      kv_size w = kv_size v + 1 ∧
      kv_A w (kv_size v) = some (some x) ∧
      (∀ i, i < kv_size v → kv_A w i = kv_A v i) ∧
      kv_size w ≤ kv_max w ∧
      (w.a.getD []).length = kv_max w ∧
      kv_max w = if kv_size v = kv_max v then (if kv_max v = 0 then 2 else 2 * kv_max v)
        else kv_max v := by
  simp only [kv_size, kv_max] at hn hlen hm hgrow ⊢
  by_cases hnm : v.n = v.m
  · obtain ⟨hok, hfit⟩ := hgrow hnm
    subst hok
    have hmM : v.m < (if v.m = 0 then 2 else 2 * v.m) := by split <;> omega
    refine ⟨_, kv_push_grow sz v x _ hsz hnm hlen rfl hfit, rfl, ?_, ?_, ?_, ?_, ?_⟩
    · simp only [kv_A, Option.getD_some]
      rw [List.get?_eq_getElem?, List.getElem?_set_self]
      simp [hlen, hnm]
      omega
    · intro i hi
      simp only [kv_A, Option.getD_some]
      rw [List.get?_eq_getElem?, List.get?_eq_getElem?, List.getElem?_set_ne (by omega),
        List.getElem?_append_left (by omega)]
    · simp only []
      omega
    · simp [hlen]
      omega
    · simp [hnm]
  · have hlt : v.n < v.m := by omega
    refine ⟨_, kv_push_room sz ok v x hlt hlen hm, rfl, ?_, ?_, ?_, ?_, ?_⟩
    · simp only [kv_A, Option.getD_some]
      rw [List.get?_eq_getElem?, List.getElem?_set_self]
      simp [hlen, hlt]
    · intro i hi
      simp only [kv_A, Option.getD_some]
      rw [List.get?_eq_getElem?, List.get?_eq_getElem?, List.getElem?_set_ne (by omega)]
    · simp only []
      omega
    · simp [hlen]
    · simp [hnm]

/-- C26 witness: pushing 30 on the full vector (10, 20) with a successful
reallocation gives size 3 and capacity 4. -/
theorem C26_push_appends_when_realloc_succeeds_witness :
    ∃ w, kv_push 8 true (⟨2, 2, some [some 10, some 20]⟩ : kvec_t Int) 30 = some w ∧
      kv_size w = kv_size (⟨2, 2, some [some 10, some 20]⟩ : kvec_t Int) + 1 ∧
      kv_A w (kv_size (⟨2, 2, some [some 10, some 20]⟩ : kvec_t Int)) = some (some 30) ∧
      (∀ i, i < kv_size (⟨2, 2, some [some 10, some 20]⟩ : kvec_t Int) →
        kv_A w i = kv_A (⟨2, 2, some [some 10, some 20]⟩ : kvec_t Int) i) ∧
      kv_size w ≤ kv_max w ∧
      (w.a.getD []).length = kv_max w ∧
      kv_max w = if kv_size (⟨2, 2, some [some 10, some 20]⟩ : kvec_t Int) =
          kv_max (⟨2, 2, some [some 10, some 20]⟩ : kvec_t Int) then
        (if kv_max (⟨2, 2, some [some 10, some 20]⟩ : kvec_t Int) = 0 then 2
          else 2 * kv_max (⟨2, 2, some [some 10, some 20]⟩ : kvec_t Int))
        else kv_max (⟨2, 2, some [some 10, some 20]⟩ : kvec_t Int) :=
  C26_push_appends_when_realloc_succeeds 8 true ⟨2, 2, some [some 10, some 20]⟩ 30
    (by decide) (by decide) (by decide) (by decide) (fun _ => ⟨rfl, by decide⟩)

/-- C27: `kv_a` does not bring the index inside the vector when `n <= i < m`: it
sets the size to `i` (the branch for `m <= i` sets it to `i + 1`), so afterwards
`i < kv_size(v)` is false.  On the vector obtained from `kv_init` by pushing 10
(size 1, capacity 2), `kv_a` at index 1 leaves the size at 1. -/
theorem C27_dynamic_access_leaves_index_outside :
    (∀ (α : Type) (sz : Nat) (ok : Bool) (v : kvec_t α) (i : Nat),
      kv_size v ≤ i → i < kv_max v →
      kv_size (kv_a sz ok v i) = i ∧ ¬ (i < kv_size (kv_a sz ok v i))) ∧
    kv_int64_push true kv_init 10 = some ⟨1, 2, some [some 10, Option.none]⟩ ∧
    kv_size (kv_a 8 true (⟨1, 2, some [some 10, Option.none]⟩ : kvec_t Int) 1) = 1 ∧
    (∀ (α : Type) (sz : Nat) (v : kvec_t α) (i : Nat),
      kv_max v ≤ i → i + 1 < SIZE_T →
      kv_size (kv_a sz true v i) = i + 1) := by
  refine ⟨?_, by decide, by decide, ?_⟩
  · intro α sz ok v i h1 h2
    simp only [kv_size, kv_max] at h1 h2 ⊢
    have h3 : ¬ (v.m ≤ i) := by omega
    simp [kv_a, h3, h1]
  · intro α sz v i h1 h2
    simp only [kv_size, kv_max] at h1 ⊢
    simp [kv_a, h1, Nat.mod_eq_of_lt h2]

/-- C29 counterexample: on the 2 x 3 array at address 100 the data pointer is 100
immediately before the descent into the first row; the child consumes the three
elements of the row (pointer 124, index 3) and `NpyArrPassThru_iterEnd` leaves the
pointer at 124, the address of the second row, not at 100. -/
theorem C29_pointer_not_at_pre_descent_counterexample :
    (npyLoad exampleBegun.2 (some 0)).dataptr = 100 ∧
      (npyLoad exampleDescended (some 0)).dataptr = 100 ∧
      (npyLoad (exampleConsumed 3) (some 0)).dataptr = 124 ∧
      (npyLoad (exampleConsumed 3) (some 0)).index
        (npyLoad (exampleConsumed 3) (some 0)).stridedim = 3 ∧
      (npyLoad (NpyArrPassThru_iterEnd (PyObj.ndarray exampleGrid) (passThruContext 0)
        (exampleConsumed 3)).2 (some 0)).dataptr = 124 ∧
      (npyLoad (NpyArrPassThru_iterEnd (PyObj.ndarray exampleGrid) (passThruContext 0)
        (exampleConsumed 3)).2 (some 0)).dataptr ≠
        (npyLoad exampleBegun.2 (some 0)).dataptr := by
  refine ⟨rfl, rfl, rfl, rfl, rfl, ?_⟩
  decide

/-- C29 (amended): when a child axis context ends (`NpyArrPassThru_iterEnd`) after
the child consumed `k` elements of its axis, so that the data pointer is
`p + stride * k` with `p` its value immediately before the descent, the data
pointer becomes `p` plus the stride of the parent axis (it is restored and then
advanced to the next element of the parent axis), the active axis is the parent
axis again with its stride and extent, the depth is one less and the index vector
is unchanged. -/
theorem C29_child_end_restores_then_advances (obj : PyObj) (tc : TypeContext) (st : Encoder)
    (q : Nat) (a : PyArrayObject PyObj) (p k : Int)
    (hnpy : tc.npyarr = some q) (hq : q < st.npyHeap.length)
    (harr : (npyLoad st (some q)).array = some a)
    (hk : (npyLoad st (some q)).index (npyLoad st (some q)).stridedim = k)
    (hp : (npyLoad st (some q)).dataptr = p + (npyLoad st (some q)).stride * k) :
    (npyLoad (NpyArrPassThru_iterEnd obj tc st).2 (some q)).dataptr =
        p + PyArray_STRIDE a ((npyLoad st (some q)).stridedim - (npyLoad st (some q)).inc) ∧
      (npyLoad (NpyArrPassThru_iterEnd obj tc st).2 (some q)).stridedim =
        (npyLoad st (some q)).stridedim - (npyLoad st (some q)).inc ∧
      (npyLoad (NpyArrPassThru_iterEnd obj tc st).2 (some q)).stride =
        PyArray_STRIDE a ((npyLoad st (some q)).stridedim - (npyLoad st (some q)).inc) ∧
      (npyLoad (NpyArrPassThru_iterEnd obj tc st).2 (some q)).dim =
        PyArray_DIM a ((npyLoad st (some q)).stridedim - (npyLoad st (some q)).inc) ∧
      (npyLoad (NpyArrPassThru_iterEnd obj tc st).2 (some q)).curdim =
        (npyLoad st (some q)).curdim - 1 ∧
      (npyLoad (NpyArrPassThru_iterEnd obj tc st).2 (some q)).index =
        (npyLoad st (some q)).index := by
  have hself := heapSet_self st q hq
  generalize npyLoad st (some q) = c at hself harr hk hp ⊢
  rw [← hself]
  simp only [NpyArrPassThru_iterEnd, hnpy, npyLoad_heapSet _ _ _ hq,
    npyStore_heapSet _ _ _ _ hq, harr, Option.getD_some, hk, hp, and_self, and_true]
  ring

/-- C29 witness: the child of the first row of the 2 x 3 array at address 100
consumed 3 elements of stride 8; ending it leaves the pointer at 100 + 24. -/
theorem C29_child_end_restores_then_advances_witness :
    (npyLoad (NpyArrPassThru_iterEnd (PyObj.ndarray exampleGrid) (passThruContext 0)
        (exampleConsumed 3)).2 (some 0)).dataptr =
      100 + PyArray_STRIDE exampleGrid ((npyLoad (exampleConsumed 3) (some 0)).stridedim -
        (npyLoad (exampleConsumed 3) (some 0)).inc) :=
  (C29_child_end_restores_then_advances (PyObj.ndarray exampleGrid) (passThruContext 0)
    (exampleConsumed 3) 0 exampleGrid 100 3 rfl (by decide) rfl rfl rfl).1

theorem PyArray_DIM_nonneg (a : PyArrayObject PyObj) (hdims : ∀ d ∈ a.dims, 0 ≤ d) (i : Int) :
    0 ≤ PyArray_DIM a i := by
  unfold PyArray_DIM
  by_cases h : i.toNat < a.dims.length
  · rw [List.getD_eq_getElem _ _ h]
    exact hdims _ (List.getElem_mem h)
  · rw [List.getD_eq_default _ _ (by omega)]

theorem cursorAxis_inj (N inc e e' : Int) (h : cursorAxis N inc e = cursorAxis N inc e') :
    e = e' := by
  unfold cursorAxis at h
  split at h <;> omega

theorem cursorAxis_succ (N inc e : Int) (h : inc = 1 ∨ inc = -1) :
    cursorAxis N inc (e + 1) = cursorAxis N inc e + inc := by
  unfold cursorAxis
  rcases h with h | h
  · simp [h]
  · simp [h]
    omega

theorem cursorAxis_pred (N inc e : Int) (h : inc = 1 ∨ inc = -1) :
    cursorAxis N inc (e - 1) = cursorAxis N inc e - inc := by
  unfold cursorAxis
  rcases h with h | h
  · simp [h]
  · simp [h]
    omega

theorem cursorAxis_bounds (N inc e : Int) (h0 : 0 ≤ e) (h1 : e ≤ N - 1) :
    0 ≤ cursorAxis N inc e ∧ cursorAxis N inc e ≤ N - 1 := by
  unfold cursorAxis
  split <;> omega

theorem CursorInv_item (a : PyArrayObject PyObj) (c : NpyArrContext) (h : CursorInv a c)
    (hlt : c.index c.stridedim < c.dim) :
    CursorInv a { c with
      dataptr := c.dataptr + c.stride,
      index := setIdx c.index c.stridedim (c.index c.stridedim + 1) } := by
  refine ⟨h.array, h.ndim, h.inc, h.depth_lo, h.depth_hi, h.axis, h.dim, h.stride, ?_⟩
  intro e he0 he
  simp only [setIdx]
  by_cases hax : cursorAxis (PyArray_NDIM a) c.inc e = c.stridedim
  · simp only [hax, if_true]
    have := h.index c.curdim h.depth_lo (le_refl _)
    rw [← h.axis] at this
    have hd := h.dim
    constructor <;> omega
  · simp only [hax, if_false]
    exact h.index e he0 he

theorem CursorInv_descend (a : PyArrayObject PyObj) (c : NpyArrContext) (h : CursorInv a c)
    (hdims : ∀ d ∈ a.dims, 0 ≤ d)
    (hdepth : c.curdim < c.ndim) (hlt : c.index c.stridedim < c.dim) :
    CursorInv a { c with
      index := setIdx (setIdx c.index c.stridedim (c.index c.stridedim + 1))
        (c.stridedim + c.inc) 0,
      curdim := c.curdim + 1,
      stridedim := c.stridedim + c.inc,
      dim := PyArray_DIM a (c.stridedim + c.inc),
      stride := PyArray_STRIDE a (c.stridedim + c.inc) } := by
  have hnd := h.ndim
  have hax1 : cursorAxis (PyArray_NDIM a) c.inc (c.curdim + 1) = c.stridedim + c.inc := by
    rw [cursorAxis_succ _ _ _ h.inc, ← h.axis]
  refine ⟨h.array, h.ndim, h.inc, ?_, ?_, ?_, rfl, rfl, ?_⟩
  · have := h.depth_lo
    simp only []
    omega
  · simp only []
    omega
  · simp only []
    exact hax1.symm
  · intro e he0 he
    simp only [] at he ⊢
    by_cases h1 : e = c.curdim + 1
    · subst h1
      rw [hax1, setIdx_same]
      exact ⟨le_refl _, PyArray_DIM_nonneg a hdims _⟩
    · have hne : cursorAxis (PyArray_NDIM a) c.inc e ≠ c.stridedim + c.inc := by
        rw [← hax1]
        intro hh
        exact h1 (cursorAxis_inj _ _ _ _ hh)
      rw [setIdx_ne _ _ _ _ hne]
      by_cases h2 : e = c.curdim
      · subst h2
        rw [← h.axis, setIdx_same]
        have := h.index c.curdim h.depth_lo (le_refl _)
        rw [← h.axis] at this
        have hd := h.dim
        constructor <;> omega
      · have hne2 : cursorAxis (PyArray_NDIM a) c.inc e ≠ c.stridedim := by
          rw [h.axis]
          intro hh
          exact h2 (cursorAxis_inj _ _ _ _ hh)
        rw [setIdx_ne _ _ _ _ hne2]
        exact h.index e he0 (by omega)

theorem CursorInv_end (a : PyArrayObject PyObj) (c : NpyArrContext) (h : CursorInv a c)
    (hdepth : 1 ≤ c.curdim) (p : Int) :
    CursorInv a { c with
      curdim := c.curdim - 1,
      dataptr := p,
      stridedim := c.stridedim - c.inc,
      dim := PyArray_DIM a (c.stridedim - c.inc),
      stride := PyArray_STRIDE a (c.stridedim - c.inc) } := by
  have hax1 : cursorAxis (PyArray_NDIM a) c.inc (c.curdim - 1) = c.stridedim - c.inc := by
    rw [cursorAxis_pred _ _ _ h.inc, ← h.axis]
  refine ⟨h.array, h.ndim, h.inc, ?_, ?_, ?_, rfl, rfl, ?_⟩
  · simp only []
    omega
  · have := h.depth_hi
    simp only []
    omega
  · simp only []
    exact hax1.symm
  · intro e he0 he
    simp only [] at he ⊢
    exact h.index e he0 (by omega)

theorem cursorState_intro (a : PyArrayObject PyObj) (q : Nat) (S : Encoder) (k : Nat)
    (c : NpyArrContext) (h1 : q < S.npyHeap.length) (hc : npyLoad S (some q) = c)
    (h2 : CursorInv a c) (h3 : (k : Int) ≤ c.curdim)
    (h4 : S.npyType < 0 → S.npyCtxtPassthru = some q → (k : Int) + 1 ≤ c.curdim) :
    q < S.npyHeap.length ∧ CursorInv a (npyLoad S (some q)) ∧
      (k : Int) ≤ (npyLoad S (some q)).curdim ∧
      (S.npyType < 0 → S.npyCtxtPassthru = some q →
        (k : Int) + 1 ≤ (npyLoad S (some q)).curdim) := by
  subst hc
  exact ⟨h1, h2, h3, h4⟩

theorem ISDATETIME_nonneg (t : Int) (h : PyTypeNum_ISDATETIME t = true) : 0 ≤ t := by
  simp [PyTypeNum_ISDATETIME, NPY_DATETIME] at h
  omega

theorem npyStore_load (S : Encoder) (q : Nat) (c : NpyArrContext) (h : q < S.npyHeap.length) :
    npyLoad (npyStore S (some q) c) (some q) = c := by
  simp only [npyStore, h, if_true, npyLoad]
  exact getD_set_self _ _ _ _ h

theorem npyStore_len (S : Encoder) (q : Nat) (c : NpyArrContext) (h : q < S.npyHeap.length) :
    q < (npyStore S (some q) c).npyHeap.length := by
  simp [npyStore, h]

theorem freeItemValue_npyarr (tc : TypeContext) (st : Encoder) :
    (NpyArr_freeItemValue tc st).npyarr = tc.npyarr := by
  rcases freeItemValue_cases tc st with h | h <;> rw [h]

theorem NpyArr_iterNextItem_state (obj : PyObj) (tc : TypeContext) (st : Encoder) (q : Nat)
    (c : NpyArrContext) (a : PyArrayObject PyObj) (hnpy : tc.npyarr = some q)
    (hc : npyLoad st (some q) = c) (herr : ¬ PyErr_Occurred st = true)
    (hlt : c.index c.stridedim < c.dim) (harr : c.array = some a) :
    ∃ S1, (NpyArr_iterNextItem obj tc st).2.2 =
        npyStore S1 (some q) { c with
          dataptr := c.dataptr + c.stride,
          index := setIdx c.index c.stridedim (c.index c.stridedim + 1) } ∧
      S1.npyHeap = st.npyHeap ∧
      ((S1.npyType = st.npyType ∧ S1.npyCtxtPassthru = st.npyCtxtPassthru) ∨
        0 ≤ S1.npyType) := by
  have hge : ¬ (c.index c.stridedim ≥ c.dim) := by omega
  simp only [NpyArr_iterNextItem, hnpy, hc, herr, Bool.false_eq_true, if_false, hge, harr,
    Option.getD_some, freeItemValue_npyarr]
  by_cases hdt : PyTypeNum_ISDATETIME a.type_num = true
  · simp only [hdt, if_true]
    exact ⟨_, rfl, rfl, Or.inr (ISDATETIME_nonneg _ hdt)⟩
  · simp only [hdt, Bool.false_eq_true, if_false]
    cases a.getitem c.dataptr with
    | some item => exact ⟨_, rfl, rfl, Or.inl ⟨rfl, rfl⟩⟩
    | none => exact ⟨_, rfl, rfl, Or.inl ⟨rfl, rfl⟩⟩

theorem NpyArr_iterNextItem_cursor (a : PyArrayObject PyObj) (q : Nat) (obj : PyObj)
    (tc : TypeContext) (st : Encoder) (k : Nat) (hnpy : tc.npyarr = some q)
    (hq : q < st.npyHeap.length) (hinv : CursorInv a (npyLoad st (some q)))
    (hk : (k : Int) ≤ (npyLoad st (some q)).curdim)
    (hp : st.npyType < 0 → st.npyCtxtPassthru = some q →
      (k : Int) + 1 ≤ (npyLoad st (some q)).curdim) :
    q < (NpyArr_iterNextItem obj tc st).2.2.npyHeap.length ∧
      CursorInv a (npyLoad (NpyArr_iterNextItem obj tc st).2.2 (some q)) ∧
      (k : Int) ≤ (npyLoad (NpyArr_iterNextItem obj tc st).2.2 (some q)).curdim ∧
      ((NpyArr_iterNextItem obj tc st).2.2.npyType < 0 →
        (NpyArr_iterNextItem obj tc st).2.2.npyCtxtPassthru = some q →
        (k : Int) + 1 ≤ (npyLoad (NpyArr_iterNextItem obj tc st).2.2 (some q)).curdim) := by
  generalize hc : npyLoad st (some q) = c at hinv hk hp
  by_cases herr : PyErr_Occurred st = true
  · have : NpyArr_iterNextItem obj tc st = (false, tc, st) := by
      simp only [NpyArr_iterNextItem, herr, if_true]
    rw [this]
    exact cursorState_intro a q st k c hq hc hinv hk hp
  by_cases hge : c.index c.stridedim ≥ c.dim
  · have : NpyArr_iterNextItem obj tc st = (false, tc, st) := by
      simp only [NpyArr_iterNextItem, herr, hnpy, hc, hge, if_true, Bool.false_eq_true, if_false]
    rw [this]
    exact cursorState_intro a q st k c hq hc hinv hk hp
  have hlt : c.index c.stridedim < c.dim := by omega
  obtain ⟨S1, hres, hheap, hf⟩ := NpyArr_iterNextItem_state obj tc st q c a hnpy hc herr hlt
    hinv.array
  have hq1 : q < S1.npyHeap.length := by rw [hheap]; exact hq
  rw [hres]
  refine cursorState_intro a q _ k _ (npyStore_len S1 q _ hq1) (npyStore_load S1 q _ hq1)
    (CursorInv_item a c hinv hlt) hk ?_
  simp only [npyStore_npyType, npyStore_npyCtxtPassthru]
  rcases hf with ⟨h1, h2⟩ | h
  · rw [h1, h2]
    exact hp
  · intro hneg
    omega

theorem NpyArr_iterNext_cursor (a : PyArrayObject PyObj) (q : Nat) (obj : PyObj)
    (tc : TypeContext) (st : Encoder) (k : Nat) (hdims : ∀ d ∈ a.dims, 0 ≤ d)
    (hnpy : tc.npyarr = some q)
    (hq : q < st.npyHeap.length) (hinv : CursorInv a (npyLoad st (some q)))
    (hk : (k : Int) ≤ (npyLoad st (some q)).curdim)
    (hp : st.npyType < 0 → st.npyCtxtPassthru = some q →
      (k : Int) + 1 ≤ (npyLoad st (some q)).curdim) :
    q < (NpyArr_iterNext obj tc st).2.2.npyHeap.length ∧
      CursorInv a (npyLoad (NpyArr_iterNext obj tc st).2.2 (some q)) ∧
      (k : Int) ≤ (npyLoad (NpyArr_iterNext obj tc st).2.2 (some q)).curdim ∧
      ((NpyArr_iterNext obj tc st).2.2.npyType < 0 →
        (NpyArr_iterNext obj tc st).2.2.npyCtxtPassthru = some q →
        (k : Int) + 1 ≤ (npyLoad (NpyArr_iterNext obj tc st).2.2 (some q)).curdim) := by
  by_cases herr : PyErr_Occurred st = true
  · have : NpyArr_iterNext obj tc st = (false, tc, st) := by
      simp only [NpyArr_iterNext, herr, if_true]
    rw [this]
    exact ⟨hq, hinv, hk, hp⟩
  by_cases hmode : (npyLoad st (some q)).curdim ≥ (npyLoad st (some q)).ndim ∨
      (npyLoad st (some q)).index (npyLoad st (some q)).stridedim ≥ (npyLoad st (some q)).dim
  · have : NpyArr_iterNext obj tc st = NpyArr_iterNextItem obj
        { tc with iterNext := some IterNextFn.NpyArr_iterNextItem } st := by
      simp only [NpyArr_iterNext, herr, hnpy, hmode, if_true, Bool.false_eq_true, if_false]
    rw [this]
    exact NpyArr_iterNextItem_cursor a q obj _ st k hnpy hq hinv hk hp
  · generalize hc : npyLoad st (some q) = c at hinv hk hp hmode
    have hd : c.curdim < c.ndim := by omega
    have hlt : c.index c.stridedim < c.dim := by omega
    have hres : (NpyArr_iterNext obj tc st).2.2 =
        { (npyStore st (some q) { c with
            index := setIdx (setIdx c.index c.stridedim (c.index c.stridedim + 1))
              (c.stridedim + c.inc) 0,
            curdim := c.curdim + 1,
            stridedim := c.stridedim + c.inc,
            dim := PyArray_DIM a (c.stridedim + c.inc),
            stride := PyArray_STRIDE a (c.stridedim + c.inc) }) with
          npyCtxtPassthru := some q } := by
      simp only [NpyArr_iterNext, herr, hnpy, hc, hmode, Bool.false_eq_true, if_false,
        hinv.array, Option.getD_some]
    rw [hres]
    have hload : npyLoad ({ (npyStore st (some q) { c with
            index := setIdx (setIdx c.index c.stridedim (c.index c.stridedim + 1))
              (c.stridedim + c.inc) 0,
            curdim := c.curdim + 1,
            stridedim := c.stridedim + c.inc,
            dim := PyArray_DIM a (c.stridedim + c.inc),
            stride := PyArray_STRIDE a (c.stridedim + c.inc) }) with
          npyCtxtPassthru := some q } : Encoder) (some q) = _ := npyStore_load st q _ hq
    refine cursorState_intro a q _ k _ (npyStore_len st q _ hq) hload
      (CursorInv_descend a c hinv hdims hd hlt) ?_ ?_
    · simp only []
      omega
    · intro _ _
      simp only []
      omega

theorem NpyArrPassThru_iterEnd_cursor (a : PyArrayObject PyObj) (q : Nat) (obj : PyObj)
    (tc : TypeContext) (st : Encoder) (k : Nat) (hnpy : tc.npyarr = some q)
    (hq : q < st.npyHeap.length) (hinv : CursorInv a (npyLoad st (some q)))
    (hk : ((k + 1 : Nat) : Int) ≤ (npyLoad st (some q)).curdim)
    (hp : st.npyType < 0 → st.npyCtxtPassthru = some q →
      ((k + 1 : Nat) : Int) + 1 ≤ (npyLoad st (some q)).curdim) :
    q < (NpyArrPassThru_iterEnd obj tc st).2.npyHeap.length ∧
      CursorInv a (npyLoad (NpyArrPassThru_iterEnd obj tc st).2 (some q)) ∧
      (k : Int) ≤ (npyLoad (NpyArrPassThru_iterEnd obj tc st).2 (some q)).curdim ∧
      ((NpyArrPassThru_iterEnd obj tc st).2.npyType < 0 →
        (NpyArrPassThru_iterEnd obj tc st).2.npyCtxtPassthru = some q →
        (k : Int) + 1 ≤ (npyLoad (NpyArrPassThru_iterEnd obj tc st).2 (some q)).curdim) := by
  generalize hc : npyLoad st (some q) = c at hinv hk hp
  have hres : (NpyArrPassThru_iterEnd obj tc st).2 =
      npyStore st (some q) { c with
        curdim := c.curdim - 1,
        dataptr := c.dataptr - c.stride * c.index c.stridedim +
          PyArray_STRIDE a (c.stridedim - c.inc),
        stridedim := c.stridedim - c.inc,
        dim := PyArray_DIM a (c.stridedim - c.inc),
        stride := PyArray_STRIDE a (c.stridedim - c.inc) } := by
    simp only [NpyArrPassThru_iterEnd, hnpy, hc, hinv.array, Option.getD_some]
  rw [hres]
  push_cast at hk hp
  refine cursorState_intro a q _ k _ (npyStore_len st q _ hq) (npyStore_load st q _ hq)
    (CursorInv_end a c hinv (by omega) _) ?_ ?_
  · simp only []
    omega
  · simp only [npyStore_npyType, npyStore_npyCtxtPassthru]
    intro h1 h2
    have := hp h1 h2
    omega

theorem NpyArr_iterBegin_cursor (a : PyArrayObject PyObj) (q : Nat) (obj : PyObj)
    (tc : TypeContext) (st : Encoder) (hN : 1 ≤ PyArray_NDIM a)
    (hdims : ∀ d ∈ a.dims, 0 ≤ d)
    (hpass : st.npyCtxtPassthru = Option.none)
    (hq : (NpyArr_iterBegin obj tc st).1.npyarr = some q)
    (harr : (npyLoad (NpyArr_iterBegin obj tc st).2 (some q)).array = some a) :
    q < (NpyArr_iterBegin obj tc st).2.npyHeap.length ∧
      CursorInv a (npyLoad (NpyArr_iterBegin obj tc st).2 (some q)) ∧
      ((0 : Nat) : Int) ≤ (npyLoad (NpyArr_iterBegin obj tc st).2 (some q)).curdim ∧
      ((NpyArr_iterBegin obj tc st).2.npyType < 0 →
        (NpyArr_iterBegin obj tc st).2.npyCtxtPassthru = some q →
        ((0 : Nat) : Int) + 1 ≤ (npyLoad (NpyArr_iterBegin obj tc st).2 (some q)).curdim) := by
  simp only [NpyArr_iterBegin] at hq harr ⊢
  cases hm : PyObject_Malloc st with
  | mk ok S =>
    have hS : S.npyCtxtPassthru = st.npyCtxtPassthru := by
      have : (PyObject_Malloc st).2.npyCtxtPassthru = st.npyCtxtPassthru := by
        unfold PyObject_Malloc
        split <;> simp
      rw [hm] at this
      exact this
    rw [hm] at hq harr
    cases ok with
    | false => simp at hq
    | true =>
      simp only [] at hq harr ⊢
      injection hq with hq
      subst hq
      have hload : ∀ c : NpyArrContext,
          npyLoad ({ S with npyHeap := S.npyHeap ++ [c] } : Encoder) (some S.npyHeap.length) =
            c := by
        intro c
        simp [npyLoad, List.getD]
      rw [hload] at harr ⊢
      refine ⟨by simp, ?_, ?_, ?_⟩
      · cases ht : tc.transpose
        · simp only [ht, Bool.false_eq_true, if_false] at harr ⊢
          injection harr with harr
          subst harr
          refine ⟨rfl, rfl, Or.inl rfl, le_refl _, by simpa using hN, ?_, rfl, rfl, ?_⟩
          · simp [cursorAxis]
          · intro e he0 he
            simp only [] at he
            have : e = 0 := by omega
            subst this
            simp only [cursorAxis, if_true, setIdx_same]
            exact ⟨le_refl _, PyArray_DIM_nonneg _ hdims _⟩
        · simp only [ht, if_true] at harr ⊢
          injection harr with harr
          subst harr
          refine ⟨rfl, rfl, Or.inr rfl, le_refl _, by simpa using hN, ?_, rfl, rfl, ?_⟩
          · simp only [cursorAxis]
            norm_num
          · intro e he0 he
            simp only [] at he
            have : e = 0 := by omega
            subst this
            simp only [cursorAxis]
            norm_num
            rw [setIdx_same]
            exact ⟨le_refl _, PyArray_DIM_nonneg _ hdims _⟩
      · cases tc.transpose <;> exact le_refl _
      · intro _ h
        rw [hS, hpass] at h
        cases h

theorem CursorReach_inv (a : PyArrayObject PyObj) (q : Nat) (hN : 1 ≤ PyArray_NDIM a)
    (hdims : ∀ d ∈ a.dims, 0 ≤ d) (st : Encoder) (k : Nat) (h : CursorReach a q st k) :
    q < st.npyHeap.length ∧ CursorInv a (npyLoad st (some q)) ∧
      (k : Int) ≤ (npyLoad st (some q)).curdim ∧
      (st.npyType < 0 → st.npyCtxtPassthru = some q →
        (k : Int) + 1 ≤ (npyLoad st (some q)).curdim) := by
  induction h with
  | begin obj tc st hpass hq harr =>
    exact NpyArr_iterBegin_cursor a q obj tc st hN hdims hpass hq harr
  | next obj tc st k _ hnpy ih =>
    exact NpyArr_iterNext_cursor a q obj tc st k hdims hnpy ih.1 ih.2.1 ih.2.2.1 ih.2.2.2
  | nextItem obj tc st k _ hnpy ih =>
    exact NpyArr_iterNextItem_cursor a q obj tc st k hnpy ih.1 ih.2.1 ih.2.2.1 ih.2.2.2
  | leaf st k _ hty ih =>
    refine ⟨ih.1, ih.2.1, ih.2.2.1, ?_⟩
    intro _ h
    cases h
  | beginChild st k _ hty hpass ih =>
    refine ⟨ih.1, ih.2.1, ?_, ?_⟩
    · have := ih.2.2.2 hty hpass
      push_cast
      exact this
    · intro _ h
      cases h
  | endChild obj tc st k _ hnpy ih =>
    exact NpyArrPassThru_iterEnd_cursor a q obj tc st k hnpy ih.1 ih.2.1 ih.2.2.1 ih.2.2.2
  | frame st st' k _ hq hload hty hpass ih =>
    refine ⟨hq, ?_, ?_, ?_⟩
    · rw [hload]; exact ih.2.1
    · rw [hload]; exact ih.2.2.1
    · rw [hload, hty, hpass]; exact ih.2.2.2

/-- C30: in every encoder state reachable from `NpyArr_iterBegin` on an array of
rank `N >= 1` (with non-negative extents) through `NpyArr_iterNext`,
`NpyArr_iterNextItem` and `NpyArrPassThru_iterEnd` as the recursive driver calls
them, the cursor satisfies `0 <= stridedim <= N - 1` and `0 <= curdim <= N - 1`,
its active extent and stride are those of the axis `stridedim`, and
`0 <= index[stridedim] <= extent`. -/
theorem C30_array_cursor_invariant (a : PyArrayObject PyObj) (q : Nat) (st : Encoder)
    (k : Nat) (hN : 1 ≤ PyArray_NDIM a) (hdims : ∀ d ∈ a.dims, 0 ≤ d)
    (h : CursorReach a q st k) :
    0 ≤ (npyLoad st (some q)).stridedim ∧
      (npyLoad st (some q)).stridedim ≤ PyArray_NDIM a - 1 ∧
      0 ≤ (npyLoad st (some q)).curdim ∧
      (npyLoad st (some q)).curdim ≤ PyArray_NDIM a - 1 ∧
      (npyLoad st (some q)).dim = PyArray_DIM a (npyLoad st (some q)).stridedim ∧
      (npyLoad st (some q)).stride = PyArray_STRIDE a (npyLoad st (some q)).stridedim ∧
      0 ≤ (npyLoad st (some q)).index (npyLoad st (some q)).stridedim ∧
      (npyLoad st (some q)).index (npyLoad st (some q)).stridedim ≤
        (npyLoad st (some q)).dim := by
  obtain ⟨_, hinv, _, _⟩ := CursorReach_inv a q hN hdims st k h
  have hax := cursorAxis_bounds (PyArray_NDIM a) (npyLoad st (some q)).inc
    (npyLoad st (some q)).curdim hinv.depth_lo hinv.depth_hi
  rw [← hinv.axis] at hax
  have hidx := hinv.index (npyLoad st (some q)).curdim hinv.depth_lo (le_refl _)
  rw [← hinv.axis, ← hinv.dim] at hidx
  exact ⟨hax.1, hax.2, hinv.depth_lo, hinv.depth_hi, hinv.dim, hinv.stride, hidx.1, hidx.2⟩

/-- C30 witness: the state in which the child of the first row of the 2 x 3 example
array has consumed its three elements is reachable (one child open), and there the
cursor is on axis 1 at depth 1 with index 3 = extent. -/
theorem C30_array_cursor_invariant_witness :
    CursorReach exampleGrid 0 (exampleConsumed 3) 1 ∧
      (npyLoad (exampleConsumed 3) (some 0)).index
        (npyLoad (exampleConsumed 3) (some 0)).stridedim = 3 ∧
      (0 ≤ (npyLoad (exampleConsumed 3) (some 0)).stridedim ∧
      (npyLoad (exampleConsumed 3) (some 0)).stridedim ≤ PyArray_NDIM exampleGrid - 1 ∧
      0 ≤ (npyLoad (exampleConsumed 3) (some 0)).curdim ∧
      (npyLoad (exampleConsumed 3) (some 0)).curdim ≤ PyArray_NDIM exampleGrid - 1 ∧
      (npyLoad (exampleConsumed 3) (some 0)).dim =
        PyArray_DIM exampleGrid (npyLoad (exampleConsumed 3) (some 0)).stridedim ∧
      (npyLoad (exampleConsumed 3) (some 0)).stride =
        PyArray_STRIDE exampleGrid (npyLoad (exampleConsumed 3) (some 0)).stridedim ∧
      0 ≤ (npyLoad (exampleConsumed 3) (some 0)).index
        (npyLoad (exampleConsumed 3) (some 0)).stridedim ∧
      (npyLoad (exampleConsumed 3) (some 0)).index
          (npyLoad (exampleConsumed 3) (some 0)).stridedim ≤
        (npyLoad (exampleConsumed 3) (some 0)).dim) :=
  have r : CursorReach exampleGrid 0 (exampleConsumed 3) 1 :=
    CursorReach.nextItem _ _ _ 1
      (CursorReach.nextItem _ _ _ 1
        (CursorReach.nextItem _ _ _ 1
          (CursorReach.beginChild exampleDescended 0
            (CursorReach.next (PyObj.ndarray exampleGrid) exampleBegun.1 exampleBegun.2 0
              (CursorReach.begin (PyObj.ndarray exampleGrid) (installNpyArr basicTypeContext)
                exampleProcess rfl rfl rfl) rfl)
            (by decide) rfl) rfl) rfl) rfl
  ⟨r, rfl, C30_array_cursor_invariant exampleGrid 0 (exampleConsumed 3) 1 (by decide)
    (by decide) r⟩

theorem NpyArr_iterBegin_vec (obj : PyObj) (tc : TypeContext) (st : Encoder)
    (a : PyArrayObject PyObj) (halloc : st.allocBudget = Option.none)
    (harr : asArray (match tc.newObj with
      | some o => o
      | Option.none => obj) = a)
    (h1 : a.dims.length = 1) :
    NpyArr_iterBegin obj tc st =
      ({ tc with npyarr := some st.npyHeap.length },
        heapSet { st with npyHeap := st.npyHeap ++ [default] } st.npyHeap.length
          (vecCtx a tc.transpose tc.rowLabels tc.columnLabels a.data
            (setIdx st.uninit 0 0))) := by
  have hm : PyObject_Malloc st = (true, st) := by
    simp [PyObject_Malloc, halloc]
  have hnd : PyArray_NDIM a - 1 = 0 := by
    simp [PyArray_NDIM, h1]
  simp only [NpyArr_iterBegin, hm]
  cases hno : tc.newObj <;> simp only [hno] at harr ⊢ <;>
    cases tc.transpose <;> simp [heapSet, vecCtx, harr, hnd]

theorem iterLoop_first_item (f : Option PyObj → Encoder → JSONValue × Encoder) (named : Bool)
    (obj : PyObj) (k : Nat) (tc : TypeContext) (B : Encoder) (q : Nat) (c : NpyArrContext)
    (hB : CleanState B) (hqlt : q < B.npyHeap.length) (hnpy : tc.npyarr = some q)
    (hnext : tc.iterNext = some IterNextFn.NpyArr_iterNext) (hc : c.ndim ≤ c.curdim) :
    iterLoop f named obj (k + 1) tc (heapSet B q c) =
      iterLoop f named obj (k + 1) { tc with iterNext := some IterNextFn.NpyArr_iterNextItem }
        (heapSet B q c) := by
  apply iterLoop_congr_first
  simp only [Object_iterNext, hnext, hnpy, NpyArr_iterNext, npyLoad_heapSet _ _ _ hqlt,
    PyErr_Occurred, heapSet_pyErr, hB.pyErr, Option.isSome_none, Bool.false_eq_true, if_false,
    ge_iff_le, hc, true_or, if_true]

theorem vector_walk (lf d : Nat) (a : PyArrayObject PyObj) (named : Bool) (obj : PyObj)
    (tc : TypeContext) (st : Encoder) (n : Nat) (s : Int) (cells : Int → JSONValue)
    (hdims : a.dims = [(n : Int)]) (hstr : a.strides = [s]) (hst : CleanState st)
    (harr : asArray (match tc.newObj with
      | some o => o
      | Option.none => obj) = a)
    (hnext : tc.iterNext = some IterNextFn.NpyArr_iterNext)
    (hname : tc.iterGetName = some IterGetNameFn.NpyArr_iterGetName)
    (hn : n < lf)
    (hq : ∀ k : Int, 0 ≤ k → k < n → CellAt lf d st a (a.data + k * s) (cells k)) :
    ∃ tc' st',
      iterLoop (encode lf d) named obj lf (NpyArr_iterBegin obj tc st).1
          (NpyArr_iterBegin obj tc st).2 =
        (members named tc.columnLabels n cells, tc', st') ∧
      CleanState st' := by
  have h1 : a.dims.length = 1 := by rw [hdims]; rfl
  have hD0 : PyArray_DIM a 0 = n := by simp [PyArray_DIM, hdims]
  have hS0 : PyArray_STRIDE a 0 = s := by simp [PyArray_STRIDE, hstr]
  rw [NpyArr_iterBegin_vec obj tc st a hst.allocBudget harr h1]
  have hB : CleanState ({ st with npyHeap := st.npyHeap ++ [default] } : Encoder) :=
    CleanState_heap st hst _
  have hF : Frame st ({ st with npyHeap := st.npyHeap ++ [default] } : Encoder) :=
    Frame_heap st st (Frame_refl st) _
  have hqlt : st.npyHeap.length <
      ({ st with npyHeap := st.npyHeap ++ [default] } : Encoder).npyHeap.length := by
    simp
  obtain ⟨lf', rfl⟩ : ∃ f, lf = f + 1 := ⟨lf - 1, by omega⟩
  have hfirst := iterLoop_first_item (encode (lf' + 1) d) named obj lf'
    { tc with npyarr := some st.npyHeap.length }
    { st with npyHeap := st.npyHeap ++ [default] } st.npyHeap.length
    (vecCtx a tc.transpose tc.rowLabels tc.columnLabels a.data (setIdx st.uninit 0 0))
    hB hqlt rfl hnext (le_refl _)
  obtain ⟨iv, nv, h⟩ := leaf_loop_ctx (lf' + 1) d st a named obj
    (vecCtx a tc.transpose tc.rowLabels tc.columnLabels 0 (fun _ => 0)) a.data cells rfl
    (fun j hj0 hjn => by
      have hjn' : j < (n : Int) := by rw [← hD0]; exact hjn
      have := hq j hj0 hjn'
      rw [← hS0] at this
      exact this)
    n 0 st.uninit
    { ({ tc with npyarr := some st.npyHeap.length } : TypeContext) with
        iterNext := some IterNextFn.NpyArr_iterNextItem }
    (lf' + 1) { st with npyHeap := st.npyHeap ++ [default] } st.npyHeap.length hB hF hqlt
    (le_refl _) (by simp [vecCtx, hD0]) hn rfl rfl (Or.inl hname)
  rw [hfirst]
  simp only [zero_mul, add_zero, zero_add] at h
  refine ⟨_, _, h, CleanState_heapSet _ (CleanState_withValue _ hB nv) _ _⟩
/-- C23: a zero-length axis yields no children and raises no error, whatever the element
type.  The complete array-walker traversal begun by `NpyArr_iterBegin` on a 1-D array of
length 0 yields no leaves, in either mode; on a 2-D array of shape R x C with R = 0 or
C = 0 it yields in normal mode R children (none when R = 0) and in transposed mode C
children (none when C = 0), each of which yields no leaves; and no exception or error
message is pending afterwards. -/
theorem C23_zero_length_axis_yields_nothing (lf d : Nat) (a : PyArrayObject PyObj)
    (named : Bool) (obj : PyObj) (tc : TypeContext) (st : Encoder) (R C : Nat) (s s0 s1 : Int)
    (hst : CleanState st)
    (harr : asArray (match tc.newObj with
      | some o => o
      | Option.none => obj) = a)
    (hnext : tc.iterNext = some IterNextFn.NpyArr_iterNext)
    (hname : tc.iterGetName = some IterGetNameFn.NpyArr_iterGetName)
    (hR : R < lf) (hC : C < lf) :
    (a.dims = [0] → a.strides = [s] →
      (iterLoop (encode lf d) named obj lf (NpyArr_iterBegin obj tc st).1
          (NpyArr_iterBegin obj tc st).2).1 = [] ∧
      (iterLoop (encode lf d) named obj lf (NpyArr_iterBegin obj tc st).1
          (NpyArr_iterBegin obj tc st).2).2.2.pyErr = Option.none ∧
      (iterLoop (encode lf d) named obj lf (NpyArr_iterBegin obj tc st).1
          (NpyArr_iterBegin obj tc st).2).2.2.errorMsg = Option.none) ∧
    (a.dims = [(R : Int), (C : Int)] → a.strides = [s0, s1] → R = 0 ∨ C = 0 →
      (iterLoop (encode lf (d + 1)) named obj lf (NpyArr_iterBegin obj tc st).1
          (NpyArr_iterBegin obj tc st).2).1.map (fun child => leaves child.2) =
        (if tc.transpose then List.replicate C [] else List.replicate R []) ∧
      (iterLoop (encode lf (d + 1)) named obj lf (NpyArr_iterBegin obj tc st).1
          (NpyArr_iterBegin obj tc st).2).2.2.pyErr = Option.none ∧
      (iterLoop (encode lf (d + 1)) named obj lf (NpyArr_iterBegin obj tc st).1
          (NpyArr_iterBegin obj tc st).2).2.2.errorMsg = Option.none) := by
  have hrep : ∀ n : Nat, (List.range n).map (fun (_ : Nat) => (([] : List JSONValue))) =
      List.replicate n [] := by
    intro n
    induction n with
    | zero => rfl
    | succ k ih => rw [List.range_succ, List.map_append, ih, List.replicate_succ']; rfl
  refine ⟨?_, ?_⟩
  · intro hdims hstr
    obtain ⟨tc', st', hw, hc⟩ := vector_walk lf d a named obj tc st 0 s
      (fun _ => JSONValue.null) (by simpa using hdims) hstr hst harr hnext hname (by omega)
      (fun k hk0 hk => by simp at hk; omega)
    rw [hw]
    exact ⟨rfl, hc.pyErr, hc.errorMsg⟩
  · intro hdims hstr hz
    obtain ⟨tc', st', hw, hc⟩ := array_walk lf d a tc.transpose named tc.rowLabels
      tc.columnLabels obj tc st R C s0 s1 (fun _ _ => JSONValue.null) hdims hstr hst harr rfl
      rfl rfl hnext hname hR hC
      (fun i j hi0 hiR hj0 hjC => by
        rcases hz with h | h
        · subst h; simp at hiR; omega
        · subst h; simp at hjC; omega)
    rw [hw]
    refine ⟨?_, hc.pyErr, hc.errorMsg⟩
    cases tc.transpose
    · simp only [Bool.false_eq_true, if_false, grid_leaves]
      rcases hz with h | h
      · subst h; rfl
      · subst h
        simp only [List.range_zero, List.map_nil]
        exact hrep R
    · simp only [if_true, grid_leaves]
      rcases hz with h | h
      · subst h
        simp only [List.range_zero, List.map_nil]
        exact hrep C
      · subst h; rfl

/-- C23 witness: the 2 x 0 array walked in normal mode yields two children without
leaves and leaves no error behind. -/
theorem C23_zero_length_axis_yields_nothing_witness :
    (iterLoop (encode 8 2) false (PyObj.ndarray (intArray 7 100 [2, 0] [0, 8] [])) 8
        (NpyArr_iterBegin (PyObj.ndarray (intArray 7 100 [2, 0] [0, 8] []))
          (installNpyArr basicTypeContext) exampleProcess).1
        (NpyArr_iterBegin (PyObj.ndarray (intArray 7 100 [2, 0] [0, 8] []))
          (installNpyArr basicTypeContext) exampleProcess).2).1.map
        (fun child => leaves child.2) =
      (if (installNpyArr basicTypeContext).transpose then List.replicate 0 []
        else List.replicate 2 []) ∧
    (iterLoop (encode 8 2) false (PyObj.ndarray (intArray 7 100 [2, 0] [0, 8] [])) 8
        (NpyArr_iterBegin (PyObj.ndarray (intArray 7 100 [2, 0] [0, 8] []))
          (installNpyArr basicTypeContext) exampleProcess).1
        (NpyArr_iterBegin (PyObj.ndarray (intArray 7 100 [2, 0] [0, 8] []))
          (installNpyArr basicTypeContext) exampleProcess).2).2.2.pyErr = Option.none ∧
    (iterLoop (encode 8 2) false (PyObj.ndarray (intArray 7 100 [2, 0] [0, 8] [])) 8
        (NpyArr_iterBegin (PyObj.ndarray (intArray 7 100 [2, 0] [0, 8] []))
          (installNpyArr basicTypeContext) exampleProcess).1
        (NpyArr_iterBegin (PyObj.ndarray (intArray 7 100 [2, 0] [0, 8] []))
          (installNpyArr basicTypeContext) exampleProcess).2).2.2.errorMsg = Option.none :=
  (C23_zero_length_axis_yields_nothing 8 1 (intArray 7 100 [2, 0] [0, 8] []) false
    (PyObj.ndarray (intArray 7 100 [2, 0] [0, 8] [])) (installNpyArr basicTypeContext)
    exampleProcess 2 0 0 0 8 (exampleProcess_clean PANDAS_FORMAT.COLUMNS) rfl rfl rfl
    (by decide) (by decide)).2 rfl rfl (Or.inr rfl)

/-- C28 counterexample: the table of one row and no column.  Its block storage (no
block) partitions the empty set of column positions and its dense 1 x 0 array holds
the same (no) cells with the same label tables, yet under orient=values the columnar
walker emits no child at all, whereas the array walker emits one child without
leaves. -/
theorem C28_no_column_counterexample :
    BlockLayout 8 1 { exampleProcess with outputFormat := PANDAS_FORMAT.VALUES } [] 1 0
      (fun _ _ => JSONValue.null) ∧
    DenseTable 8 1 { exampleProcess with outputFormat := PANDAS_FORMAT.VALUES } noColumnsDense
      1 0 ["r0"] [] (fun _ _ => JSONValue.null) ∧
    (encode 8 3 (some noColumnsBlock)
      { exampleProcess with outputFormat := PANDAS_FORMAT.VALUES }).1 = JSONValue.array [] ∧
    (encode 8 3 (some noColumnsDense)
      { exampleProcess with outputFormat := PANDAS_FORMAT.VALUES }).1 =
        JSONValue.array [JSONValue.array []] ∧
    ¬ ((encode 8 3 (some noColumnsBlock)
        { exampleProcess with outputFormat := PANDAS_FORMAT.VALUES }).1 =
      (encode 8 3 (some noColumnsDense)
        { exampleProcess with outputFormat := PANDAS_FORMAT.VALUES }).1) := by
  have hb : (encode 8 3 (some noColumnsBlock)
      { exampleProcess with outputFormat := PANDAS_FORMAT.VALUES }).1 = JSONValue.array [] := by
    rfl
  have hd : (encode 8 3 (some noColumnsDense)
      { exampleProcess with outputFormat := PANDAS_FORMAT.VALUES }).1 =
        JSONValue.array [JSONValue.array []] := by
    rfl
  refine ⟨⟨?_, ?_, ?_, ?_⟩, ?_, hb, hd, ?_⟩
  · intro b hb'
    simp at hb'
  · intro sd hsd
    simp [blockSeeds] at hsd
  · exact List.Perm.refl _
  · intro sd hsd
    simp [blockSeeds] at hsd
  · refine ⟨noColumns, oneRow, intArray 7 100 [1, 0] [8, 8] [], Option.none, 8, 8, rfl,
      ⟨textArray 1 [], textArray 2 ["r0"], rfl, rfl, rfl, rfl, rfl, rfl⟩, rfl, rfl, ?_⟩
    intro i j _ _ hj0 hj
    simp at hj
    omega
  · rw [hb, hd]
    simp

/-- C28 amended: the columnar walker refines the array walker for every R x C table
with at least one column.  When the blocks of the table hold every column position
`0 .. C-1` exactly once and the dense R x C array holds the same cells with the same
label tables, then under each of the orientations values, records, index and columns
the driver emits for the block storage exactly what it emits for the dense array (the
same children in the same order, the same member names and the same leaves), and no
exception or error message is pending after either traversal. -/
theorem C28_columnar_walker_refines_array_walker (lf d : Nat) (st : Encoder)
    (dfB dfD : PyObj) (R C : Nat) (idxL colL : List String) (cells : Int → Int → JSONValue)
    (hB : BlockTable lf d st dfB R C idxL colL cells)
    (hD : DenseTable lf d st dfD R C idxL colL cells) (hst : CleanState st)
    (hR : R < lf) (hC : C < lf) (hfmt : st.outputFormat ≠ PANDAS_FORMAT.SPLIT) :
    (encode lf (d + 2) (some dfB) st).1 = (encode lf (d + 2) (some dfD) st).1 ∧
    (encode lf (d + 2) (some dfD) st).1 =
      tableOutput st.outputFormat (some idxL) (some colL) R C cells ∧
    (encode lf (d + 2) (some dfB) st).2.pyErr = Option.none ∧
    (encode lf (d + 2) (some dfB) st).2.errorMsg = Option.none ∧
    (encode lf (d + 2) (some dfD) st).2.pyErr = Option.none ∧
    (encode lf (d + 2) (some dfD) st).2.errorMsg = Option.none := by
  obtain ⟨sB, heB, hB1, hB2⟩ := table_encode lf d st dfB R C idxL colL cells (Or.inr hB) hst
    hR hC hfmt
  obtain ⟨sD, heD, hD1, hD2⟩ := table_encode lf d st dfD R C idxL colL cells (Or.inl hD) hst
    hR hC hfmt
  rw [heB, heD]
  exact ⟨rfl, rfl, hB1, hB2, hD1, hD2⟩

/-- C28 witness: the 2 x 2 example table in block storage and as a dense array, under
orient=records. -/
theorem C28_columnar_walker_refines_array_walker_witness :
    (encode 8 3 (some exampleTableBlock)
        { exampleProcess with outputFormat := PANDAS_FORMAT.RECORDS }).1 =
      (encode 8 3 (some exampleTableDense)
        { exampleProcess with outputFormat := PANDAS_FORMAT.RECORDS }).1 ∧
    (encode 8 3 (some exampleTableDense)
        { exampleProcess with outputFormat := PANDAS_FORMAT.RECORDS }).1 =
      tableOutput ({ exampleProcess with outputFormat := PANDAS_FORMAT.RECORDS } :
        Encoder).outputFormat (some ["r0", "r1"]) (some ["c0", "c1"]) 2 2 exampleCells ∧
    (encode 8 3 (some exampleTableBlock)
        { exampleProcess with outputFormat := PANDAS_FORMAT.RECORDS }).2.pyErr = Option.none ∧
    (encode 8 3 (some exampleTableBlock)
        { exampleProcess with outputFormat := PANDAS_FORMAT.RECORDS }).2.errorMsg =
      Option.none ∧
    (encode 8 3 (some exampleTableDense)
        { exampleProcess with outputFormat := PANDAS_FORMAT.RECORDS }).2.pyErr = Option.none ∧
    (encode 8 3 (some exampleTableDense)
        { exampleProcess with outputFormat := PANDAS_FORMAT.RECORDS }).2.errorMsg =
      Option.none :=
  C28_columnar_walker_refines_array_walker 8 1
    { exampleProcess with outputFormat := PANDAS_FORMAT.RECORDS } exampleTableBlock
    exampleTableDense 2 2 ["r0", "r1"] ["c0", "c1"] exampleCells
    ((exampleBlock_table 8 0 PANDAS_FORMAT.RECORDS).resolve_left (by
      rintro ⟨cols, idx, a, blocks, s0, s1, h, _⟩
      simp [exampleTableBlock] at h))
    ((exampleDense_table 8 0 PANDAS_FORMAT.RECORDS).resolve_right (by
      rintro ⟨cols, idx, mx, v, blocks, h, _⟩
      simp [exampleTableDense] at h))
    (exampleProcess_clean PANDAS_FORMAT.RECORDS) (by decide) (by decide) (by simp)

theorem begin_index (enc : Option PyObj → Encoder → JSONValue × Encoder)
    (name : Option PyObj) (len : Int) (v : Option (PyArrayObject PyObj)) (st : Encoder)
    (hty : st.npyType = -1) (halloc : st.allocBudget = Option.none) :
    Object_beginTypeContext enc (some (PyObj.index name len v)) st =
      beginIterable enc (PyObj.index name len v) basicTypeContext st := by
  have h1 : ¬ (st.npyType ≥ 0) := by rw [hty]; decide
  have hb : st.allocBudget ≠ some 0 := by rw [halloc]; simp
  simp only [Object_beginTypeContext, h1, if_false, PyBool_Check, createTypeContext_eq st hb,
    afterMalloc_clean st halloc, PyIter_Check, PyArray_Check, beginLeaf,
    Bool.false_eq_true, Bool.false_and, Bool.or_self]

theorem begin_series (enc : Option PyObj → Encoder → JSONValue × Encoder)
    (name idx : Option PyObj) (v : Option (PyArrayObject PyObj)) (st : Encoder)
    (hty : st.npyType = -1) (halloc : st.allocBudget = Option.none) :
    Object_beginTypeContext enc (some (PyObj.series name idx v)) st =
      beginIterable enc (PyObj.series name idx v) basicTypeContext st := by
  have h1 : ¬ (st.npyType ≥ 0) := by rw [hty]; decide
  have hb : st.allocBudget ≠ some 0 := by rw [halloc]; simp
  simp only [Object_beginTypeContext, h1, if_false, PyBool_Check, createTypeContext_eq st hb,
    afterMalloc_clean st halloc, PyIter_Check, PyArray_Check, beginLeaf,
    Bool.false_eq_true, Bool.false_and, Bool.or_self]

theorem vector_encode (lf d : Nat) (o : PyObj) (pc : TypeContext) (st : Encoder)
    (a : PyArrayObject PyObj) (named : Bool) (n : Nat) (s : Int) (cells : Int → JSONValue)
    (hb : Object_beginTypeContext (encode lf d) (some o) st =
      (typed (if named then JSTYPES.JT_OBJECT else JSTYPES.JT_ARRAY) (installNpyArr pc),
        Option.none, st))
    (hnew : pc.newObj = some (PyObj.ndarray a))
    (hdims : a.dims = [(n : Int)]) (hstr : a.strides = [s]) (hst : CleanState st) (hn : n < lf)
    (hq : ∀ k : Int, 0 ≤ k → k < n → CellAt lf d st a (a.data + k * s) (cells k)) :
    ∃ st', encode lf (d + 1) (some o) st =
        (container named (members named pc.columnLabels n cells), st') ∧
      st'.pyErr = Option.none ∧ st'.errorMsg = Option.none := by
  have hbg : Object_iterBegin o (installNpyArr pc) st = NpyArr_iterBegin o (installNpyArr pc) st :=
    rfl
  obtain ⟨tc', st', hw, hc⟩ := vector_walk lf d a named o (installNpyArr pc) st n s cells hdims
    hstr hst (by simp only [installNpyArr, hnew]; rfl) rfl rfl hn hq
  cases named with
  | false =>
    have he := encode_of_begin_array lf d o st st _ hb
    rw [hbg, hw] at he
    exact ⟨_, he, by rw [(Object_iterEnd_err _ _ _).1]; exact hc.pyErr,
      by rw [(Object_iterEnd_err _ _ _).2]; exact hc.errorMsg⟩
  | true =>
    have he := encode_of_begin_object lf d o st st _ hb
    rw [hbg, hw] at he
    exact ⟨_, he, by rw [(Object_iterEnd_err _ _ _).1]; exact hc.pyErr,
      by rw [(Object_iterEnd_err _ _ _).2]; exact hc.errorMsg⟩
/-- C22: shape of labelled 1-D containers by orientation, when no primitive is pending
and the allocator does not fail.  An index node is classified Object exactly when the
orientation is split, then with the fields iterator `Index_iter*`; otherwise an index
with values is classified Array and walked by the array walker over these values, its
n elements being emitted in order.  A series node is classified Object with the fields
iterator `Series_iter*` for split; for index and columns it is classified Object and
walked by the array walker with a label table of as many labels as the series has
elements, the k-th label keying the k-th element; for records and values it is
classified Array, walked by the array walker without labels. -/
theorem C22_index_and_series_shapes (lf d : Nat) (st : Encoder) (name : Option PyObj)
    (hst : CleanState st) :
    (∀ (len : Int) (ov : Option (PyArrayObject PyObj)),
      ((Object_beginTypeContext (encode lf d) (some (PyObj.index name len ov)) st).1.type =
          JSTYPES.JT_OBJECT ↔ st.outputFormat = PANDAS_FORMAT.SPLIT) ∧
      (st.outputFormat = PANDAS_FORMAT.SPLIT →
        Object_beginTypeContext (encode lf d) (some (PyObj.index name len ov)) st =
          (typed JSTYPES.JT_OBJECT
            { basicTypeContext with
                iterBegin := some IterBeginFn.Index_iterBegin,
                iterEnd := some IterEndFn.Index_iterEnd,
                iterNext := some IterNextFn.Index_iterNext,
                iterGetValue := some IterGetValueFn.Index_iterGetValue,
                iterGetName := some IterGetNameFn.Index_iterGetName }, Option.none, st)) ∧
      (st.outputFormat ≠ PANDAS_FORMAT.SPLIT → ∀ v, ov = some v →
        Object_beginTypeContext (encode lf d) (some (PyObj.index name len ov)) st =
          (typed JSTYPES.JT_ARRAY
            (installNpyArr { basicTypeContext with newObj := some (PyObj.ndarray v) }),
            Option.none, st) ∧
        ∀ (n : Nat) (s : Int) (cells : Int → JSONValue),
          v.dims = [(n : Int)] → v.strides = [s] → n < lf →
          (∀ k : Int, 0 ≤ k → k < n → CellAt lf d st v (v.data + k * s) (cells k)) →
          ∃ st', encode lf (d + 1) (some (PyObj.index name len ov)) st =
              (JSONValue.array ((List.range n).map (fun (k : Nat) => cells (k : Int))), st') ∧
            st'.pyErr = Option.none ∧ st'.errorMsg = Option.none)) ∧
    (∀ (idx : Option PyObj) (ov : Option (PyArrayObject PyObj)),
      (st.outputFormat = PANDAS_FORMAT.SPLIT →
        Object_beginTypeContext (encode lf d) (some (PyObj.series name idx ov)) st =
          (typed JSTYPES.JT_OBJECT
            { basicTypeContext with
                iterBegin := some IterBeginFn.Series_iterBegin,
                iterEnd := some IterEndFn.Series_iterEnd,
                iterNext := some IterNextFn.Series_iterNext,
                iterGetValue := some IterGetValueFn.Series_iterGetValue,
                iterGetName := some IterGetNameFn.Series_iterGetName }, Option.none, st)) ∧
      (st.outputFormat = PANDAS_FORMAT.INDEX ∨ st.outputFormat = PANDAS_FORMAT.COLUMNS →
        ∀ (v iv : PyArrayObject PyObj) (io : PyObj) (labels : List String),
          ov = some v → idx = some io → get_values io = some iv →
          NpyArr_encodeLabels (some iv) (PyArray_DIM v 0) st = (some labels, st) →
          Object_beginTypeContext (encode lf d) (some (PyObj.series name idx ov)) st =
            (typed JSTYPES.JT_OBJECT
              (installNpyArr { basicTypeContext with
                newObj := some (PyObj.ndarray v),
                columnLabelsLen := PyArray_DIM v 0,
                columnLabels := some labels }), Option.none, st) ∧
          labels.length = (PyArray_DIM v 0).toNat ∧
          ∀ (n : Nat) (s : Int) (cells : Int → JSONValue),
            v.dims = [(n : Int)] → v.strides = [s] → n < lf →
            (∀ k : Int, 0 ≤ k → k < n → CellAt lf d st v (v.data + k * s) (cells k)) →
            labels.length = n ∧
            ∃ st', encode lf (d + 1) (some (PyObj.series name idx ov)) st =
                (JSONValue.object ((List.range n).map (fun (k : Nat) =>
                  (labels.get? k, cells (k : Int)))), st') ∧
              st'.pyErr = Option.none ∧ st'.errorMsg = Option.none) ∧
      (st.outputFormat = PANDAS_FORMAT.RECORDS ∨ st.outputFormat = PANDAS_FORMAT.VALUES →
        ∀ v, ov = some v →
          Object_beginTypeContext (encode lf d) (some (PyObj.series name idx ov)) st =
            (typed JSTYPES.JT_ARRAY
              (installNpyArr { basicTypeContext with newObj := some (PyObj.ndarray v) }),
              Option.none, st) ∧
          (installNpyArr { basicTypeContext with
            newObj := some (PyObj.ndarray v) }).columnLabels = Option.none ∧
          ∀ (n : Nat) (s : Int) (cells : Int → JSONValue),
            v.dims = [(n : Int)] → v.strides = [s] → n < lf →
            (∀ k : Int, 0 ≤ k → k < n → CellAt lf d st v (v.data + k * s) (cells k)) →
            ∃ st', encode lf (d + 1) (some (PyObj.series name idx ov)) st =
                (JSONValue.array ((List.range n).map (fun (k : Nat) => cells (k : Int))), st') ∧
              st'.pyErr = Option.none ∧ st'.errorMsg = Option.none)) := by
  have harrm : ∀ (n : Nat) (cells : Int → JSONValue),
      container false (members false Option.none n cells) =
        JSONValue.array ((List.range n).map (fun (k : Nat) => cells (k : Int))) := by
    intro n cells
    simp [container, members, Function.comp_def]
  have hobjm : ∀ (n : Nat) (labels : List String) (cells : Int → JSONValue),
      container true (members true (some labels) n cells) =
        JSONValue.object ((List.range n).map (fun (k : Nat) =>
          (labels.get? k, cells (k : Int)))) := by
    intro n labels cells
    simp [container, members, labelAt_some]
  refine ⟨?_, ?_⟩
  · intro len ov
    have hbi := begin_index (encode lf d) name len ov st hst.npyType hst.allocBudget
    refine ⟨?_, ?_, ?_⟩
    · rw [hbi]
      by_cases hf : st.outputFormat = PANDAS_FORMAT.SPLIT
      · simp [beginIterable, hf, typed]
      · cases ov <;> simp [beginIterable, hf, typed, get_values, invalidContext]
    · intro hf
      rw [hbi]
      simp [beginIterable, hf]
    · intro hf v hov
      subst hov
      have hb : Object_beginTypeContext (encode lf d) (some (PyObj.index name len (some v))) st =
          (typed JSTYPES.JT_ARRAY
            (installNpyArr { basicTypeContext with newObj := some (PyObj.ndarray v) }),
            Option.none, st) := by
        rw [hbi]
        simp [beginIterable, hf, get_values]
      refine ⟨hb, ?_⟩
      intro n s cells hdims hstr hn hq
      obtain ⟨st', he, h1, h2⟩ := vector_encode lf d _
        { basicTypeContext with newObj := some (PyObj.ndarray v) } st v false n s cells hb rfl
        hdims hstr hst hn hq
      exact ⟨st', by rw [he]; exact congrArg (fun x => (x, st')) (harrm n cells), h1, h2⟩
  · intro idx ov
    have hbs := begin_series (encode lf d) name idx ov st hst.npyType hst.allocBudget
    refine ⟨?_, ?_, ?_⟩
    · intro hf
      rw [hbs]
      simp [beginIterable, hf]
    · intro hf v iv io labels hov hidx hiv hlab
      subst hov
      subst hidx
      have hns : st.outputFormat ≠ PANDAS_FORMAT.SPLIT := by
        rcases hf with h | h <;> rw [h] <;> decide
      have hb : Object_beginTypeContext (encode lf d)
          (some (PyObj.series name (some io) (some v))) st =
          (typed JSTYPES.JT_OBJECT
            (installNpyArr { basicTypeContext with
              newObj := some (PyObj.ndarray v),
              columnLabelsLen := PyArray_DIM v 0,
              columnLabels := some labels }), Option.none, st) := by
        rw [hbs]
        have hg : get_values (PyObj.series name (some io) (some v)) = some v := rfl
        simp [beginIterable, hns, hf, hg, getAttr_index, hiv, hlab]
      have hlen := encodeLabels_length iv _ st st labels hlab
      refine ⟨hb, hlen, ?_⟩
      intro n s cells hdims hstr hn hq
      have hD0 : PyArray_DIM v 0 = n := by simp [PyArray_DIM, hdims]
      obtain ⟨st', he, h1, h2⟩ := vector_encode lf d _
        { basicTypeContext with
          newObj := some (PyObj.ndarray v),
          columnLabelsLen := PyArray_DIM v 0,
          columnLabels := some labels } st v true n s cells hb rfl hdims hstr hst hn hq
      refine ⟨by rw [hlen, hD0]; simp, st', ?_, h1, h2⟩
      rw [he]
      exact congrArg (fun x => (x, st')) (hobjm n labels cells)
    · intro hf v hov
      subst hov
      have hns : st.outputFormat ≠ PANDAS_FORMAT.SPLIT := by
        rcases hf with h | h <;> rw [h] <;> decide
      have hni : ¬ (st.outputFormat = PANDAS_FORMAT.INDEX ∨
          st.outputFormat = PANDAS_FORMAT.COLUMNS) := by
        rcases hf with h | h <;> rw [h] <;> decide
      have hb : Object_beginTypeContext (encode lf d)
          (some (PyObj.series name idx (some v))) st =
          (typed JSTYPES.JT_ARRAY
            (installNpyArr { basicTypeContext with newObj := some (PyObj.ndarray v) }),
            Option.none, st) := by
        rw [hbs]
        simp [beginIterable, hns, hni, get_values]
      refine ⟨hb, rfl, ?_⟩
      intro n s cells hdims hstr hn hq
      obtain ⟨st', he, h1, h2⟩ := vector_encode lf d _
        { basicTypeContext with newObj := some (PyObj.ndarray v) } st v false n s cells hb rfl
        hdims hstr hst hn hq
      exact ⟨st', by rw [he]; exact congrArg (fun x => (x, st')) (harrm n cells), h1, h2⟩
/-- C22 witness: the series of 5 and 6 labelled r0 and r1 under orient=index is
emitted as the object with the members r0: 5 and r1: 6, from a label table of two
labels. -/
theorem C22_index_and_series_shapes_witness :
    ["r0", "r1"].length = 2 ∧
    ∃ st', encode 8 2 (some exampleSeries)
        { exampleProcess with outputFormat := PANDAS_FORMAT.INDEX } =
        (JSONValue.object ((List.range 2).map (fun (k : Nat) =>
          (["r0", "r1"].get? k, JSONValue.long (5 + (k : Int))))), st') ∧
      st'.pyErr = Option.none ∧ st'.errorMsg = Option.none :=
  ((((C22_index_and_series_shapes 8 1 { exampleProcess with outputFormat := PANDAS_FORMAT.INDEX }
    Option.none (exampleProcess_clean PANDAS_FORMAT.INDEX)).2 (some exampleIndex)
    (some (intArray 9 300 [2] [8] [5, 6]))).2.1 (Or.inl rfl) (intArray 9 300 [2] [8] [5, 6])
    (textArray 2 ["r0", "r1"]) exampleIndex ["r0", "r1"] rfl rfl rfl rfl).2.2 2 8
    (fun k => JSONValue.long (5 + k)) rfl rfl (by decide)
    (fun k hk0 hk => by
      refine CellAt_of_quiet 8 (0 + 1) _ _ _ _ (PyObj.long (5 + k)) rfl ?_
        (QuietLeaf_long 8 0 (5 + k) (by
          simp only [NPY_MIN_INT64, NPY_MAX_INT64]
          constructor <;> omega))
      have hk' : k = 0 ∨ k = 1 := by omega
      rcases hk' with rfl | rfl <;> rfl))

theorem CellAt_datetime (lf d : Nat) (st : Encoder) (a : PyArrayObject PyObj) (ptr : Int)
    (hdt : PyTypeNum_ISDATETIME a.type_num = true) (hiso : st.datetimeIso = false)
    (hnat : wrapInt64 (st.loadInt a.type_num ptr) ≠ get_nat) :
    CellAt lf (d + 1) st a ptr
      (JSONValue.long ((scaleToUnit st.datetimeUnit
        (wrapInt64 (st.loadInt a.type_num ptr))).getD (wrapInt64 (st.loadInt a.type_num ptr)))) := by
  unfold CellAt
  rw [if_pos hdt]
  intro obj S q hS hF
  obtain ⟨nh, bh, nv, fr, fmt, rfl⟩ := hF
  have hge : a.type_num ≥ 0 := by
    simp only [PyTypeNum_ISDATETIME, NPY_DATETIME, NPY_TIMEDELTA, Bool.and_eq_true,
      decide_eq_true_eq] at hdt
    omega
  have hfl : PyTypeNum_ISFLOAT a.type_num = false := by
    simp only [PyTypeNum_ISDATETIME, NPY_DATETIME, NPY_TIMEDELTA, Bool.and_eq_true,
      decide_eq_true_eq] at hdt
    simp only [PyTypeNum_ISFLOAT, NPY_FLOAT, NPY_LONGDOUBLE, NPY_HALF, Bool.or_eq_false_iff,
      Bool.and_eq_false_iff, decide_eq_false_iff_not]
    omega
  rw [encode_succ]
  simp only [Object_beginTypeContext, hge, if_true, NpyTypeToJSONType, hfl, hdt, hnat, hiso,
    Bool.false_eq_true, if_false]
  have h1 := hS.npyType
  have h2 := hS.npyCtxtPassthru
  simp only at h1 h2
  simp [Object_endTypeContext, Object_getLongValue, withValue, h1, h2]

theorem orShift_step (s y n : Nat)
    (h : ∀ i, s.testBit i = true ↔ ∃ j, j < n ∧ y.testBit (i + j) = true) :
    ∀ i, (s ||| (s >>> n)).testBit i = true ↔ ∃ j, j < 2 * n ∧ y.testBit (i + j) = true := by
  intro i
  rw [Nat.testBit_or, Nat.testBit_shiftRight, Bool.or_eq_true, h, h]
  constructor
  · rintro (⟨j, hj, hb⟩ | ⟨j, hj, hb⟩)
    · exact ⟨j, by omega, hb⟩
    · exact ⟨n + j, by omega, by rw [← hb]; congr 1; omega⟩
  · rintro ⟨j, hj, hb⟩
    by_cases hjn : j < n
    · exact Or.inl ⟨j, hjn, hb⟩
    · exact Or.inr ⟨j - n, by omega, by rw [← hb]; congr 1; omega⟩

theorem orShifts_fill (y k : Nat) (hk : k ≤ 32) (hlo : 0 < k → 2 ^ (k - 1) ≤ y)
    (hhi : y < 2 ^ k) :
    ((((y ||| (y >>> 1)) ||| ((y ||| (y >>> 1)) >>> 2)) |||
        (((y ||| (y >>> 1)) ||| ((y ||| (y >>> 1)) >>> 2)) >>> 4)) |||
      ((((y ||| (y >>> 1)) ||| ((y ||| (y >>> 1)) >>> 2)) |||
        (((y ||| (y >>> 1)) ||| ((y ||| (y >>> 1)) >>> 2)) >>> 4)) >>> 8)) |||
      (((((y ||| (y >>> 1)) ||| ((y ||| (y >>> 1)) >>> 2)) |||
        (((y ||| (y >>> 1)) ||| ((y ||| (y >>> 1)) >>> 2)) >>> 4)) |||
      ((((y ||| (y >>> 1)) ||| ((y ||| (y >>> 1)) >>> 2)) |||
        (((y ||| (y >>> 1)) ||| ((y ||| (y >>> 1)) >>> 2)) >>> 4)) >>> 8)) >>> 16) =
      2 ^ k - 1 := by
  have h0 : ∀ i, y.testBit i = true ↔ ∃ j, j < 1 ∧ y.testBit (i + j) = true := by
    intro i
    constructor
    · intro h; exact ⟨0, by omega, h⟩
    · rintro ⟨j, hj, hb⟩
      have : j = 0 := by omega
      subst this
      exact hb
  have h1 := orShift_step y y 1 h0
  have h2 := orShift_step _ y 2 h1
  have h3 := orShift_step _ y 4 h2
  have h4 := orShift_step _ y 8 h3
  have h5 := orShift_step _ y 16 h4
  apply Nat.eq_of_testBit_eq
  intro i
  rw [Nat.testBit_two_pow_sub_one]
  by_cases hik : i < k
  · rw [decide_eq_true hik]
    rw [h5]
    have hpos : 0 < k := by omega
    obtain ⟨m, hm, hb⟩ := Nat.ge_two_pow_implies_high_bit_true (hlo hpos)
    have hmk : m < k := by
      by_contra hc
      have hle : k ≤ m := by omega
      have : y < 2 ^ m := lt_of_lt_of_le hhi (Nat.pow_le_pow_right (by decide) hle)
      rw [Nat.testBit_lt_two_pow this] at hb
      exact Bool.noConfusion hb
    have hmeq : m = k - 1 := by omega
    refine ⟨k - 1 - i, by omega, ?_⟩
    rw [← hb]
    congr 1
    omega
  · rw [decide_eq_false hik]
    rw [Bool.eq_false_iff]
    intro hc
    rw [h5] at hc
    obtain ⟨j, _, hb⟩ := hc
    have : y < 2 ^ (i + j) := lt_of_lt_of_le hhi (Nat.pow_le_pow_right (by decide) (by omega))
    rw [Nat.testBit_lt_two_pow this] at hb
    exact Bool.noConfusion hb

theorem bitLength_bounds (y : Nat) (hy : y < 2 ^ 31) :
    ∃ k, k ≤ 31 ∧ (0 < k → 2 ^ (k - 1) ≤ y) ∧ y < 2 ^ k := by
  refine ⟨Nat.size y, ?_, ?_, Nat.lt_size_self y⟩
  · exact Nat.size_le.mpr hy
  · intro hpos
    exact Nat.lt_size.mp (by omega)
/-- C39: `kv_roundup32` rounds up to a power of two.  For every 32-bit unsigned x with
1 <= x <= 2^31 the result, computed modulo 2^32, is the least power of two that is
>= x, so a power of two is left unchanged; on the `size_t` operand `kv_a` passes, the
macro gives the same value for these x. -/
theorem C39_roundup32_least_power_of_two (x : Nat) (h1 : 1 ≤ x) (h2 : x ≤ 2 ^ 31) :
    ∃ k, kv_roundup32_uint32 x = 2 ^ k ∧ x ≤ 2 ^ k ∧ (∀ j, x ≤ 2 ^ j → 2 ^ k ≤ 2 ^ j) ∧
      (∀ j, x = 2 ^ j → kv_roundup32_uint32 x = x) ∧ kv_roundup32 x = 2 ^ k := by
  obtain ⟨k, hk, hlo, hhi⟩ := bitLength_bounds (x - 1) (by omega)
  have hfill := orShifts_fill (x - 1) k (by omega) hlo hhi
  have hpk : 2 ^ k ≤ 2 ^ 31 := Nat.pow_le_pow_right (by decide) hk
  have hpos : 0 < 2 ^ k := Nat.pow_pos (by decide)
  have hd32 : (x + 2 ^ 32 - 1) % 2 ^ 32 = x - 1 := by omega
  have hd64 : (x + SIZE_T - 1) % SIZE_T = x - 1 := by
    simp only [SIZE_T]
    omega
  have h32 : kv_roundup32_uint32 x = 2 ^ k := by
    simp only [kv_roundup32_uint32, hd32, hfill]
    omega
  have h64 : kv_roundup32 x = 2 ^ k := by
    simp only [kv_roundup32, hd64, hfill]
    simp only [SIZE_T]
    omega
  have hle : x ≤ 2 ^ k := by omega
  have hmin : ∀ j, x ≤ 2 ^ j → 2 ^ k ≤ 2 ^ j := by
    intro j hj
    apply Nat.pow_le_pow_right (by decide)
    by_contra hc
    have hjk : j ≤ k - 1 := by omega
    have hkpos : 0 < k := by omega
    have := hlo hkpos
    have hjp : 2 ^ j ≤ 2 ^ (k - 1) := Nat.pow_le_pow_right (by decide) hjk
    omega
  refine ⟨k, h32, hle, hmin, ?_, h64⟩
  intro j hj
  rw [h32]
  have := hmin j (le_of_eq hj)
  omega

/-- C39 witness: 5 is rounded up to 8. -/
theorem C39_roundup32_least_power_of_two_witness :
    ∃ k, kv_roundup32_uint32 5 = 2 ^ k ∧ 5 ≤ 2 ^ k ∧ (∀ j, 5 ≤ 2 ^ j → 2 ^ k ≤ 2 ^ j) ∧
      (∀ j, 5 = 2 ^ j → kv_roundup32_uint32 5 = 5) ∧ kv_roundup32 5 = 2 ^ k :=
  C39_roundup32_least_power_of_two 5 (by decide) (by decide)

theorem toString_int64_length (v : Int) (hlo : NPY_MIN_INT64 ≤ v) (hhi : v ≤ NPY_MAX_INT64) :
    (toString v).length ≤ 20 := by
  simp only [NPY_MIN_INT64, NPY_MAX_INT64] at hlo hhi
  cases v with
  | ofNat n =>
    have hn : n < 10 ^ 19 := by
      have : (n : Int) ≤ 9223372036854775807 := hhi
      norm_num
      omega
    have := Nat.repr_length n 19 (by decide) hn
    show (Nat.repr n).length ≤ 20
    omega
  | negSucc n =>
    have hn : n + 1 < 10 ^ 19 := by
      have h0 : -9223372036854775808 ≤ Int.negSucc n := hlo
      rw [Int.negSucc_eq] at h0
      norm_num
      omega
    have := Nat.repr_length (n + 1) 19 (by decide) hn
    show ("-" ++ Nat.repr (n + 1)).length ≤ 20
    rw [String.length_append]
    have h1 : "-".length = 1 := rfl
    omega

theorem cdiv_int64 (v k : Int) (hk : 0 < k) (hlo : NPY_MIN_INT64 ≤ v)
    (hhi : v ≤ NPY_MAX_INT64) : NPY_MIN_INT64 ≤ cdiv v k ∧ cdiv v k ≤ NPY_MAX_INT64 := by
  simp only [NPY_MIN_INT64, NPY_MAX_INT64, cdiv] at *
  rcases le_or_lt 0 v with h | h
  · have h1 : 0 ≤ Int.tdiv v k := Int.tdiv_nonneg h (le_of_lt hk)
    have h2 : Int.tdiv v k ≤ v := by
      rw [Int.tdiv_eq_ediv h (le_of_lt hk)]
      exact Int.ediv_le_self k h
    omega
  · have h1 : Int.tdiv v k = -Int.tdiv (-v) k := by rw [Int.neg_tdiv, neg_neg]
    have h3 : 0 ≤ Int.tdiv (-v) k := Int.tdiv_nonneg (by omega) (le_of_lt hk)
    have h2 : Int.tdiv (-v) k ≤ -v := by
      rw [Int.tdiv_eq_ediv (by omega) (le_of_lt hk)]
      exact Int.ediv_le_self k (by omega)
    omega
/-- C40: the epoch-label buffer is large enough.  The decimal rendering of every 64-bit
signed integer (with a leading minus sign when negative) has at most 20 characters,
so with its terminator it fits the 21 bytes of the buffer; in particular whenever
`NpyArr_encodeLabels` renders the scaled epoch value of a label (ISO mode off, a
datetime label whose nanosecond value is a 64-bit signed integer), the text `sprintf`
writes, terminator included, does not exceed the buffer. -/
theorem C40_epoch_label_fits_buffer (st : Encoder) (type_num : Int) (item : PyObj)
    (ts : TimestampInfo) (s : String)
    (hiso : st.datetimeIso = false)
    (hdt : (PyTypeNum_ISDATETIME type_num || PyDateOrDateTime_Check item) = true)
    (hts : st.py.timestamp item = some ts)
    (hlo : NPY_MIN_INT64 ≤ (if ts.hasValue then ts.value else ts.totalSecondsNs))
    (hhi : (if ts.hasValue then ts.value else ts.totalSecondsNs) ≤ NPY_MAX_INT64)
    (hres : NpyArr_encodeLabel st type_num item = LabelResult.label s) :
    (∀ v : Int, NPY_MIN_INT64 ≤ v → v ≤ NPY_MAX_INT64 →
      (toString v).length ≤ 20 ∧ (toString v).length + 1 ≤ epochLabelBufferSize) ∧
    s.length ≤ 20 ∧ s.length + 1 ≤ epochLabelBufferSize := by
  have hall : ∀ v : Int, NPY_MIN_INT64 ≤ v → v ≤ NPY_MAX_INT64 →
      (toString v).length ≤ 20 ∧ (toString v).length + 1 ≤ epochLabelBufferSize := by
    intro v h1 h2
    have := toString_int64_length v h1 h2
    exact ⟨this, by simp only [epochLabelBufferSize]; omega⟩
  refine ⟨hall, ?_⟩
  unfold NpyArr_encodeLabel at hres
  simp only [hiso, Bool.false_and, Bool.false_eq_true, if_false, hdt, if_true, hts] at hres
  cases hu : st.datetimeUnit <;> simp only [hu, scaleToUnit] at hres
  all_goals first
    | exact LabelResult.noConfusion hres
    | (injection hres with hres
       subst hres
       first
         | exact hall _ hlo hhi
         | exact hall _ (cdiv_int64 _ 1000 (by decide) hlo hhi).1
             (cdiv_int64 _ 1000 (by decide) hlo hhi).2
         | exact hall _ (cdiv_int64 _ 1000000 (by decide) hlo hhi).1
             (cdiv_int64 _ 1000000 (by decide) hlo hhi).2
         | exact hall _ (cdiv_int64 _ 1000000000 (by decide) hlo hhi).1
             (cdiv_int64 _ 1000000000 (by decide) hlo hhi).2)

/-- C40 witness: the label of the most negative 64-bit value under unit ns has exactly
20 characters and fits the buffer. -/
theorem C40_epoch_label_fits_buffer_witness :
    (∀ v : Int, NPY_MIN_INT64 ≤ v → v ≤ NPY_MAX_INT64 →
      (toString v).length ≤ 20 ∧ (toString v).length + 1 ≤ epochLabelBufferSize) ∧
    "-9223372036854775808".length ≤ 20 ∧
      "-9223372036854775808".length + 1 ≤ epochLabelBufferSize :=
  C40_epoch_label_fits_buffer
    { exampleProcess with
        datetimeUnit := NPY_DATETIMEUNIT.NPY_FR_ns,
        py := { exampleRuntime with
          timestamp := fun _ =>
            some { isoformat := Option.none, hasValue := true, value := NPY_MIN_INT64,
                   totalSecondsNs := 0 } } }
    NPY_DATETIME (PyObj.long 0)
    { isoformat := Option.none, hasValue := true, value := NPY_MIN_INT64, totalSecondsNs := 0 }
    "-9223372036854775808" rfl rfl rfl (by decide) (by decide) rfl

theorem cdiv_gt_min (v k : Int) (hk : 0 < k) (hlo : NPY_MIN_INT64 < v) :
    NPY_MIN_INT64 < cdiv v k := by
  simp only [NPY_MIN_INT64, cdiv] at *
  rcases le_or_lt 0 v with h | h
  · have h1 : 0 ≤ Int.tdiv v k := Int.tdiv_nonneg h (le_of_lt hk)
    omega
  · have h1 : Int.tdiv v k = -Int.tdiv (-v) k := by rw [Int.neg_tdiv, neg_neg]
    have h2 : Int.tdiv (-v) k ≤ -v := by
      rw [Int.tdiv_eq_ediv (by omega) (le_of_lt hk)]
      exact Int.ediv_le_self k (by omega)
    omega

theorem scaleToUnit_of_mem (u : NPY_DATETIMEUNIT) (k v : Int)
    (hu : (u, k) ∈ [(NPY_DATETIMEUNIT.NPY_FR_ns, (1 : Int)),
      (NPY_DATETIMEUNIT.NPY_FR_us, 1000), (NPY_DATETIMEUNIT.NPY_FR_ms, 1000000),
      (NPY_DATETIMEUNIT.NPY_FR_s, 1000000000)]) :
    scaleToUnit u v = some (Int.tdiv v k) ∧ 0 < k := by
  simp only [List.mem_cons, Prod.mk.injEq, List.mem_singleton, List.not_mem_nil, or_false] at hu
  rcases hu with ⟨rfl, rfl⟩ | ⟨rfl, rfl⟩ | ⟨rfl, rfl⟩ | ⟨rfl, rfl⟩
  · exact ⟨by simp [scaleToUnit], by decide⟩
  · exact ⟨rfl, by decide⟩
  · exact ⟨rfl, by decide⟩
  · exact ⟨rfl, by decide⟩

/-- C35: epoch scaling is one policy everywhere.  For every nanosecond value v of the
64-bit signed range other than the sentinel and every date unit ns, us, ms, s with its
divisor k = 1, 10^3, 10^6, 10^9: the integer stored for a datetime array element by
`NpyTypeToJSONType`, the integer stored for a duration leaf by the PyDelta branch
(whether the value comes from the attribute `value` or from `total_seconds`) and the
integer rendered as a label by `NpyArr_encodeLabels` are all v divided by k with
division truncating toward zero. -/
theorem C35_epoch_scaling_one_policy (enc : Option PyObj → Encoder → JSONValue × Encoder)
    (st : Encoder) (u : NPY_DATETIMEUNIT) (k v : Int)
    (hu : (u, k) ∈ [(NPY_DATETIMEUNIT.NPY_FR_ns, (1 : Int)),
      (NPY_DATETIMEUNIT.NPY_FR_us, 1000), (NPY_DATETIMEUNIT.NPY_FR_ms, 1000000),
      (NPY_DATETIMEUNIT.NPY_FR_s, 1000000000)])
    (hunit : st.datetimeUnit = u) (hiso : st.datetimeIso = false)
    (hlo : NPY_MIN_INT64 < v) (hhi : v ≤ NPY_MAX_INT64) :
    (∀ (tc : TypeContext) (t p : Int), PyTypeNum_ISDATETIME t = true →
      wrapInt64 (st.loadInt t p) = v →
      NpyTypeToJSONType tc t p st = (JSTYPES.JT_LONG, { tc with longValue := Int.tdiv v k })) ∧
    (st.npyType < 0 → st.allocBudget ≠ some 0 → st.pyErr ≠ some PyExc.OverflowError →
      (∀ tsn : Int,
        Object_beginTypeContext enc (some (PyObj.timedelta (some v) tsn)) st =
          (typed JSTYPES.JT_LONG { basicTypeContext with longValue := Int.tdiv v k },
            Option.none, afterMalloc st)) ∧
      Object_beginTypeContext enc (some (PyObj.timedelta Option.none v)) st =
        (typed JSTYPES.JT_LONG { basicTypeContext with longValue := Int.tdiv v k },
          Option.none, afterMalloc st)) ∧
    (∀ (t : Int) (item : PyObj) (ts : TimestampInfo),
      (PyTypeNum_ISDATETIME t || PyDateOrDateTime_Check item) = true →
      st.py.timestamp item = some ts →
      (if ts.hasValue then ts.value else ts.totalSecondsNs) = v →
      NpyArr_encodeLabel st t item = LabelResult.label (toString (Int.tdiv v k))) := by
  obtain ⟨hs, hk⟩ := scaleToUnit_of_mem u k v hu
  have hne : Int.tdiv v k ≠ get_nat := by
    have := cdiv_gt_min v k hk hlo
    simp only [cdiv] at this
    simp only [get_nat]
    omega
  have hvne : v ≠ get_nat := by
    simp only [get_nat]
    omega
  refine ⟨?_, ?_, ?_⟩
  · intro tc t p hdt hv
    have hfl : PyTypeNum_ISFLOAT t = false := by
      simp only [PyTypeNum_ISDATETIME, NPY_DATETIME, NPY_TIMEDELTA, Bool.and_eq_true,
        decide_eq_true_eq] at hdt
      simp only [PyTypeNum_ISFLOAT, NPY_FLOAT, NPY_LONGDOUBLE, NPY_HALF, Bool.or_eq_false_iff,
        Bool.and_eq_false_iff, decide_eq_false_iff_not]
      omega
    simp only [NpyTypeToJSONType, hfl, hdt, hv, hvne, hiso, hunit, hs, Bool.false_eq_true,
      if_false, if_true, Option.getD_some]
  · intro hty halloc herr
    have h1 : ¬ (st.npyType ≥ 0) := by omega
    have h2 : (afterMalloc st).pyErr = st.pyErr := rfl
    have h3 : (afterMalloc st).datetimeUnit = st.datetimeUnit := rfl
    have hin : NPY_MIN_INT64 ≤ v ∧ v ≤ NPY_MAX_INT64 := ⟨le_of_lt hlo, hhi⟩
    refine ⟨?_, ?_⟩
    · intro tsn
      simp [Object_beginTypeContext, h1, PyBool_Check, createTypeContext_eq st halloc,
        PyIter_Check, PyArray_Check, beginLeaf, PyLong_AsLongLong, hin, overflowPending, h2, h3,
        herr, hunit, hs, hne]
    · simp [Object_beginTypeContext, h1, PyBool_Check, createTypeContext_eq st halloc,
        PyIter_Check, PyArray_Check, beginLeaf, overflowPending, h2, h3,
        herr, hunit, hs, hne]
  · intro t item ts hdt hts hv
    simp only [NpyArr_encodeLabel, hiso, Bool.false_and, Bool.false_eq_true, if_false, hdt,
      if_true, hts, hv, hunit, hs]

/-- C35 witness: under unit ms the duration of 1500000000 ns is stored as 1500. -/
theorem C35_epoch_scaling_one_policy_witness :
    Object_beginTypeContext (encode 8 0) (some (PyObj.timedelta (some 1500000000) 0))
        exampleProcess =
      (typed JSTYPES.JT_LONG
        { basicTypeContext with longValue := Int.tdiv 1500000000 1000000 },
        Option.none, afterMalloc exampleProcess) ∧
    Int.tdiv 1500000000 1000000 = 1500 :=
  ⟨((C35_epoch_scaling_one_policy (encode 8 0) exampleProcess NPY_DATETIMEUNIT.NPY_FR_ms
    1000000 1500000000 (by simp) rfl rfl (by decide) (by decide)).2.1 (by decide) (by decide)
    (by decide)).1 0, by decide⟩

/-- C36: when a primitive is pending (`npyType >= 0`) a non-null node is classified from
the pending type number alone, before any check of the object (so also for a boolean
or `None`), trying the categories float, datetime, integer, bool in this order: a float
element is Null when NaN or infinite and Double otherwise; a datetime element equal to
the sentinel is Null for every date unit and ISO setting, and otherwise Utf8 in ISO
mode and Long else; an integer element is Long; a bool element is True or False; an
element of none of the four categories gets the invalid shape, the default handler
being invoked on the element extracted from the handed-over cursor if a handler is
configured and RuntimeError being raised otherwise.  In every case the pending
primitive and the handed-over cursor are cleared on return. -/
theorem C36_pending_primitive_classified_first
    (enc : Option PyObj → Encoder → JSONValue × Encoder) (obj : PyObj) (st : Encoder)
    (hp : st.npyType ≥ 0) :
    (Object_beginTypeContext enc (some obj) st).1.type =
        (NpyTypeToJSONType basicTypeContext st.npyType st.npyValue st).1 ∧
    (PyTypeNum_ISFLOAT st.npyType = true →
      (NpyTypeToJSONType basicTypeContext st.npyType st.npyValue st).1 =
        if npy_isnan (st.loadDouble st.npyType st.npyValue) ||
            npy_isinf (st.loadDouble st.npyType st.npyValue) then JSTYPES.JT_NULL
        else JSTYPES.JT_DOUBLE) ∧
    (PyTypeNum_ISFLOAT st.npyType = false → PyTypeNum_ISDATETIME st.npyType = true →
      (wrapInt64 (st.loadInt st.npyType st.npyValue) = get_nat →
        (NpyTypeToJSONType basicTypeContext st.npyType st.npyValue st).1 = JSTYPES.JT_NULL) ∧
      (wrapInt64 (st.loadInt st.npyType st.npyValue) ≠ get_nat →
        (NpyTypeToJSONType basicTypeContext st.npyType st.npyValue st).1 =
          if st.datetimeIso then JSTYPES.JT_UTF8 else JSTYPES.JT_LONG)) ∧
    (PyTypeNum_ISFLOAT st.npyType = false → PyTypeNum_ISDATETIME st.npyType = false →
      PyTypeNum_ISINTEGER st.npyType = true →
      (NpyTypeToJSONType basicTypeContext st.npyType st.npyValue st).1 = JSTYPES.JT_LONG) ∧
    (PyTypeNum_ISFLOAT st.npyType = false → PyTypeNum_ISDATETIME st.npyType = false →
      PyTypeNum_ISINTEGER st.npyType = false → PyTypeNum_ISBOOL st.npyType = true →
      (NpyTypeToJSONType basicTypeContext st.npyType st.npyValue st).1 =
        if st.loadBool st.npyValue then JSTYPES.JT_TRUE else JSTYPES.JT_FALSE) ∧
    (PyTypeNum_ISFLOAT st.npyType = false → PyTypeNum_ISDATETIME st.npyType = false →
      PyTypeNum_ISINTEGER st.npyType = false → PyTypeNum_ISBOOL st.npyType = false →
      (Object_beginTypeContext enc (some obj) st).1.type = JSTYPES.JT_INVALID ∧
      (st.defaultHandler.isSome = true →
        (Object_beginTypeContext enc (some obj) st).2.1 =
          (Object_invokeDefaultHandler enc
            (((npyLoad st st.npyCtxtPassthru).array.getD noArray).getitem st.npyValue)
            { st with npyType := -1 }).1 ∧
        (Object_beginTypeContext enc (some obj) st).2.2 =
          { (Object_invokeDefaultHandler enc
              (((npyLoad st st.npyCtxtPassthru).array.getD noArray).getitem st.npyValue)
              { st with npyType := -1 }).2 with
            npyCtxtPassthru := Option.none, npyType := -1 }) ∧
      (st.defaultHandler.isSome = false →
        (Object_beginTypeContext enc (some obj) st).2.2.pyErr = some PyExc.RuntimeError ∧
        (Object_beginTypeContext enc (some obj) st).2.2.handlerCalls = st.handlerCalls)) ∧
    (Object_beginTypeContext enc (some obj) st).2.2.npyType = -1 ∧
    (Object_beginTypeContext enc (some obj) st).2.2.npyCtxtPassthru = Option.none := by
  have hb : Object_beginTypeContext enc (some obj) st =
      (let r := NpyTypeToJSONType basicTypeContext st.npyType st.npyValue st
       let tc : JSONTypeContext := { type := r.1, prv := some r.2, isBasic := true }
       if r.1 = JSTYPES.JT_INVALID then
         if st.defaultHandler.isSome then
           let st := { st with npyType := -1 }
           let item := ((npyLoad st st.npyCtxtPassthru).array.getD noArray).getitem st.npyValue
           let h := Object_invokeDefaultHandler enc item st
           (tc, h.1, { h.2 with npyCtxtPassthru := Option.none, npyType := -1 })
         else
           (tc, Option.none,
             { (PyErr_Set PyExc.RuntimeError st) with npyCtxtPassthru := Option.none,
                                                      npyType := -1 })
       else (tc, Option.none, { st with npyCtxtPassthru := Option.none, npyType := -1 })) := by
    simp only [Object_beginTypeContext, hp, if_true]
  refine ⟨?_, ?_, ?_, ?_, ?_, ?_, ?_, ?_⟩
  · rw [hb]
    simp only []
    split_ifs <;> rfl
  · intro hf
    simp only [NpyTypeToJSONType, hf, if_true]
    split_ifs <;> rfl
  · intro hf hd
    refine ⟨?_, ?_⟩
    · intro hs
      simp only [NpyTypeToJSONType, hf, hd, hs, Bool.false_eq_true, if_false, if_true]
    · intro hs
      simp only [NpyTypeToJSONType, hf, hd, hs, Bool.false_eq_true, if_false, if_true]
      split_ifs <;> rfl
  · intro hf hd hi
    simp only [NpyTypeToJSONType, hf, hd, hi, Bool.false_eq_true, if_false, if_true]
  · intro hf hd hi hbo
    simp only [NpyTypeToJSONType, hf, hd, hi, hbo, Bool.false_eq_true, if_false, if_true]
  · intro hf hd hi hbo
    have hinv : (NpyTypeToJSONType basicTypeContext st.npyType st.npyValue st).1 =
        JSTYPES.JT_INVALID := by
      simp only [NpyTypeToJSONType, hf, hd, hi, hbo, Bool.false_eq_true, if_false]
    refine ⟨?_, ?_, ?_⟩
    · rw [hb]
      simp only [hinv, if_true]
      split_ifs <;> rfl
    · intro hh
      rw [hb]
      simp only [hinv, if_true, hh]
      exact ⟨rfl, rfl⟩
    · intro hh
      rw [hb]
      simp only [hinv, if_true, hh, Bool.false_eq_true, if_false]
      exact ⟨rfl, rfl⟩
  · rw [hb]
    simp only []
    split_ifs <;> rfl
  · rw [hb]
    simp only []
    split_ifs <;> rfl

/-- C36 witness: a pending datetime element holding the sentinel, met while the node
is the boolean `true`, is classified Null and is no longer pending. -/
theorem C36_pending_primitive_classified_first_witness :
    (Object_beginTypeContext (encode 8 0) (some (PyObj.bool true))
        { exampleProcess with npyType := NPY_DATETIME, npyCtxtPassthru := some 0,
                              loadInt := fun _ _ => NPY_MIN_INT64 }).1.type =
      JSTYPES.JT_NULL ∧
    (Object_beginTypeContext (encode 8 0) (some (PyObj.bool true))
        { exampleProcess with npyType := NPY_DATETIME, npyCtxtPassthru := some 0,
                              loadInt := fun _ _ => NPY_MIN_INT64 }).2.2.npyType = -1 ∧
    (Object_beginTypeContext (encode 8 0) (some (PyObj.bool true))
        { exampleProcess with npyType := NPY_DATETIME, npyCtxtPassthru := some 0,
                              loadInt := fun _ _ => NPY_MIN_INT64 }).2.2.npyCtxtPassthru =
      Option.none :=
  ⟨((C36_pending_primitive_classified_first (encode 8 0) (PyObj.bool true)
      { exampleProcess with npyType := NPY_DATETIME, npyCtxtPassthru := some 0,
                            loadInt := fun _ _ => NPY_MIN_INT64 } (by decide)).1).trans
      (((C36_pending_primitive_classified_first (encode 8 0) (PyObj.bool true)
        { exampleProcess with npyType := NPY_DATETIME, npyCtxtPassthru := some 0,
                              loadInt := fun _ _ => NPY_MIN_INT64 } (by decide)).2.2.1 rfl
        rfl).1 rfl),
    (C36_pending_primitive_classified_first (encode 8 0) (PyObj.bool true)
      { exampleProcess with npyType := NPY_DATETIME, npyCtxtPassthru := some 0,
                            loadInt := fun _ _ => NPY_MIN_INT64 } (by decide)).2.2.2.2.2.2.1,
    (C36_pending_primitive_classified_first (encode 8 0) (PyObj.bool true)
      { exampleProcess with npyType := NPY_DATETIME, npyCtxtPassthru := some 0,
                            loadInt := fun _ _ => NPY_MIN_INT64 } (by decide)).2.2.2.2.2.2.2⟩

theorem iterLoop_dict_obj (f : Option PyObj → Encoder → JSONValue × Encoder) (named : Bool)
    (o1 o2 : PyObj) :
    ∀ (fuel : Nat) (tc : TypeContext) (st : Encoder),
      tc.iterNext = some IterNextFn.Dict_iterNext →
      tc.iterGetName = some IterGetNameFn.Dict_iterGetName →
      iterLoop f named o1 fuel tc st = iterLoop f named o2 fuel tc st ∧
      (iterLoop f named o2 fuel tc st).2.1.iterEnd = tc.iterEnd := by
  intro fuel
  induction fuel with
  | zero => intro tc st _ _; exact ⟨rfl, rfl⟩
  | succ k ih =>
    intro tc st hn hg
    have hnx : ∀ o, Object_iterNext o tc st =
        ((Dict_iterNext o tc st).1, (Dict_iterNext o tc st).2, st) := by
      intro o
      simp only [Object_iterNext, hn]
    have hd : Dict_iterNext o1 tc st = Dict_iterNext o2 tc st := rfl
    have hkeep : (Dict_iterNext o2 tc st).2.iterNext = some IterNextFn.Dict_iterNext ∧
        (Dict_iterNext o2 tc st).2.iterGetName = some IterGetNameFn.Dict_iterGetName ∧
        (Dict_iterNext o2 tc st).2.iterEnd = tc.iterEnd := by
      unfold Dict_iterNext
      simp only []
      split <;> exact ⟨hn, hg, rfl⟩
    simp only [iterLoop, hnx, hd]
    cases hb : (Dict_iterNext o2 tc st).1 with
    | false => exact ⟨rfl, hkeep.2.2⟩
    | true =>
      simp only []
      have hgn : Object_iterGetName o1 (Dict_iterNext o2 tc st).2 st =
          Object_iterGetName o2 (Dict_iterNext o2 tc st).2 st := by
        simp only [Object_iterGetName, hkeep.2.1]
      have hgv : Object_iterGetValue o1 (Dict_iterNext o2 tc st).2 =
          Object_iterGetValue o2 (Dict_iterNext o2 tc st).2 := rfl
      obtain ⟨ih1, ih2⟩ := ih (Dict_iterNext o2 tc st).2
        (f (Object_iterGetValue o2 (Dict_iterNext o2 tc st).2) st).2 hkeep.1 hkeep.2.1
      rw [hgn, hgv, ih1]
      exact ⟨rfl, ih2.trans hkeep.2.2⟩

/-- C38: for every node that reaches the fallback stage and exposes `toDict` (no
primitive pending, allocator working): if the call fails, the node is classified Null,
the exception is cleared, no default handler is called and no reflection iterator is
installed; if the result is not a mapping, the node is classified Null in the same
way; if the result is a mapping, the node is classified Object with the mapping
iterator on that result, and the driver emits exactly what it emits for the mapping
itself. -/
theorem C38_toDict_result_decides (lf d : Nat) (st : Encoder) (isIter callable : Bool)
    (dir : List String) (getattr : String → Option PyObj)
    (hp : st.npyType < 0) (halloc : st.allocBudget ≠ some 0) :
    (Object_beginTypeContext (encode lf d)
        (some (PyObj.inst isIter callable dir getattr (some Option.none))) st =
      ({ type := JSTYPES.JT_NULL, prv := some basicTypeContext, isBasic := false }, Option.none,
        { (afterMalloc st) with pyErr := Option.none })) ∧
    (∀ r : PyObj, (∀ items, r ≠ PyObj.dict items) →
      Object_beginTypeContext (encode lf d)
          (some (PyObj.inst isIter callable dir getattr (some (some r)))) st =
        ({ type := JSTYPES.JT_NULL, prv := some basicTypeContext, isBasic := false },
          Option.none, afterMalloc st)) ∧
    (afterMalloc st).handlerCalls = st.handlerCalls ∧
    basicTypeContext.iterNext = Option.none ∧
    (∀ items : List (PyObj × PyObj),
      Object_beginTypeContext (encode lf d)
          (some (PyObj.inst isIter callable dir getattr (some (some (PyObj.dict items))))) st =
        (typed JSTYPES.JT_OBJECT (installDict basicTypeContext (PyObj.dict items)),
          Option.none, afterMalloc st) ∧
      encode lf (d + 1)
          (some (PyObj.inst isIter callable dir getattr (some (some (PyObj.dict items))))) st =
        encode lf (d + 1) (some (PyObj.dict items)) st) := by
  have h1 : ¬ (st.npyType ≥ 0) := by omega
  have hdict : ∀ items : List (PyObj × PyObj),
      Object_beginTypeContext (encode lf d)
          (some (PyObj.inst isIter callable dir getattr (some (some (PyObj.dict items))))) st =
        (typed JSTYPES.JT_OBJECT (installDict basicTypeContext (PyObj.dict items)),
          Option.none, afterMalloc st) := by
    intro items
    cases isIter <;>
      simp [Object_beginTypeContext, h1, PyBool_Check, createTypeContext_eq st halloc,
        PyIter_Check, PyArray_Check, beginLeaf, beginIterable]
  refine ⟨?_, ?_, rfl, rfl, ?_⟩
  · cases isIter <;>
      simp [Object_beginTypeContext, h1, PyBool_Check, createTypeContext_eq st halloc,
        PyIter_Check, PyArray_Check, beginLeaf, beginIterable]
  · intro r hr
    cases isIter <;> cases r <;>
      first
        | exact absurd rfl (hr _)
        | simp [Object_beginTypeContext, h1, PyBool_Check, createTypeContext_eq st halloc,
            PyIter_Check, PyArray_Check, beginLeaf, beginIterable]
  · intro items
    refine ⟨hdict items, ?_⟩
    have hd2 : Object_beginTypeContext (encode lf d) (some (PyObj.dict items)) st =
        (typed JSTYPES.JT_OBJECT (installDict basicTypeContext (PyObj.dict items)),
          Option.none, afterMalloc st) := by
      simp [Object_beginTypeContext, h1, PyBool_Check, createTypeContext_eq st halloc,
        PyIter_Check, PyArray_Check, beginLeaf, beginIterable]
    rw [encode_of_begin_object lf d _ st _ _ (hdict items),
      encode_of_begin_object lf d _ st _ _ hd2]
    have hbg : ∀ o, Object_iterBegin o (installDict basicTypeContext (PyObj.dict items))
        (afterMalloc st) =
        (Dict_iterBegin o (installDict basicTypeContext (PyObj.dict items)), afterMalloc st) :=
      fun o => rfl
    have hloop := iterLoop_dict_obj (encode lf d) true
      (PyObj.inst isIter callable dir getattr (some (some (PyObj.dict items))))
      (PyObj.dict items) lf
      (Dict_iterBegin (PyObj.dict items) (installDict basicTypeContext (PyObj.dict items)))
      (afterMalloc st) rfl rfl
    obtain ⟨hloop, hie⟩ := hloop
    simp only [hbg]
    have hb2 : Dict_iterBegin
        (PyObj.inst isIter callable dir getattr (some (some (PyObj.dict items))))
        (installDict basicTypeContext (PyObj.dict items)) =
        Dict_iterBegin (PyObj.dict items) (installDict basicTypeContext (PyObj.dict items)) :=
      rfl
    rw [hb2, hloop]
    have hend : ∀ (tc : TypeContext) (S : Encoder),
        tc.iterEnd = some IterEndFn.Dict_iterEnd →
        (Object_iterEnd
          (PyObj.inst isIter callable dir getattr (some (some (PyObj.dict items)))) tc S).2 =
        (Object_iterEnd (PyObj.dict items) tc S).2 := by
      intro tc S h
      simp only [Object_iterEnd, h]
    rw [hend _ _ (hie.trans rfl)]

/-- C38 witness: an object whose `toDict` call fails is classified Null, and an object
whose `toDict` returns the mapping a: 1 is emitted as that mapping. -/
theorem C38_toDict_result_decides_witness :
    Object_beginTypeContext (encode 8 7)
        (some (PyObj.inst false false [] (fun _ => Option.none) (some Option.none)))
        exampleProcess =
      ({ type := JSTYPES.JT_NULL, prv := some basicTypeContext, isBasic := false }, Option.none,
        { (afterMalloc exampleProcess) with pyErr := Option.none }) ∧
    encode 8 8
        (some (PyObj.inst false false [] (fun _ => Option.none)
          (some (some (PyObj.dict [(PyObj.unicode "a", PyObj.long 1)]))))) exampleProcess =
      encode 8 8 (some (PyObj.dict [(PyObj.unicode "a", PyObj.long 1)])) exampleProcess :=
  ⟨(C38_toDict_result_decides 8 7 exampleProcess false false [] (fun _ => Option.none)
      (by decide) (by decide)).1,
    ((C38_toDict_result_decides 8 7 exampleProcess false false [] (fun _ => Option.none)
      (by decide) (by decide)).2.2.2.2 [(PyObj.unicode "a", PyObj.long 1)]).2⟩

theorem PdBlock_iterBegin_npyarr (df : PyObj) (tc : TypeContext) (st : Encoder) (C : Nat)
    (blocks : List (PdBlock PyObj)) (rl cl : Option (List String)) (t : Bool)
    (hst : CleanState st) (hC : get_attr_length_columns df = (C : Int)) (hCpos : 0 < C)
    (hblocks : get_blocks df = some blocks)
    (hvalid : ∀ b ∈ blocks, ∃ tmp locs, b.values = some tmp ∧ b.mgr_locs = some locs ∧
      locs ≠ [])
    (hok : ∀ sd ∈ blockSeeds blocks, SeedOk C sd)
    (htr : tc.transpose = t) (hrl : tc.rowLabels = rl) (hcl : tc.columnLabels = cl) :
    (PdBlock_iterBegin df tc st).1.npyarr =
      ctxtsAt (seedSlots st.npyHeap.length (blockSeeds blocks)
        (freshBlock t C st.uninit)).npyCtxts 0 := by
  have hm0 := malloc_clean st hst.allocBudget
  have hm1 : ∀ bh, PyObject_Malloc ({ st with blkHeap := bh } : Encoder) =
      (true, { st with blkHeap := bh }) := fun bh => malloc_clean _ hst.allocBudget
  have hne : ¬ ((C : Int) = 0) := by omega
  have hinit : blkStore ({ st with blkHeap := st.blkHeap ++
        [({ colIdx := 0, transpose := t, ncols := (C : Int),
            cindices := CPtr.uninit, npyCtxts := CPtr.uninit } : PdBlockContext)] } : Encoder)
      (some st.blkHeap.length)
      { colIdx := 0, transpose := t, ncols := (C : Int),
        cindices := CPtr.ok ((List.range C).map (fun (k : Nat) => st.uninit (k : Int))),
        npyCtxts := CPtr.ok (List.replicate C Option.none) } =
      blockState st (freshBlock t C st.uninit) [] := by
    simp [blkStore, blockState, freshBlock]
  have hspec := seedAll_spec df C rl cl st hst (blockSeeds blocks)
    { tc with
        iterGetName := some (if t then IterGetNameFn.PdBlock_iterGetName_Transpose
          else IterGetNameFn.PdBlock_iterGetName),
        pdblock := some st.blkHeap.length, transpose := true }
    (freshBlock t C st.uninit) [] hok (TablesOk_freshBlock t C st.uninit) rfl rfl hrl hcl
  simp only [List.length_nil, add_zero, List.nil_append] at hspec
  obtain ⟨hagree, hstate⟩ := hspec
  obtain ⟨I, T, hI, hT, hIl, hTl⟩ := TablesOk_seedSlots C (blockSeeds blocks) st.npyHeap.length
    (freshBlock t C st.uninit) hok (TablesOk_freshBlock t C st.uninit)
  have hget : (ctxtsGet (CPtr.ok T) 0).isNone = false := by
    have : 0 < T.length := by omega
    cases T with
    | nil => simp at this
    | cons x xs => simp [ctxtsGet]
  unfold PdBlock_iterBegin
  simp only [hm0, hC, hne, if_false, hm1, Int.toNat_ofNat, htr, hblocks, hinit,
    seedBlocks_eq df blocks _ _ hvalid, hstate, blkLoad_blockState, hT, hget,
    Bool.false_eq_true, if_false, true_and]
theorem seedOk_of_perm (blocks : List (PdBlock PyObj)) (C : Nat)
    (hshape : ∀ sd ∈ blockSeeds blocks, sd.vals.dims.length = 2 ∧ 0 < PyArray_DIM sd.vals 1)
    (hperm : ((blockSeeds blocks).map Seed.loc).Perm
      ((List.range C).map (fun (c : Nat) => (c : Int)))) :
    (∀ sd ∈ blockSeeds blocks, SeedOk C sd) ∧ ((blockSeeds blocks).map Seed.loc).Nodup ∧
      (blockSeeds blocks).length = C := by
  refine ⟨?_, ?_, ?_⟩
  · intro sd hsd
    have hmem : sd.loc ∈ (blockSeeds blocks).map Seed.loc := List.mem_map_of_mem Seed.loc hsd
    rw [hperm.mem_iff] at hmem
    obtain ⟨c, hc, hcl⟩ := List.mem_map.mp hmem
    rw [List.mem_range] at hc
    obtain ⟨h2, hpos⟩ := hshape sd hsd
    exact ⟨by omega, by omega, h2, hpos⟩
  · rw [hperm.nodup_iff]
    exact (List.nodup_range C).map (fun a b h => by simpa using h)
  · have := hperm.length_eq
    simpa using this

theorem PdBlock_iterBegin_slots (df : PyObj) (tc : TypeContext) (st : Encoder) (C : Nat)
    (blocks : List (PdBlock PyObj))
    (hst : CleanState st) (hC : get_attr_length_columns df = (C : Int)) (hCpos : 0 < C)
    (hblocks : get_blocks df = some blocks)
    (hvalid : ∀ b ∈ blocks, ∃ tmp locs, b.values = some tmp ∧ b.mgr_locs = some locs ∧
      locs ≠ [])
    (hshape : ∀ sd ∈ blockSeeds blocks, sd.vals.dims.length = 2 ∧ 0 < PyArray_DIM sd.vals 1)
    (hperm : ((blockSeeds blocks).map Seed.loc).Perm
      ((List.range C).map (fun (c : Nat) => (c : Int)))) :
    (PdBlock_iterBegin df tc st).1.pdblock = some st.blkHeap.length ∧
    (PdBlock_iterBegin df tc st).1.iterNext = tc.iterNext ∧
    (PdBlock_iterBegin df tc st).1.npyarr =
      ctxtsAt (blkLoad (PdBlock_iterBegin df tc st).2 (some st.blkHeap.length)).npyCtxts 0 ∧
    (PdBlock_iterBegin df tc st).2.npyHeap.length = st.npyHeap.length + C ∧
    CleanState (PdBlock_iterBegin df tc st).2 ∧
    (PdBlock_iterBegin df tc st).2.fault = st.fault ∧
    (∀ (s : Nat) (sd : Seed), (blockSeeds blocks).get? s = some sd →
      ctxtsGet (blkLoad (PdBlock_iterBegin df tc st).2 (some st.blkHeap.length)).npyCtxts
          sd.loc = some (some (st.npyHeap.length + s)) ∧
      npyLoad (PdBlock_iterBegin df tc st).2 (some (st.npyHeap.length + s)) =
        colCtx tc.rowLabels tc.columnLabels st.uninit sd 0) := by
  obtain ⟨hok, hnd, hlen⟩ := seedOk_of_perm blocks C hshape hperm
  obtain ⟨hstate, hagree⟩ := PdBlock_iterBegin_spec df tc st C blocks tc.rowLabels
    tc.columnLabels tc.transpose hst hC hCpos hblocks hvalid hok rfl rfl rfl
  have hnpy := PdBlock_iterBegin_npyarr df tc st C blocks tc.rowLabels
    tc.columnLabels tc.transpose hst hC hCpos hblocks hvalid hok rfl rfl rfl
  obtain ⟨np, iv, no, htc⟩ := hagree
  rw [hstate, htc, blkLoad_blockState]
  refine ⟨rfl, rfl, ?_, ?_, CleanState_blockState st hst _ _, rfl, ?_⟩
  · rw [← hnpy, htc]
  · simp [blockState, hlen]
  · intro s sd hs
    refine ⟨seedSlots_get C (blockSeeds blocks) st.npyHeap.length _
      (TablesOk_freshBlock _ _ _) hok hnd s sd hs, ?_⟩
    rw [npyLoad_blockState, getD_map_seed (blockSeeds blocks) _ s sd hs]
theorem locSeeds_get (vals : PyArrayObject PyObj) :
    ∀ (locs : List Int) (k : Int) (i : Nat) (c : Int), locs.get? i = some c →
      (locSeeds vals locs k).get? i = some { loc := c, vals := vals, idx := k + i } := by
  intro locs
  induction locs with
  | nil => intro k i c h; simp at h
  | cons l rest ih =>
    intro k i c h
    cases i with
    | zero =>
      simp only [List.get?_cons_zero, Option.some.injEq] at h
      subst h
      simp [locSeeds]
    | succ j =>
      simp only [List.get?_cons_succ] at h
      have := ih (k + 1) j c h
      simp only [locSeeds, List.get?_cons_succ, this]
      congr 2
      push_cast
      ring

theorem blockSeeds_get (blocks : List (PdBlock PyObj)) (b : PdBlock PyObj)
    (tmp : PyArrayObject PyObj) (locs : List Int) (i : Nat) (c : Int)
    (hb : b ∈ blocks) (hv : b.values = some tmp) (hl : b.mgr_locs = some locs)
    (hc : locs.get? i = some c) :
    ∃ s, (blockSeeds blocks).get? s =
      some { loc := c, vals := PyArray_Transpose tmp, idx := (i : Int) } := by
  induction blocks with
  | nil => simp at hb
  | cons b0 rest ih =>
    rcases List.mem_cons.mp hb with h | h
    · subst h
      have hg := locSeeds_get (PyArray_Transpose tmp) locs 0 i c hc
      simp only [zero_add] at hg
      refine ⟨i, ?_⟩
      simp only [blockSeeds, hv, hl]
      have hlt : i < (locSeeds (PyArray_Transpose tmp) locs 0).length := by
        rw [List.get?_eq_getElem?] at hg
        exact (List.getElem?_eq_some_iff.mp hg).1
      rw [List.get?_eq_getElem?, List.getElem?_append_left hlt, ← List.get?_eq_getElem?]
      exact hg
    · obtain ⟨s, hs⟩ := ih h
      obtain ⟨pre, hpre⟩ : ∃ pre, blockSeeds (b0 :: rest) = pre ++ blockSeeds rest := ⟨_, rfl⟩
      refine ⟨pre.length + s, ?_⟩
      rw [hpre, List.get?_eq_getElem?, List.getElem?_append_right (by omega)]
      simp only [Nat.add_sub_cancel_left]
      rw [← List.get?_eq_getElem?]
      exact hs
/-- C31: for every table with C >= 1 declared columns whose blocks' column locations
form a partition of 0..C-1 (every block with values of R rows and at least one
column), `PdBlock_iterBegin` begun in a clean state completes without failure, and
then every slot `npyCtxts[c]` for 0 <= c < C holds a walker allocated by this call,
no two slots hold the same walker and exactly C walkers were allocated; the walker of
slot c is bound to the transposed values of the block of column c, stands at the
first row of that column with the row axis active (axis 0, index 0, extent R, row
stride, one level below the top); and the context's current walker is the one of
slot 0. -/
theorem C31_every_column_has_one_walker (df : PyObj) (tc : TypeContext) (st : Encoder)
    (C R : Nat) (blocks : List (PdBlock PyObj))
    (hst : CleanState st) (hC : get_attr_length_columns df = (C : Int)) (hCpos : 0 < C)
    (hblocks : get_blocks df = some blocks)
    (hvalid : ∀ b ∈ blocks, ∃ tmp locs, b.values = some tmp ∧ b.mgr_locs = some locs ∧
      locs ≠ [])
    (hshape : ∀ sd ∈ blockSeeds blocks, sd.vals.dims.length = 2 ∧ 0 < PyArray_DIM sd.vals 1)
    (hrows : ∀ sd ∈ blockSeeds blocks, PyArray_DIM sd.vals 0 = R)
    (hperm : ((blockSeeds blocks).map Seed.loc).Perm
      ((List.range C).map (fun (c : Nat) => (c : Int)))) :
    (∀ c : Int, 0 ≤ c → c < C →
      ∃ q sd, sd ∈ blockSeeds blocks ∧ sd.loc = c ∧
        ctxtsGet (blkLoad (PdBlock_iterBegin df tc st).2
          (PdBlock_iterBegin df tc st).1.pdblock).npyCtxts c = some (some q) ∧
        st.npyHeap.length ≤ q ∧ q < (PdBlock_iterBegin df tc st).2.npyHeap.length ∧
        (npyLoad (PdBlock_iterBegin df tc st).2 (some q)).array = some sd.vals ∧
        (npyLoad (PdBlock_iterBegin df tc st).2 (some q)).dataptr =
          sd.vals.data + PyArray_STRIDE sd.vals 1 * sd.idx ∧
        (npyLoad (PdBlock_iterBegin df tc st).2 (some q)).stridedim = 0 ∧
        (npyLoad (PdBlock_iterBegin df tc st).2 (some q)).index 0 = 0 ∧
        (npyLoad (PdBlock_iterBegin df tc st).2 (some q)).dim = R ∧
        (npyLoad (PdBlock_iterBegin df tc st).2 (some q)).stride = PyArray_STRIDE sd.vals 0 ∧
        (npyLoad (PdBlock_iterBegin df tc st).2 (some q)).curdim = 1 ∧
        (npyLoad (PdBlock_iterBegin df tc st).2 (some q)).ndim = 1) ∧
    (∀ (c c' : Int) (q : Nat), 0 ≤ c → c < C → 0 ≤ c' → c' < C →
      ctxtsGet (blkLoad (PdBlock_iterBegin df tc st).2
        (PdBlock_iterBegin df tc st).1.pdblock).npyCtxts c = some (some q) →
      ctxtsGet (blkLoad (PdBlock_iterBegin df tc st).2
        (PdBlock_iterBegin df tc st).1.pdblock).npyCtxts c' = some (some q) → c = c') ∧
    (PdBlock_iterBegin df tc st).2.npyHeap.length = st.npyHeap.length + C ∧
    (PdBlock_iterBegin df tc st).1.npyarr =
      ctxtsAt (blkLoad (PdBlock_iterBegin df tc st).2
        (PdBlock_iterBegin df tc st).1.pdblock).npyCtxts 0 ∧
    (PdBlock_iterBegin df tc st).1.iterNext = tc.iterNext ∧
    (PdBlock_iterBegin df tc st).2.pyErr = Option.none ∧
    (PdBlock_iterBegin df tc st).2.errorMsg = Option.none ∧
    (PdBlock_iterBegin df tc st).2.fault = st.fault := by
  obtain ⟨hp, hnext, hnpy, hlen, hclean, hfault, hslot⟩ :=
    PdBlock_iterBegin_slots df tc st C blocks hst hC hCpos hblocks hvalid hshape hperm
  obtain ⟨hok, hnd, hsl⟩ := seedOk_of_perm blocks C hshape hperm
  rw [hp]
  have hcover : ∀ c : Int, 0 ≤ c → c < C →
      ∃ s sd, (blockSeeds blocks).get? s = some sd ∧ sd.loc = c := by
    intro c hc0 hcC
    have hmem : c ∈ (blockSeeds blocks).map Seed.loc := by
      rw [hperm.mem_iff]
      exact List.mem_map.mpr ⟨c.toNat, List.mem_range.mpr (by omega), by omega⟩
    obtain ⟨sd, hsd, hloc⟩ := List.mem_map.mp hmem
    obtain ⟨s, hs⟩ := List.get?_of_mem hsd
    exact ⟨s, sd, hs, hloc⟩
  refine ⟨?_, ?_, hlen, hnpy, hnext, hclean.pyErr, hclean.errorMsg, hfault⟩
  · intro c hc0 hcC
    obtain ⟨s, sd, hs, hloc⟩ := hcover c hc0 hcC
    obtain ⟨h1, h2⟩ := hslot s sd hs
    have hmem : sd ∈ blockSeeds blocks := List.get?_mem hs
    have hslt : s < (blockSeeds blocks).length := by
      rw [List.get?_eq_getElem?] at hs
      exact (List.getElem?_eq_some_iff.mp hs).1
    refine ⟨st.npyHeap.length + s, sd, hmem, hloc, by rw [← hloc]; exact h1, by omega,
      by omega, ?_⟩
    rw [h2]
    refine ⟨rfl, ?_, rfl, ?_, hrows sd hmem, rfl, rfl, rfl⟩
    · simp [colCtx, axisCtx]
    · simp [colCtx, axisCtx, setIdx]
  · intro c c' q hc0 hcC hc0' hcC' h1 h2
    obtain ⟨s, sd, hs, hloc⟩ := hcover c hc0 hcC
    obtain ⟨s', sd', hs', hloc'⟩ := hcover c' hc0' hcC'
    have e1 := (hslot s sd hs).1
    have e2 := (hslot s' sd' hs').1
    rw [hloc, h1] at e1
    rw [hloc', h2] at e2
    simp only [Option.some.injEq] at e1 e2
    have hss : s = s' := by omega
    subst hss
    rw [hs] at hs'
    simp only [Option.some.injEq] at hs'
    subst hs'
    rw [← hloc, ← hloc']

/-- C31 witness: the block-stored 2 x 2 example table. -/
theorem C31_every_column_has_one_walker_witness :
    (PdBlock_iterBegin exampleTableBlock blockContext exampleProcess).2.npyHeap.length =
      exampleProcess.npyHeap.length + 2 ∧
    (PdBlock_iterBegin exampleTableBlock blockContext exampleProcess).1.npyarr =
      ctxtsAt (blkLoad (PdBlock_iterBegin exampleTableBlock blockContext exampleProcess).2
        (PdBlock_iterBegin exampleTableBlock blockContext exampleProcess).1.pdblock).npyCtxts
        0 :=
  ⟨(C31_every_column_has_one_walker exampleTableBlock blockContext exampleProcess 2 2
      exampleBlocks (exampleProcess_clean PANDAS_FORMAT.COLUMNS) rfl (by decide) rfl
      (exampleBlock_layout 1 0 exampleProcess).valid
      (fun sd hsd => ⟨((exampleBlock_layout 1 0 exampleProcess).shape sd hsd).1,
        ((exampleBlock_layout 1 0 exampleProcess).shape sd hsd).2.1⟩)
      (fun sd hsd => ((exampleBlock_layout 1 0 exampleProcess).shape sd hsd).2.2)
      (exampleBlock_layout 1 0 exampleProcess).perm).2.2.1,
    (C31_every_column_has_one_walker exampleTableBlock blockContext exampleProcess 2 2
      exampleBlocks (exampleProcess_clean PANDAS_FORMAT.COLUMNS) rfl (by decide) rfl
      (exampleBlock_layout 1 0 exampleProcess).valid
      (fun sd hsd => ⟨((exampleBlock_layout 1 0 exampleProcess).shape sd hsd).1,
        ((exampleBlock_layout 1 0 exampleProcess).shape sd hsd).2.1⟩)
      (fun sd hsd => ((exampleBlock_layout 1 0 exampleProcess).shape sd hsd).2.2)
      (exampleBlock_layout 1 0 exampleProcess).perm).2.2.2.1⟩

/-- C32 counterexample: in the table whose single block declares its columns in
reverse order, the walker recorded at slot 1 (the block's first column) starts at the
base pointer 200 of the transposed values, not at the base pointer offset by the
stride 16 times its table position 1. -/
theorem C32_offset_not_table_position_counterexample :
    (npyLoad (PdBlock_iterBegin swappedTable blockContext exampleProcess).2
      (ctxtsAt (blkLoad (PdBlock_iterBegin swappedTable blockContext exampleProcess).2
        (PdBlock_iterBegin swappedTable blockContext exampleProcess).1.pdblock).npyCtxts
        1)).dataptr = 200 ∧
    (PyArray_Transpose (intArray 8 200 [2, 2] [16, 8] [1, 2, 3, 4])).data = 200 ∧
    PyArray_STRIDE (PyArray_Transpose (intArray 8 200 [2, 2] [16, 8] [1, 2, 3, 4])) 1 = 16 ∧
    ¬ ((npyLoad (PdBlock_iterBegin swappedTable blockContext exampleProcess).2
      (ctxtsAt (blkLoad (PdBlock_iterBegin swappedTable blockContext exampleProcess).2
        (PdBlock_iterBegin swappedTable blockContext exampleProcess).1.pdblock).npyCtxts
        1)).dataptr =
      (PyArray_Transpose (intArray 8 200 [2, 2] [16, 8] [1, 2, 3, 4])).data +
        PyArray_STRIDE (PyArray_Transpose (intArray 8 200 [2, 2] [16, 8] [1, 2, 3, 4])) 1 *
          1) := by
  have h : (npyLoad (PdBlock_iterBegin swappedTable blockContext exampleProcess).2
      (ctxtsAt (blkLoad (PdBlock_iterBegin swappedTable blockContext exampleProcess).2
        (PdBlock_iterBegin swappedTable blockContext exampleProcess).1.pdblock).npyCtxts
        1)).dataptr = 200 := by rfl
  refine ⟨h, rfl, rfl, ?_⟩
  rw [h]
  decide

/-- C32 amended: during the construction of the columnar walker, the walker recorded
at a column's declared slot (its table position, the i-th entry of the block's
`mgr_locs`) is bound to the block's transposed values and starts at their base
pointer offset by the stride of the column axis times i, the position of the column
within its block. -/
theorem C32_walker_offset_by_block_position (df : PyObj) (tc : TypeContext) (st : Encoder)
    (C : Nat) (blocks : List (PdBlock PyObj))
    (hst : CleanState st) (hC : get_attr_length_columns df = (C : Int)) (hCpos : 0 < C)
    (hblocks : get_blocks df = some blocks)
    (hvalid : ∀ b ∈ blocks, ∃ tmp locs, b.values = some tmp ∧ b.mgr_locs = some locs ∧
      locs ≠ [])
    (hshape : ∀ sd ∈ blockSeeds blocks, sd.vals.dims.length = 2 ∧ 0 < PyArray_DIM sd.vals 1)
    (hperm : ((blockSeeds blocks).map Seed.loc).Perm
      ((List.range C).map (fun (c : Nat) => (c : Int))))
    (b : PdBlock PyObj) (tmp : PyArrayObject PyObj) (locs : List Int) (i : Nat) (c : Int)
    (hb : b ∈ blocks) (hv : b.values = some tmp) (hl : b.mgr_locs = some locs)
    (hc : locs.get? i = some c) :
    ∃ q, ctxtsGet (blkLoad (PdBlock_iterBegin df tc st).2
          (PdBlock_iterBegin df tc st).1.pdblock).npyCtxts c = some (some q) ∧
      (npyLoad (PdBlock_iterBegin df tc st).2 (some q)).array = some (PyArray_Transpose tmp) ∧
      (npyLoad (PdBlock_iterBegin df tc st).2 (some q)).dataptr =
        (PyArray_Transpose tmp).data + PyArray_STRIDE (PyArray_Transpose tmp) 1 * (i : Int) := by
  obtain ⟨hp, _, _, _, _, _, hslot⟩ :=
    PdBlock_iterBegin_slots df tc st C blocks hst hC hCpos hblocks hvalid hshape hperm
  obtain ⟨s, hs⟩ := blockSeeds_get blocks b tmp locs i c hb hv hl hc
  obtain ⟨h1, h2⟩ := hslot s _ hs
  rw [hp]
  refine ⟨st.npyHeap.length + s, h1, ?_, ?_⟩
  · rw [h2]; rfl
  · rw [h2]
    simp [colCtx, axisCtx]

/-- C32 witness: in the table with the reversed block, the walker of table column 0
(the block's second column) starts at 200 + 16 * 1. -/
theorem C32_walker_offset_by_block_position_witness :
    ∃ q, ctxtsGet (blkLoad (PdBlock_iterBegin swappedTable blockContext exampleProcess).2
          (PdBlock_iterBegin swappedTable blockContext exampleProcess).1.pdblock).npyCtxts 0 =
        some (some q) ∧
      (npyLoad (PdBlock_iterBegin swappedTable blockContext exampleProcess).2 (some q)).array =
        some (PyArray_Transpose (intArray 8 200 [2, 2] [16, 8] [1, 2, 3, 4])) ∧
      (npyLoad (PdBlock_iterBegin swappedTable blockContext exampleProcess).2
          (some q)).dataptr =
        (PyArray_Transpose (intArray 8 200 [2, 2] [16, 8] [1, 2, 3, 4])).data +
          PyArray_STRIDE (PyArray_Transpose (intArray 8 200 [2, 2] [16, 8] [1, 2, 3, 4])) 1 *
            ((1 : Nat) : Int) :=
  C32_walker_offset_by_block_position swappedTable blockContext exampleProcess 2
    [{ values := some (intArray 8 200 [2, 2] [16, 8] [1, 2, 3, 4]), mgr_locs := some [1, 0] }]
    (exampleProcess_clean PANDAS_FORMAT.COLUMNS) rfl (by decide) rfl
    (by
      intro b hb
      simp only [List.mem_singleton] at hb
      subst hb
      exact ⟨_, _, rfl, rfl, by simp⟩)
    (by
      intro sd hsd
      simp only [blockSeeds, locSeeds, List.append_nil, List.mem_cons, List.mem_singleton,
        List.not_mem_nil, or_false] at hsd
      rcases hsd with rfl | rfl <;> exact ⟨rfl, by decide⟩)
    (by
      simp only [blockSeeds, locSeeds, List.append_nil, List.map_cons, List.map_nil]
      exact List.Perm.swap _ _ _)
    { values := some (intArray 8 200 [2, 2] [16, 8] [1, 2, 3, 4]), mgr_locs := some [1, 0] }
    (intArray 8 200 [2, 2] [16, 8] [1, 2, 3, 4]) [1, 0] 1 0 (by simp) rfl rfl rfl

theorem freeItemValue_iterNext (tc : TypeContext) (st : Encoder) :
    (NpyArr_freeItemValue tc st).iterNext = tc.iterNext := by
  rcases freeItemValue_cases tc st with h | h <;> rw [h]

theorem leaf_next_step (obj : PyObj) (tc : TypeContext) (S : Encoder) (q : Nat)
    (c : NpyArrContext) (a : PyArrayObject PyObj)
    (hnpy : tc.npyarr = some q) (hq : q < S.npyHeap.length) (herr : S.pyErr = Option.none)
    (hc : npyLoad S (some q) = c) (harr : c.array = some a)
    (hmode : tc.iterNext = some IterNextFn.NpyArr_iterNextItem ∨
      (tc.iterNext = some IterNextFn.NpyArr_iterNext ∧ c.ndim ≤ c.curdim))
    (hlt : c.index c.stridedim < c.dim)
    (hread : PyTypeNum_ISDATETIME a.type_num = true ∨ (a.getitem c.dataptr).isSome = true) :
    (Object_iterNext obj tc S).1 = true ∧
    (Object_iterNext obj tc S).2.1.npyarr = some q ∧
    (Object_iterNext obj tc S).2.1.iterNext = some IterNextFn.NpyArr_iterNextItem ∧
    q < (Object_iterNext obj tc S).2.2.npyHeap.length ∧
    (Object_iterNext obj tc S).2.2.pyErr = Option.none ∧
    npyLoad (Object_iterNext obj tc S).2.2 (some q) =
      { c with dataptr := c.dataptr + c.stride,
               index := setIdx c.index c.stridedim (c.index c.stridedim + 1) } ∧
    (if PyTypeNum_ISDATETIME a.type_num then
      (Object_iterNext obj tc S).2.1.itemValue = some obj ∧
      (Object_iterNext obj tc S).2.2.npyType = a.type_num ∧
      (Object_iterNext obj tc S).2.2.npyValue = c.dataptr ∧
      (Object_iterNext obj tc S).2.2.npyCtxtPassthru = some q
    else
      (Object_iterNext obj tc S).2.1.itemValue = a.getitem c.dataptr) := by
  have hnx : Object_iterNext obj tc S =
      NpyArr_iterNextItem obj { tc with iterNext := some IterNextFn.NpyArr_iterNextItem } S := by
    rcases hmode with h | ⟨h, hd⟩
    · have : ({ tc with iterNext := some IterNextFn.NpyArr_iterNextItem } : TypeContext) = tc := by
        cases tc
        simp only at h
        subst h
        rfl
      rw [this]
      simp only [Object_iterNext, h]
    · simp only [Object_iterNext, h, NpyArr_iterNext, hnpy, hc, PyErr_Occurred, herr,
        Option.isSome_none, Bool.false_eq_true, if_false, ge_iff_le, hd, true_or, if_true]
  rw [hnx]
  have hge : ¬ (c.index c.stridedim ≥ c.dim) := by omega
  by_cases hdt : PyTypeNum_ISDATETIME a.type_num = true
  · simp only [NpyArr_iterNextItem, hnpy, hc, PyErr_Occurred, herr, Option.isSome_none,
      Bool.false_eq_true, if_false, hge, harr, Option.getD_some, hdt, if_true,
      npyStore_pyErr, npyStore_npyType, npyStore_npyValue, npyStore_npyCtxtPassthru,
      freeItemValue_npyarr, freeItemValue_iterNext, true_and, and_true]
    refine ⟨npyStore_len _ q _ hq, npyStore_load _ q _ hq⟩
  · have hsome : (a.getitem c.dataptr).isSome = true := by
      rcases hread with h | h
      · exact absurd h hdt
      · exact h
    obtain ⟨item, hitem⟩ := Option.isSome_iff_exists.mp hsome
    simp only [NpyArr_iterNextItem, hnpy, hc, PyErr_Occurred, herr, Option.isSome_none,
      Bool.false_eq_true, if_false, hge, harr, Option.getD_some, hdt, hitem,
      npyStore_pyErr, freeItemValue_npyarr, freeItemValue_iterNext, true_and, and_true]
    refine ⟨npyStore_len _ q _ hq, npyStore_load _ q _ hq⟩

theorem leaf_next_end (obj : PyObj) (tc : TypeContext) (S : Encoder) (q : Nat)
    (c : NpyArrContext)
    (hnpy : tc.npyarr = some q) (herr : S.pyErr = Option.none)
    (hc : npyLoad S (some q) = c)
    (hmode : tc.iterNext = some IterNextFn.NpyArr_iterNextItem ∨
      (tc.iterNext = some IterNextFn.NpyArr_iterNext ∧ c.ndim ≤ c.curdim))
    (hge : c.dim ≤ c.index c.stridedim) :
    Object_iterNext obj tc S =
      (false, { tc with iterNext := some IterNextFn.NpyArr_iterNextItem }, S) := by
  have hnx : Object_iterNext obj tc S =
      NpyArr_iterNextItem obj { tc with iterNext := some IterNextFn.NpyArr_iterNextItem } S := by
    rcases hmode with h | ⟨h, hd⟩
    · have : ({ tc with iterNext := some IterNextFn.NpyArr_iterNextItem } : TypeContext) = tc := by
        cases tc
        simp only at h
        subst h
        rfl
      rw [this]
      simp only [Object_iterNext, h]
    · simp only [Object_iterNext, h, NpyArr_iterNext, hnpy, hc, PyErr_Occurred, herr,
        Option.isSome_none, Bool.false_eq_true, if_false, ge_iff_le, hd, true_or, if_true]
  rw [hnx]
  simp only [NpyArr_iterNextItem, hnpy, hc, PyErr_Occurred, herr, Option.isSome_none,
    Bool.false_eq_true, if_false, ge_iff_le, hge, if_true]
theorem vecCtx_advance (a : PyArrayObject PyObj) (t : Bool) (rl cl : Option (List String))
    (p s : Int) (u : Int → Int) (k : Int) (hs : PyArray_STRIDE a 0 = s) :
    ({ (vecCtx a t rl cl (p + k * s) (setIdx u 0 k)) with
        dataptr := (vecCtx a t rl cl (p + k * s) (setIdx u 0 k)).dataptr +
          (vecCtx a t rl cl (p + k * s) (setIdx u 0 k)).stride,
        index := setIdx (vecCtx a t rl cl (p + k * s) (setIdx u 0 k)).index
          (vecCtx a t rl cl (p + k * s) (setIdx u 0 k)).stridedim
          ((vecCtx a t rl cl (p + k * s) (setIdx u 0 k)).index
            (vecCtx a t rl cl (p + k * s) (setIdx u 0 k)).stridedim + 1) } : NpyArrContext) =
      vecCtx a t rl cl (p + (k + 1) * s) (setIdx u 0 (k + 1)) := by
  simp only [vecCtx, setIdx_collapse, setIdx_same, hs]
  congr 1
  ring

theorem leaf_calls_invariant (a : PyArrayObject PyObj) (obj : PyObj) (tc : TypeContext)
    (st : Encoder) (n : Nat) (s : Int)
    (hdims : a.dims = [(n : Int)]) (hstr : a.strides = [s]) (hst : CleanState st)
    (harr : asArray (match tc.newObj with
      | some o => o
      | Option.none => obj) = a)
    (hnext : tc.iterNext = some IterNextFn.NpyArr_iterNext)
    (hread : PyTypeNum_ISDATETIME a.type_num = true ∨
      ∀ j : Nat, j < n → (a.getitem (a.data + (j : Int) * s)).isSome = true) :
    ∀ k : Nat, k ≤ n →
      (nextCalls obj k (NpyArr_iterBegin obj tc st).1 (NpyArr_iterBegin obj tc st).2).2.1.npyarr =
        some st.npyHeap.length ∧
      st.npyHeap.length < (nextCalls obj k (NpyArr_iterBegin obj tc st).1
        (NpyArr_iterBegin obj tc st).2).2.2.npyHeap.length ∧
      (nextCalls obj k (NpyArr_iterBegin obj tc st).1
        (NpyArr_iterBegin obj tc st).2).2.2.pyErr = Option.none ∧
      npyLoad (nextCalls obj k (NpyArr_iterBegin obj tc st).1
          (NpyArr_iterBegin obj tc st).2).2.2 (some st.npyHeap.length) =
        vecCtx a tc.transpose tc.rowLabels tc.columnLabels (a.data + (k : Int) * s)
          (setIdx st.uninit 0 (k : Int)) ∧
      ((nextCalls obj k (NpyArr_iterBegin obj tc st).1
          (NpyArr_iterBegin obj tc st).2).2.1.iterNext = some IterNextFn.NpyArr_iterNextItem ∨
        (nextCalls obj k (NpyArr_iterBegin obj tc st).1
          (NpyArr_iterBegin obj tc st).2).2.1.iterNext = some IterNextFn.NpyArr_iterNext) := by
  have h1 : a.dims.length = 1 := by rw [hdims]; rfl
  have hS0 : PyArray_STRIDE a 0 = s := by simp [PyArray_STRIDE, hstr]
  have hD0 : PyArray_DIM a 0 = n := by simp [PyArray_DIM, hdims]
  rw [NpyArr_iterBegin_vec obj tc st a hst.allocBudget harr h1]
  have hqlt : st.npyHeap.length <
      ({ st with npyHeap := st.npyHeap ++ [default] } : Encoder).npyHeap.length := by
    simp
  intro k
  induction k with
  | zero =>
    intro _
    refine ⟨rfl, by simp [nextCalls, heapSet], ?_, ?_, Or.inr hnext⟩
    · simp only [nextCalls, heapSet_pyErr]
      exact hst.pyErr
    · simp only [nextCalls, npyLoad_heapSet _ _ _ hqlt]
      simp
  | succ k ih =>
    intro hk
    obtain ⟨i1, i2, i3, i4, i5⟩ := ih (by omega)
    have hlt : (vecCtx a tc.transpose tc.rowLabels tc.columnLabels (a.data + (k : Int) * s)
        (setIdx st.uninit 0 (k : Int))).index
          (vecCtx a tc.transpose tc.rowLabels tc.columnLabels (a.data + (k : Int) * s)
            (setIdx st.uninit 0 (k : Int))).stridedim <
        (vecCtx a tc.transpose tc.rowLabels tc.columnLabels (a.data + (k : Int) * s)
          (setIdx st.uninit 0 (k : Int))).dim := by
      simp only [vecCtx, setIdx_same, hD0]
      omega
    have hstep := leaf_next_step obj _ _ st.npyHeap.length _ a i1 i2 i3 i4 rfl
      (by
        rcases i5 with h | h
        · exact Or.inl h
        · exact Or.inr ⟨h, le_refl _⟩)
      hlt
      (by
        rcases hread with h | h
        · exact Or.inl h
        · exact Or.inr (h k (by omega)))
    obtain ⟨_, s2, s3, s4, s5, s6, _⟩ := hstep
    refine ⟨s2, s4, s5, ?_, Or.inl s3⟩
    simp only [nextCalls] at s6 ⊢
    rw [s6, vecCtx_advance a _ _ _ a.data s st.uninit k hS0]
    push_cast
    rfl
/-- C34: leaf mode on an innermost axis.  For every 1-D array of length n with base
pointer `a.data` and stride s (its elements readable, or handed over by address for a
datetime array), the calls of `next` after `NpyArr_iterBegin` succeed exactly n
times: the k-th call (k = 1..n) succeeds, reads the element at `a.data + (k-1)*s`,
and leaves the pointer at `a.data + k*s` and the axis index at k; every later call
reports the end, reads nothing and leaves the state, with pointer and index, as the
n-th call left it. -/
theorem C34_leaf_mode_reads_n_elements (a : PyArrayObject PyObj) (obj : PyObj)
    (tc : TypeContext) (st : Encoder) (n : Nat) (s : Int)
    (hdims : a.dims = [(n : Int)]) (hstr : a.strides = [s]) (hst : CleanState st)
    (harr : asArray (match tc.newObj with
      | some o => o
      | Option.none => obj) = a)
    (hnext : tc.iterNext = some IterNextFn.NpyArr_iterNext)
    (hread : PyTypeNum_ISDATETIME a.type_num = true ∨
      ∀ j : Nat, j < n → (a.getitem (a.data + (j : Int) * s)).isSome = true) :
    (∀ k : Nat, 1 ≤ k → k ≤ n →
      (nextCalls obj k (NpyArr_iterBegin obj tc st).1 (NpyArr_iterBegin obj tc st).2).1 = true ∧
      (if PyTypeNum_ISDATETIME a.type_num then
        (nextCalls obj k (NpyArr_iterBegin obj tc st).1
          (NpyArr_iterBegin obj tc st).2).2.2.npyType = a.type_num ∧
        (nextCalls obj k (NpyArr_iterBegin obj tc st).1
          (NpyArr_iterBegin obj tc st).2).2.2.npyValue = a.data + ((k : Int) - 1) * s
      else
        (nextCalls obj k (NpyArr_iterBegin obj tc st).1
          (NpyArr_iterBegin obj tc st).2).2.1.itemValue =
            a.getitem (a.data + ((k : Int) - 1) * s)) ∧
      (npyLoad (nextCalls obj k (NpyArr_iterBegin obj tc st).1
        (NpyArr_iterBegin obj tc st).2).2.2 (some st.npyHeap.length)).dataptr =
          a.data + (k : Int) * s ∧
      (npyLoad (nextCalls obj k (NpyArr_iterBegin obj tc st).1
        (NpyArr_iterBegin obj tc st).2).2.2 (some st.npyHeap.length)).index 0 = k) ∧
    (∀ k : Nat, n < k →
      (nextCalls obj k (NpyArr_iterBegin obj tc st).1 (NpyArr_iterBegin obj tc st).2).1 =
        false ∧
      (nextCalls obj k (NpyArr_iterBegin obj tc st).1 (NpyArr_iterBegin obj tc st).2).2.2 =
        (nextCalls obj n (NpyArr_iterBegin obj tc st).1 (NpyArr_iterBegin obj tc st).2).2.2 ∧
      (nextCalls obj k (NpyArr_iterBegin obj tc st).1
          (NpyArr_iterBegin obj tc st).2).2.1.itemValue =
        (nextCalls obj n (NpyArr_iterBegin obj tc st).1
          (NpyArr_iterBegin obj tc st).2).2.1.itemValue ∧
      (npyLoad (nextCalls obj k (NpyArr_iterBegin obj tc st).1
        (NpyArr_iterBegin obj tc st).2).2.2 (some st.npyHeap.length)).dataptr =
          a.data + (n : Int) * s ∧
      (npyLoad (nextCalls obj k (NpyArr_iterBegin obj tc st).1
        (NpyArr_iterBegin obj tc st).2).2.2 (some st.npyHeap.length)).index 0 = n) := by
  have hD0 : PyArray_DIM a 0 = n := by simp [PyArray_DIM, hdims]
  have hinv := leaf_calls_invariant a obj tc st n s hdims hstr hst harr hnext hread
  refine ⟨?_, ?_⟩
  · intro k hk1 hkn
    obtain ⟨j, rfl⟩ : ∃ j, k = j + 1 := ⟨k - 1, by omega⟩
    obtain ⟨i1, i2, i3, i4, i5⟩ := hinv j (by omega)
    obtain ⟨_, _, _, n4, _⟩ := hinv (j + 1) hkn
    have hlt : (vecCtx a tc.transpose tc.rowLabels tc.columnLabels (a.data + (j : Int) * s)
        (setIdx st.uninit 0 (j : Int))).index
          (vecCtx a tc.transpose tc.rowLabels tc.columnLabels (a.data + (j : Int) * s)
            (setIdx st.uninit 0 (j : Int))).stridedim <
        (vecCtx a tc.transpose tc.rowLabels tc.columnLabels (a.data + (j : Int) * s)
          (setIdx st.uninit 0 (j : Int))).dim := by
      simp only [vecCtx, setIdx_same, hD0]
      omega
    have hstep := leaf_next_step obj _ _ st.npyHeap.length _ a i1 i2 i3 i4 rfl
      (by
        rcases i5 with h | h
        · exact Or.inl h
        · exact Or.inr ⟨h, le_refl _⟩)
      hlt
      (by
        rcases hread with h | h
        · exact Or.inl h
        · exact Or.inr (h j (by omega)))
    obtain ⟨s1, _, _, _, _, _, s7⟩ := hstep
    refine ⟨s1, ?_, ?_, ?_⟩
    · have hcast : ((j + 1 : Nat) : Int) - 1 = (j : Int) := by push_cast; ring
      rw [hcast]
      by_cases hdt : PyTypeNum_ISDATETIME a.type_num = true
      · rw [if_pos hdt] at s7 ⊢
        exact ⟨s7.2.1, s7.2.2.1⟩
      · rw [if_neg hdt] at s7 ⊢
        exact s7
    · rw [n4]
      rfl
    · rw [n4]
      simp only [vecCtx, setIdx_same]
  · obtain ⟨i1, i2, i3, i4, i5⟩ := hinv n (le_refl _)
    have hge : (vecCtx a tc.transpose tc.rowLabels tc.columnLabels (a.data + (n : Int) * s)
        (setIdx st.uninit 0 (n : Int))).dim ≤
        (vecCtx a tc.transpose tc.rowLabels tc.columnLabels (a.data + (n : Int) * s)
          (setIdx st.uninit 0 (n : Int))).index
          (vecCtx a tc.transpose tc.rowLabels tc.columnLabels (a.data + (n : Int) * s)
            (setIdx st.uninit 0 (n : Int))).stridedim := by
      simp only [vecCtx, setIdx_same, hD0]
      exact le_refl _
    have key : ∀ j : Nat,
        nextCalls obj (n + 1 + j) (NpyArr_iterBegin obj tc st).1 (NpyArr_iterBegin obj tc st).2 =
          (false,
            { (nextCalls obj n (NpyArr_iterBegin obj tc st).1
                (NpyArr_iterBegin obj tc st).2).2.1 with
              iterNext := some IterNextFn.NpyArr_iterNextItem },
            (nextCalls obj n (NpyArr_iterBegin obj tc st).1
              (NpyArr_iterBegin obj tc st).2).2.2) := by
      intro j
      induction j with
      | zero =>
        show Object_iterNext obj _ _ = _
        exact leaf_next_end obj _ _ st.npyHeap.length _ i1 i3 i4
          (by
            rcases i5 with h | h
            · exact Or.inl h
            · exact Or.inr ⟨h, le_refl _⟩)
          hge
      | succ j ih =>
        show Object_iterNext obj
          (nextCalls obj (n + 1 + j) (NpyArr_iterBegin obj tc st).1
            (NpyArr_iterBegin obj tc st).2).2.1
          (nextCalls obj (n + 1 + j) (NpyArr_iterBegin obj tc st).1
            (NpyArr_iterBegin obj tc st).2).2.2 = _
        rw [ih]
        exact leaf_next_end obj _ _ st.npyHeap.length _ i1 i3 i4 (Or.inl rfl) hge
    intro k hk
    obtain ⟨j, rfl⟩ : ∃ j, k = n + 1 + j := ⟨k - n - 1, by omega⟩
    rw [key j]
    refine ⟨rfl, rfl, rfl, ?_, ?_⟩
    · simp only [i4]
      rfl
    · simp only [i4, vecCtx, setIdx_same]

/-- C34 witness: on the 1-D array (5, 6) at address 300 with stride 8 the second call
of `next` succeeds, reads the element at address 308 and leaves the pointer at 316 and
the index at 2. -/
theorem C34_leaf_mode_reads_n_elements_witness :
    (nextCalls (PyObj.ndarray (intArray 9 300 [2] [8] [5, 6])) 2
      (NpyArr_iterBegin (PyObj.ndarray (intArray 9 300 [2] [8] [5, 6]))
        (installNpyArr basicTypeContext) exampleProcess).1
      (NpyArr_iterBegin (PyObj.ndarray (intArray 9 300 [2] [8] [5, 6]))
        (installNpyArr basicTypeContext) exampleProcess).2).1 = true ∧
    (if PyTypeNum_ISDATETIME (intArray 9 300 [2] [8] [5, 6]).type_num then
      (nextCalls (PyObj.ndarray (intArray 9 300 [2] [8] [5, 6])) 2
        (NpyArr_iterBegin (PyObj.ndarray (intArray 9 300 [2] [8] [5, 6]))
          (installNpyArr basicTypeContext) exampleProcess).1
        (NpyArr_iterBegin (PyObj.ndarray (intArray 9 300 [2] [8] [5, 6]))
          (installNpyArr basicTypeContext) exampleProcess).2).2.2.npyType =
        (intArray 9 300 [2] [8] [5, 6]).type_num ∧
      (nextCalls (PyObj.ndarray (intArray 9 300 [2] [8] [5, 6])) 2
        (NpyArr_iterBegin (PyObj.ndarray (intArray 9 300 [2] [8] [5, 6]))
          (installNpyArr basicTypeContext) exampleProcess).1
        (NpyArr_iterBegin (PyObj.ndarray (intArray 9 300 [2] [8] [5, 6]))
          (installNpyArr basicTypeContext) exampleProcess).2).2.2.npyValue =
        (intArray 9 300 [2] [8] [5, 6]).data + (((2 : Nat) : Int) - 1) * 8
    else
      (nextCalls (PyObj.ndarray (intArray 9 300 [2] [8] [5, 6])) 2
        (NpyArr_iterBegin (PyObj.ndarray (intArray 9 300 [2] [8] [5, 6]))
          (installNpyArr basicTypeContext) exampleProcess).1
        (NpyArr_iterBegin (PyObj.ndarray (intArray 9 300 [2] [8] [5, 6]))
          (installNpyArr basicTypeContext) exampleProcess).2).2.1.itemValue =
        (intArray 9 300 [2] [8] [5, 6]).getitem
          ((intArray 9 300 [2] [8] [5, 6]).data + (((2 : Nat) : Int) - 1) * 8)) ∧
    (npyLoad (nextCalls (PyObj.ndarray (intArray 9 300 [2] [8] [5, 6])) 2
      (NpyArr_iterBegin (PyObj.ndarray (intArray 9 300 [2] [8] [5, 6]))
        (installNpyArr basicTypeContext) exampleProcess).1
      (NpyArr_iterBegin (PyObj.ndarray (intArray 9 300 [2] [8] [5, 6]))
        (installNpyArr basicTypeContext) exampleProcess).2).2.2
      (some exampleProcess.npyHeap.length)).dataptr =
        (intArray 9 300 [2] [8] [5, 6]).data + ((2 : Nat) : Int) * 8 ∧
    (npyLoad (nextCalls (PyObj.ndarray (intArray 9 300 [2] [8] [5, 6])) 2
      (NpyArr_iterBegin (PyObj.ndarray (intArray 9 300 [2] [8] [5, 6]))
        (installNpyArr basicTypeContext) exampleProcess).1
      (NpyArr_iterBegin (PyObj.ndarray (intArray 9 300 [2] [8] [5, 6]))
        (installNpyArr basicTypeContext) exampleProcess).2).2.2
      (some exampleProcess.npyHeap.length)).index 0 = ((2 : Nat) : Int) :=
  (C34_leaf_mode_reads_n_elements (intArray 9 300 [2] [8] [5, 6])
    (PyObj.ndarray (intArray 9 300 [2] [8] [5, 6])) (installNpyArr basicTypeContext)
    exampleProcess 2 8 rfl rfl (exampleProcess_clean PANDAS_FORMAT.COLUMNS) rfl rfl
    (Or.inr (fun j hj => by
      have hj' : j = 0 ∨ j = 1 := by omega
      rcases hj' with rfl | rfl <;> rfl))).1 2 (by decide) (by decide)

theorem labelAt_isSome (L : List String) (idx : Int) :
    (labelAt (some L) idx).isSome = true ↔ 0 ≤ idx ∧ idx < L.length := by
  unfold labelAt
  by_cases h : 0 ≤ idx
  · simp only [h, if_true, true_and]
    rw [List.get?_eq_getElem?, Option.isSome_iff_exists]
    constructor
    · rintro ⟨x, hx⟩
      have := (List.getElem?_eq_some_iff.mp hx).1
      omega
    · intro hlt
      have hlt' : idx.toNat < L.length := by omega
      exact ⟨L[idx.toNat], List.getElem?_eq_getElem hlt'⟩
  · simp [h]

/-- C33: label look-ups stay in bounds.  A look-up in a label table yields a label
exactly when its index satisfies 0 <= idx < length of the table.  For every R x C
table (stored either way, so for `NpyArr_iterGetName`, `PdBlock_iterGetName` and
`PdBlock_iterGetName_Transpose`) whose index and columns label tables have R and C
labels, every name the complete traversal asks for is such a label: under orient=index
the i-th outer name is entry i of the index labels (the row-label table) and the j-th
inner name entry j of the column labels (the column-label table); under orient=columns
the outer names are the entries 0 .. C-1 of the column labels (then the row-label
table) and the inner names the entries 0 .. R-1 of the index labels; under
orient=records the inner names are the entries 0 .. C-1 of the column labels.  In each of the three
functions the innermost position indexes the column-label table of the cursor and
the outer position its row-label table.  For a
series of length n under orient=index or columns the k-th name is entry k of its n
labels. -/
theorem C33_label_lookups_in_bounds (lf d : Nat) (st : Encoder) :
    (∀ (L : List String) (idx : Int),
      (labelAt (some L) idx).isSome = true ↔ 0 ≤ idx ∧ idx < L.length) ∧
    (∀ (obj : PyObj) (tc : TypeContext) (S : Encoder),
      (tc.iterNext = some IterNextFn.NpyArr_iterNextItem →
        NpyArr_iterGetName obj tc S =
          labelAt (npyLoad S tc.npyarr).columnLabels
            ((npyLoad S tc.npyarr).index (npyLoad S tc.npyarr).stridedim - 1) ∧
        PdBlock_iterGetName_Transpose obj tc S =
          labelAt (npyLoad S (ctxtsAt (blkLoad S tc.pdblock).npyCtxts
              (blkLoad S tc.pdblock).colIdx)).columnLabels
            ((npyLoad S (ctxtsAt (blkLoad S tc.pdblock).npyCtxts
                (blkLoad S tc.pdblock).colIdx)).index
              (npyLoad S (ctxtsAt (blkLoad S tc.pdblock).npyCtxts
                (blkLoad S tc.pdblock).colIdx)).stridedim - 1)) ∧
      (tc.iterNext ≠ some IterNextFn.NpyArr_iterNextItem →
        NpyArr_iterGetName obj tc S =
          labelAt (npyLoad S tc.npyarr).rowLabels
            ((npyLoad S tc.npyarr).index
              ((npyLoad S tc.npyarr).stridedim - (npyLoad S tc.npyarr).inc) - 1) ∧
        PdBlock_iterGetName_Transpose obj tc S =
          labelAt (npyLoad S (ctxtsAt (blkLoad S tc.pdblock).npyCtxts
              (blkLoad S tc.pdblock).colIdx)).rowLabels (blkLoad S tc.pdblock).colIdx) ∧
      (tc.iterNext = some IterNextFn.PdBlock_iterNextItem →
        PdBlock_iterGetName obj tc S =
          labelAt (npyLoad S (ctxtsAt (blkLoad S tc.pdblock).npyCtxts 0)).columnLabels
            ((blkLoad S tc.pdblock).colIdx - 1)) ∧
      (tc.iterNext = some IterNextFn.PdBlock_iterNext →
        PdBlock_iterGetName obj tc S =
          labelAt (npyLoad S (ctxtsAt (blkLoad S tc.pdblock).npyCtxts 0)).rowLabels
            ((npyLoad S (ctxtsAt (blkLoad S tc.pdblock).npyCtxts 0)).index
              (npyLoad S (ctxtsAt (blkLoad S tc.pdblock).npyCtxts 0)).stridedim))) ∧
    (∀ (df : PyObj) (R C : Nat) (idxL colL : List String) (cells : Int → Int → JSONValue),
      IsTable lf d st df R C idxL colL cells → CleanState st → R < lf → C < lf →
      idxL.length = R ∧ colL.length = C ∧
      (∀ i : Nat, i < R → (labelAt (some idxL) (i : Int)).isSome = true) ∧
      (∀ j : Nat, j < C → (labelAt (some colL) (j : Int)).isSome = true) ∧
      (st.outputFormat = PANDAS_FORMAT.INDEX →
        ∃ st', encode lf (d + 2) (some df) st =
          (JSONValue.object ((List.range R).map (fun (i : Nat) =>
            (labelAt (some idxL) (i : Int),
              JSONValue.object ((List.range C).map (fun (j : Nat) =>
                (labelAt (some colL) (j : Int), cells (i : Int) (j : Int))))))), st')) ∧
      (st.outputFormat = PANDAS_FORMAT.COLUMNS →
        ∃ st', encode lf (d + 2) (some df) st =
          (JSONValue.object ((List.range C).map (fun (j : Nat) =>
            (labelAt (some colL) (j : Int),
              JSONValue.object ((List.range R).map (fun (i : Nat) =>
                (labelAt (some idxL) (i : Int), cells (i : Int) (j : Int))))))), st')) ∧
      (st.outputFormat = PANDAS_FORMAT.RECORDS →
        ∃ st', encode lf (d + 2) (some df) st =
          (JSONValue.array ((List.range R).map (fun (i : Nat) =>
            JSONValue.object ((List.range C).map (fun (j : Nat) =>
              (labelAt (some colL) (j : Int), cells (i : Int) (j : Int)))))), st'))) ∧
    (∀ (name : Option PyObj) (io : PyObj) (v iv : PyArrayObject PyObj) (labels : List String)
        (n : Nat) (s : Int) (cells : Int → JSONValue),
      CleanState st →
      st.outputFormat = PANDAS_FORMAT.INDEX ∨ st.outputFormat = PANDAS_FORMAT.COLUMNS →
      get_values io = some iv →
      NpyArr_encodeLabels (some iv) (PyArray_DIM v 0) st = (some labels, st) →
      v.dims = [(n : Int)] → v.strides = [s] → n < lf →
      (∀ k : Int, 0 ≤ k → k < n → CellAt lf d st v (v.data + k * s) (cells k)) →
      labels.length = n ∧
      (∀ k : Nat, k < n → (labelAt (some labels) (k : Int)).isSome = true) ∧
      ∃ st', encode lf (d + 1) (some (PyObj.series name (some io) (some v))) st =
        (JSONValue.object ((List.range n).map (fun (k : Nat) =>
          (labelAt (some labels) (k : Int), cells (k : Int)))), st')) := by
  refine ⟨labelAt_isSome, ?_, ?_, ?_⟩
  · intro obj tc S
    refine ⟨?_, ?_, ?_, ?_⟩
    · intro h
      simp only [NpyArr_iterGetName, PdBlock_iterGetName_Transpose, h, if_true, and_self]
    · intro h
      simp only [NpyArr_iterGetName, PdBlock_iterGetName_Transpose, h, if_false, and_self]
    · intro h
      simp only [PdBlock_iterGetName, h, if_true]
    · intro h
      simp [PdBlock_iterGetName, h]
  · intro df R C idxL colL cells h hst hR hC
    have hlen : idxL.length = R ∧ colL.length = C := by
      rcases h with ⟨cols, idx, a, blocks, s0, s1, _, hl, _⟩ | ⟨cols, idx, mx, v, blocks, _, hl, _⟩
      · exact TableLabels_length st cols idx R C idxL colL hl
      · exact TableLabels_length st cols idx R C idxL colL hl
    refine ⟨hlen.1, hlen.2, ?_, ?_, ?_, ?_, ?_⟩
    · intro i hi
      exact (labelAt_isSome idxL i).mpr ⟨by omega, by omega⟩
    · intro j hj
      exact (labelAt_isSome colL j).mpr ⟨by omega, by omega⟩
    · intro hf
      obtain ⟨st', he, _, _⟩ := table_encode lf d st df R C idxL colL cells h hst hR hC
        (by rw [hf]; decide)
      rw [hf] at he
      refine ⟨st', ?_⟩
      rw [he]
      simp only [tableOutput, container, if_true, grid_labelled, labelAt_some]
    · intro hf
      obtain ⟨st', he, _, _⟩ := table_encode lf d st df R C idxL colL cells h hst hR hC
        (by rw [hf]; decide)
      rw [hf] at he
      refine ⟨st', ?_⟩
      rw [he]
      simp only [tableOutput, container, if_true, grid_labelled, labelAt_some]
    · intro hf
      obtain ⟨st', he, _, _⟩ := table_encode lf d st df R C idxL colL cells h hst hR hC
        (by rw [hf]; decide)
      rw [hf] at he
      refine ⟨st', ?_⟩
      rw [he]
      simp only [tableOutput, container, Bool.false_eq_true, if_false, grid_records,
        labelAt_some]
  · intro name io v iv labels n s cells hst hf hiv hlab hdims hstr hn hq
    have hbs := begin_series (encode lf d) name (some io) (some v) st hst.npyType
      hst.allocBudget
    have hns : st.outputFormat ≠ PANDAS_FORMAT.SPLIT := by
      rcases hf with h | h <;> rw [h] <;> decide
    have hb : Object_beginTypeContext (encode lf d)
        (some (PyObj.series name (some io) (some v))) st =
        (typed (if true then JSTYPES.JT_OBJECT else JSTYPES.JT_ARRAY)
          (installNpyArr { basicTypeContext with
            newObj := some (PyObj.ndarray v),
            columnLabelsLen := PyArray_DIM v 0,
            columnLabels := some labels }), Option.none, st) := by
      rw [hbs]
      have hg : get_values (PyObj.series name (some io) (some v)) = some v := rfl
      simp [beginIterable, hns, hf, hg, getAttr_index, hiv, hlab]
    have hlen := encodeLabels_length iv _ st st labels hlab
    have hD0 : PyArray_DIM v 0 = n := by simp [PyArray_DIM, hdims]
    have hl : labels.length = n := by rw [hlen, hD0]; simp
    obtain ⟨st', he, _, _⟩ := vector_encode lf d _
      { basicTypeContext with
        newObj := some (PyObj.ndarray v),
        columnLabelsLen := PyArray_DIM v 0,
        columnLabels := some labels } st v true n s cells hb rfl hdims hstr hst hn hq
    refine ⟨hl, ?_, st', ?_⟩
    · intro k hk
      exact (labelAt_isSome labels k).mpr ⟨by omega, by omega⟩
    · rw [he]
      simp only [container, members, if_true]

/-- C33 witness: the block-stored 2 x 2 example table under orient=columns. -/
theorem C33_label_lookups_in_bounds_witness :
    ∃ st', encode 8 3 (some exampleTableBlock) exampleProcess =
      (JSONValue.object ((List.range 2).map (fun (j : Nat) =>
        (labelAt (some ["c0", "c1"]) (j : Int),
          JSONValue.object ((List.range 2).map (fun (i : Nat) =>
            (labelAt (some ["r0", "r1"]) (i : Int), exampleCells (i : Int) (j : Int))))))),
        st') :=
  (((C33_label_lookups_in_bounds 8 1 exampleProcess).2.2.1 exampleTableBlock 2 2 ["r0", "r1"]
    ["c0", "c1"] exampleCells (exampleBlock_table 8 0 PANDAS_FORMAT.COLUMNS)
    (exampleProcess_clean PANDAS_FORMAT.COLUMNS) (by decide) (by decide)).2.2.2.2.2.1) rfl

theorem formatOf_malloc (st : Encoder) : formatOf (PyObject_Malloc st).2 = formatOf st := by
  unfold PyObject_Malloc
  cases h : st.allocBudget with
  | none => rfl
  | some n => cases n <;> rfl

theorem formatOf_malloc_eq (st S : Encoder) (b : Bool) (h : PyObject_Malloc st = (b, S)) :
    formatOf S = formatOf st := by
  have := formatOf_malloc st
  rw [h] at this
  exact this

theorem formatOf_npyStore (st : Encoder) (p : Option Nat) (c : NpyArrContext) :
    formatOf (npyStore st p c) = formatOf st := by
  cases p with
  | none => rfl
  | some i =>
    show formatOf (if i < st.npyHeap.length then _ else _) = _
    split <;> rfl

theorem formatOf_blkStore (st : Encoder) (p : Option Nat) (c : PdBlockContext) :
    formatOf (blkStore st p c) = formatOf st := by
  cases p with
  | none => rfl
  | some i =>
    show formatOf (if i < st.blkHeap.length then _ else _) = _
    split <;> rfl

theorem freeItemValue_iterEnd (tc : TypeContext) (st : Encoder) :
    (NpyArr_freeItemValue tc st).iterEnd = tc.iterEnd := by
  unfold NpyArr_freeItemValue
  split <;> rfl

theorem NpyArr_iterBegin_format (obj : PyObj) (tc : TypeContext) (st : Encoder) :
    formatOf (NpyArr_iterBegin obj tc st).2 = formatOf st ∧
      (NpyArr_iterBegin obj tc st).1.iterEnd = tc.iterEnd := by
  unfold NpyArr_iterBegin
  rcases h : PyObject_Malloc st with ⟨b, S⟩
  have hS := formatOf_malloc_eq st S b h
  cases b
  · exact ⟨hS, rfl⟩
  · exact ⟨hS, rfl⟩

theorem NpyArr_iterNextItem_format (obj : PyObj) (tc : TypeContext) (st : Encoder) :
    formatOf (NpyArr_iterNextItem obj tc st).2.2 = formatOf st ∧
      (NpyArr_iterNextItem obj tc st).2.1.iterEnd = tc.iterEnd := by
  unfold NpyArr_iterNextItem
  simp only []
  split
  · exact ⟨rfl, rfl⟩
  · split
    · exact ⟨rfl, rfl⟩
    · split
      · exact ⟨by rw [formatOf_npyStore]; rfl, freeItemValue_iterEnd tc st⟩
      · split
        · exact ⟨by rw [formatOf_npyStore], freeItemValue_iterEnd tc st⟩
        · exact ⟨by rw [formatOf_npyStore]; rfl, freeItemValue_iterEnd tc st⟩

theorem NpyArr_iterNext_format (obj : PyObj) (tc : TypeContext) (st : Encoder) :
    formatOf (NpyArr_iterNext obj tc st).2.2 = formatOf st ∧
      (NpyArr_iterNext obj tc st).2.1.iterEnd = tc.iterEnd := by
  unfold NpyArr_iterNext
  simp only []
  split
  · exact ⟨rfl, rfl⟩
  · split
    · exact NpyArr_iterNextItem_format obj _ st
    · refine ⟨?_, rfl⟩
      show formatOf (npyStore st tc.npyarr _) = formatOf st
      rw [formatOf_npyStore]

theorem NpyArr_iterEnd_format (obj : PyObj) (tc : TypeContext) (st : Encoder) :
    formatOf (NpyArr_iterEnd obj tc st).2 = formatOf st ∧
      (NpyArr_iterEnd obj tc st).1.iterEnd = tc.iterEnd := by
  unfold NpyArr_iterEnd
  split
  · exact ⟨rfl, freeItemValue_iterEnd tc st⟩
  · exact ⟨rfl, rfl⟩

theorem NpyArrPassThru_iterEnd_format (obj : PyObj) (tc : TypeContext) (st : Encoder) :
    formatOf (NpyArrPassThru_iterEnd obj tc st).2 = formatOf st := by
  unfold NpyArrPassThru_iterEnd
  simp only [formatOf_npyStore]

theorem PdBlockPassThru_iterEnd_format (obj : PyObj) (tc : TypeContext) (st : Encoder) :
    formatOf (PdBlockPassThru_iterEnd obj tc st).2 = formatOf st := by
  unfold PdBlockPassThru_iterEnd
  simp only [formatOf_blkStore]

theorem PdBlock_iterNextItem_format (obj : PyObj) (tc : TypeContext) (st : Encoder) :
    formatOf (PdBlock_iterNextItem obj tc st).2.2 = formatOf st ∧
      (PdBlock_iterNextItem obj tc st).2.1.iterEnd = tc.iterEnd := by
  unfold PdBlock_iterNextItem
  simp only []
  split
  · exact ⟨rfl, rfl⟩
  · refine ⟨?_, ?_⟩
    · rw [(NpyArr_iterNextItem_format obj _ _).1, formatOf_blkStore]
      split <;> rfl
    · rw [(NpyArr_iterNextItem_format obj _ _).2]

theorem PdBlock_iterNext_format (obj : PyObj) (tc : TypeContext) (st : Encoder) :
    formatOf (PdBlock_iterNext obj tc st).2.2 = formatOf st ∧
      (PdBlock_iterNext obj tc st).2.1.iterEnd = tc.iterEnd := by
  unfold PdBlock_iterNext
  simp only []
  split_ifs <;> exact ⟨rfl, rfl⟩

theorem PdBlockPassThru_iterBegin_format (obj : PyObj) (tc : TypeContext) (st : Encoder) :
    formatOf (PdBlockPassThru_iterBegin obj tc st).2 = formatOf st ∧
      (PdBlockPassThru_iterBegin obj tc st).1.iterEnd = tc.iterEnd := by
  unfold PdBlockPassThru_iterBegin
  simp only []
  split <;> exact ⟨rfl, rfl⟩
theorem formatOf_fst (A B : Encoder) (h : formatOf A = formatOf B) :
    A.outputFormat = B.outputFormat := congrArg Prod.fst h

theorem formatOf_snd (A B : Encoder) (h : formatOf A = formatOf B) :
    A.originalOutputFormat = B.originalOutputFormat := congrArg Prod.snd h

theorem PdBlock_seedColumn_format (obj : PyObj) (values : PyArrayObject PyObj)
    (colIdx idx : Int) (tc : TypeContext) (st : Encoder) :
    formatOf (PdBlock_seedColumn obj values colIdx idx tc st).2 = formatOf st ∧
      (PdBlock_seedColumn obj values colIdx idx tc st).1.iterEnd = tc.iterEnd := by
  unfold PdBlock_seedColumn
  simp only [formatOf, Prod.mk.injEq]
  repeat' split
  all_goals simp only [formatOf_fst _ _ (formatOf_blkStore _ _ _),
    formatOf_snd _ _ (formatOf_blkStore _ _ _),
    formatOf_fst _ _ (formatOf_npyStore _ _ _),
    formatOf_snd _ _ (formatOf_npyStore _ _ _),
    formatOf_fst _ _ (NpyArr_iterNext_format _ _ _).1,
    formatOf_snd _ _ (NpyArr_iterNext_format _ _ _).1,
    formatOf_fst _ _ (NpyArr_iterBegin_format _ _ _).1,
    formatOf_snd _ _ (NpyArr_iterBegin_format _ _ _).1,
    (NpyArr_iterNext_format _ _ _).2, (NpyArr_iterBegin_format _ _ _).2, and_self]
theorem PdBlock_seedLocs_format (obj : PyObj) (values : PyArrayObject PyObj) :
    ∀ (locs : List Int) (idx : Int) (tc : TypeContext) (st : Encoder),
    formatOf (PdBlock_seedLocs obj values locs idx tc st).2 = formatOf st ∧
      (PdBlock_seedLocs obj values locs idx tc st).1.iterEnd = tc.iterEnd
  | [], _, _, _ => ⟨rfl, rfl⟩
  | c :: rest, idx, tc, st => by
    unfold PdBlock_seedLocs
    simp only []
    rw [(PdBlock_seedLocs_format obj values rest _ _ _).1,
      (PdBlock_seedLocs_format obj values rest _ _ _).2]
    exact PdBlock_seedColumn_format obj values c idx tc st

theorem PdBlock_seedBlocks_format (obj : PyObj) :
    ∀ (blocks : List (PdBlock PyObj)) (tc : TypeContext) (st : Encoder),
    formatOf (PdBlock_seedBlocks obj blocks tc st).2.2 = formatOf st ∧
      (PdBlock_seedBlocks obj blocks tc st).2.1.iterEnd = tc.iterEnd
  | [], _, _ => ⟨rfl, rfl⟩
  | block :: rest, tc, st => by
    unfold PdBlock_seedBlocks
    split
    · exact ⟨rfl, rfl⟩
    · split
      · exact ⟨rfl, rfl⟩
      · exact ⟨rfl, rfl⟩
      · simp only []
        rw [(PdBlock_seedBlocks_format obj rest _ _).1,
          (PdBlock_seedBlocks_format obj rest _ _).2]
        exact PdBlock_seedLocs_format obj _ _ _ tc st

theorem PdBlock_iterBegin_format (obj : PyObj) (tc : TypeContext) (st : Encoder) :
    formatOf (PdBlock_iterBegin obj tc st).2 = formatOf st ∧
      (PdBlock_iterBegin obj tc st).1.iterEnd = tc.iterEnd := by
  unfold PdBlock_iterBegin
  simp only []
  rcases h1 : PyObject_Malloc st with ⟨b1, S1⟩
  have e1 := formatOf_malloc_eq st S1 b1 h1
  cases b1
  · exact ⟨e1, rfl⟩
  · simp only []
    split
    · exact ⟨(formatOf_blkStore _ _ _).trans e1, rfl⟩
    · rcases h2 : PyObject_Malloc { S1 with blkHeap := S1.blkHeap ++ [_] } with ⟨b2, S2⟩
      have e2 := (formatOf_malloc_eq _ S2 b2 h2).trans e1
      cases b2
      · exact ⟨(formatOf_blkStore _ _ _).trans e2, rfl⟩
      · simp only []
        rcases h3 : PyObject_Malloc S2 with ⟨b3, S3⟩
        have e3 := (formatOf_malloc_eq _ S3 b3 h3).trans e2
        cases b3
        · exact ⟨(formatOf_blkStore _ _ _).trans e3, rfl⟩
        · simp only []
          split
          · exact ⟨(formatOf_blkStore _ _ _).trans e3, rfl⟩
          · rename_i blocks hb
            have hs := PdBlock_seedBlocks_format obj blocks
            split
            · rename_i T S hT
              have h4 := (congrArg (fun r => formatOf r.2.2) hT).symm.trans (hs _ _).1
              have h5 := (congrArg (fun r => r.2.1.iterEnd) hT).symm.trans (hs _ _).2
              exact ⟨h4.trans ((formatOf_blkStore _ _ _).trans e3), h5⟩
            · rename_i T S hT
              have h4 := (congrArg (fun r => formatOf r.2.2) hT).symm.trans (hs _ _).1
              have h5 := (congrArg (fun r => r.2.1.iterEnd) hT).symm.trans (hs _ _).2
              refine ⟨?_, h5⟩
              split
              · exact h4.trans ((formatOf_blkStore _ _ _).trans e3)
              · exact h4.trans ((formatOf_blkStore _ _ _).trans e3)

theorem PdBlock_iterEnd_column_format (obj : PyObj) (i : Nat) (r : TypeContext × Encoder) :
    formatOf (PdBlock_iterEnd_column obj i r).2 = formatOf r.2 := by
  unfold PdBlock_iterEnd_column
  simp only [formatOf, Prod.mk.injEq]
  repeat' split
  all_goals simp only [formatOf_fst _ _ (formatOf_blkStore _ _ _),
    formatOf_snd _ _ (formatOf_blkStore _ _ _),
    formatOf_fst _ _ (formatOf_npyStore _ _ _),
    formatOf_snd _ _ (formatOf_npyStore _ _ _),
    formatOf_fst _ _ (NpyArr_iterEnd_format _ _ _).1,
    formatOf_snd _ _ (NpyArr_iterEnd_format _ _ _).1, and_self]

theorem PdBlock_iterEnd_fold_format (obj : PyObj) :
    ∀ (l : List Nat) (r : TypeContext × Encoder),
    formatOf (l.foldl (fun r i => PdBlock_iterEnd_column obj i r) r).2 = formatOf r.2
  | [], _ => rfl
  | i :: l, r => by
    rw [List.foldl_cons, PdBlock_iterEnd_fold_format obj l, PdBlock_iterEnd_column_format]

theorem PdBlock_iterEnd_format (obj : PyObj) (tc : TypeContext) (st : Encoder) :
    formatOf (PdBlock_iterEnd obj tc st).2 = formatOf st := by
  unfold PdBlock_iterEnd
  simp only []
  split
  · rfl
  · split
    · exact PdBlock_iterEnd_fold_format obj _ _
    · exact PdBlock_iterEnd_fold_format obj _ _

theorem Index_iterBegin_format (obj : PyObj) (tc : TypeContext) (st : Encoder) :
    formatOf (Index_iterBegin obj tc st).2 = formatOf st ∧
      (Index_iterBegin obj tc st).1.iterEnd = tc.iterEnd := by
  unfold Index_iterBegin
  rcases h : PyObject_Malloc st with ⟨b, S⟩
  have hS := formatOf_malloc_eq st S b h
  cases b
  · exact ⟨hS, rfl⟩
  · exact ⟨hS, rfl⟩

theorem Series_iterBegin_format (obj : PyObj) (tc : TypeContext) (st : Encoder) :
    formatOf (Series_iterBegin obj tc st).2 =
        (PANDAS_FORMAT.VALUES, st.originalOutputFormat) ∧
      (Series_iterBegin obj tc st).1.iterEnd = tc.iterEnd := by
  unfold Series_iterBegin
  rcases h : PyObject_Malloc st with ⟨b, S⟩
  have hS := formatOf_snd _ _ (formatOf_malloc_eq st S b h)
  cases b
  · exact ⟨Prod.ext rfl hS, rfl⟩
  · exact ⟨Prod.ext rfl hS, rfl⟩

theorem DataFrame_iterBegin_format (obj : PyObj) (tc : TypeContext) (st : Encoder) :
    formatOf (DataFrame_iterBegin obj tc st).2 =
        (PANDAS_FORMAT.VALUES, st.originalOutputFormat) ∧
      (DataFrame_iterBegin obj tc st).1.iterEnd = tc.iterEnd := by
  unfold DataFrame_iterBegin
  rcases h : PyObject_Malloc st with ⟨b, S⟩
  have hS := formatOf_snd _ _ (formatOf_malloc_eq st S b h)
  cases b
  · exact ⟨Prod.ext rfl hS, rfl⟩
  · exact ⟨Prod.ext rfl hS, rfl⟩

theorem Index_iterNext_format (obj : PyObj) (tc : TypeContext) (st : Encoder) :
    formatOf (Index_iterNext obj tc st).2.2 = formatOf st ∧
      (Index_iterNext obj tc st).2.1.iterEnd = tc.iterEnd := by
  unfold Index_iterNext
  repeat' split
  all_goals exact ⟨rfl, rfl⟩

theorem Series_iterNext_format (obj : PyObj) (tc : TypeContext) (st : Encoder) :
    formatOf (Series_iterNext obj tc st).2.2 = formatOf st ∧
      (Series_iterNext obj tc st).2.1.iterEnd = tc.iterEnd := by
  unfold Series_iterNext
  repeat' split
  all_goals exact ⟨rfl, rfl⟩

theorem DataFrame_iterNext_format (obj : PyObj) (tc : TypeContext) (st : Encoder) :
    formatOf (DataFrame_iterNext obj tc st).2.2 = formatOf st ∧
      (DataFrame_iterNext obj tc st).2.1.iterEnd = tc.iterEnd := by
  unfold DataFrame_iterNext
  repeat' split
  all_goals exact ⟨rfl, rfl⟩

theorem Tuple_iterNext_iterEnd (obj : PyObj) (tc : TypeContext) :
    (Tuple_iterNext obj tc).2.iterEnd = tc.iterEnd := by
  unfold Tuple_iterNext
  split <;> rfl

theorem List_iterNext_iterEnd (obj : PyObj) (tc : TypeContext) :
    (List_iterNext obj tc).2.iterEnd = tc.iterEnd := by
  unfold List_iterNext
  split <;> rfl

theorem Iter_iterNext_iterEnd (obj : PyObj) (tc : TypeContext) :
    (Iter_iterNext obj tc).2.iterEnd = tc.iterEnd := by
  unfold Iter_iterNext
  simp only []
  split <;> rfl

theorem Dir_iterNext_iterEnd (obj : PyObj) (tc : TypeContext) (st : Encoder) :
    (Dir_iterNext obj tc st).2.iterEnd = tc.iterEnd := by
  unfold Dir_iterNext
  simp only []
  repeat' split
  all_goals rfl

theorem Dict_iterNext_iterEnd (obj : PyObj) (tc : TypeContext) (st : Encoder) :
    (Dict_iterNext obj tc st).2.iterEnd = tc.iterEnd := by
  unfold Dict_iterNext
  simp only []
  repeat' split
  all_goals rfl

theorem Object_iterNext_format (obj : PyObj) (tc : TypeContext) (st : Encoder) :
    formatOf (Object_iterNext obj tc st).2.2 = formatOf st ∧
      (Object_iterNext obj tc st).2.1.iterEnd = tc.iterEnd := by
  unfold Object_iterNext
  split
  · exact ⟨rfl, rfl⟩
  · exact NpyArr_iterNextItem_format obj tc st
  · exact NpyArr_iterNext_format obj tc st
  · exact PdBlock_iterNextItem_format obj tc st
  · exact PdBlock_iterNext_format obj tc st
  · exact ⟨rfl, Tuple_iterNext_iterEnd obj tc⟩
  · exact ⟨rfl, Iter_iterNext_iterEnd obj tc⟩
  · exact ⟨rfl, Dir_iterNext_iterEnd obj tc st⟩
  · exact ⟨rfl, List_iterNext_iterEnd obj tc⟩
  · exact Index_iterNext_format obj tc st
  · exact Series_iterNext_format obj tc st
  · exact DataFrame_iterNext_format obj tc st
  · exact ⟨rfl, Dict_iterNext_iterEnd obj tc st⟩
  · exact ⟨rfl, rfl⟩
theorem Object_iterBegin_format (obj : PyObj) (tc : TypeContext) (st : Encoder) :
    formatOf (Object_iterBegin obj tc st).2 =
        (if splitFieldsBegin tc.iterBegin then PANDAS_FORMAT.VALUES else st.outputFormat,
          st.originalOutputFormat) ∧
      (Object_iterBegin obj tc st).1.iterEnd = tc.iterEnd := by
  unfold Object_iterBegin
  split <;> rename_i hb <;> rw [hb]
  · exact NpyArr_iterBegin_format obj tc st
  · exact ⟨rfl, rfl⟩
  · exact PdBlock_iterBegin_format obj tc st
  · exact PdBlockPassThru_iterBegin_format obj tc st
  · exact ⟨rfl, rfl⟩
  · exact ⟨rfl, rfl⟩
  · exact ⟨rfl, rfl⟩
  · exact ⟨rfl, rfl⟩
  · exact Index_iterBegin_format obj tc st
  · exact Series_iterBegin_format obj tc st
  · exact DataFrame_iterBegin_format obj tc st
  · exact ⟨rfl, rfl⟩
  · exact ⟨rfl, rfl⟩

theorem Object_iterEnd_format (obj : PyObj) (tc : TypeContext) (st : Encoder) :
    formatOf (Object_iterEnd obj tc st).2 =
      (if splitFieldsEnd tc.iterEnd then st.originalOutputFormat else st.outputFormat,
        st.originalOutputFormat) := by
  unfold Object_iterEnd
  split <;> rename_i hb <;> rw [hb]
  · exact (NpyArr_iterEnd_format obj tc st).1
  · exact NpyArrPassThru_iterEnd_format obj tc st
  · exact PdBlock_iterEnd_format obj tc st
  · exact PdBlockPassThru_iterEnd_format obj tc st
  · rfl
  · rfl
  · rfl
  · rfl
  · rfl
  · rfl
  · rfl
  · rfl
  · rfl

theorem iterLoop_format (enc : Option PyObj → Encoder → JSONValue × Encoder)
    (hk : KeepsFormat enc) (named : Bool) (obj : PyObj) :
    ∀ (k : Nat) (tc : TypeContext) (st : Encoder),
    (st.outputFormat = PANDAS_FORMAT.SPLIT → st.originalOutputFormat = PANDAS_FORMAT.SPLIT) →
    formatOf (iterLoop enc named obj k tc st).2.2 = formatOf st ∧
      (iterLoop enc named obj k tc st).2.1.iterEnd = tc.iterEnd
  | 0, _, _, _ => ⟨rfl, rfl⟩
  | k + 1, tc, st, hok => by
    have hn := Object_iterNext_format obj tc st
    unfold iterLoop
    rcases hN : Object_iterNext obj tc st with ⟨b, T, S⟩
    rw [hN] at hn
    cases b
    · exact hn
    · simp only []
      have hS : S.outputFormat = PANDAS_FORMAT.SPLIT →
          S.originalOutputFormat = PANDAS_FORMAT.SPLIT := by
        rw [formatOf_fst _ _ hn.1, formatOf_snd _ _ hn.1]
        exact hok
      have hc := hk (Object_iterGetValue obj T) S hS
      have hC : (enc (Object_iterGetValue obj T) S).2.outputFormat = PANDAS_FORMAT.SPLIT →
          (enc (Object_iterGetValue obj T) S).2.originalOutputFormat = PANDAS_FORMAT.SPLIT := by
        rw [formatOf_fst _ _ hc, formatOf_snd _ _ hc]
        exact hS
      have hr := iterLoop_format enc hk named obj k T _ hC
      exact ⟨hr.1.trans (hc.trans hn.1), hr.2.trans hn.2⟩
theorem encodeLabels_loop_format (labels : PyArrayObject PyObj) (stride : Int) (n : Nat) :
    ∀ (dataptr : Int) (ret : List String) (st : Encoder),
      formatOf (NpyArr_encodeLabels_loop labels stride n dataptr ret st).2 = formatOf st := by
  induction n with
  | zero => intro dataptr ret st; rfl
  | succ n ih =>
    intro dataptr ret st
    simp only [NpyArr_encodeLabels_loop]
    cases hitem : labels.getitem dataptr with
    | none => rfl
    | some item =>
      simp only []
      cases hconv : NpyArr_encodeLabel st labels.type_num item with
      | failed => rfl
      | badUnit => rfl
      | label cLabel =>
        simp only []
        rcases hm : PyObject_Malloc st with ⟨ok, st1⟩
        have e1 := formatOf_malloc_eq st st1 ok hm
        cases ok with
        | false => exact e1
        | true =>
          simp only []
          split
          · exact e1
          · exact (ih _ _ _).trans e1

theorem encodeLabels_format (labels : Option (PyArrayObject PyObj)) (num : Int)
    (st : Encoder) : formatOf (NpyArr_encodeLabels labels num st).2 = formatOf st := by
  unfold NpyArr_encodeLabels
  cases labels with
  | none => rfl
  | some l =>
    simp only []
    split
    · rfl
    · rcases hm : PyObject_Malloc st with ⟨ok, st1⟩
      have e1 := formatOf_malloc_eq st st1 ok hm
      cases ok with
      | false => exact e1
      | true => exact (encodeLabels_loop_format l _ _ _ _ _).trans e1

theorem invokeDefaultHandler_format (enc : Option PyObj → Encoder → JSONValue × Encoder)
    (hk : KeepsFormat enc) (obj : Option PyObj) (st : Encoder)
    (hok : st.outputFormat = PANDAS_FORMAT.SPLIT →
      st.originalOutputFormat = PANDAS_FORMAT.SPLIT) :
    formatOf (Object_invokeDefaultHandler enc obj st).2 = formatOf st := by
  unfold Object_invokeDefaultHandler
  split
  · rfl
  · simp only []
    split
    · rfl
    · split <;> rfl
    · split
      · rfl
      · exact hk _ _ hok

theorem beginDataFrameOrient_format (obj : PyObj) (pc : TypeContext) (st : Encoder) :
    formatOf (beginDataFrameOrient obj pc st).2 = formatOf st ∧
      ∀ pc1, (beginDataFrameOrient obj pc st).1.prv = some pc1 →
        pc1.iterBegin = pc.iterBegin ∧ pc1.iterEnd = pc.iterEnd := by
  unfold beginDataFrameOrient
  have hE := fun l n S => encodeLabels_format l n S
  split
  · exact ⟨rfl, fun pc1 h => by cases h; exact ⟨rfl, rfl⟩⟩
  · split
    · exact ⟨rfl, fun pc1 h => by cases h⟩
    · split
      · exact ⟨rfl, fun pc1 h => by cases h⟩
      · simp only []
        split
        · rename_i S hS
          exact ⟨(congrArg (fun r => formatOf r.2) hS).symm.trans (hE _ _ _),
            fun pc1 h => by cases h⟩
        · rename_i lb S hS
          exact ⟨(congrArg (fun r => formatOf r.2) hS).symm.trans (hE _ _ _),
            fun pc1 h => by cases h; exact ⟨rfl, rfl⟩⟩
  · exact ⟨rfl, fun pc1 h => by cases h⟩
  · split
    · exact ⟨rfl, fun pc1 h => by cases h⟩
    · split
      · exact ⟨rfl, fun pc1 h => by cases h⟩
      · simp only []
        split
        · exact ⟨hE _ _ _, fun pc1 h => by cases h⟩
        · split
          · exact ⟨hE _ _ _, fun pc1 h => by cases h⟩
          · split
            · rename_i S hS
              exact ⟨((congrArg (fun r => formatOf r.2) hS).symm.trans (hE _ _ _)).trans
                (hE _ _ _), fun pc1 h => by cases h⟩
            · rename_i lb S hS
              refine ⟨((congrArg (fun r => formatOf r.2) hS).symm.trans (hE _ _ _)).trans
                (hE _ _ _), fun pc1 h => ?_⟩
              cases h
              split <;> exact ⟨rfl, rfl⟩
theorem beginIterable_format (enc : Option PyObj → Encoder → JSONValue × Encoder)
    (hk : KeepsFormat enc) (obj : PyObj) (pc : TypeContext) (st : Encoder)
    (hok : st.outputFormat = PANDAS_FORMAT.SPLIT →
      st.originalOutputFormat = PANDAS_FORMAT.SPLIT) :
    formatOf (beginIterable enc obj pc st).2.2 = formatOf st ∧
      PairedIterators (beginIterable enc obj pc st).1 (beginIterable enc obj pc st).2.2 := by
  have hE := fun l n S => encodeLabels_format l n S
  unfold beginIterable
  split
  · -- index
    split
    · rename_i hs
      exact ⟨rfl, fun _ => ⟨rfl, fun h => by cases h⟩⟩
    · split
      · exact ⟨rfl, fun _ => ⟨rfl, fun h => by cases h⟩⟩
      · exact ⟨rfl, trivial⟩
  · -- series
    split
    · rename_i hs
      exact ⟨rfl, fun _ => ⟨rfl, fun _ => hs⟩⟩
    · split
      · exact ⟨rfl, trivial⟩
      · simp only []
        split
        · split
          · exact ⟨rfl, trivial⟩
          · split
            · exact ⟨rfl, trivial⟩
            · split
              · rename_i S hS
                exact ⟨(congrArg (fun r => formatOf r.2) hS).symm.trans (hE _ _ _), trivial⟩
              · rename_i lb S hS
                exact ⟨(congrArg (fun r => formatOf r.2) hS).symm.trans (hE _ _ _),
                  fun _ => ⟨rfl, fun h => by cases h⟩⟩
        · exact ⟨rfl, fun _ => ⟨rfl, fun h => by cases h⟩⟩
  · -- ndarray
    split
    · exact ⟨rfl, fun _ => ⟨rfl, fun h => by cases h⟩⟩
    · exact ⟨rfl, fun _ => ⟨rfl, fun h => by cases h⟩⟩
  · -- dataframe
    split
    · exact ⟨rfl, fun _ => ⟨rfl, fun h => by cases h⟩⟩
    · split
      · rename_i hs
        exact ⟨rfl, fun _ => ⟨rfl, fun _ => hs⟩⟩
      · split
        · simp only []
          split
          · exact ⟨rfl, trivial⟩
          · simp only []
            refine ⟨(beginDataFrameOrient_format _ _ _).1, ?_⟩
            have h2 := fun o p s => (beginDataFrameOrient_format o p s).2
            unfold PairedIterators
            split
            · trivial
            · rename_i pc1 hp
              intro _
              rw [(h2 _ _ _ pc1 hp).1, (h2 _ _ _ pc1 hp).2]
              exact ⟨rfl, fun h => by cases h⟩
        · simp only []
          refine ⟨(beginDataFrameOrient_format _ _ _).1, ?_⟩
          have h2 := fun o p s => (beginDataFrameOrient_format o p s).2
          unfold PairedIterators
          split
          · trivial
          · rename_i pc1 hp
            intro _
            rw [(h2 _ _ _ pc1 hp).1, (h2 _ _ _ pc1 hp).2]
            exact ⟨rfl, fun h => by cases h⟩
  · exact ⟨rfl, fun _ => ⟨rfl, fun h => by cases h⟩⟩
  · exact ⟨rfl, fun _ => ⟨rfl, fun h => by cases h⟩⟩
  · exact ⟨rfl, fun _ => ⟨rfl, fun h => by cases h⟩⟩
  · exact ⟨rfl, fun _ => ⟨rfl, fun h => by cases h⟩⟩
  · -- other objects
    simp only []
    split
    · exact ⟨rfl, fun h => by rcases h with h | h <;> cases h⟩
    · split
      · exact ⟨rfl, fun _ => ⟨rfl, fun h => by cases h⟩⟩
      · exact ⟨rfl, fun h => by rcases h with h | h <;> cases h⟩
    · split
      · exact ⟨invokeDefaultHandler_format enc hk _ _ hok, trivial⟩
      · exact ⟨rfl, fun _ => ⟨rfl, fun h => by cases h⟩⟩
theorem DateTimeStructToJSON_format (info : PyDateTimeInfo) (outLong : Bool)
    (tc : TypeContext) (st : Encoder) :
    formatOf (PandasDateTimeStructToJSON info outLong tc st).2.2 = formatOf st := by
  unfold PandasDateTimeStructToJSON
  split
  · rcases hm : PyObject_Malloc st with ⟨ok, st1⟩
    have e1 := formatOf_malloc_eq st st1 ok hm
    cases ok with
    | false => exact e1
    | true =>
      simp only []
      split
      · exact e1
      · exact e1
  · split <;> rfl

theorem PyDateTimeToJSON_format (info : PyDateTimeInfo) (outLong : Bool)
    (tc : TypeContext) (st : Encoder) :
    formatOf (PyDateTimeToJSON info outLong tc st).2.2 = formatOf st := by
  unfold PyDateTimeToJSON
  split
  · exact DateTimeStructToJSON_format info outLong tc st
  · simp only []
    split <;> rfl

theorem getStringValue_format (obj : Option PyObj) (tc : TypeContext) (st : Encoder) :
    formatOf (Object_getStringValue obj tc st).2.2 = formatOf st := by
  unfold Object_getStringValue
  split
  · rfl
  · rfl
  · exact DateTimeStructToJSON_format _ _ _ _
  · exact PyDateTimeToJSON_format _ _ _ _
  · exact DateTimeStructToJSON_format _ _ _ _
  · split
    · rfl
    · simp only []
      split <;> rfl
  · rfl

theorem PyLong_AsLongLong_format (v : Int) (st : Encoder) :
    formatOf (PyLong_AsLongLong v st).2 = formatOf st := by
  unfold PyLong_AsLongLong
  split <;> rfl

theorem beginLeaf_format (obj : PyObj) (pc : TypeContext) (st : Encoder)
    (r : JSONTypeContext × Encoder) (h : beginLeaf obj pc st = some r) :
    formatOf r.2 = formatOf st ∧ r.1.type ≠ JSTYPES.JT_ARRAY ∧ r.1.type ≠ JSTYPES.JT_OBJECT := by
  unfold beginLeaf at h
  have hL := PyLong_AsLongLong_format
  split at h
  · simp only [] at h
    split at h <;> cases h
    · exact ⟨hL _ _, (fun h => by cases h), (fun h => by cases h)⟩
    · exact ⟨hL _ _, (fun h => by cases h), (fun h => by cases h)⟩
  · split at h <;> cases h
    · exact ⟨rfl, (fun h => by cases h), (fun h => by cases h)⟩
    · exact ⟨rfl, (fun h => by cases h), (fun h => by cases h)⟩
  · cases h; exact ⟨rfl, (fun h => by cases h), (fun h => by cases h)⟩
  · cases h; exact ⟨rfl, (fun h => by cases h), (fun h => by cases h)⟩
  · cases h; exact ⟨rfl, (fun h => by cases h), (fun h => by cases h)⟩
  · cases h; exact ⟨rfl, (fun h => by cases h), (fun h => by cases h)⟩
  · split at h <;> cases h
    · exact ⟨rfl, (fun h => by cases h), (fun h => by cases h)⟩
    · exact ⟨PyDateTimeToJSON_format _ _ _ _, (fun h => by cases h), (fun h => by cases h)⟩
  · cases h; exact ⟨rfl, (fun h => by cases h), (fun h => by cases h)⟩
  · split at h <;> cases h
    · exact ⟨rfl, (fun h => by cases h), (fun h => by cases h)⟩
    · refine ⟨rfl, ?_, ?_⟩ <;> (simp only [typed]; split <;> decide)
  · simp only [] at h
    have e : ∀ (a : Option Int) (t : Int),
        formatOf (match a with
          | some v => PyLong_AsLongLong v st
          | Option.none => (t, st)).2 = formatOf st := by
      intro a t
      cases a with
      | none => rfl
      | some v => exact hL v st
    split at h
    · cases h; exact ⟨e _ _, (fun h => by cases h), (fun h => by cases h)⟩
    · split at h <;> cases h
      · exact ⟨e _ _, (fun h => by cases h), (fun h => by cases h)⟩
      · exact ⟨e _ _, (fun h => by cases h), (fun h => by cases h)⟩
  · simp only [] at h
    split at h <;> cases h
    · exact ⟨rfl, (fun h => by cases h), (fun h => by cases h)⟩
    · exact ⟨rfl, (fun h => by cases h), (fun h => by cases h)⟩
  · cases h
    refine ⟨rfl, ?_, ?_⟩ <;> (simp only [typed]; split <;> decide)
  · cases h; exact ⟨rfl, (fun h => by cases h), (fun h => by cases h)⟩
  · split at h <;> cases h
    exact ⟨rfl, (fun h => by cases h), (fun h => by cases h)⟩
  · cases h
theorem NpyTypeToJSONType_leaf (tc : TypeContext) (npyType value : Int) (st : Encoder) :
    (NpyTypeToJSONType tc npyType value st).1 ≠ JSTYPES.JT_ARRAY ∧
      (NpyTypeToJSONType tc npyType value st).1 ≠ JSTYPES.JT_OBJECT := by
  unfold NpyTypeToJSONType
  simp only []
  split_ifs <;> exact ⟨(fun h => by cases h), (fun h => by cases h)⟩

theorem createTypeContext_format (st : Encoder) :
    formatOf (createTypeContext st).2 = formatOf st := by
  unfold createTypeContext
  rcases hm : PyObject_Malloc st with ⟨ok, st1⟩
  have e1 := formatOf_malloc_eq st st1 ok hm
  cases ok with
  | false => exact e1
  | true => exact e1

theorem beginTypeContext_format (enc : Option PyObj → Encoder → JSONValue × Encoder)
    (hk : KeepsFormat enc) (obj : Option PyObj) (st : Encoder)
    (hok : st.outputFormat = PANDAS_FORMAT.SPLIT →
      st.originalOutputFormat = PANDAS_FORMAT.SPLIT) :
    formatOf (Object_beginTypeContext enc obj st).2.2 = formatOf st ∧
      PairedIterators (Object_beginTypeContext enc obj st).1
        (Object_beginTypeContext enc obj st).2.2 := by
  unfold Object_beginTypeContext
  split
  · exact ⟨rfl, trivial⟩
  · rename_i o
    split
    · simp only []
      have hleaf := NpyTypeToJSONType_leaf basicTypeContext st.npyType st.npyValue st
      have hp : ∀ S : Encoder, PairedIterators
          { type := (NpyTypeToJSONType basicTypeContext st.npyType st.npyValue st).1,
            prv := some (NpyTypeToJSONType basicTypeContext st.npyType st.npyValue st).2,
            isBasic := true } S :=
        fun S h => by
          rcases h with h | h
          · exact absurd h hleaf.1
          · exact absurd h hleaf.2
      split
      · split
        · exact ⟨invokeDefaultHandler_format enc hk _ { st with npyType := -1 } hok, hp _⟩
        · exact ⟨rfl, hp _⟩
      · exact ⟨rfl, hp _⟩
    · split
      · exact ⟨rfl, trivial⟩
      · split
        · exact ⟨rfl, trivial⟩
        · have hc := createTypeContext_format st
          split
          · rename_i S hS
            exact ⟨(congrArg (fun r => formatOf r.2) hS).symm.trans hc, trivial⟩
          · rename_i pc S hS
            have hS1 : formatOf S = formatOf st :=
              (congrArg (fun r => formatOf r.2) hS).symm.trans hc
            have hokS : S.outputFormat = PANDAS_FORMAT.SPLIT →
                S.originalOutputFormat = PANDAS_FORMAT.SPLIT := by
              rw [formatOf_fst _ _ hS1, formatOf_snd _ _ hS1]
              exact hok
            have hI := beginIterable_format enc hk o pc S hokS
            split
            · exact ⟨hI.1.trans hS1, hI.2⟩
            · split
              · rename_i r hr
                have hl := beginLeaf_format o pc S r hr
                refine ⟨hl.1.trans hS1, ?_⟩
                unfold PairedIterators
                split
                · trivial
                · intro h
                  rcases h with h | h
                  · exact absurd h hl.2.1
                  · exact absurd h hl.2.2
              · exact ⟨hI.1.trans hS1, hI.2⟩

theorem container_format (enc : Option PyObj → Encoder → JSONValue × Encoder)
    (hk : KeepsFormat enc) (named : Bool) (o : PyObj) (pc : TypeContext) (S1 S : Encoder)
    (lf : Nat) (hS1 : formatOf S1 = formatOf S)
    (hok : S.outputFormat = PANDAS_FORMAT.SPLIT → S.originalOutputFormat = PANDAS_FORMAT.SPLIT)
    (hp : splitFieldsBegin pc.iterBegin = splitFieldsEnd pc.iterEnd ∧
      (splitFieldsEnd pc.iterEnd = true → S1.outputFormat = PANDAS_FORMAT.SPLIT)) :
    formatOf (Object_iterEnd o
      (iterLoop enc named o lf (Object_iterBegin o pc S1).1 (Object_iterBegin o pc S1).2).2.1
      (iterLoop enc named o lf (Object_iterBegin o pc S1).1
        (Object_iterBegin o pc S1).2).2.2).2 = formatOf S := by
  have hb := Object_iterBegin_format o pc S1
  generalize Object_iterBegin o pc S1 = B at hb ⊢
  have e1 := formatOf_fst _ _ hS1
  have e2 := formatOf_snd _ _ hS1
  have hb1 := congrArg Prod.fst hb.1
  have hb2 := congrArg Prod.snd hb.1
  simp only [formatOf] at hb1 hb2
  have hokB : B.2.outputFormat = PANDAS_FORMAT.SPLIT →
      B.2.originalOutputFormat = PANDAS_FORMAT.SPLIT := by
    rw [hb1, hb2, e2]
    cases hsb : splitFieldsBegin pc.iterBegin
    · simp only [Bool.false_eq_true, if_false]
      rw [e1]
      exact hok
    · simp only [if_true]
      intro h
      cases h
  have hl := iterLoop_format enc hk named o lf B.1 B.2 hokB
  generalize iterLoop enc named o lf B.1 B.2 = R at hl ⊢
  have he := Object_iterEnd_format o R.2.1 R.2.2
  rw [he, hl.2, hb.2, formatOf_fst _ _ hl.1, formatOf_snd _ _ hl.1, hb1, hb2, e2, hp.1]
  cases hse : splitFieldsEnd pc.iterEnd
  · simp only [Bool.false_eq_true, if_false]
    rw [e1]
    rfl
  · simp only [if_true]
    have h3 := hp.2 hse
    rw [e1] at h3
    show (S.originalOutputFormat, S.originalOutputFormat) =
      (S.outputFormat, S.originalOutputFormat)
    rw [h3, hok h3]

theorem encode_format (lf : Nat) : ∀ d : Nat, KeepsFormat (encode lf d)
  | 0 => fun _ _ _ => rfl
  | d + 1 => fun o S hok => by
    have ih := encode_format lf d
    have hb := beginTypeContext_format (encode lf d) ih o S hok
    rw [encode]
    rcases hB : Object_beginTypeContext (encode lf d) o S with ⟨tc, em, S1⟩
    rw [hB] at hb
    simp only []
    have hcont : ∀ (named : Bool) (pc : TypeContext) (o1 : PyObj),
        (tc.type = JSTYPES.JT_ARRAY ∨ tc.type = JSTYPES.JT_OBJECT) → tc.prv = some pc →
        formatOf (Object_iterEnd o1
          (iterLoop (encode lf d) named o1 lf (Object_iterBegin o1 pc S1).1
            (Object_iterBegin o1 pc S1).2).2.1
          (iterLoop (encode lf d) named o1 lf (Object_iterBegin o1 pc S1).1
            (Object_iterBegin o1 pc S1).2).2.2).2 = formatOf S := by
      intro named pc o1 ht hpc
      have h2 := hb.2
      unfold PairedIterators at h2
      simp only [hpc] at h2
      exact container_format (encode lf d) ih named o1 pc S1 S lf hb.1 hok (h2 ht)
    split
    · exact hb.1
    · rename_i pc o1 ht hpc
      exact hcont false pc o1 (Or.inl ht) hpc
    · rename_i pc o1 ht hpc
      exact hcont true pc o1 (Or.inr ht) hpc
    · exact hb.1
    · exact hb.1
    · exact hb.1
    · exact (getStringValue_format _ _ _).trans hb.1
    · exact hb.1
    · exact hb.1
    · exact hb.1
    · exact hb.1
/-- C37: orientation state invariant.  The begin operation of the split-mode
fields iterator of a series, and that of a table, sets the current output format
to VALUES; after any number of rounds of the driver's loop over the fields (each
round being one next operation and the encoding of one child) the current format
is still VALUES; the end operation then leaves the current format equal to the
format originally requested, which no step has changed.  Encoding any node, and
running any number of rounds of any container's loop, from a state in which the
current format is SPLIT only if the requested one is (in particular from a state
in which the two are equal) leaves both fields as they were, so every sibling
encoded afterwards, such as the second of two tables inside one mapping, sees the
originally requested format. -/
theorem C37_orientation_state_restored (lf d k : Nat) (named : Bool) (obj : PyObj)
    (tc : TypeContext) (st : Encoder) :
    ((Series_iterBegin obj tc st).2.outputFormat = PANDAS_FORMAT.VALUES ∧
      (iterLoop (encode lf d) named obj k (Series_iterBegin obj tc st).1
        (Series_iterBegin obj tc st).2).2.2.outputFormat = PANDAS_FORMAT.VALUES ∧
      (Series_iterEnd obj
        (iterLoop (encode lf d) named obj k (Series_iterBegin obj tc st).1
          (Series_iterBegin obj tc st).2).2.1
        (iterLoop (encode lf d) named obj k (Series_iterBegin obj tc st).1
          (Series_iterBegin obj tc st).2).2.2).2.outputFormat = st.originalOutputFormat ∧
      (Series_iterEnd obj
        (iterLoop (encode lf d) named obj k (Series_iterBegin obj tc st).1
          (Series_iterBegin obj tc st).2).2.1
        (iterLoop (encode lf d) named obj k (Series_iterBegin obj tc st).1
          (Series_iterBegin obj tc st).2).2.2).2.originalOutputFormat =
        st.originalOutputFormat) ∧
    ((DataFrame_iterBegin obj tc st).2.outputFormat = PANDAS_FORMAT.VALUES ∧
      (iterLoop (encode lf d) named obj k (DataFrame_iterBegin obj tc st).1
        (DataFrame_iterBegin obj tc st).2).2.2.outputFormat = PANDAS_FORMAT.VALUES ∧
      (DataFrame_iterEnd obj
        (iterLoop (encode lf d) named obj k (DataFrame_iterBegin obj tc st).1
          (DataFrame_iterBegin obj tc st).2).2.1
        (iterLoop (encode lf d) named obj k (DataFrame_iterBegin obj tc st).1
          (DataFrame_iterBegin obj tc st).2).2.2).2.outputFormat = st.originalOutputFormat ∧
      (DataFrame_iterEnd obj
        (iterLoop (encode lf d) named obj k (DataFrame_iterBegin obj tc st).1
          (DataFrame_iterBegin obj tc st).2).2.1
        (iterLoop (encode lf d) named obj k (DataFrame_iterBegin obj tc st).1
          (DataFrame_iterBegin obj tc st).2).2.2).2.originalOutputFormat =
        st.originalOutputFormat) ∧
    (∀ o : Option PyObj,
      (st.outputFormat = PANDAS_FORMAT.SPLIT →
        st.originalOutputFormat = PANDAS_FORMAT.SPLIT) →
      (encode lf d o st).2.outputFormat = st.outputFormat ∧
        (encode lf d o st).2.originalOutputFormat = st.originalOutputFormat) ∧
    ((st.outputFormat = PANDAS_FORMAT.SPLIT →
        st.originalOutputFormat = PANDAS_FORMAT.SPLIT) →
      (iterLoop (encode lf d) named obj k tc st).2.2.outputFormat = st.outputFormat ∧
        (iterLoop (encode lf d) named obj k tc st).2.2.originalOutputFormat =
          st.originalOutputFormat) := by
  have hk := encode_format lf d
  have hloop : ∀ (T : TypeContext) (S : Encoder),
      S.outputFormat = PANDAS_FORMAT.VALUES →
      formatOf (iterLoop (encode lf d) named obj k T S).2.2 = formatOf S := fun T S hS =>
    (iterLoop_format (encode lf d) hk named obj k T S
      (fun h => by rw [hS] at h; cases h)).1
  refine ⟨?_, ?_, ?_, ?_⟩
  · have hb := (Series_iterBegin_format obj tc st).1
    have hb1 : (Series_iterBegin obj tc st).2.outputFormat = PANDAS_FORMAT.VALUES :=
      congrArg Prod.fst hb
    have hb2 : (Series_iterBegin obj tc st).2.originalOutputFormat =
        st.originalOutputFormat := congrArg Prod.snd hb
    have hl := hloop (Series_iterBegin obj tc st).1 (Series_iterBegin obj tc st).2 hb1
    have hl2 := (formatOf_snd _ _ hl).trans hb2
    exact ⟨hb1, (formatOf_fst _ _ hl).trans hb1, hl2, hl2⟩
  · have hb := (DataFrame_iterBegin_format obj tc st).1
    have hb1 : (DataFrame_iterBegin obj tc st).2.outputFormat = PANDAS_FORMAT.VALUES :=
      congrArg Prod.fst hb
    have hb2 : (DataFrame_iterBegin obj tc st).2.originalOutputFormat =
        st.originalOutputFormat := congrArg Prod.snd hb
    have hl := hloop (DataFrame_iterBegin obj tc st).1 (DataFrame_iterBegin obj tc st).2 hb1
    have hl2 := (formatOf_snd _ _ hl).trans hb2
    exact ⟨hb1, (formatOf_fst _ _ hl).trans hb1, hl2, hl2⟩
  · intro o hok
    exact ⟨formatOf_fst _ _ (hk o st hok), formatOf_snd _ _ (hk o st hok)⟩
  · intro hok
    have hl := (iterLoop_format (encode lf d) hk named obj k tc st hok).1
    exact ⟨formatOf_fst _ _ hl, formatOf_snd _ _ hl⟩

theorem C37_orientation_state_restored_witness :
    (splitProcess.outputFormat = PANDAS_FORMAT.SPLIT →
      splitProcess.originalOutputFormat = PANDAS_FORMAT.SPLIT) ∧
    ((encode 8 8 (some twoTables) splitProcess).2.outputFormat = splitProcess.outputFormat ∧
      (encode 8 8 (some twoTables) splitProcess).2.originalOutputFormat =
        splitProcess.originalOutputFormat) ∧
    (encode 8 8 (some twoTables) splitProcess).1 =
      JSONValue.object [(some "a", splitExample), (some "b", splitExample)] :=
  ⟨fun _ => rfl,
    (C37_orientation_state_restored 8 8 0 true twoTables basicTypeContext splitProcess).2.2.1
      (some twoTables) (fun _ => rfl),
    rfl⟩

end ObjToJSON
